import Mathlib

/-!
# CompressibleFlowSystem

A shallow embedding of
`solvers/CompressibleFlowSolver/EquationSystems/CompressibleFlowSystem.cpp`.

* `NekDouble` is an exact ordered field `K` (instantiated at `ℚ` to evaluate,
  at `ℝ` where a square root is needed); rounding is not modelled.
* `Array<OneD, NekDouble>` is a total map `Nat → K`; where the source asks an
  array for `num_elements()` the count is passed next to it.
* A `Vmath` call writes `n` entries of its output array starting at an offset
  and leaves every other entry as it was; a pointer `&a[off]` used as an
  input is the view `ptr a off`.
* Stateful member functions take the storage they mutate and return it.
-/

namespace Nektar

/-! ## Control flow -/

/-- Counted loop `for (i = lo; i < lo + cnt; ++i) body`:
the body runs for `i = lo, lo+1, …, lo+cnt-1`, in this order. -/
def forLoop {σ : Type} (lo : Nat) : Nat → (Nat → σ → σ) → σ → σ
  | 0, _, s => s
  | n + 1, body, s => body (lo + n) (forLoop lo n body s)

/-- The pointer `&a[off]` read as an array: entry `i` is `a[off + i]`. -/
def ptr {K : Type} (a : Nat → K) (off : Nat) : Nat → K :=
  fun i => a (off + i)

/-- Assignment `a[i][j] = row` in an array of arrays of arrays. -/
def set2 {α : Type} (a : Nat → Nat → α) (i j : Nat) (row : α) : Nat → Nat → α :=
  fun i2 j2 => if i2 = i ∧ j2 = j then row else a i2 j2

/-- Assignment `a[i][j][k] = val` of one entry in an array of arrays of
arrays. -/
def set3 {α : Type} (a : Nat → Nat → Nat → α) (i j k : Nat) (val : α) :
    Nat → Nat → Nat → α :=
  fun i2 j2 k2 => if i2 = i ∧ j2 = j ∧ k2 = k then val else a i2 j2 k2

/-! ## Vmath primitives -/

namespace Vmath

/-- Modelled from the spec: the Vmath library is not part of this source
file. Every Vmath routine used here is element-wise over `n` entries with unit stride; `store`
is the shared write: entries `zo … zo+n-1` of the output `z` receive
`f 0 … f (n-1)`, all other entries of `z` are untouched. -/
def store {K : Type} (n : Nat) (f : Nat → K) (z : Nat → K) (zo : Nat) : Nat → K :=
  fun k => if zo ≤ k ∧ k < zo + n then f (k - zo) else z k

variable {K : Type} [LinearOrderedField K]

/-- Modelled from the spec: `Vmath::Vmul(n, x, 1, y, 1, z, 1)`, `z = x * y`. -/
def Vmul (n : Nat) (x y z : Nat → K) (zo : Nat) : Nat → K :=
  store n (fun i => x i * y i) z zo

/-- Modelled from the spec: `Vmath::Vdiv(n, x, 1, y, 1, z, 1)`, `z = x / y`. -/
def Vdiv (n : Nat) (x y z : Nat → K) (zo : Nat) : Nat → K :=
  store n (fun i => x i / y i) z zo

/-- Modelled from the spec: `Vmath::Vadd(n, x, 1, y, 1, z, 1)`, `z = x + y`. -/
def Vadd (n : Nat) (x y z : Nat → K) (zo : Nat) : Nat → K :=
  store n (fun i => x i + y i) z zo

/-- Modelled from the spec: `Vmath::Vvtvp(n, w, 1, x, 1, y, 1, z, 1)`,
`z = w * x + y` (vector times vector plus vector). -/
def Vvtvp (n : Nat) (w x y z : Nat → K) (zo : Nat) : Nat → K :=
  store n (fun i => w i * x i + y i) z zo

/-- Modelled from the spec: `Vmath::Svtvp(n, alpha, x, 1, y, 1, z, 1)`,
`z = alpha * x + y` (scalar times vector plus vector). -/
def Svtvp (n : Nat) (alpha : K) (x y z : Nat → K) (zo : Nat) : Nat → K :=
  store n (fun i => alpha * x i + y i) z zo

/-- Modelled from the spec: `Vmath::Smul(n, alpha, x, 1, y, 1)`,
`y = alpha * x`. -/
def Smul (n : Nat) (alpha : K) (x y : Nat → K) (yo : Nat) : Nat → K :=
  store n (fun i => alpha * x i) y yo

/-- Modelled from the spec: `Vmath::Vcopy(n, x, 1, y, 1)`, `y = x`. -/
def Vcopy (n : Nat) (x y : Nat → K) (yo : Nat) : Nat → K :=
  store n (fun i => x i) y yo

/-- Modelled from the spec: `Vmath::Neg(n, x, 1)`, `x = -x` in place. -/
def Neg (n : Nat) (x : Nat → K) (xo : Nat) : Nat → K :=
  store n (fun i => - ptr x xo i) x xo

/-- Modelled from the spec: `Vmath::Vsqrt(n, x, 1, y, 1)`, `y = sqrt(x)`;
the square root itself is the C library's and is a parameter. -/
def Vsqrt (sqrt : K → K) (n : Nat) (x y : Nat → K) (yo : Nat) : Nat → K :=
  store n (fun i => sqrt (x i)) y yo

/-- Modelled from the spec: `Vmath::Fill(n, alpha, x, 1)`, `x = alpha`. -/
def Fill (n : Nat) (alpha : K) (x : Nat → K) (xo : Nat) : Nat → K :=
  store n (fun _ => alpha) x xo

/-- Modelled from the spec: `Vmath::Zero(n, x, 1)`, `x = 0`. -/
def Zero (n : Nat) (x : Nat → K) (xo : Nat) : Nat → K :=
  store n (fun _ => 0) x xo

/-- Modelled from the spec: `Vmath::Vabs(n, x, 1, y, 1)`, `y = |x|`. -/
def Vabs (n : Nat) (x y : Nat → K) (yo : Nat) : Nat → K :=
  store n (fun i => |x i|) y yo

end Vmath

/-! ## The solver object -/

/-- The members of `CompressibleFlowSystem` (and of the field and trace
objects it holds) that the functions below read. -/
structure CompressibleFlowSystem (K : Type) where
  /-- Spatial dimension `m_spacedim`. -/
  m_spacedim : Nat
  /-- Ratio of specific heats `m_gamma`. -/
  m_gamma : K
  /-- Freestream pressure `m_pInf`. -/
  m_pInf : K
  /-- Freestream density `m_rhoInf`. -/
  m_rhoInf : K
  /-- Freestream velocity component `m_uInf`. -/
  m_uInf : K
  /-- Freestream velocity component `m_vInf`. -/
  m_vInf : K
  /-- Freestream velocity component `m_wInf`. -/
  m_wInf : K
  /-- Gas constant `m_gasConstant`. -/
  m_gasConstant : K
  /-- Reference viscosity `m_mu`. -/
  m_mu : K
  /-- Thermal conductivity `m_thermalConductivity`. -/
  m_thermalConductivity : K
  /-- Number of quadrature points `m_fields[0]->GetTotPoints()`. -/
  GetTotPoints : Nat
  /-- Number of trace points `GetTraceTotPoints()`. -/
  GetTraceTotPoints : Nat
  /-- Trace normals `m_traceNormals[i][p]`. -/
  m_traceNormals : Nat → Nat → K
  /-- The map `m_fields[0]->GetTraceBndMap()`. -/
  traceBndMap : Nat → Nat
  /-- Offsets `m_fields[0]->GetTrace()->GetPhys_Offset(t)` of trace element `t`. -/
  traceGetPhys_Offset : Nat → Nat
  /-- The call `m_fields[i]->ExtractTracePhys(phys, Fwd)`: the trace of
  variable `i` computed from its field values. -/
  ExtractTracePhys : Nat → (Nat → K) → Nat → K
  /-- Size `GetBndCondExpansions()[r]->GetExpSize()` of boundary region `r`. -/
  bndGetExpSize : Nat → Nat
  /-- Point count `GetBndCondExpansions()[r]->GetExp(e)->GetTotPoints()`. -/
  bndGetTotPoints : Nat → Nat → Nat
  /-- Point count `GetBndCondExpansions()[r]->GetExp(e)->GetNumPoints(0)`. -/
  bndGetNumPoints0 : Nat → Nat → Nat
  /-- Offset `GetBndCondExpansions()[r]->GetPhys_Offset(e)`. -/
  bndGetPhys_Offset : Nat → Nat → Nat
  /-- Viscosity model selector `m_ViscosityType`. -/
  m_ViscosityType : String
  /-- Number of fields `m_fields.num_elements()`. -/
  m_fields_num_elements : Nat

section Closure

variable {K : Type} [LinearOrderedField K]

/-! ## Thermodynamic closure -/

/-- The function `CompressibleFlowSystem::GetVelocityVector`;
`nBCEdgePts` is `physfield[0].num_elements()`. -/
def GetVelocityVector (S : CompressibleFlowSystem K) (nBCEdgePts : Nat)
    (physfield velocity : Nat → Nat → K) : Nat → Nat → K :=
  forLoop 0 S.m_spacedim
    (fun i vel => Function.update vel i
      (Vmath.Vdiv nBCEdgePts (physfield (1 + i)) (physfield 0) (vel i) 0))
    velocity

/-- The function `CompressibleFlowSystem::GetPressure(physfield, pressure)`;
`nBCEdgePts` is `physfield[0].num_elements()`. -/
def GetPressure (S : CompressibleFlowSystem K) (nBCEdgePts : Nat)
    (physfield : Nat → Nat → K) (pressure : Nat → K) : Nat → K :=
  let alpha : K := -0.5
  -- Calculate ||rho v||^2
  let p1 := Vmath.Vmul nBCEdgePts (physfield 1) (physfield 1) pressure 0
  let p2 := forLoop 1 (S.m_spacedim - 1)
    (fun i p => Vmath.Vvtvp nBCEdgePts (physfield (1 + i)) (physfield (1 + i)) p p 0) p1
  -- Divide by rho to get rho*||v||^2
  let p3 := Vmath.Vdiv nBCEdgePts p2 (physfield 0) p2 0
  -- pressure <- E - 0.5*pressure
  let p4 := Vmath.Svtvp nBCEdgePts alpha p3 (physfield (S.m_spacedim + 1)) p3 0
  -- Multiply by (gamma-1)
  Vmath.Smul nBCEdgePts (S.m_gamma - 1) p4 p4 0

/-- The function
`CompressibleFlowSystem::GetPressure(physfield, velocity, pressure)`;
`nBCEdgePts` is `physfield[0].num_elements()`. -/
def GetPressureVel (S : CompressibleFlowSystem K) (nBCEdgePts : Nat)
    (physfield velocity : Nat → Nat → K) (pressure : Nat → K) : Nat → K :=
  let alpha : K := -0.5
  -- Calculate ||\rho v||^2.
  let p1 := Vmath.Vmul nBCEdgePts (velocity 0) (physfield 1) pressure 0
  let p2 := forLoop 1 (S.m_spacedim - 1)
    (fun i p => Vmath.Vvtvp nBCEdgePts (velocity i) (physfield (1 + i)) p p 0) p1
  -- pressure <- E - 0.5*pressure
  let p3 := Vmath.Svtvp nBCEdgePts alpha p2 (physfield (S.m_spacedim + 1)) p2 0
  -- Multiply by (gamma-1).
  Vmath.Smul nBCEdgePts (S.m_gamma - 1) p3 p3 0

/-- The function `CompressibleFlowSystem::GetSoundSpeed`. -/
def GetSoundSpeed (sqrt : K → K) (S : CompressibleFlowSystem K)
    (physfield : Nat → Nat → K) (pressure soundspeed : Nat → K) : Nat → K :=
  let nq := S.GetTotPoints
  let s1 := Vmath.Vdiv nq pressure (physfield 0) soundspeed 0
  let s2 := Vmath.Smul nq S.m_gamma s1 s1 0
  Vmath.Vsqrt sqrt nq s2 s2 0

/-- The function `CompressibleFlowSystem::GetMach`. -/
def GetMach (S : CompressibleFlowSystem K)
    (physfield : Nat → Nat → K) (soundspeed mach : Nat → K) : Nat → K :=
  let nBCEdgePts := S.GetTotPoints
  let m1 := Vmath.Vmul nBCEdgePts (physfield 1) (physfield 1) mach 0
  let m2 := forLoop 1 (S.m_spacedim - 1)
    (fun i m => Vmath.Vvtvp nBCEdgePts (physfield (1 + i)) (physfield (1 + i)) m m 0) m1
  let m3 := Vmath.Vdiv nBCEdgePts m2 (physfield 0) m2 0
  let m4 := Vmath.Vdiv nBCEdgePts m3 (physfield 0) m3 0
  Vmath.Vdiv nBCEdgePts m4 soundspeed m4 0

/-- The function `CompressibleFlowSystem::GetTemperature`; `nq` is
`physfield[0].num_elements()`. -/
def GetTemperature (S : CompressibleFlowSystem K) (nq : Nat)
    (physfield : Nat → Nat → K) (pressure temperature : Nat → K) : Nat → K :=
  let t1 := Vmath.Vdiv nq pressure (physfield 0) temperature 0
  Vmath.Smul nq (1.0 / S.m_gasConstant) t1 t1 0

/-! ## Inviscid flux -/

/-- The function `CompressibleFlowSystem::GetFluxVector`; `nq` is
`physfield[0].num_elements()`. The container is indexed as in the source,
`flux[variable][direction][point]`. The work arrays `pressure` and `velocity`
are allocated without initial values in the source and are fully written
before they are read; they start at zero here. -/
def GetFluxVector (S : CompressibleFlowSystem K) (nq : Nat)
    (physfield : Nat → Nat → K) (flux : Nat → Nat → Nat → K) : Nat → Nat → Nat → K :=
  let pressure0 : Nat → K := fun _ => 0
  let velocity0 : Nat → Nat → K := fun _ _ => 0
  -- Flux vector for the rho equation
  let flux1 := forLoop 0 S.m_spacedim
    (fun i fl => set2 fl 0 i (Vmath.Vcopy nq (physfield (i + 1)) (fl 0 i) 0)) flux
  let velocity := GetVelocityVector S nq physfield velocity0
  let pressure := GetPressureVel S nq physfield velocity pressure0
  -- Flux vector for the velocity fields
  let flux2 := forLoop 0 S.m_spacedim
    (fun i fl =>
      let fl1 := forLoop 0 S.m_spacedim
        (fun j g => set2 g (i + 1) j
          (Vmath.Vmul nq (velocity j) (physfield (i + 1)) (g (i + 1) j) 0)) fl
      -- Add pressure to appropriate field
      set2 fl1 (i + 1) i (Vmath.Vadd nq (fl1 (i + 1) i) pressure (fl1 (i + 1) i) 0))
    flux1
  -- Flux vector for energy.
  let pressure1 := Vmath.Vadd nq (physfield (S.m_spacedim + 1)) pressure pressure 0
  forLoop 0 S.m_spacedim
    (fun j fl => set2 fl (S.m_spacedim + 1) j
      (Vmath.Vmul nq (velocity j) pressure1 (fl (S.m_spacedim + 1) j) 0))
    flux2

/-- The function `CompressibleFlowSystem::GetFluxVectorDeAlias`. The members
`Get1DScaledTotPoints`, `PhysInterp1DScaled` and
`PhysGalerkinProjection1DScaled` of `m_fields[0]` are not part of this source
file and are parameters: the point count of the scaled space, and the output
array of the interpolation and of the Galerkin projection as a function of the
scale and of the input array. `nVariables` is `m_fields.num_elements()`. The
arrays `physfield_interp[i]` and `flux_interp[i][j]` are allocated in the first
loop; they start at zero here, and so do `pressure` and `velocity`. -/
def GetFluxVectorDeAlias (S : CompressibleFlowSystem K)
    (Get1DScaledTotPoints : K → Nat)
    (PhysInterp1DScaled PhysGalerkinProjection1DScaled : K → (Nat → K) → (Nat → K))
    (physfield : Nat → Nat → K) (flux : Nat → Nat → Nat → K) : Nat → Nat → Nat → K :=
  let nVariables := S.m_fields_num_elements
  -- Factor to rescale 1d points in dealiasing
  let OneDptscale : K := 2
  let nq := Get1DScaledTotPoints OneDptscale
  let pressure0 : Nat → K := fun _ => 0
  let velocity0 : Nat → Nat → K := fun _ _ => 0
  let flux_interp0 : Nat → Nat → Nat → K := fun _ _ _ => 0
  let physfield_interp := forLoop 0 nVariables
    (fun i pi => Function.update pi i (PhysInterp1DScaled OneDptscale (physfield i)))
    (fun _ _ => 0)
  -- Flux vector for the rho equation
  let flux1 := forLoop 0 S.m_spacedim
    (fun i fl => set2 fl 0 i
      -- Galerkin project solution back to original space
      (PhysGalerkinProjection1DScaled OneDptscale (physfield_interp (i + 1)))) flux
  let velocity := GetVelocityVector S nq physfield_interp velocity0
  let pressure := GetPressureVel S nq physfield_interp velocity pressure0
  -- Evaluation of flux vector for the velocity fields
  let flux_interp1 := forLoop 0 S.m_spacedim
    (fun i fl =>
      let fl1 := forLoop 0 S.m_spacedim
        (fun j g => set2 g (i + 1) j
          (Vmath.Vmul nq (velocity j) (physfield_interp (i + 1)) (g (i + 1) j) 0)) fl
      -- Add pressure to appropriate field
      set2 fl1 (i + 1) i (Vmath.Vadd nq (fl1 (i + 1) i) pressure (fl1 (i + 1) i) 0))
    flux_interp0
  -- Galerkin project solution back to origianl space
  let flux2 := forLoop 0 S.m_spacedim
    (fun i fl => forLoop 0 S.m_spacedim
      (fun j g => set2 g (i + 1) j
        (PhysGalerkinProjection1DScaled OneDptscale (flux_interp1 (i + 1) j))) fl)
    flux1
  -- Evaluation of flux vector for energy
  let pressure1 := Vmath.Vadd nq (physfield_interp (S.m_spacedim + 1)) pressure pressure 0
  (forLoop 0 S.m_spacedim
    (fun j st =>
      let fi := set2 st.1 (S.m_spacedim + 1) j
        (Vmath.Vmul nq (velocity j) pressure1 (st.1 (S.m_spacedim + 1) j) 0)
      -- Galerkin project solution back to origianl space
      (fi, set2 st.2 (S.m_spacedim + 1) j
        (PhysGalerkinProjection1DScaled OneDptscale (fi (S.m_spacedim + 1) j))))
    (flux_interp1, flux2)).2

/-! ## Viscous flux -/

/-- The function `CompressibleFlowSystem::GetDynamicViscosity`; `pow` is the C
library's, `nPts` is `temperature.num_elements()`. -/
def GetDynamicViscosity (pow : K → K → K) (S : CompressibleFlowSystem K) (nPts : Nat)
    (temperature mu : Nat → K) : Nat → K :=
  let mu_star := S.m_mu
  let T_star := S.m_pInf / (S.m_rhoInf * S.m_gasConstant)
  forLoop 0 nPts
    (fun i mu =>
      let ratio := temperature i / T_star
      Function.update mu i
        (mu_star * pow ratio 1.50 * (T_star + 110.0) / (temperature i + 110.0)))
    mu

/-- The array `mu` of `GetViscousFluxVector`: Sutherland's law on
`physfield[nVariables-2]` if the viscosity type is "Variable", else the
constant `m_mu`. Every row of `physfield` has `nPts` entries, so the `nPts` of
`GetDynamicViscosity` is the caller's. -/
def GetViscousFluxVector_mu (pow : K → K → K) (S : CompressibleFlowSystem K) (nPts : Nat)
    (physfield : Nat → Nat → K) : Nat → K :=
  let nVariables := S.m_fields_num_elements
  let mu : Nat → K := fun _ => 0.0
  -- Variable viscosity through the Sutherland's law
  if S.m_ViscosityType = "Variable" then
    GetDynamicViscosity pow S nPts (physfield (nVariables - 2)) mu
  else
    Vmath.Fill nPts S.m_mu mu 0

/-- The array `divVel` of `GetViscousFluxVector` after its scaling by
`lambda * mu`. -/
def GetViscousFluxVector_divVel (S : CompressibleFlowSystem K) (nPts : Nat)
    (mu : Nat → K) (derivativesO1 : Nat → Nat → Nat → K) : Nat → K :=
  -- Stokes hypotesis
  let lambda : K := -2.0 / 3.0
  let divVel0 : Nat → K := fun _ => 0.0
  -- Velocity divergence
  let divVel1 := forLoop 0 S.m_spacedim
    (fun j dv => Vmath.Vadd nPts dv (derivativesO1 j j) dv 0) divVel0
  -- Velocity divergence scaled by lambda * mu
  let divVel2 := Vmath.Smul nPts lambda divVel1 divVel1 0
  Vmath.Vmul nPts mu divVel2 divVel2 0

/-- The arrays `Sgg[j]` of `GetViscousFluxVector`: the diagonal terms of the
viscous stress tensor. The loop state is the pair `(tmp, Sgg)`. -/
def GetViscousFluxVector_Sgg (S : CompressibleFlowSystem K) (nPts : Nat)
    (mu : Nat → K) (derivativesO1 : Nat → Nat → Nat → K) : Nat → Nat → K :=
  let mu2_0 : Nat → K := fun _ => 0.0
  -- mu2 = 2 * mu
  let mu2 := Vmath.Smul nPts 2.0 mu mu2_0 0
  let divVel := GetViscousFluxVector_divVel S nPts mu derivativesO1
  (forLoop 0 S.m_spacedim
    (fun j st =>
      let tmpj := Vmath.Vmul nPts mu2 (derivativesO1 j j) (fun _ => 0.0) 0
      let Sggj := Vmath.Vadd nPts tmpj divVel (fun _ => 0.0) 0
      (Function.update st.1 j tmpj, Function.update st.2 j Sggj))
    ((fun _ _ => 0.0), (fun _ _ => 0.0))).2

/-- The arrays `(Sxy, Sxz, Syz)` of `GetViscousFluxVector`: the extra diagonal
terms of the viscous stress tensor, for 2-D and 3-D problems only. -/
def GetViscousFluxVector_offDiagonal (S : CompressibleFlowSystem K) (nPts : Nat)
    (mu : Nat → K) (derivativesO1 : Nat → Nat → Nat → K) :
    (Nat → K) × (Nat → K) × (Nat → K) :=
  let Sxy : Nat → K := fun _ => 0.0
  let Sxz : Nat → K := fun _ => 0.0
  let Syz : Nat → K := fun _ => 0.0
  if S.m_spacedim = 2 then
    -- Sxy = (du/dy + dv/dx)
    let Sxy1 := Vmath.Vadd nPts (derivativesO1 0 1) (derivativesO1 1 0) Sxy 0
    -- Sxy = mu * (du/dy + dv/dx)
    (Vmath.Vmul nPts mu Sxy1 Sxy1 0, Sxz, Syz)
  else if S.m_spacedim = 3 then
    -- Sxy = (du/dy + dv/dx)
    let Sxy1 := Vmath.Vadd nPts (derivativesO1 0 1) (derivativesO1 1 0) Sxy 0
    -- Sxz = (du/dz + dw/dx)
    let Sxz1 := Vmath.Vadd nPts (derivativesO1 0 2) (derivativesO1 2 0) Sxz 0
    -- Syz = (dv/dz + dw/dy)
    let Syz1 := Vmath.Vadd nPts (derivativesO1 1 2) (derivativesO1 2 1) Syz 0
    (Vmath.Vmul nPts mu Sxy1 Sxy1 0, Vmath.Vmul nPts mu Sxz1 Sxz1 0,
      Vmath.Vmul nPts mu Syz1 Syz1 0)
  else (Sxy, Sxz, Syz)

/-- The arrays `(STx, STy, STz)` of `GetViscousFluxVector`: the energy-related
terms. -/
def GetViscousFluxVector_energy (S : CompressibleFlowSystem K) (nPts : Nat)
    (physfield : Nat → Nat → K) (derivativesO1 : Nat → Nat → Nat → K)
    (Sgg : Nat → Nat → K) (Sxy Sxz Syz : Nat → K) : (Nat → K) × (Nat → K) × (Nat → K) :=
  let STx : Nat → K := fun _ => 0.0
  let STy : Nat → K := fun _ => 0.0
  let STz : Nat → K := fun _ => 0.0
  if S.m_spacedim = 1 then
    let tmp1 : Nat → K := fun _ => 0.0
    -- u * Sxx
    let STx1 := Vmath.Vmul nPts (physfield 0) (Sgg 0) STx 0
    -- k * dT/dx
    let tmp1a := Vmath.Smul nPts S.m_thermalConductivity (derivativesO1 0 1) tmp1 0
    -- STx = u * Sxx + (K / mu) * dT/dx
    (Vmath.Vadd nPts STx1 tmp1a STx1 0, STy, STz)
  else if S.m_spacedim = 2 then
    let tmp1 : Nat → K := fun _ => 0.0
    let tmp2 : Nat → K := fun _ => 0.0
    -- u * Sxx
    let STx1 := Vmath.Vmul nPts (physfield 0) (Sgg 0) STx 0
    -- v * Sxy
    let tmp1a := Vmath.Vmul nPts (physfield 1) Sxy tmp1 0
    -- k * dT/dx
    let tmp2a := Vmath.Smul nPts S.m_thermalConductivity (derivativesO1 0 2) tmp2 0
    -- STx = u * Sxx + v * Sxy + K * dT/dx
    let STx2 := Vmath.Vadd nPts STx1 tmp1a STx1 0
    let STx3 := Vmath.Vadd nPts STx2 tmp2a STx2 0
    -- Re-initialise temporary arrays
    let tmp1b := Vmath.Zero nPts tmp1a 0
    let tmp2b := Vmath.Zero nPts tmp2a 0
    -- v * Syy
    let STy1 := Vmath.Vmul nPts (physfield 1) (Sgg 1) STy 0
    -- u * Sxy
    let tmp1c := Vmath.Vmul nPts (physfield 0) Sxy tmp1b 0
    -- k * dT/dy
    let tmp2c := Vmath.Smul nPts S.m_thermalConductivity (derivativesO1 1 2) tmp2b 0
    -- STy = v * Syy + u * Sxy + K * dT/dy
    let STy2 := Vmath.Vadd nPts STy1 tmp1c STy1 0
    let STy3 := Vmath.Vadd nPts STy2 tmp2c STy2 0
    (STx3, STy3, STz)
  else if S.m_spacedim = 3 then
    let tmp1 : Nat → K := fun _ => 0.0
    let tmp2 : Nat → K := fun _ => 0.0
    let tmp3 : Nat → K := fun _ => 0.0
    -- u * Sxx
    let STx1 := Vmath.Vmul nPts (physfield 0) (Sgg 0) STx 0
    -- v * Sxy
    let tmp1a := Vmath.Vmul nPts (physfield 1) Sxy tmp1 0
    -- v * Sxz
    let tmp2a := Vmath.Vmul nPts (physfield 2) Sxz tmp2 0
    -- k * dT/dx
    let tmp3a := Vmath.Smul nPts S.m_thermalConductivity (derivativesO1 0 3) tmp3 0
    -- STx = u * Sxx + v * Sxy + w * Sxz + (K / mu) * dT/dx
    let STx2 := Vmath.Vadd nPts STx1 tmp1a STx1 0
    let STx3 := Vmath.Vadd nPts STx2 tmp2a STx2 0
    let STx4 := Vmath.Vadd nPts STx3 tmp3a STx3 0
    -- Re-initialise temporary arrays
    let tmp1b := Vmath.Zero nPts tmp1a 0
    let tmp2b := Vmath.Zero nPts tmp2a 0
    let tmp3b := Vmath.Zero nPts tmp3a 0
    -- v * Syy
    let STy1 := Vmath.Vmul nPts (physfield 1) (Sgg 1) STy 0
    -- u * Sxy
    let tmp1c := Vmath.Vmul nPts (physfield 0) Sxy tmp1b 0
    -- w * Syz
    let tmp2c := Vmath.Vmul nPts (physfield 2) Syz tmp2b 0
    -- k * dT/dy
    let tmp3c := Vmath.Smul nPts S.m_thermalConductivity (derivativesO1 1 3) tmp3b 0
    -- STy = v * Syy + u * Sxy + w * Syz + K * dT/dy
    let STy2 := Vmath.Vadd nPts STy1 tmp1c STy1 0
    let STy3 := Vmath.Vadd nPts STy2 tmp2c STy2 0
    let STy4 := Vmath.Vadd nPts STy3 tmp3c STy3 0
    -- Re-initialise temporary arrays
    let tmp1d := Vmath.Zero nPts tmp1c 0
    let tmp2d := Vmath.Zero nPts tmp2c 0
    let tmp3d := Vmath.Zero nPts tmp3c 0
    -- w * Szz
    let STz1 := Vmath.Vmul nPts (physfield 2) (Sgg 2) STz 0
    -- u * Sxz
    let tmp1e := Vmath.Vmul nPts (physfield 0) Sxz tmp1d 0
    -- v * Syz
    let tmp2e := Vmath.Vmul nPts (physfield 1) Syz tmp2d 0
    -- k * dT/dz
    let tmp3e := Vmath.Smul nPts S.m_thermalConductivity (derivativesO1 2 3) tmp3d 0
    -- STz = w * Szz + u * Sxz + v * Syz + K * dT/dz
    let STz2 := Vmath.Vadd nPts STz1 tmp1e STz1 0
    let STz3 := Vmath.Vadd nPts STz2 tmp2e STz2 0
    let STz4 := Vmath.Vadd nPts STz3 tmp3e STz3 0
    (STx4, STy4, STz4)
  else (STx, STy, STz)

/-- The call `Vmath::Zero(nPts, &viscousTensor[d][v][0], 1)`. -/
def tensorZero (nPts : Nat) (vT : Nat → Nat → Nat → K) (d v : Nat) : Nat → Nat → Nat → K :=
  set2 vT d v (Vmath.Zero nPts (vT d v) 0)

/-- The call `Vmath::Vcopy(nPts, &src[0], 1, &viscousTensor[d][v][0], 1)`. -/
def tensorCopy (nPts : Nat) (src : Nat → K) (vT : Nat → Nat → Nat → K) (d v : Nat) :
    Nat → Nat → Nat → K :=
  set2 vT d v (Vmath.Vcopy nPts src (vT d v) 0)

/-- The function `CompressibleFlowSystem::GetViscousFluxVector`; `nPts` is
`physfield[0].num_elements()`. The container is indexed as in the source,
`viscousTensor[direction][variable][point]`. The failing `ASSERTL0` of the
`default` case of the final `switch` is the error result. -/
def GetViscousFluxVector (pow : K → K → K) (S : CompressibleFlowSystem K) (nPts : Nat)
    (physfield : Nat → Nat → K) (derivativesO1 viscousTensor : Nat → Nat → Nat → K) :
    Except String (Nat → Nat → Nat → K) :=
  let mu := GetViscousFluxVector_mu pow S nPts physfield
  -- Computing diagonal terms of viscous stress tensor
  let Sgg := GetViscousFluxVector_Sgg S nPts mu derivativesO1
  -- Extra diagonal terms of viscous stress tensor (Sxy, Sxz, Syz)
  let Sod := GetViscousFluxVector_offDiagonal S nPts mu derivativesO1
  let Sxy := Sod.1
  let Sxz := Sod.2.1
  let Syz := Sod.2.2
  -- Viscous flux vector for the rho equation
  let vT0 := forLoop 0 S.m_spacedim (fun k vT => tensorZero nPts vT k 0) viscousTensor
  -- Energy-related terms
  let ST := GetViscousFluxVector_energy S nPts physfield derivativesO1 Sgg Sxy Sxz Syz
  let STx := ST.1
  let STy := ST.2.1
  let STz := ST.2.2
  match S.m_spacedim with
  | 1 =>
    -- f_11v = f_rho = 0
    let t1 := tensorZero nPts vT0 0 0
    -- f_21v = f_rhou
    let t2 := tensorCopy nPts (Sgg 0) t1 0 1
    -- f_31v = f_E
    Except.ok (tensorCopy nPts STx t2 0 2)
  | 2 =>
    -- f_11v = f_rho1 = 0
    let t1 := tensorZero nPts vT0 0 0
    -- f_12v = f_rho2 = 0
    let t2 := tensorZero nPts t1 1 0
    -- f_21v = f_rhou1
    let t3 := tensorCopy nPts (Sgg 0) t2 0 1
    -- f_22v = f_rhou2
    let t4 := tensorCopy nPts Sxy t3 1 1
    -- f_31v = f_rhov1
    let t5 := tensorCopy nPts Sxy t4 0 2
    -- f_32v = f_rhov2
    let t6 := tensorCopy nPts (Sgg 1) t5 1 2
    -- f_41v = f_E1
    let t7 := tensorCopy nPts STx t6 0 3
    -- f_42v = f_E2
    Except.ok (tensorCopy nPts STy t7 1 3)
  | 3 =>
    -- f_11v = f_rho1 = 0
    let t1 := tensorZero nPts vT0 0 0
    -- f_12v = f_rho2 = 0
    let t2 := tensorZero nPts t1 1 0
    -- f_13v = f_rho3 = 0
    let t3 := tensorZero nPts t2 2 0
    -- f_21v = f_rhou1
    let t4 := tensorCopy nPts (Sgg 0) t3 0 1
    -- f_22v = f_rhou2
    let t5 := tensorCopy nPts Sxy t4 1 1
    -- f_23v = f_rhou3
    let t6 := tensorCopy nPts Sxz t5 2 1
    -- f_31v = f_rhov1
    let t7 := tensorCopy nPts Sxy t6 0 2
    -- f_32v = f_rhov2
    let t8 := tensorCopy nPts (Sgg 1) t7 1 2
    -- f_33v = f_rhov3
    let t9 := tensorCopy nPts Syz t8 2 2
    -- f_31v = f_rhow1
    let t10 := tensorCopy nPts Sxz t9 0 3
    -- f_32v = f_rhow2
    let t11 := tensorCopy nPts Syz t10 1 3
    -- f_33v = f_rhow3
    let t12 := tensorCopy nPts (Sgg 2) t11 2 3
    -- f_41v = f_E1
    let t13 := tensorCopy nPts STx t12 0 4
    -- f_42v = f_E2
    let t14 := tensorCopy nPts STy t13 1 4
    -- f_43v = f_E3
    Except.ok (tensorCopy nPts STz t14 2 4)
  | _ => Except.error "Illegal expansion dimension"

/-- The function `CompressibleFlowSystem::GetViscousFluxVectorDeAlias`. Its
whole body stands between `#if 0` and `#endif`, so the compiled function has no
statement: it returns to the caller and `viscousTensor` is what it was. The
result type is that of `GetViscousFluxVector`, with the failing `ASSERTL0` as
the error result. -/
def GetViscousFluxVectorDeAlias (_S : CompressibleFlowSystem K)
    (_physfield : Nat → Nat → K) (_derivativesO1 viscousTensor : Nat → Nat → Nat → K) :
    Except String (Nat → Nat → Nat → K) :=
  Except.ok viscousTensor

/-- The flux function that `v_InitObject` gives to the diffusion operator with
`SetFluxVectorNS`, as the call the operator then makes: the de-aliased function
if `m_specHP_dealiasing` is set, else `GetViscousFluxVector`. -/
def v_InitObject_FluxVectorNS (m_specHP_dealiasing : Bool) (pow : K → K → K)
    (S : CompressibleFlowSystem K) (nPts : Nat) (physfield : Nat → Nat → K)
    (derivativesO1 viscousTensor : Nat → Nat → Nat → K) :
    Except String (Nat → Nat → Nat → K) :=
  if m_specHP_dealiasing then
    GetViscousFluxVectorDeAlias S physfield derivativesO1 viscousTensor
  else
    GetViscousFluxVector pow S nPts physfield derivativesO1 viscousTensor

/-! ## Time step -/

/-- The members of `m_fields[0]`, of its elements and of the time-integration
settings that the time-step functions read. The expansion, geometry and
communicator classes are not part of this source file. -/
structure ExpansionData (K : Type) where
  /-- Number of elements `m_fields[0]->GetExpSize()`. -/
  GetExpSize : Nat
  /-- Point count `m_fields[0]->GetExp(el)->GetTotPoints()`. -/
  expGetTotPoints : Nat → Nat
  /-- Derivative factors `gmat[row][point]` of element `el`,
  `GetGeom()->GetMetricInfo()->GetDerivFactors(ptsKeys)`. -/
  GetDerivFactors : Nat → Nat → Nat → K
  /-- Whether `metricInfo->GetGtype() == SpatialDomains::eDeformed`. -/
  isDeformed : Nat → Bool
  /-- Whether `dynamic_pointer_cast<LocalRegions::TriExp>` of the element
  succeeds. -/
  isTriExp : Nat → Bool
  /-- Whether `dynamic_pointer_cast<LocalRegions::QuadExp>` of the element
  succeeds. -/
  isQuadExp : Nat → Bool
  /-- Whether `dynamic_pointer_cast<LocalRegions::HexExp>` of the element
  succeeds. -/
  isHexExp : Nat → Bool
  /-- The value `m_fields[0]->GetExp(n)->Integral(inarray)`. -/
  Integral : Nat → (Nat → K) → K
  /-- Number of modes per element `GetNumExpModesPerExp()`, a C `int`. -/
  ExpOrder : Nat → Int
  /-- Safety factor `m_cflSafetyFactor`. -/
  m_cflSafetyFactor : K
  /-- The value `MaxTimeStepEstimator()`. -/
  MaxTimeStepEstimator : K

/-- Modelled from the spec: `Vmath::Vmin(n, x, 1)`, the minimum of the `n`
entries of `x` ("min over all elements"); the scan starts from `x[0]`. -/
def Vmath.Vmin (n : Nat) (x : Nat → K) : K :=
  forLoop 0 n (fun i xmin => if x i < xmin then x i else xmin) (x 0)

/-- Modelled from the spec: `m_comm->AllReduce(TimeStep, ReduceMin)`, the
"collective minimum reduction" over all parallel partitions; `others` holds the
values of the other partitions, none on a single partition. -/
def AllReduce_ReduceMin (others : List K) (TimeStep : K) : K :=
  others.foldl min TimeStep

/-- The two branches of `GetStdVelocity` that fill `stdVelocity` for one
element: point-wise derivative factors if the element is deformed, the factors
at point `0` otherwise. -/
def GetStdVelocity_stdVelocity (S : CompressibleFlowSystem K) (nq : Nat) (deformed : Bool)
    (gmat : Nat → Nat → K) (velocity stdVelocity : Nat → Nat → K) : Nat → Nat → K :=
  if deformed then
    -- d xi/ dx = gmat = 1/J * d x/d xi
    forLoop 0 S.m_spacedim
      (fun i sv =>
        let sv1 := Function.update sv i (Vmath.Vmul nq (gmat i) (velocity 0) (sv i) 0)
        forLoop 1 (S.m_spacedim - 1)
          (fun j sv2 => Function.update sv2 i
            (Vmath.Vvtvp nq (gmat (S.m_spacedim * j + i)) (velocity j) (sv2 i) (sv2 i) 0))
          sv1)
      stdVelocity
  else
    forLoop 0 S.m_spacedim
      (fun i sv =>
        let sv1 := Function.update sv i (Vmath.Smul nq (gmat i 0) (velocity 0) (sv i) 0)
        forLoop 1 (S.m_spacedim - 1)
          (fun j sv2 => Function.update sv2 i
            (Vmath.Svtvp nq (gmat (S.m_spacedim * j + i) 0) (velocity j) (sv2 i) (sv2 i) 0))
          sv1)
      stdVelocity

/-- The loop over the points of element `el` in `GetStdVelocity`; the state is
`(stdV, nBCEdgePts)`. -/
def GetStdVelocity_points (sqrt : K → K) (S : CompressibleFlowSystem K) (nq el : Nat)
    (stdVelocity : Nat → Nat → K) (soundspeed : Nat → K) (st : (Nat → K) × Nat) :
    (Nat → K) × Nat :=
  forLoop 0 nq
    (fun i st =>
      let pntVelocity0 := forLoop 0 S.m_spacedim
        (fun j pv => pv + stdVelocity j i * stdVelocity j i) (0.0 : K)
      let pntVelocity := sqrt pntVelocity0 + soundspeed st.2
      (if pntVelocity > st.1 el then Function.update st.1 el pntVelocity else st.1,
        st.2 + 1))
    st

/-- The body of the loop over the elements in `GetStdVelocity`; the state is
`(stdVelocity, stdV, nBCEdgePts)`. -/
def GetStdVelocity_element (sqrt : K → K) (S : CompressibleFlowSystem K)
    (E : ExpansionData K) (velocity : Nat → Nat → K) (soundspeed : Nat → K) (el : Nat)
    (st : (Nat → Nat → K) × (Nat → K) × Nat) : (Nat → Nat → K) × (Nat → K) × Nat :=
  let gmat := E.GetDerivFactors el
  let nq := E.expGetTotPoints el
  let stdVelocity := GetStdVelocity_stdVelocity S nq (E.isDeformed el) gmat velocity st.1
  (stdVelocity, GetStdVelocity_points sqrt S nq el stdVelocity soundspeed st.2)

/-- The function `CompressibleFlowSystem::GetStdVelocity`; `stdV_num_elements`
is `stdV.num_elements()`. The fields in `inarray` have `GetTotPoints()`
entries. The work arrays `velocity`, `pressure` and `soundspeed` are allocated
without initial values in the source and are written before they are read;
they start at zero here. -/
def GetStdVelocity (sqrt : K → K) (S : CompressibleFlowSystem K) (E : ExpansionData K)
    (stdV_num_elements : Nat) (inarray : Nat → Nat → K) (stdV : Nat → K) : Nat → K :=
  let nTotQuadPoints := S.GetTotPoints
  let n_element := E.GetExpSize
  let nBCEdgePts := 0
  -- Zero output array
  let stdV0 := Vmath.Zero stdV_num_elements stdV 0
  let stdVelocity0 : Nat → Nat → K := fun _ _ => 0.0
  let velocity := GetVelocityVector S nTotQuadPoints inarray (fun _ _ => 0)
  let pressure := GetPressureVel S nTotQuadPoints inarray velocity (fun _ => 0)
  let soundspeed := GetSoundSpeed sqrt S inarray pressure (fun _ => 0)
  (forLoop 0 n_element (GetStdVelocity_element sqrt S E velocity soundspeed)
    (stdVelocity0, stdV0, nBCEdgePts)).2.1

/-- The body of the loop over the elements in `v_GetTimeStep`; the state is
`(minLength, tstep)`. `ExpOrder[n] - 1` is computed in `int` and then
converted. -/
def v_GetTimeStep_element (sqrt : K → K) (E : ExpansionData K) (stdVelocity : Nat → K)
    (n : Nat) (st : K × (Nat → K)) : K × (Nat → K) :=
  let alpha := E.MaxTimeStepEstimator
  let cLambda : K := 0.2
  let npoints := E.expGetTotPoints n
  let one2D : Nat → K := Vmath.Fill npoints 1.0 (fun _ => 0) 0
  let Area := E.Integral n one2D
  let minLength :=
    if E.isTriExp n then 2.0 * sqrt Area
    else if E.isQuadExp n then sqrt Area
    else if E.isHexExp n then sqrt Area
    else st.1
  (minLength,
    Function.update st.2 n
      (E.m_cflSafetyFactor * alpha * minLength
        / (stdVelocity n * cLambda * ((E.ExpOrder n - 1 : Int) : K)
            * ((E.ExpOrder n - 1 : Int) : K))))

/-- The array `tstep` of `v_GetTimeStep` after the loop over the elements, for
the bound velocities `stdVelocity`; `minLength0` is the value of the local
`minLength`, declared without initial value, when the loop starts. -/
def v_GetTimeStep_tstep (sqrt : K → K) (E : ExpansionData K) (stdVelocity : Nat → K)
    (minLength0 : K) : Nat → K :=
  (forLoop 0 E.GetExpSize (v_GetTimeStep_element sqrt E stdVelocity)
    (minLength0, fun _ => 0.0)).2

/-- The function `CompressibleFlowSystem::v_GetTimeStep`; `others` holds the
time steps of the other parallel partitions. The array `stdVelocity` is
allocated with `nElements` entries and no initial values; it starts at zero
here and `GetStdVelocity` zeroes it anyway. -/
def v_GetTimeStep (sqrt : K → K) (S : CompressibleFlowSystem K) (E : ExpansionData K)
    (others : List K) (minLength0 : K) (inarray : Nat → Nat → K) : K :=
  let nElements := E.GetExpSize
  -- Get standard velocity to compute the time-step limit
  let stdVelocity := GetStdVelocity sqrt S E nElements inarray (fun _ => 0)
  let tstep := v_GetTimeStep_tstep sqrt E stdVelocity minLength0
  -- Get the minimum time-step limit and return the time-step
  let TimeStep := Vmath.Vmin nElements tstep
  AllReduce_ReduceMin others TimeStep

/-! ## Initialisation and stability limit -/

/-- Modelled from the spec: the enumeration `MultiRegions::ProjectionType` is
not part of this source file. The source names `eGalerkin` (continuous) and
`eDiscontinuous`; `other` stands for every other value, the "unknown"
discretization type. -/
inductive ProjectionType where
  | eGalerkin
  | eDiscontinuous
  | other (code : Nat)
  deriving DecidableEq

/-- The two ways a call of this file can end without a result: a failing
`ASSERTL0` with its message, and a read of a C array outside its entries. -/
inductive Fault where
  | assertion (msg : String)
  | outOfBounds (index : Int)
  deriving DecidableEq

/-- The members of the session reader `m_session` that `v_InitObject` asks
before loading a value; the class is not part of this source file. -/
structure SessionReader where
  /-- The answer of `m_session->DefinesSolverInfo(name)`. -/
  DefinesSolverInfo : String → Bool
  /-- The answer of `m_session->DefinesParameter(name)`. -/
  DefinesParameter : String → Bool

/-- The function `CompressibleFlowSystem::v_InitObject` as far as it can fail
in this file: the `ASSERTL0` checks in the order of the source, with their
messages. The calls into other classes (`UnsteadySystem::v_InitObject`, the
`LoadParameter` and `LoadSolverInfo` calls, which take a default, the factories
and `InitObject` of the operators) are taken to return. -/
def v_InitObject (m_session : SessionReader) (m_spacedim : Nat)
    (m_projectionType : ProjectionType) : Except String Unit :=
  if ¬ m_session.DefinesSolverInfo "UPWINDTYPE" then
    Except.error "No UPWINDTYPE defined in session."
  -- Get gamma parameter from session file.
  else if ¬ m_session.DefinesParameter "Gamma" then
    Except.error "Compressible flow sessions must define a Gamma parameter."
  -- Get E0 parameter from session file.
  else if ¬ m_session.DefinesParameter "pInf" then
    Except.error "Compressible flow sessions must define a pInf parameter."
  -- Get rhoInf parameter from session file.
  else if ¬ m_session.DefinesParameter "rhoInf" then
    Except.error "Compressible flow sessions must define a rhoInf parameter."
  -- Get uInf parameter from session file.
  else if ¬ m_session.DefinesParameter "uInf" then
    Except.error "Compressible flow sessions must define a uInf parameter."
  -- Get vInf parameter from session file.
  else if (m_spacedim = 2 ∨ m_spacedim = 3) ∧ ¬ m_session.DefinesParameter "vInf" then
    Except.error "Compressible flow sessions must define a vInf parameterfor 2D/3D problems."
  -- Get wInf parameter from session file.
  else if m_spacedim = 3 ∧ ¬ m_session.DefinesParameter "wInf" then
    Except.error "Compressible flow sessions must define a wInf parameterfor 3D problems."
  else
    -- Type of advection class to be used
    match m_projectionType with
    -- Continuous field
    | ProjectionType.eGalerkin => Except.error "Continuous field not supported."
    -- Discontinuous field
    | ProjectionType.eDiscontinuous => Except.ok ()
    | ProjectionType.other _ => Except.error "Unsupported projection type."

/-- The table `CFLDG[21]` of `GetStabilityLimit` (CFLDG 1D [0-20]). -/
def CFLDG (K : Type) [LinearOrderedField K] : List K :=
  [2.0000, 6.0000, 11.8424, 19.1569,
    27.8419, 37.8247, 49.0518, 61.4815,
    75.0797, 89.8181, 105.6700, 122.6200,
    140.6400, 159.7300, 179.8500, 201.0100,
    223.1800, 246.3600, 270.5300, 295.6900,
    321.8300]

/-- The read `table[n]` of a C array with the entries of `table` and an `int`
index: a value for `0 ≤ n < length`, outside the array otherwise. -/
def readArray (table : List K) (n : Int) : Except Fault K :=
  if 0 ≤ n ∧ n < table.length then Except.ok (table.getD n.toNat 0)
  else Except.error (Fault.outOfBounds n)

/-- The function `CompressibleFlowSystem::GetStabilityLimit`. -/
def GetStabilityLimit (K : Type) [LinearOrderedField K] (m_projectionType : ProjectionType)
    (n : Int) : Except Fault K :=
  if ¬ (n ≤ 20) then
    Except.error (Fault.assertion
      "Illegal modes dimension for CFL calculation (P has to be less then 20)")
  else if m_projectionType = ProjectionType.eDiscontinuous then
    -- CFL = CFLDG[n]; return CFL
    readArray (CFLDG K) n
  else
    Except.error (Fault.assertion
      "Continuous Galerkin stability coefficients not introduced yet.")

/-- The function `CompressibleFlowSystem::GetStabilityLimitVector`;
`GetExpSize` is `m_fields[0]->GetExpSize()`. A failing call of
`GetStabilityLimit` ends the loop. -/
def GetStabilityLimitVector (K : Type) [LinearOrderedField K]
    (m_projectionType : ProjectionType) (GetExpSize : Nat) (ExpOrder : Nat → Int) :
    Except Fault (Nat → K) :=
  forLoop 0 GetExpSize
    (fun i st =>
      match st with
      | Except.ok returnval =>
        match GetStabilityLimit K m_projectionType (ExpOrder i) with
        | Except.ok CFL => Except.ok (Function.update returnval i CFL)
        | Except.error f => Except.error f
      | Except.error f => Except.error f)
    (Except.ok (fun _ => 0.0))

/-! ## Boundary state closures

The state threaded through the loop over the boundary elements is the pair of
the local forward trace `Fwd[variable][trace point]`, which the wall closures
overwrite in place, and the boundary storage
`m_fields[variable]->GetBndCondExpansions()[region]->UpdatePhys()[index]`. -/

/-- The local `id1` of the boundary closures: offset of boundary element `e` in
the boundary storage of region `bcRegion`. -/
def id1 (S : CompressibleFlowSystem K) (bcRegion e : Nat) : Nat :=
  S.bndGetPhys_Offset bcRegion e

/-- The local `id2` of the boundary closures: offset in the trace of the trace
element `traceBndMap[cnt + e]` matching boundary element `e`. -/
def id2 (S : CompressibleFlowSystem K) (cnt e : Nat) : Nat :=
  S.traceGetPhys_Offset (S.traceBndMap (cnt + e))

/-- The preamble shared by the boundary closures: `Fwd[i]` is filled by
`m_fields[i]->ExtractTracePhys(physarray[i], Fwd[i])` for `i < nVariables`. -/
def extractFwd (S : CompressibleFlowSystem K) (nVariables : Nat)
    (physarray : Nat → Nat → K) : Nat → Nat → K :=
  forLoop 0 nVariables
    (fun i F => Function.update F i (S.ExtractTracePhys i (physarray i)))
    (fun _ _ => 0)

/-- The final loop of the wall closures: `Vcopy` of `nBCEdgePts` entries of
every `Fwd[i]` from `id2` into the boundary storage of variable `i` at `id1`. -/
def copyToBnd (bcRegion nVariables nBCEdgePts id1 id2 : Nat) (Fwd : Nat → Nat → K)
    (bnd : Nat → Nat → Nat → K) : Nat → Nat → Nat → K :=
  forLoop 0 nVariables
    (fun i b => set2 b i bcRegion
      (Vmath.Vcopy nBCEdgePts (ptr (Fwd i) id2) (b i bcRegion) id1))
    bnd

/-- Body of the loop over boundary elements `e` in
`CompressibleFlowSystem::WallBC`. -/
def WallBC_element (S : CompressibleFlowSystem K) (bcRegion cnt nVariables : Nat) (e : Nat)
    (st : (Nat → Nat → K) × (Nat → Nat → Nat → K)) :
    (Nat → Nat → K) × (Nat → Nat → Nat → K) :=
  let nBCEdgePts := S.bndGetTotPoints bcRegion e
  let id1 := id1 S bcRegion e
  let id2 := id2 S cnt e
  -- For 2D/3D, define: v* = v - 2(v.n)n
  let tmp0 : Nat → K := fun _ => 0.0
  -- Calculate (v.n)
  let tmp1 := forLoop 0 S.m_spacedim
    (fun i tmp => Vmath.Vvtvp nBCEdgePts (ptr (st.1 (1 + i)) id2)
      (ptr (S.m_traceNormals i) id2) tmp tmp 0) tmp0
  -- Calculate 2.0(v.n)
  let tmp2 := Vmath.Smul nBCEdgePts (-2.0) tmp1 tmp1 0
  -- Calculate v* = v - 2.0(v.n)n
  let Fwd1 := forLoop 0 S.m_spacedim
    (fun i F => Function.update F (1 + i)
      (Vmath.Vvtvp nBCEdgePts tmp2 (ptr (S.m_traceNormals i) id2)
        (ptr (F (1 + i)) id2) (F (1 + i)) id2)) st.1
  -- Copy boundary adjusted values into the boundary expansion
  (Fwd1, copyToBnd bcRegion nVariables nBCEdgePts id1 id2 Fwd1 st.2)

/-- The function `CompressibleFlowSystem::WallBC`; `nVariables` is
`physarray.num_elements()`, `bnd` the boundary storage, which is returned. -/
def WallBC (S : CompressibleFlowSystem K) (bcRegion cnt nVariables : Nat)
    (physarray : Nat → Nat → K) (bnd : Nat → Nat → Nat → K) : Nat → Nat → Nat → K :=
  -- Get physical values of the forward trace
  let Fwd := extractFwd S nVariables physarray
  let eMax := S.bndGetExpSize bcRegion
  (forLoop 0 eMax (WallBC_element S bcRegion cnt nVariables) (Fwd, bnd)).2

/-- Body of the loop over boundary elements `e` in
`CompressibleFlowSystem::WallViscousBC`. -/
def WallViscousBC_element (S : CompressibleFlowSystem K) (bcRegion cnt nVariables : Nat)
    (e : Nat) (st : (Nat → Nat → K) × (Nat → Nat → Nat → K)) :
    (Nat → Nat → K) × (Nat → Nat → Nat → K) :=
  let nBCEdgePts := S.bndGetTotPoints bcRegion e
  let id1 := id1 S bcRegion e
  let id2 := id2 S cnt e
  let Fwd1 := forLoop 0 S.m_spacedim
    (fun i F => Function.update F (i + 1) (Vmath.Neg nBCEdgePts (F (i + 1)) id2)) st.1
  -- Copy boundary adjusted values into the boundary expansion
  (Fwd1, copyToBnd bcRegion nVariables nBCEdgePts id1 id2 Fwd1 st.2)

/-- The function `CompressibleFlowSystem::WallViscousBC`. -/
def WallViscousBC (S : CompressibleFlowSystem K) (bcRegion cnt nVariables : Nat)
    (physarray : Nat → Nat → K) (bnd : Nat → Nat → Nat → K) : Nat → Nat → Nat → K :=
  -- Get physical values of the forward trace
  let Fwd := extractFwd S nVariables physarray
  let eMax := S.bndGetExpSize bcRegion
  (forLoop 0 eMax (WallViscousBC_element S bcRegion cnt nVariables) (Fwd, bnd)).2

/-- Body of the loop over boundary elements `e` in
`CompressibleFlowSystem::SymmetryBC`. -/
def SymmetryBC_element (S : CompressibleFlowSystem K) (bcRegion cnt nVariables : Nat)
    (e : Nat) (st : (Nat → Nat → K) × (Nat → Nat → Nat → K)) :
    (Nat → Nat → K) × (Nat → Nat → Nat → K) :=
  let nBCEdgePts := S.bndGetTotPoints bcRegion e
  let id1 := id1 S bcRegion e
  let id2 := id2 S cnt e
  -- For 2D/3D, define: v* = v - 2(v.n)n
  let tmp0 : Nat → K := fun _ => 0.0
  -- Calculate (v.n)
  let tmp1 := forLoop 0 S.m_spacedim
    (fun i tmp => Vmath.Vvtvp nBCEdgePts (ptr (st.1 (1 + i)) id2)
      (ptr (S.m_traceNormals i) id2) tmp tmp 0) tmp0
  -- Calculate 2.0(v.n)
  let tmp2 := Vmath.Smul nBCEdgePts (-2.0) tmp1 tmp1 0
  -- Calculate v* = v - 2.0(v.n)n
  let Fwd1 := forLoop 0 S.m_spacedim
    (fun i F => Function.update F (1 + i)
      (Vmath.Vvtvp nBCEdgePts tmp2 (ptr (S.m_traceNormals i) id2)
        (ptr (F (1 + i)) id2) (F (1 + i)) id2)) st.1
  -- Copy boundary adjusted values into the boundary expansion
  (Fwd1, copyToBnd bcRegion nVariables nBCEdgePts id1 id2 Fwd1 st.2)

/-- The function `CompressibleFlowSystem::SymmetryBC`. -/
def SymmetryBC (S : CompressibleFlowSystem K) (bcRegion cnt nVariables : Nat)
    (physarray : Nat → Nat → K) (bnd : Nat → Nat → Nat → K) : Nat → Nat → Nat → K :=
  -- Get physical values of the forward trace (from exp to phys)
  let Fwd := extractFwd S nVariables physarray
  let eMax := S.bndGetExpSize bcRegion
  (forLoop 0 eMax (SymmetryBC_element S bcRegion cnt nVariables) (Fwd, bnd)).2

/-! ### Far-field closure `RiemannInvariantBC`

The arrays over the trace that the function computes before its loop over the
boundary elements are given one definition each; they are evaluated in the
order of the source. The local arrays `soundSpeed`, `pressure`, `velBC` and
`rhoVelBC` are allocated in the source and written before they are read; they
start at zero here. -/

/-- The array `VnInf` of `RiemannInvariantBC`: the normal velocity for
characteristics coming from outside the computational domain. -/
def RiemannInvariantBC_VnInf (S : CompressibleFlowSystem K) : Nat → K :=
  let nTracePts := S.GetTraceTotPoints
  let nDimensions := S.m_spacedim
  let tmp1 : Nat → K := fun _ => 0.0
  let tmp2 : Nat → K := fun _ => 0.0
  let VnInf0 : Nat → K := fun _ => 0.0
  let VnInf1 := Vmath.Smul nTracePts S.m_uInf (S.m_traceNormals 0) VnInf0 0
  let VnInf2 :=
    if nDimensions = 2 ∨ nDimensions = 3 then
      Vmath.Vadd nTracePts VnInf1
        (Vmath.Smul nTracePts S.m_vInf (S.m_traceNormals 0) tmp1 0) VnInf1 0
    else VnInf1
  if nDimensions = 3 then
    Vmath.Vadd nTracePts VnInf2
      (Vmath.Smul nTracePts S.m_wInf (S.m_traceNormals 0) tmp2 0) VnInf2 0
  else VnInf2

/-- The array `velInf` of `RiemannInvariantBC`, filled next to `VnInf`. -/
def RiemannInvariantBC_velInf (S : CompressibleFlowSystem K) : Nat → K :=
  let nDimensions := S.m_spacedim
  let velInf0 : Nat → K := fun _ => 0.0
  let velInf1 := Function.update velInf0 0 S.m_uInf
  let velInf2 :=
    if nDimensions = 2 ∨ nDimensions = 3 then Function.update velInf1 1 S.m_vInf
    else velInf1
  if nDimensions = 3 then Function.update velInf2 2 S.m_wInf else velInf2

/-- The array `Vn` of `RiemannInvariantBC`: the normal velocity for
characteristics coming from inside the computational domain. The loop state is
the pair `(Vel, Vn)`. -/
def RiemannInvariantBC_Vn (S : CompressibleFlowSystem K) (Fwd : Nat → Nat → K) : Nat → K :=
  let nTracePts := S.GetTraceTotPoints
  let nDimensions := S.m_spacedim
  (forLoop 0 nDimensions
    (fun i st =>
      let Vel := Vmath.Vdiv nTracePts (Fwd (i + 1)) (Fwd 0) st.1 0
      (Vel, Vmath.Vvtvp nTracePts (S.m_traceNormals i) Vel st.2 st.2 0))
    ((fun _ => 0.0), (fun _ => 0.0))).2

/-- The array `absVel` of `RiemannInvariantBC`; `tmp1` is the work array left by
the computation of `VnInf`. The source computes `absVel` and does not read it
afterwards. -/
def RiemannInvariantBC_absVel (sqrt : K → K) (S : CompressibleFlowSystem K)
    (Fwd : Nat → Nat → K) (tmp1 : Nat → K) : Nat → K :=
  let nTracePts := S.GetTraceTotPoints
  let nDimensions := S.m_spacedim
  let absVel := (forLoop 0 nDimensions
    (fun i st =>
      let t1 := Vmath.Vdiv nTracePts (Fwd (i + 1)) (Fwd 0) st.1 0
      let t2 := Vmath.Vmul nTracePts t1 t1 t1 0
      (t2, Vmath.Vadd nTracePts t2 st.2 st.2 0))
    (tmp1, (fun _ => 0.0))).2
  Vmath.Vsqrt sqrt nTracePts absVel absVel 0

/-- The loop of `RiemannInvariantBC` over the trace points that fills the
arrays `pressure` and `soundSpeed`; the result is the pair
`(pressure, soundSpeed)`. -/
def RiemannInvariantBC_pressure (sqrt : K → K) (S : CompressibleFlowSystem K)
    (Fwd : Nat → Nat → K) : (Nat → K) × (Nat → K) :=
  let nTracePts := S.GetTraceTotPoints
  let gamma := S.m_gamma
  let gammaMinusOne := gamma - 1.0
  forLoop 0 nTracePts
    (fun i st =>
      let pressure := Function.update st.1 i
        (if S.m_spacedim = 1 then
          gammaMinusOne * (Fwd 2 i - 0.5 * (Fwd 1 i * Fwd 1 i / Fwd 0 i))
        else if S.m_spacedim = 2 then
          gammaMinusOne * (Fwd 3 i - 0.5 * (Fwd 1 i * Fwd 1 i / Fwd 0 i
            + Fwd 2 i * Fwd 2 i / Fwd 0 i))
        else
          gammaMinusOne * (Fwd 4 i - 0.5 * (Fwd 1 i * Fwd 1 i / Fwd 0 i
            + Fwd 2 i * Fwd 2 i / Fwd 0 i + Fwd 3 i * Fwd 3 i / Fwd 0 i)))
      (pressure, Function.update st.2 i (sqrt (gamma * pressure i / Fwd 0 i))))
    ((fun _ => 0.0), (fun _ => 0.0))

/-- The array `Mach` of `RiemannInvariantBC`. -/
def RiemannInvariantBC_Mach (S : CompressibleFlowSystem K) (Vn soundSpeed : Nat → K) :
    Nat → K :=
  let nTracePts := S.GetTraceTotPoints
  let Mach0 : Nat → K := fun _ => 0.0
  let Mach1 := Vmath.Vdiv nTracePts Vn soundSpeed Mach0 0
  Vmath.Vabs nTracePts Mach1 Mach1 0

/-- The pair `(rPlus, rMinus)` chosen in the inflow branch (`Vn[pnt] <= 0.0`)
of `RiemannInvariantBC`. -/
def RiemannInvariantBC_inflowChars (sqrt : K → K) (S : CompressibleFlowSystem K)
    (Fwd : Nat → Nat → K) (Vn VnInf pressure Mach : Nat → K) (pnt : Nat) : K × K :=
  let gamma := S.m_gamma
  let gammaMinusOne := gamma - 1.0
  let gammaMinusOneInv := 1.0 / gammaMinusOne
  -- Subsonic flows
  if Mach pnt < 1.00 then
    -- + Characteristic from inside
    let cPlus := sqrt (gamma * pressure pnt / Fwd 0 pnt)
    let rPlus := Vn pnt + 2.0 * cPlus * gammaMinusOneInv
    -- - Characteristic from boundary
    let cMinus := sqrt (gamma * S.m_pInf / S.m_rhoInf)
    let rMinus := VnInf pnt - 2.0 * cMinus * gammaMinusOneInv
    (rPlus, rMinus)
  else
    let cPlus := sqrt (gamma * S.m_pInf / S.m_rhoInf)
    let rPlus := VnInf pnt + 2.0 * cPlus * gammaMinusOneInv
    let rMinus := VnInf pnt - 2.0 * cPlus * gammaMinusOneInv
    (rPlus, rMinus)

/-- The pair `(rPlus, rMinus)` chosen in the outflow branch of
`RiemannInvariantBC`. -/
def RiemannInvariantBC_outflowChars (sqrt : K → K) (S : CompressibleFlowSystem K)
    (Fwd : Nat → Nat → K) (Vn VnInf pressure Mach : Nat → K) (pnt : Nat) : K × K :=
  let gamma := S.m_gamma
  let gammaMinusOne := gamma - 1.0
  let gammaMinusOneInv := 1.0 / gammaMinusOne
  -- Subsonic flows
  if Mach pnt < 1.00 then
    -- + Characteristic from inside
    let cPlus := sqrt (gamma * pressure pnt / Fwd 0 pnt)
    let rPlus := Vn pnt + 2.0 * cPlus * gammaMinusOneInv
    -- - Characteristic from boundary
    let cMinus := sqrt (gamma * S.m_pInf / S.m_rhoInf)
    let rMinus := VnInf pnt - 2.0 * cMinus * gammaMinusOneInv
    (rPlus, rMinus)
  else
    let cPlus := sqrt (gamma * pressure pnt / Fwd 0 pnt)
    let rPlus := Vn pnt + 2.0 * cPlus * gammaMinusOneInv
    let rMinus := Vn pnt - 2.0 * cPlus * gammaMinusOneInv
    (rPlus, rMinus)

/-- The boundary state `(rhoBC, rhoVelBC, EBC)` that `RiemannInvariantBC`
computes from the pair `(rPlus, rMinus)`, the reference normal velocity `VnRef`,
the entropy `sBC` and the reference velocity `velRef` of the branch. The state
of the loop over `j` is `(velBC, rhoVelBC, EkBC)`. -/
def RiemannInvariantBC_state (pow : K → K → K) (S : CompressibleFlowSystem K)
    (r : K × K) (VnRef sBC : K) (velRef : Nat → K) (pnt : Nat) : K × (Nat → K) × K :=
  let nDimensions := S.m_spacedim
  let gamma := S.m_gamma
  let gammaInv := 1.0 / gamma
  let gammaMinusOne := gamma - 1.0
  let gammaMinusOneInv := 1.0 / gammaMinusOne
  -- Riemann boundary variables
  let VNBC := 0.5 * (r.1 + r.2)
  let cBC := 0.25 * gammaMinusOne * (r.1 - r.2)
  let VDBC := VNBC - VnRef
  -- Thermodynamic boundary variables
  let rhoBC := pow ((cBC * cBC) / (gamma * sBC)) gammaMinusOneInv
  let pBC := rhoBC * cBC * cBC * gammaInv
  -- Boundary velocities
  let vel := forLoop 0 nDimensions
    (fun j st =>
      let velBC := Function.update st.1 j (velRef j + VDBC * S.m_traceNormals j pnt)
      let rhoVelBC := Function.update st.2.1 j (rhoBC * velBC j)
      (velBC, rhoVelBC, st.2.2 + 0.5 * rhoBC * velBC j * velBC j))
    ((fun _ => 0.0), (fun _ => 0.0), 0.0)
  -- Boundary energy
  let EBC := pBC * gammaMinusOneInv + vel.2.2
  (rhoBC, vel.2.1, EBC)

/-- The boundary state `(rhoBC, rhoVelBC, EBC)` of `RiemannInvariantBC` at the
trace point `pnt`: the inflow branch for `Vn[pnt] <= 0.0`, else the outflow
branch. -/
def RiemannInvariantBC_point (sqrt : K → K) (pow : K → K → K)
    (S : CompressibleFlowSystem K) (Fwd : Nat → Nat → K)
    (Vn VnInf pressure Mach velInf : Nat → K) (pnt : Nat) : K × (Nat → K) × K :=
  -- Impose inflow Riemann invariant
  if Vn pnt ≤ 0.0 then
    RiemannInvariantBC_state pow S
      (RiemannInvariantBC_inflowChars sqrt S Fwd Vn VnInf pressure Mach pnt)
      (VnInf pnt) (S.m_pInf / (pow S.m_rhoInf S.m_gamma)) velInf pnt
  else
    RiemannInvariantBC_state pow S
      (RiemannInvariantBC_outflowChars sqrt S Fwd Vn VnInf pressure Mach pnt)
      (Vn pnt) (pressure pnt / (pow (Fwd 0 pnt) S.m_gamma))
      (fun j => Fwd (j + 1) pnt / Fwd 0 pnt) pnt

/-- The three assignments into the boundary storage at index `id1 + i` that end
the pass of `RiemannInvariantBC` for one point. -/
def RiemannInvariantBC_write (S : CompressibleFlowSystem K) (bcRegion idx : Nat)
    (bc : K × (Nat → K) × K) (bnd : Nat → Nat → Nat → K) : Nat → Nat → Nat → K :=
  let nDimensions := S.m_spacedim
  let b1 := set3 bnd 0 bcRegion idx bc.1
  let b2 := forLoop 0 nDimensions (fun j b => set3 b (j + 1) bcRegion idx (bc.2.1 j)) b1
  set3 b2 (nDimensions + 1) bcRegion idx bc.2.2

/-- Body of the loop over boundary elements `e` in
`CompressibleFlowSystem::RiemannInvariantBC`: the loop on the points of the
element. -/
def RiemannInvariantBC_element (sqrt : K → K) (pow : K → K → K)
    (S : CompressibleFlowSystem K) (bcRegion cnt : Nat) (Fwd : Nat → Nat → K)
    (Vn VnInf pressure Mach velInf : Nat → K) (e : Nat) (bnd : Nat → Nat → Nat → K) :
    Nat → Nat → Nat → K :=
  let nBCEdgePts := S.bndGetNumPoints0 bcRegion e
  let id1 := id1 S bcRegion e
  let id2 := id2 S cnt e
  forLoop 0 nBCEdgePts
    (fun i b =>
      let pnt := id2 + i
      RiemannInvariantBC_write S bcRegion (id1 + i)
        (RiemannInvariantBC_point sqrt pow S Fwd Vn VnInf pressure Mach velInf pnt) b)
    bnd

/-- The function `CompressibleFlowSystem::RiemannInvariantBC`; `sqrt` and `pow`
are the C library's, `nVariables` is `physarray.num_elements()`, `bnd` the
boundary storage, which is returned. -/
def RiemannInvariantBC (sqrt : K → K) (pow : K → K → K) (S : CompressibleFlowSystem K)
    (bcRegion cnt nVariables : Nat) (physarray : Nat → Nat → K)
    (bnd : Nat → Nat → Nat → K) : Nat → Nat → Nat → K :=
  -- Computing the normal velocity for characteristics coming from outside
  let VnInf := RiemannInvariantBC_VnInf S
  let velInf := RiemannInvariantBC_velInf S
  -- Get physical values of the forward trace
  let Fwd := extractFwd S nVariables physarray
  -- Computing the normal velocity for characteristics coming from inside
  let Vn := RiemannInvariantBC_Vn S Fwd
  -- Get speed of sound
  let ps := RiemannInvariantBC_pressure sqrt S Fwd
  -- Get Mach
  let Mach := RiemannInvariantBC_Mach S Vn ps.2
  let eMax := S.bndGetExpSize bcRegion
  -- Loop on bcRegions
  forLoop 0 eMax
    (RiemannInvariantBC_element sqrt pow S bcRegion cnt Fwd Vn VnInf ps.1 Mach velInf) bnd

/-- The value that `RiemannInvariantBC` assigns for variable `v` at a boundary
point whose trace point is `pnt`: density for `v = 0`, momentum component
`v - 1` for `1 ≤ v ≤ spacedim`, energy otherwise. -/
def RiemannInvariantBC_value (sqrt : K → K) (pow : K → K → K)
    (S : CompressibleFlowSystem K) (Fwd : Nat → Nat → K) (v pnt : Nat) : K :=
  let bc := RiemannInvariantBC_point sqrt pow S Fwd (RiemannInvariantBC_Vn S Fwd)
    (RiemannInvariantBC_VnInf S) (RiemannInvariantBC_pressure sqrt S Fwd).1
    (RiemannInvariantBC_Mach S (RiemannInvariantBC_Vn S Fwd)
      (RiemannInvariantBC_pressure sqrt S Fwd).2)
    (RiemannInvariantBC_velInf S) pnt
  if v = 0 then bc.1 else if v < S.m_spacedim + 1 then bc.2.1 (v - 1) else bc.2.2

/-! ### Zero-order extrapolation `ExtrapOrder0BC` -/

/-- Body of the loop over boundary elements `e` in
`CompressibleFlowSystem::ExtrapOrder0BC`: the loop on the points of the
element. -/
def ExtrapOrder0BC_element (S : CompressibleFlowSystem K) (bcRegion cnt nVariables : Nat)
    (Fwd : Nat → Nat → K) (e : Nat) (bnd : Nat → Nat → Nat → K) : Nat → Nat → Nat → K :=
  let nDimensions := S.m_spacedim
  let nBCEdgePts := S.bndGetNumPoints0 bcRegion e
  let id1 := id1 S bcRegion e
  let id2 := id2 S cnt e
  forLoop 0 nBCEdgePts
    (fun i b =>
      let pnt := id2 + i
      -- Setting up bcs for density
      let b1 := set3 b 0 bcRegion (id1 + i) (Fwd 0 pnt)
      -- Setting up bcs for velocities
      let b2 := forLoop 1 nDimensions
        (fun j b => set3 b j bcRegion (id1 + i) (Fwd j pnt)) b1
      -- Setting up bcs for energy
      set3 b2 (nVariables - 1) bcRegion (id1 + i) (Fwd (nVariables - 1) pnt))
    bnd

/-- The function `CompressibleFlowSystem::ExtrapOrder0BC`. -/
def ExtrapOrder0BC (S : CompressibleFlowSystem K) (bcRegion cnt nVariables : Nat)
    (physarray : Nat → Nat → K) (bnd : Nat → Nat → Nat → K) : Nat → Nat → Nat → K :=
  -- Get physical values of the forward trace
  let Fwd := extractFwd S nVariables physarray
  let eMax := S.bndGetExpSize bcRegion
  -- Loop on bcRegions
  forLoop 0 eMax (ExtrapOrder0BC_element S bcRegion cnt nVariables Fwd) bnd

/-- A transformer of the boundary storage that only assigns values which do not
depend on the storage: at every index, either the result is the same for any
two initial storages, or the entry is left as it was. -/
def WritesConstants {α : Type} (F : (Nat → Nat → Nat → α) → Nat → Nat → Nat → α) : Prop :=
  ∀ b1 b2 v r x, F b1 v r x = F b2 v r x ∨ (F b1 v r x = b1 v r x ∧ F b2 v r x = b2 v r x)

/-- Modelled from the spec: layout of a BoundaryRegion (the mesh and trace
classes are not part of this source file). Each boundary element has its own
point count, its own offset into the boundary storage and a matching offset
into the trace; distinct elements of one region occupy disjoint index ranges
of the boundary storage and of the trace. `npts e` is the point count that the
closure reads for element `e`. -/
def RegionLayout (S : CompressibleFlowSystem K) (bcRegion cnt : Nat) (npts : Nat → Nat) :
    Prop :=
  ∀ e1 e2, e1 < S.bndGetExpSize bcRegion → e2 < S.bndGetExpSize bcRegion → e1 ≠ e2 →
    (id1 S bcRegion e1 + npts e1 ≤ id1 S bcRegion e2 ∨
      id1 S bcRegion e2 + npts e2 ≤ id1 S bcRegion e1) ∧
    (id2 S cnt e1 + npts e1 ≤ id2 S cnt e2 ∨ id2 S cnt e2 + npts e2 ≤ id2 S cnt e1)

/-- Closed form of the forward trace after the reflection step of the wall and
symmetry closures at a trace point `p`: the momentum variables `1 … spacedim`
become `m - 2 (m . n) n`, the other variables are unchanged. -/
def wallReflect (S : CompressibleFlowSystem K) (F : Nat → Nat → K) (v p : Nat) : K :=
  if 1 ≤ v ∧ v < 1 + S.m_spacedim then
    F v p - 2 * (∑ l in Finset.range S.m_spacedim, F (1 + l) p * S.m_traceNormals l p)
      * S.m_traceNormals (v - 1) p
  else F v p

/-- Closed form of the forward trace after the negation step of the viscous
wall closure at a trace point `p`. -/
def wallNegate (S : CompressibleFlowSystem K) (F : Nat → Nat → K) (v p : Nat) : K :=
  if 1 ≤ v ∧ v < 1 + S.m_spacedim then - F v p else F v p

/-! ## Concrete data -/

/-- A solver object with the default parameters of `v_InitObject`, one
quadrature point, and one boundary region of `nElmt` one-point elements laid
out consecutively; the trace normal is the first unit vector. -/
def sampleSystem (K : Type) [LinearOrderedField K] (spacedim : Nat) (gamma : K)
    (nElmt : Nat) : CompressibleFlowSystem K where
  m_spacedim := spacedim
  m_gamma := gamma
  m_pInf := 101325
  m_rhoInf := 1.225
  m_uInf := 0.1
  m_vInf := 0.0
  m_wInf := 0.0
  m_gasConstant := 287.058
  m_mu := 1.78e-05
  m_thermalConductivity := 0.0257
  GetTotPoints := 1
  GetTraceTotPoints := nElmt
  m_traceNormals := fun i _ => if i = 0 then 1 else 0
  traceBndMap := fun t => t
  traceGetPhys_Offset := fun t => t
  ExtractTracePhys := fun _ a => a
  bndGetExpSize := fun _ => nElmt
  bndGetTotPoints := fun _ _ => 1
  bndGetNumPoints0 := fun _ _ => 1
  bndGetPhys_Offset := fun _ e => e
  m_ViscosityType := "Constant"
  m_fields_num_elements := spacedim + 2

/-- A 2-D far-field sample: `gamma = 1.4`, freestream `rho = 1`, `p = 5/7` (so
that the freestream sound speed is `sqrt 1`), velocity `(0, 1/2)`, and the unit
trace normal `(0, 1)`; geometry as in `sampleSystem` with one element. -/
def farFieldSystem (K : Type) [LinearOrderedField K] : CompressibleFlowSystem K where
  m_spacedim := 2
  m_gamma := 1.4
  m_pInf := 5 / 7
  m_rhoInf := 1
  m_uInf := 0
  m_vInf := 0.5
  m_wInf := 0
  m_gasConstant := 287.058
  m_mu := 1.78e-05
  m_thermalConductivity := 0.0257
  GetTotPoints := 1
  GetTraceTotPoints := 1
  m_traceNormals := fun i _ => if i = 1 then 1 else 0
  traceBndMap := fun t => t
  traceGetPhys_Offset := fun t => t
  ExtractTracePhys := fun _ a => a
  bndGetExpSize := fun _ => 1
  bndGetTotPoints := fun _ _ => 1
  bndGetNumPoints0 := fun _ _ => 1
  bndGetPhys_Offset := fun _ e => e
  m_ViscosityType := "Constant"
  m_fields_num_elements := 4

/-- A state with the same values at every point: variable `v` has the value
`vals[v]`. -/
def uniformState {K : Type} [LinearOrderedField K] (vals : List K) : Nat → Nat → K :=
  fun v _ => vals.getD v 0

/-- A state that is uniform on the points below `split` (variable `v` has the
value `vals0[v]`) and uniform from `split` on (`vals1[v]`). -/
def splitState {K : Type} [LinearOrderedField K] (split : Nat) (vals0 vals1 : List K) :
    Nat → Nat → K :=
  fun v q => if q < split then vals0.getD v 0 else vals1.getD v 0

/-- A state on four points: at rest on the first two,
`(rho, rho u, E) = (1, 0, 25/14)`, and with velocity `3` on the last two,
`(1, 3, 44/7)`; for `gamma = 1.4` the pressure is `5/7` and the squared sound
speed `1` at every point. -/
def secondSegmentMoving (K : Type) [LinearOrderedField K] : Nat → Nat → K :=
  splitState 2 [1, 0, 25 / 14] [1, 3, 44 / 7]

/-- A 1-D sample with four quadrature points and `gamma = 1.4`. -/
def lineSystem (K : Type) [LinearOrderedField K] : CompressibleFlowSystem K :=
  { sampleSystem K 1 1.4 2 with GetTotPoints := 4 }

/-- Two straight segments with two points each on the four points of
`lineSystem`: derivative factor `1`, not deformed, none of the three shapes
tested by `v_GetTimeStep`, the integral is the sum of the two point values,
three modes, safety factor `1/2`, estimator constant `2`. -/
def lineExpansion (K : Type) [LinearOrderedField K] : ExpansionData K where
  GetExpSize := 2
  expGetTotPoints := fun _ => 2
  GetDerivFactors := fun _ _ _ => 1
  isDeformed := fun _ => false
  isTriExp := fun _ => false
  isQuadExp := fun _ => false
  isHexExp := fun _ => false
  Integral := fun _ a => a 0 + a 1
  ExpOrder := fun _ => 3
  m_cflSafetyFactor := 1 / 2
  MaxTimeStepEstimator := 2

/-- A 2-D sample with eight quadrature points and `gamma = 1.4`. -/
def planeSystem (K : Type) [LinearOrderedField K] : CompressibleFlowSystem K :=
  { sampleSystem K 2 1.4 2 with GetTotPoints := 8 }

/-- A triangle (element `0`) and a quadrilateral (element `1`) with four points
each on the eight points of `planeSystem`: derivative factors of the identity
(`gmat[0] = gmat[3] = 1`, `gmat[1] = gmat[2] = 0`), not deformed, the integral
is the sum of the four point values, three modes, safety factor `1/2`,
estimator constant `2`. -/
def planeExpansion (K : Type) [LinearOrderedField K] : ExpansionData K where
  GetExpSize := 2
  expGetTotPoints := fun _ => 4
  GetDerivFactors := fun _ r _ => if r = 0 ∨ r = 3 then 1 else 0
  isDeformed := fun _ => false
  isTriExp := fun n => decide (n = 0)
  isQuadExp := fun n => decide (n = 1)
  isHexExp := fun _ => false
  Integral := fun _ a => a 0 + a 1 + a 2 + a 3
  ExpOrder := fun _ => 3
  m_cflSafetyFactor := 1 / 2
  MaxTimeStepEstimator := 2

/-- A 3-D sample whose boundary region is one quadrilateral face with `2 x 2`
points: `GetTotPoints()` is `4` and `GetNumPoints(0)` is `2` for the face, the
trace has the four points of the face; the rest as in `sampleSystem`. -/
def faceSystem (K : Type) [LinearOrderedField K] : CompressibleFlowSystem K :=
  { sampleSystem K 3 1.4 1 with
    GetTraceTotPoints := 4
    bndGetTotPoints := fun _ _ => 4
    bndGetNumPoints0 := fun _ _ => 2 }

/-- A session that defines every parameter but no solver info. -/
def sessionWithoutUpwindType : SessionReader where
  DefinesSolverInfo := fun _ => false
  DefinesParameter := fun _ => true

/-- A session that defines every solver info and every parameter except `vInf`
and `wInf`. -/
def sessionWithoutVInfWInf : SessionReader where
  DefinesSolverInfo := fun _ => true
  DefinesParameter := fun name => name ≠ "vInf" ∧ name ≠ "wInf"

end Closure

/-! ## Loop and store lemmas -/

section Lemmas

lemma forLoop_zero {σ : Type} (lo : Nat) (body : Nat → σ → σ) (s : σ) :
    forLoop lo 0 body s = s := rfl

lemma forLoop_succ {σ : Type} (lo n : Nat) (body : Nat → σ → σ) (s : σ) :
    forLoop lo (n + 1) body s = body (lo + n) (forLoop lo n body s) := rfl

/-- Loop invariant rule for `forLoop`. -/
lemma forLoop_induct {σ : Type} (P : Nat → σ → Prop) (lo m : Nat)
    (body : Nat → σ → σ) (s : σ) (h0 : P 0 s)
    (hstep : ∀ n, n < m → ∀ st, P n st → P (n + 1) (body (lo + n) st)) :
    P m (forLoop lo m body s) := by
  induction m with
  | zero => exact h0
  | succ n ih =>
    rw [forLoop_succ]
    exact hstep n (Nat.lt_succ_self n) _
      (ih (fun j hj st hst => hstep j (Nat.lt_succ_of_lt hj) st hst))

lemma store_zero_lt {K : Type} (n : Nat) (f z : Nat → K) (k : Nat) (hk : k < n) :
    Vmath.store n f z 0 k = f k := by
  simp [Vmath.store, hk]

lemma store_inside {K : Type} (n : Nat) (f z : Nat → K) (zo i : Nat) (hi : i < n) :
    Vmath.store n f z zo (zo + i) = f i := by
  simp [Vmath.store, hi]

lemma store_outside {K : Type} (n : Nat) (f z : Nat → K) (zo k : Nat)
    (hk : ¬ (zo ≤ k ∧ k < zo + n)) :
    Vmath.store n f z zo k = z k := by
  simp only [Vmath.store, if_neg hk]

variable {K : Type} [LinearOrderedField K]

/-- An accumulation loop `acc = w_i * x_i + acc` sums the products. -/
lemma forLoop_Vvtvp_sum (nq lo m : Nat) (w x : Nat → Nat → K) (p0 : Nat → K)
    (k : Nat) (hk : k < nq) :
    forLoop lo m (fun i p => Vmath.Vvtvp nq (w i) (x i) p p 0) p0 k
      = p0 k + ∑ j in Finset.range m, w (lo + j) k * x (lo + j) k := by
  induction m with
  | zero => simp [forLoop_zero]
  | succ n ih =>
    rw [forLoop_succ, Finset.sum_range_succ]
    show Vmath.store nq _ _ 0 k = _
    rw [store_zero_lt _ _ _ _ hk, ih]
    ring

/-- A sum over `1 + j` for `j < sd - 1` after the term for `0` is the sum over
all of `range sd`. -/
lemma head_add_sum_tail (sd : Nat) (h1 : 1 ≤ sd) (f : Nat → K) :
    f 0 + ∑ j in Finset.range (sd - 1), f (1 + j) = ∑ j in Finset.range sd, f j := by
  obtain ⟨n, rfl⟩ : ∃ n, sd = n + 1 := ⟨sd - 1, by omega⟩
  simp only [Nat.add_sub_cancel]
  rw [Finset.sum_range_succ']
  simp [add_comm]

lemma forLoop_from_zero_succ {σ : Type} (n : Nat) (body : Nat → σ → σ) (s : σ) :
    forLoop 0 (n + 1) body s = body n (forLoop 0 n body s) := by
  rw [forLoop_succ, Nat.zero_add]

/-- A loop `a[c + i] = G i (a[c + i])` over `i < m` rewrites exactly the rows
`c … c+m-1`, each from its own old content. -/
lemma forLoop_update_rows {α : Type} (c m : Nat) (G : Nat → α → α) (a0 : Nat → α)
    (v : Nat) :
    forLoop 0 m (fun i a => Function.update a (c + i) (G i (a (c + i)))) a0 v
      = if c ≤ v ∧ v < c + m then G (v - c) (a0 v) else a0 v := by
  induction m with
  | zero =>
    have : ¬ (c ≤ v ∧ v < c + 0) := by omega
    rw [forLoop_zero, if_neg this]
  | succ n ih =>
    rw [forLoop_from_zero_succ]
    by_cases hv : v = c + n
    · subst hv
      have h1 : ¬ (c ≤ c + n ∧ c + n < c + n) := by omega
      have h2 : c ≤ c + n ∧ c + n < c + (n + 1) := by omega
      have ih2 : forLoop 0 n (fun i a => Function.update a (c + i) (G i (a (c + i)))) a0
          (c + n) = a0 (c + n) := by
        rw [ih, if_neg h1]
      rw [Function.update_same, ih2, if_pos h2, Nat.add_sub_cancel_left]
    · rw [Function.update_noteq hv, ih]
      have : (c ≤ v ∧ v < c + n) ↔ (c ≤ v ∧ v < c + (n + 1)) := by omega
      simp only [this]

/-- Value computed by `GetVelocityVector`: momentum over density. -/
lemma GetVelocityVector_apply (S : CompressibleFlowSystem K) (nq : Nat)
    (physfield velocity : Nat → Nat → K) (j k : Nat)
    (hj : j < S.m_spacedim) (hk : k < nq) :
    GetVelocityVector S nq physfield velocity j k = physfield (1 + j) k / physfield 0 k := by
  have h := forLoop_update_rows 0 S.m_spacedim
    (fun i row => Vmath.Vdiv nq (physfield (1 + i)) (physfield 0) row 0) velocity j
  simp only [Nat.zero_add] at h
  unfold GetVelocityVector
  rw [h]
  simp only [Nat.zero_le, hj, true_and, if_true, Nat.sub_zero]
  exact store_zero_lt _ _ _ _ hk

/-- Value computed by the single-argument `GetPressure`. -/
lemma GetPressure_apply (S : CompressibleFlowSystem K) (nq : Nat)
    (physfield : Nat → Nat → K) (pressure : Nat → K) (k : Nat)
    (h1 : 1 ≤ S.m_spacedim) (hk : k < nq) :
    GetPressure S nq physfield pressure k
      = (S.m_gamma - 1) * (-0.5 *
          ((∑ j in Finset.range S.m_spacedim, physfield (1 + j) k * physfield (1 + j) k)
            / physfield 0 k) + physfield (S.m_spacedim + 1) k) := by
  simp only [GetPressure, Vmath.Smul, Vmath.Svtvp, Vmath.Vdiv, Vmath.Vmul]
  rw [store_zero_lt _ _ _ _ hk, store_zero_lt _ _ _ _ hk, store_zero_lt _ _ _ _ hk,
    forLoop_Vvtvp_sum nq 1 (S.m_spacedim - 1) (fun i => physfield (1 + i))
      (fun i => physfield (1 + i)) _ k hk,
    store_zero_lt _ _ _ _ hk,
    head_add_sum_tail S.m_spacedim h1 (fun j => physfield (1 + j) k * physfield (1 + j) k)]

/-- Value computed by the velocity-supplied `GetPressure`. -/
lemma GetPressureVel_apply (S : CompressibleFlowSystem K) (nq : Nat)
    (physfield velocity : Nat → Nat → K) (pressure : Nat → K) (k : Nat)
    (h1 : 1 ≤ S.m_spacedim) (hk : k < nq) :
    GetPressureVel S nq physfield velocity pressure k
      = (S.m_gamma - 1) * (-0.5 *
          (∑ j in Finset.range S.m_spacedim, velocity j k * physfield (1 + j) k)
            + physfield (S.m_spacedim + 1) k) := by
  simp only [GetPressureVel, Vmath.Smul, Vmath.Svtvp, Vmath.Vmul]
  rw [store_zero_lt _ _ _ _ hk, store_zero_lt _ _ _ _ hk,
    forLoop_Vvtvp_sum nq 1 (S.m_spacedim - 1) (fun i => velocity i)
      (fun i => physfield (1 + i)) _ k hk,
    store_zero_lt _ _ _ _ hk,
    head_add_sum_tail S.m_spacedim h1 (fun j => velocity j k * physfield (1 + j) k)]

/-- Value computed by `GetMach`: the squared momentum divided twice by the
density and once by the sound speed. -/
lemma GetMach_apply (S : CompressibleFlowSystem K)
    (physfield : Nat → Nat → K) (soundspeed mach : Nat → K) (k : Nat)
    (h1 : 1 ≤ S.m_spacedim) (hk : k < S.GetTotPoints) :
    GetMach S physfield soundspeed mach k
      = (∑ j in Finset.range S.m_spacedim, physfield (1 + j) k * physfield (1 + j) k)
          / physfield 0 k / physfield 0 k / soundspeed k := by
  simp only [GetMach, Vmath.Vdiv, Vmath.Vmul]
  rw [store_zero_lt _ _ _ _ hk, store_zero_lt _ _ _ _ hk, store_zero_lt _ _ _ _ hk,
    forLoop_Vvtvp_sum S.GetTotPoints 1 (S.m_spacedim - 1) (fun i => physfield (1 + i))
      (fun i => physfield (1 + i)) _ k hk,
    store_zero_lt _ _ _ _ hk,
    head_add_sum_tail S.m_spacedim h1 (fun j => physfield (1 + j) k * physfield (1 + j) k)]

/-- A loop `fl[a][i] = G i (fl[a][i])` over `i < m` rewrites exactly the
entries `fl[a][0] … fl[a][m-1]`. -/
lemma forLoop_set2_snd {α : Type} (a m : Nat) (G : Nat → α → α) (fl0 : Nat → Nat → α)
    (v d : Nat) :
    forLoop 0 m (fun i fl => set2 fl a i (G i (fl a i))) fl0 v d
      = if v = a ∧ d < m then G d (fl0 a d) else fl0 v d := by
  induction m generalizing v d with
  | zero =>
    have : ¬ (v = a ∧ d < 0) := by omega
    rw [forLoop_zero, if_neg this]
  | succ n ih =>
    rw [forLoop_from_zero_succ]
    show (if v = a ∧ d = n then _ else _) = _
    by_cases h : v = a ∧ d = n
    · obtain ⟨rfl, rfl⟩ := h
      have h1 : ¬ (v = v ∧ d < d) := by omega
      rw [if_pos ⟨rfl, rfl⟩, if_pos ⟨rfl, Nat.lt_succ_self _⟩, ih, if_neg h1]
    · rw [if_neg h, ih]
      have : (v = a ∧ d < n) ↔ (v = a ∧ d < n + 1) := by omega
      simp only [this]

/-- A loop `b[i][r] = G i (b[i][r])` over `i < m` rewrites exactly the
entries `b[0][r] … b[m-1][r]`. -/
lemma forLoop_set2_fst {α : Type} (r m : Nat) (G : Nat → α → α) (b0 : Nat → Nat → α)
    (v r2 : Nat) :
    forLoop 0 m (fun i b => set2 b i r (G i (b i r))) b0 v r2
      = if v < m ∧ r2 = r then G v (b0 v r) else b0 v r2 := by
  induction m generalizing v r2 with
  | zero =>
    have : ¬ (v < 0 ∧ r2 = r) := by omega
    rw [forLoop_zero, if_neg this]
  | succ n ih =>
    rw [forLoop_from_zero_succ]
    show (if v = n ∧ r2 = r then _ else _) = _
    by_cases h : v = n ∧ r2 = r
    · obtain ⟨rfl, rfl⟩ := h
      have h1 : ¬ (v < v ∧ r2 = r2) := by omega
      rw [if_pos ⟨rfl, rfl⟩, if_pos ⟨Nat.lt_succ_self _, rfl⟩, ih, if_neg h1]
    · rw [if_neg h, ih]
      have : (v < n ∧ r2 = r) ↔ (v < n + 1 ∧ r2 = r) := by omega
      simp only [this]

/-- A loop whose `i`-th pass rewrites the entries `fl[i+1][d]`, `d < sd`, each
from its own old content, rewrites exactly the rows `1 … m`. -/
lemma forLoop_rows_block {α : Type} (sd m : Nat) (H : Nat → Nat → α → α)
    (fl0 : Nat → Nat → α) (v d : Nat) :
    forLoop 0 m
        (fun i fl => fun v2 d2 => if v2 = i + 1 ∧ d2 < sd then H i d2 (fl v2 d2) else fl v2 d2)
        fl0 v d
      = if (1 ≤ v ∧ v < 1 + m) ∧ d < sd then H (v - 1) d (fl0 v d) else fl0 v d := by
  induction m generalizing v d with
  | zero =>
    have : ¬ ((1 ≤ v ∧ v < 1 + 0) ∧ d < sd) := by omega
    rw [forLoop_zero, if_neg this]
  | succ n ih =>
    rw [forLoop_from_zero_succ]
    show (if v = n + 1 ∧ d < sd then _ else _) = _
    by_cases h : v = n + 1 ∧ d < sd
    · obtain ⟨rfl, hd⟩ := h
      have h1 : ¬ ((1 ≤ n + 1 ∧ n + 1 < 1 + n) ∧ d < sd) := by omega
      have h2 : (1 ≤ n + 1 ∧ n + 1 < 1 + (n + 1)) ∧ d < sd := by omega
      rw [if_pos ⟨rfl, hd⟩, if_pos h2, ih, if_neg h1, Nat.add_sub_cancel]
    · rw [if_neg h, ih]
      have : ((1 ≤ v ∧ v < 1 + n) ∧ d < sd) ↔ ((1 ≤ v ∧ v < 1 + (n + 1)) ∧ d < sd) := by
        omega
      simp only [this]

/-- Two loop bodies that agree on the indices the loop visits give the same
loop. -/
lemma forLoop_congr {σ : Type} (lo m : Nat) (body1 body2 : Nat → σ → σ) (s : σ)
    (h : ∀ i, i < m → ∀ st, body1 (lo + i) st = body2 (lo + i) st) :
    forLoop lo m body1 s = forLoop lo m body2 s := by
  induction m with
  | zero => rfl
  | succ n ih =>
    rw [forLoop_succ, forLoop_succ, ih (fun i hi st => h i (Nat.lt_succ_of_lt hi) st),
      h n (Nat.lt_succ_self n)]

/-- The momentum-flux pass of `GetFluxVector` for variable `i + 1`: the inner
loop over the directions followed by the pressure added on the diagonal. -/
lemma flux_momentum_pass (sd nq i : Nat) (hi : i < sd) (velocity : Nat → Nat → K)
    (m pressure : Nat → K) (fl : Nat → Nat → Nat → K) :
    set2 (forLoop 0 sd
        (fun j g => set2 g (i + 1) j (Vmath.Vmul nq (velocity j) m (g (i + 1) j) 0)) fl)
      (i + 1) i
      (Vmath.Vadd nq
        (forLoop 0 sd
          (fun j g => set2 g (i + 1) j (Vmath.Vmul nq (velocity j) m (g (i + 1) j) 0)) fl
          (i + 1) i)
        pressure
        (forLoop 0 sd
          (fun j g => set2 g (i + 1) j (Vmath.Vmul nq (velocity j) m (g (i + 1) j) 0)) fl
          (i + 1) i) 0)
      = fun v d => if v = i + 1 ∧ d < sd then
          Vmath.store nq (fun k => velocity d k * m k + if d = i then pressure k else 0)
            (fl v d) 0
        else fl v d := by
  funext v d
  have hrow := forLoop_set2_snd (i + 1) sd
    (fun j row => Vmath.Vmul nq (velocity j) m row 0) fl
  show (if v = i + 1 ∧ d = i then _ else _) = _
  by_cases h : v = i + 1 ∧ d = i
  · obtain ⟨rfl, rfl⟩ := h
    rw [if_pos ⟨rfl, rfl⟩, if_pos ⟨rfl, hi⟩, hrow, if_pos ⟨rfl, hi⟩]
    funext k
    by_cases hk : k < nq
    · simp [Vmath.Vadd, Vmath.Vmul, Vmath.store, hk]
    · simp [Vmath.Vadd, Vmath.Vmul, Vmath.store, hk]
  · rw [if_neg h, hrow]
    by_cases h2 : v = i + 1 ∧ d < sd
    · have hne : ¬ d = i := fun hd => h ⟨h2.1, hd⟩
      rw [if_pos h2, if_pos h2, h2.1]
      funext k
      simp only [Vmath.Vmul, Vmath.store, if_neg hne, add_zero]
    · rw [if_neg h2, if_neg h2]

/-- The three loops of `GetFluxVector` in closed form, entry by entry, for
any velocity and pressure arrays. -/
lemma flux_loops_apply (sd nq : Nat) (physfield vel : Nat → Nat → K) (pr : Nat → K)
    (flux : Nat → Nat → Nat → K) (v d k : Nat) (hd : d < sd) (hk : k < nq) :
    forLoop 0 sd
        (fun j fl => set2 fl (sd + 1) j
          (Vmath.Vmul nq (vel j) (Vmath.Vadd nq (physfield (sd + 1)) pr pr 0)
            (fl (sd + 1) j) 0))
        (forLoop 0 sd
          (fun i fl =>
            set2 (forLoop 0 sd
                (fun j g => set2 g (i + 1) j
                  (Vmath.Vmul nq (vel j) (physfield (i + 1)) (g (i + 1) j) 0)) fl)
              (i + 1) i
              (Vmath.Vadd nq
                (forLoop 0 sd
                  (fun j g => set2 g (i + 1) j
                    (Vmath.Vmul nq (vel j) (physfield (i + 1)) (g (i + 1) j) 0)) fl (i + 1) i)
                pr
                (forLoop 0 sd
                  (fun j g => set2 g (i + 1) j
                    (Vmath.Vmul nq (vel j) (physfield (i + 1)) (g (i + 1) j) 0)) fl (i + 1) i)
                0))
          (forLoop 0 sd
            (fun i fl => set2 fl 0 i (Vmath.Vcopy nq (physfield (i + 1)) (fl 0 i) 0)) flux))
        v d k =
      if v = sd + 1 then vel d k * (physfield (sd + 1) k + pr k)
      else if 1 ≤ v ∧ v < 1 + sd then
        vel d k * physfield (v - 1 + 1) k + if d = v - 1 then pr k else 0
      else if v = 0 then physfield (d + 1) k
      else flux v d k := by
  have hmom : ∀ fl : Nat → Nat → Nat → K,
      forLoop 0 sd
        (fun i fl =>
          set2 (forLoop 0 sd
              (fun j g => set2 g (i + 1) j
                (Vmath.Vmul nq (vel j) (physfield (i + 1)) (g (i + 1) j) 0)) fl)
            (i + 1) i
            (Vmath.Vadd nq
              (forLoop 0 sd
                (fun j g => set2 g (i + 1) j
                  (Vmath.Vmul nq (vel j) (physfield (i + 1)) (g (i + 1) j) 0)) fl (i + 1) i)
              pr
              (forLoop 0 sd
                (fun j g => set2 g (i + 1) j
                  (Vmath.Vmul nq (vel j) (physfield (i + 1)) (g (i + 1) j) 0)) fl (i + 1) i)
              0)) fl
      = forLoop 0 sd
        (fun i fl => fun v2 d2 => if v2 = i + 1 ∧ d2 < sd then
            Vmath.store nq
              (fun k => vel d2 k * physfield (i + 1) k + if d2 = i then pr k else 0)
              (fl v2 d2) 0
          else fl v2 d2) fl := by
    intro fl
    refine forLoop_congr 0 sd _ _ fl (fun i hi st => ?_)
    simp only [Nat.zero_add]
    exact flux_momentum_pass sd nq i hi _ _ _ st
  rw [forLoop_set2_snd (sd + 1) sd
    (fun j row => Vmath.Vmul nq (vel j) (Vmath.Vadd nq (physfield (sd + 1)) pr pr 0) row 0)]
  by_cases hv : v = sd + 1
  · rw [if_pos ⟨hv, hd⟩, if_pos hv]
    simp only [Vmath.Vmul, Vmath.Vadd]
    rw [store_zero_lt _ _ _ _ hk, store_zero_lt _ _ _ _ hk]
  · have hv2 : ¬ (v = sd + 1 ∧ d < sd) := fun h => hv h.1
    rw [if_neg hv2, if_neg hv, hmom,
      forLoop_rows_block sd sd (fun i d2 row => Vmath.store nq
        (fun k => vel d2 k * physfield (i + 1) k + if d2 = i then pr k else 0) row 0)]
    by_cases hr : 1 ≤ v ∧ v < 1 + sd
    · rw [if_pos ⟨hr, hd⟩, if_pos hr, store_zero_lt _ _ _ _ hk]
    · have hr2 : ¬ ((1 ≤ v ∧ v < 1 + sd) ∧ d < sd) := fun h => hr h.1
      rw [if_neg hr2, if_neg hr,
        forLoop_set2_snd 0 sd (fun i row => Vmath.Vcopy nq (physfield (i + 1)) row 0)]
      by_cases h0 : v = 0
      · rw [if_pos ⟨h0, hd⟩, if_pos h0]
        simp only [Vmath.Vcopy]
        rw [store_zero_lt _ _ _ _ hk]
      · have h02 : ¬ (v = 0 ∧ d < sd) := fun h => h0 h.1
        rw [if_neg h02, if_neg h0]

/-- The entries written by `GetFluxVector` in terms of the velocity and
pressure arrays it computes. -/
lemma GetFluxVector_apply (S : CompressibleFlowSystem K) (nq : Nat)
    (physfield : Nat → Nat → K) (flux : Nat → Nat → Nat → K) (v d k : Nat)
    (hd : d < S.m_spacedim) (hk : k < nq) :
    GetFluxVector S nq physfield flux v d k =
      if v = S.m_spacedim + 1 then
        GetVelocityVector S nq physfield (fun _ _ => 0) d k
          * (physfield (S.m_spacedim + 1) k
            + GetPressureVel S nq physfield
                (GetVelocityVector S nq physfield (fun _ _ => 0)) (fun _ => 0) k)
      else if 1 ≤ v ∧ v < 1 + S.m_spacedim then
        GetVelocityVector S nq physfield (fun _ _ => 0) d k * physfield (v - 1 + 1) k
          + if d = v - 1 then
              GetPressureVel S nq physfield
                (GetVelocityVector S nq physfield (fun _ _ => 0)) (fun _ => 0) k
            else 0
      else if v = 0 then physfield (d + 1) k
      else flux v d k :=
  flux_loops_apply S.m_spacedim nq physfield
    (GetVelocityVector S nq physfield (fun _ _ => 0))
    (GetPressureVel S nq physfield (GetVelocityVector S nq physfield (fun _ _ => 0))
      (fun _ => 0)) flux v d k hd hk

end Lemmas

/-! ## Thermodynamic closure and inviscid flux: the claims -/

section ClosureClaims

variable {K : Type} [LinearOrderedField K]

/-- C1: for every spatial dimension from 1 on (so for 1..3) and every point `k`
with non-zero density,
`GetFluxVector` stores the momentum component `d` as density flux in direction
`d`, `v_d * (rho v_i)` plus the pressure when `d = i` as flux of momentum
component `i` in direction `d`, and `v_d * (E + p)` as energy flux in direction
`d`, with `v = momentum / density` and `p = (gamma - 1)(E - 1/2 rho |v|^2)`. -/
theorem GetFluxVector_formula (S : CompressibleFlowSystem K) (nq : Nat)
    (physfield : Nat → Nat → K) (flux : Nat → Nat → Nat → K) (k : Nat)
    (h1 : 1 ≤ S.m_spacedim) (hk : k < nq) (hrho : physfield 0 k ≠ 0) :
    (∀ d, d < S.m_spacedim →
      GetFluxVector S nq physfield flux 0 d k = physfield (1 + d) k) ∧
    (∀ i d, i < S.m_spacedim → d < S.m_spacedim →
      GetFluxVector S nq physfield flux (1 + i) d k
        = physfield (1 + d) k / physfield 0 k * physfield (1 + i) k
          + if d = i then
              (S.m_gamma - 1) * (physfield (S.m_spacedim + 1) k
                - 1 / 2 * physfield 0 k
                  * ∑ j in Finset.range S.m_spacedim,
                      (physfield (1 + j) k / physfield 0 k) ^ 2)
            else 0) ∧
    (∀ d, d < S.m_spacedim →
      GetFluxVector S nq physfield flux (S.m_spacedim + 1) d k
        = physfield (1 + d) k / physfield 0 k
          * (physfield (S.m_spacedim + 1) k
            + (S.m_gamma - 1) * (physfield (S.m_spacedim + 1) k
                - 1 / 2 * physfield 0 k
                  * ∑ j in Finset.range S.m_spacedim,
                      (physfield (1 + j) k / physfield 0 k) ^ 2))) := by
  have hp : GetPressureVel S nq physfield
      (GetVelocityVector S nq physfield (fun _ _ => 0)) (fun _ => 0) k
      = (S.m_gamma - 1) * (physfield (S.m_spacedim + 1) k
          - 1 / 2 * physfield 0 k
            * ∑ j in Finset.range S.m_spacedim,
                (physfield (1 + j) k / physfield 0 k) ^ 2) := by
    rw [GetPressureVel_apply S nq physfield _ _ k h1 hk]
    have hsum : ∑ j in Finset.range S.m_spacedim,
        GetVelocityVector S nq physfield (fun _ _ => 0) j k * physfield (1 + j) k
        = physfield 0 k * ∑ j in Finset.range S.m_spacedim,
            (physfield (1 + j) k / physfield 0 k) ^ 2 := by
      rw [Finset.mul_sum]
      refine Finset.sum_congr rfl (fun j hj => ?_)
      rw [GetVelocityVector_apply S nq physfield _ j k (Finset.mem_range.mp hj) hk]
      field_simp
      ring
    rw [hsum]
    have hhalf : (-0.5 : K) = -(1 / 2) := by norm_num
    rw [hhalf]
    ring
  have hvel : ∀ j, j < S.m_spacedim →
      GetVelocityVector S nq physfield (fun _ _ => 0) j k
        = physfield (1 + j) k / physfield 0 k :=
    fun j hj => GetVelocityVector_apply S nq physfield _ j k hj hk
  refine ⟨fun d hd => ?_, fun i d hi hd => ?_, fun d hd => ?_⟩
  · rw [GetFluxVector_apply S nq physfield flux 0 d k hd hk]
    have h0 : ¬ (0 = S.m_spacedim + 1) := by omega
    have h1 : ¬ (1 ≤ 0 ∧ 0 < 1 + S.m_spacedim) := by omega
    rw [if_neg h0, if_neg h1, if_pos rfl, Nat.add_comm]
  · rw [GetFluxVector_apply S nq physfield flux (1 + i) d k hd hk]
    have h0 : ¬ (1 + i = S.m_spacedim + 1) := by omega
    have h1 : 1 ≤ 1 + i ∧ 1 + i < 1 + S.m_spacedim := by omega
    have h2 : 1 + i - 1 = i := by omega
    rw [if_neg h0, if_pos h1, h2, hvel d hd, hp, Nat.add_comm i 1]
  · rw [GetFluxVector_apply S nq physfield flux (S.m_spacedim + 1) d k hd hk]
    rw [if_pos rfl, hvel d hd, hp]

/-- Witness for C1: the 1-D state `(rho, rho u, E) = (1, 2, 5)`: the density
flux in direction 0 is the momentum. -/
theorem GetFluxVector_formula_witness :
    (1 ≤ (sampleSystem ℚ 1 1.4 1).m_spacedim ∧ 0 < 1
      ∧ uniformState [(1 : ℚ), 2, 5] 0 0 ≠ 0) ∧
    GetFluxVector (sampleSystem ℚ 1 1.4 1) 1 (uniformState [1, 2, 5]) (fun _ _ _ => 0) 0 0 0
      = uniformState [(1 : ℚ), 2, 5] (1 + 0) 0 :=
  ⟨⟨by decide, by decide, by norm_num [uniformState]⟩,
    (GetFluxVector_formula (sampleSystem ℚ 1 1.4 1) 1 (uniformState [1, 2, 5])
      (fun _ _ _ => 0) 0 (by decide) (by decide)
      (by norm_num [uniformState])).1 0 (by decide)⟩

/-- C2: for every spatial dimension from 1 on (so for 1..3) and every point `k`
with non-zero density the single-argument `GetPressure` returns
`(gamma - 1) * (E - 1/2 * (sum_i (rho v_i)^2) / rho)`, which is
`(gamma - 1)(E - 1/2 rho |v|^2)`; on the 2-D state `rho = 1.225`,
`v = (0.1, 0)`, `gamma = 1.4`, `E = 101325/0.4 + 1/2 * 1.225 * 0.01` it
returns `101325`. -/
theorem GetPressure_formula (S : CompressibleFlowSystem K) (nq : Nat)
    (physfield : Nat → Nat → K) (pressure : Nat → K) (k : Nat)
    (h1 : 1 ≤ S.m_spacedim) (hk : k < nq) (hrho : physfield 0 k ≠ 0) :
    GetPressure S nq physfield pressure k
        = (S.m_gamma - 1) * (physfield (S.m_spacedim + 1) k
            - 1 / 2 * (∑ i in Finset.range S.m_spacedim, (physfield (1 + i) k) ^ 2)
                / physfield 0 k) ∧
    GetPressure S nq physfield pressure k
        = (S.m_gamma - 1) * (physfield (S.m_spacedim + 1) k
            - 1 / 2 * physfield 0 k
              * ∑ i in Finset.range S.m_spacedim,
                  (physfield (1 + i) k / physfield 0 k) ^ 2) ∧
    GetPressure (sampleSystem ℚ 2 1.4 1) 1
        (uniformState [1.225, 1.225 * 0.1, 1.225 * 0, 101325 / 0.4 + 1 / 2 * 1.225 * 0.01])
        (fun _ => 0) 0 = 101325 := by
  have hhalf : (-0.5 : K) = -(1 / 2) := by norm_num
  have hsq : ∑ j in Finset.range S.m_spacedim, physfield (1 + j) k * physfield (1 + j) k
      = ∑ i in Finset.range S.m_spacedim, (physfield (1 + i) k) ^ 2 :=
    Finset.sum_congr rfl (fun i _ => (sq _).symm)
  have hv : physfield 0 k * ∑ i in Finset.range S.m_spacedim,
      (physfield (1 + i) k / physfield 0 k) ^ 2
      = (∑ i in Finset.range S.m_spacedim, (physfield (1 + i) k) ^ 2) / physfield 0 k := by
    rw [Finset.mul_sum, Finset.sum_div]
    refine Finset.sum_congr rfl (fun i _ => ?_)
    field_simp
    ring
  refine ⟨?_, ?_, ?_⟩
  · rw [GetPressure_apply S nq physfield pressure k h1 hk, hsq, hhalf]
    ring
  · rw [GetPressure_apply S nq physfield pressure k h1 hk, hsq, hhalf, mul_assoc, hv]
    ring
  · rw [GetPressure_apply _ _ _ _ _ (by decide) (by decide)]
    norm_num [sampleSystem, uniformState, Finset.sum_range_succ]

/-- Witness for C2: the 2-D scenario state. -/
theorem GetPressure_formula_witness :
    (1 ≤ (sampleSystem ℚ 2 1.4 1).m_spacedim ∧ 0 < 1
      ∧ uniformState [(1.225 : ℚ), 0.1225, 0, 253312.506125] 0 0 ≠ 0) ∧
    GetPressure (sampleSystem ℚ 2 1.4 1) 1
        (uniformState [1.225, 0.1225, 0, 253312.506125]) (fun _ => 0) 0
      = ((sampleSystem ℚ 2 1.4 1).m_gamma - 1)
          * (uniformState [(1.225 : ℚ), 0.1225, 0, 253312.506125]
                ((sampleSystem ℚ 2 1.4 1).m_spacedim + 1) 0
            - 1 / 2 * (∑ i in Finset.range (sampleSystem ℚ 2 1.4 1).m_spacedim,
                (uniformState [(1.225 : ℚ), 0.1225, 0, 253312.506125] (1 + i) 0) ^ 2)
              / uniformState [(1.225 : ℚ), 0.1225, 0, 253312.506125] 0 0) :=
  ⟨⟨by decide, by decide, by norm_num [uniformState]⟩,
    (GetPressure_formula (sampleSystem ℚ 2 1.4 1) 1
      (uniformState [1.225, 0.1225, 0, 253312.506125]) (fun _ => 0) 0
      (by decide) (by decide) (by norm_num [uniformState])).1⟩

/-- C3: for every state, every `gamma` and every point `k` with non-zero
density, the velocity-supplied `GetPressure` called with the velocity computed
by `GetVelocityVector` returns the same pressure as the single-argument
`GetPressure` (exact arithmetic). -/
theorem GetPressure_variants_agree (S : CompressibleFlowSystem K) (nq : Nat)
    (physfield velocity : Nat → Nat → K) (pressure1 pressure2 : Nat → K) (k : Nat)
    (h1 : 1 ≤ S.m_spacedim) (hk : k < nq) (hrho : physfield 0 k ≠ 0) :
    GetPressureVel S nq physfield (GetVelocityVector S nq physfield velocity) pressure2 k
      = GetPressure S nq physfield pressure1 k := by
  rw [GetPressureVel_apply S nq physfield _ pressure2 k h1 hk,
    GetPressure_apply S nq physfield pressure1 k h1 hk]
  have hsum : ∑ j in Finset.range S.m_spacedim,
      GetVelocityVector S nq physfield velocity j k * physfield (1 + j) k
      = (∑ j in Finset.range S.m_spacedim, physfield (1 + j) k * physfield (1 + j) k)
          / physfield 0 k := by
    rw [Finset.sum_div]
    refine Finset.sum_congr rfl (fun j hj => ?_)
    rw [GetVelocityVector_apply S nq physfield velocity j k (Finset.mem_range.mp hj) hk]
    field_simp
  rw [hsum]

/-- Witness for C3: the 1-D state `(rho, rho u, E) = (1, 2, 5)`, `gamma = 1.4`. -/
theorem GetPressure_variants_agree_witness :
    (1 ≤ (sampleSystem ℚ 1 1.4 1).m_spacedim ∧ 0 < 1
      ∧ uniformState [(1 : ℚ), 2, 5] 0 0 ≠ 0) ∧
    GetPressureVel (sampleSystem ℚ 1 1.4 1) 1 (uniformState [1, 2, 5])
        (GetVelocityVector (sampleSystem ℚ 1 1.4 1) 1 (uniformState [1, 2, 5])
          (fun _ _ => 0)) (fun _ => 0) 0
      = GetPressure (sampleSystem ℚ 1 1.4 1) 1 (uniformState [1, 2, 5]) (fun _ => 0) 0 :=
  ⟨⟨by decide, by decide, by norm_num [uniformState]⟩,
    GetPressure_variants_agree (sampleSystem ℚ 1 1.4 1) 1 (uniformState [1, 2, 5])
      (fun _ _ => 0) (fun _ => 0) (fun _ => 0) 0 (by decide) (by decide)
      (by norm_num [uniformState])⟩

/-- C4 (the code at a failing input): on the 2-D state `rho = 1`,
`rho v = (2, 0)` with sound speed `c = 1`, where `|v| / c = 2`, `GetMach`
returns `4 = |v|^2 / c`; on the scenario state `rho = 1.225`, `v = (0.1, 0)` it
returns `0.01 / c` for every sound speed `c`, not `0.1 / c`. -/
theorem GetMach_returns_squared_speed :
    GetMach (sampleSystem ℝ 2 1.4 1) (uniformState [1, 2, 0, 5]) (fun _ => 1) (fun _ => 0) 0
      = 4 ∧
    Real.sqrt (∑ i in Finset.range 2,
      (uniformState [(1 : ℝ), 2, 0, 5] (1 + i) 0 / uniformState [(1 : ℝ), 2, 0, 5] 0 0) ^ 2)
      / 1 = 2 ∧
    ∀ c : ℝ, GetMach (sampleSystem ℝ 2 1.4 1)
        (uniformState [1.225, 1.225 * 0.1, 1.225 * 0, 101325 / 0.4 + 1 / 2 * 1.225 * 0.01])
        (fun _ => c) (fun _ => 0) 0 = 0.01 / c := by
  refine ⟨?_, ?_, fun c => ?_⟩
  · rw [GetMach_apply _ _ _ _ _ (by decide) (by decide)]
    norm_num [sampleSystem, uniformState, Finset.sum_range_succ]
  · have h4 : ∑ i in Finset.range 2,
        (uniformState [(1 : ℝ), 2, 0, 5] (1 + i) 0 / uniformState [(1 : ℝ), 2, 0, 5] 0 0) ^ 2
        = 2 ^ 2 := by
      norm_num [uniformState, Finset.sum_range_succ]
    rw [h4, Real.sqrt_sq (by norm_num), div_one]
  · rw [GetMach_apply _ _ _ _ _ (by decide) (by decide)]
    norm_num [sampleSystem, uniformState, Finset.sum_range_succ]

/-- C5: at every point `k`, `GetSoundSpeed` returns `sqrt(gamma * p / rho)`;
whenever `gamma * p / rho ≥ 0` the result is non-negative and its square is
`gamma * p / rho`; for `p = 101325`, `rho = 1.225`, `gamma = 1.4` the square is
`1.4 * 101325 / 1.225`. -/
theorem GetSoundSpeed_formula (S : CompressibleFlowSystem ℝ)
    (physfield : Nat → Nat → ℝ) (pressure soundspeed : Nat → ℝ) (k : Nat)
    (hk : k < S.GetTotPoints) :
    GetSoundSpeed Real.sqrt S physfield pressure soundspeed k
        = Real.sqrt (S.m_gamma * pressure k / physfield 0 k) ∧
    (0 ≤ S.m_gamma * pressure k / physfield 0 k →
      0 ≤ GetSoundSpeed Real.sqrt S physfield pressure soundspeed k ∧
      (GetSoundSpeed Real.sqrt S physfield pressure soundspeed k) ^ 2
        = S.m_gamma * pressure k / physfield 0 k) ∧
    (GetSoundSpeed Real.sqrt (sampleSystem ℝ 2 1.4 1)
        (uniformState [1.225, 1.225 * 0.1, 1.225 * 0, 101325 / 0.4 + 1 / 2 * 1.225 * 0.01])
        (fun _ => 101325) (fun _ => 0) 0) ^ 2 = 1.4 * 101325 / 1.225 := by
  have hval : ∀ (T : CompressibleFlowSystem ℝ) (phys : Nat → Nat → ℝ) (p c : Nat → ℝ)
      (j : Nat), j < T.GetTotPoints →
      GetSoundSpeed Real.sqrt T phys p c j = Real.sqrt (T.m_gamma * p j / phys 0 j) := by
    intro T phys p c j hj
    simp only [GetSoundSpeed, Vmath.Vsqrt, Vmath.Smul, Vmath.Vdiv]
    rw [store_zero_lt _ _ _ _ hj, store_zero_lt _ _ _ _ hj, store_zero_lt _ _ _ _ hj,
      mul_div_assoc]
  refine ⟨hval S physfield pressure soundspeed k hk, fun h => ?_, ?_⟩
  · rw [hval S physfield pressure soundspeed k hk]
    exact ⟨Real.sqrt_nonneg _, Real.sq_sqrt h⟩
  · rw [hval _ _ _ _ 0 (by decide), Real.sq_sqrt]
    · norm_num [sampleSystem, uniformState]
    · norm_num [sampleSystem, uniformState]

/-- Witness for C5: the scenario `p = 101325`, `rho = 1.225`, `gamma = 1.4`. -/
theorem GetSoundSpeed_formula_witness :
    0 < (sampleSystem ℝ 2 1.4 1).GetTotPoints ∧
    GetSoundSpeed Real.sqrt (sampleSystem ℝ 2 1.4 1) (uniformState [1.225, 0.1225, 0, 5])
        (fun _ => 101325) (fun _ => 0) 0
      = Real.sqrt ((sampleSystem ℝ 2 1.4 1).m_gamma * 101325
          / uniformState [(1.225 : ℝ), 0.1225, 0, 5] 0 0) :=
  ⟨by decide,
    (GetSoundSpeed_formula (sampleSystem ℝ 2 1.4 1) (uniformState [1.225, 0.1225, 0, 5])
      (fun _ => 101325) (fun _ => 0) 0 (by decide)).1⟩

end ClosureClaims

/-! ## Boundary closures: loop lemmas -/

section BoundaryLemmas

/-- The forward trace built by the preamble: the extracted trace for the
variables below `nVariables`. -/
lemma extractFwd_apply {K : Type} [LinearOrderedField K] (S : CompressibleFlowSystem K) (nVariables : Nat)
    (physarray : Nat → Nat → K) (v : Nat) (hv : v < nVariables) :
    extractFwd S nVariables physarray v = S.ExtractTracePhys v (physarray v) := by
  have h := forLoop_update_rows 0 nVariables
    (fun i _ => S.ExtractTracePhys i (physarray i)) (fun _ _ => (0 : K)) v
  simp only [Nat.zero_add] at h
  unfold extractFwd
  rw [h, if_pos ⟨Nat.zero_le _, hv⟩, Nat.sub_zero]

/-- The copy loop writes `nBCEdgePts` entries of every variable below
`nVariables` into region `bcRegion` and nothing else. -/
lemma copyToBnd_apply {K : Type} (bcRegion nVariables nBCEdgePts i1 i2 : Nat) (Fwd : Nat → Nat → K)
    (bnd : Nat → Nat → Nat → K) (v r x : Nat) :
    copyToBnd bcRegion nVariables nBCEdgePts i1 i2 Fwd bnd v r x
      = if (v < nVariables ∧ r = bcRegion) ∧ (i1 ≤ x ∧ x < i1 + nBCEdgePts) then
          Fwd v (i2 + (x - i1))
        else bnd v r x := by
  unfold copyToBnd
  rw [forLoop_set2_fst bcRegion nVariables
    (fun i row => Vmath.Vcopy nBCEdgePts (ptr (Fwd i) i2) row i1)]
  by_cases h1 : v < nVariables ∧ r = bcRegion
  · rw [if_pos h1]
    obtain ⟨_, rfl⟩ := h1
    by_cases h2 : i1 ≤ x ∧ x < i1 + nBCEdgePts
    · simp [Vmath.Vcopy, Vmath.store, ptr, h2, *]
    · simp [Vmath.Vcopy, Vmath.store, ptr, h2, *]
  · have h3 : ¬ ((v < nVariables ∧ r = bcRegion) ∧ (i1 ≤ x ∧ x < i1 + nBCEdgePts)) :=
      fun h => h1 h.1
    rw [if_neg h1, if_neg h3]

/-- Invariant of a loop over the boundary elements of a region whose pass for
element `e` rewrites the forward trace point-wise by `T` on the trace range of
`e` and then copies that range into the boundary range of `e`: with disjoint
ranges, every boundary entry of the region ends as `T` of the initial trace. -/
lemma bc_loop_apply {K : Type} (S : CompressibleFlowSystem K) (bcRegion cnt nVariables : Nat)
    (npts : Nat → Nat)
    (step : Nat → (Nat → Nat → K) × (Nat → Nat → Nat → K)
      → (Nat → Nat → K) × (Nat → Nat → Nat → K))
    (T : (Nat → Nat → K) → Nat → Nat → K)
    (hT : ∀ F G p, (∀ v, F v p = G v p) → ∀ v, T F v p = T G v p)
    (hF : ∀ e st v p, (step e st).1 v p
      = if id2 S cnt e ≤ p ∧ p < id2 S cnt e + npts e then T st.1 v p else st.1 v p)
    (hB : ∀ e st v r x, (step e st).2 v r x
      = if (v < nVariables ∧ r = bcRegion)
            ∧ (id1 S bcRegion e ≤ x ∧ x < id1 S bcRegion e + npts e) then
          (step e st).1 v (id2 S cnt e + (x - id1 S bcRegion e))
        else st.2 v r x)
    (hlay : RegionLayout S bcRegion cnt npts)
    (F0 : Nat → Nat → K) (b0 : Nat → Nat → Nat → K) (e i v : Nat)
    (he : e < S.bndGetExpSize bcRegion) (hi : i < npts e) (hv : v < nVariables) :
    (forLoop 0 (S.bndGetExpSize bcRegion) step (F0, b0)).2 v bcRegion (id1 S bcRegion e + i)
      = T F0 v (id2 S cnt e + i) := by
  have key := forLoop_induct
    (fun n (st : (Nat → Nat → K) × (Nat → Nat → Nat → K)) =>
      (∀ w p, (∀ e2, e2 < n → ¬ (id2 S cnt e2 ≤ p ∧ p < id2 S cnt e2 + npts e2))
        → st.1 w p = F0 w p) ∧
      (∀ e2 j w, e2 < n → j < npts e2 → w < nVariables →
        st.2 w bcRegion (id1 S bcRegion e2 + j) = T F0 w (id2 S cnt e2 + j)))
    0 (S.bndGetExpSize bcRegion) step (F0, b0)
    ⟨fun _ _ _ => rfl, fun e2 j w h => absurd h (Nat.not_lt_zero _)⟩
    (by
      intro n hn st ⟨ih1, ih2⟩
      simp only [Nat.zero_add]
      have hfresh : ∀ j, j < npts n → ∀ w, st.1 w (id2 S cnt n + j) = F0 w (id2 S cnt n + j) := by
        intro j hj w
        refine ih1 w _ (fun e2 he2 => ?_)
        have hl := (hlay e2 n (Nat.lt_trans he2 hn) hn (Nat.ne_of_lt he2)).2
        omega
      refine ⟨fun w p hp => ?_, fun e2 j w he2 hj hw => ?_⟩
      · rw [hF, if_neg (hp n (Nat.lt_succ_self n))]
        exact ih1 w p (fun e2 he2 => hp e2 (Nat.lt_succ_of_lt he2))
      · rcases Nat.lt_succ_iff_lt_or_eq.mp he2 with hlt | rfl
        · have hl := (hlay e2 n (Nat.lt_trans hlt hn) hn (Nat.ne_of_lt hlt)).1
          have hout : ¬ ((w < nVariables ∧ bcRegion = bcRegion)
              ∧ (id1 S bcRegion n ≤ id1 S bcRegion e2 + j
                ∧ id1 S bcRegion e2 + j < id1 S bcRegion n + npts n)) := by
            omega
          rw [hB, if_neg hout]
          exact ih2 e2 j w hlt hj hw
        · have hin : (w < nVariables ∧ bcRegion = bcRegion)
              ∧ (id1 S bcRegion e2 ≤ id1 S bcRegion e2 + j
                ∧ id1 S bcRegion e2 + j < id1 S bcRegion e2 + npts e2) := by
            omega
          have hin2 : id2 S cnt e2 ≤ id2 S cnt e2 + j
              ∧ id2 S cnt e2 + j < id2 S cnt e2 + npts e2 := by
            omega
          rw [hB, if_pos hin, Nat.add_sub_cancel_left, hF, if_pos hin2]
          exact hT st.1 F0 _ (fun w2 => hfresh j hj w2) w)
  exact key.2 e i v he hi hv

lemma store_apply_in {K : Type} (n : Nat) (f z : Nat → K) (zo k : Nat) (hk : zo ≤ k ∧ k < zo + n) :
    Vmath.store n f z zo k = f (k - zo) := by
  simp only [Vmath.store, if_pos hk]

variable {K : Type} [LinearOrderedField K]

/-- The work array `tmp` of the wall closures after the scaling by `-2.0`:
`-2 (m . n)` at each point of the element. -/
lemma wall_tmp_apply (S : CompressibleFlowSystem K) (n i2 : Nat) (F : Nat → Nat → K)
    (x : Nat) (hx : x < n) :
    Vmath.Smul n (-2.0)
        (forLoop 0 S.m_spacedim
          (fun i tmp => Vmath.Vvtvp n (ptr (F (1 + i)) i2) (ptr (S.m_traceNormals i) i2)
            tmp tmp 0) (fun _ => 0.0))
        (forLoop 0 S.m_spacedim
          (fun i tmp => Vmath.Vvtvp n (ptr (F (1 + i)) i2) (ptr (S.m_traceNormals i) i2)
            tmp tmp 0) (fun _ => 0.0)) 0 x
      = -2 * ∑ l in Finset.range S.m_spacedim,
          F (1 + l) (i2 + x) * S.m_traceNormals l (i2 + x) := by
  show Vmath.store n _ _ 0 x = _
  rw [store_zero_lt _ _ _ _ hx,
    forLoop_Vvtvp_sum n 0 S.m_spacedim (fun i => ptr (F (1 + i)) i2)
      (fun i => ptr (S.m_traceNormals i) i2) (fun _ => 0.0) x hx]
  simp only [ptr, Nat.zero_add]
  norm_num

/-- The reflection step of `WallBC_element` in closed form. -/
lemma WallBC_element_fst (S : CompressibleFlowSystem K) (bcRegion cnt nVariables e : Nat)
    (st : (Nat → Nat → K) × (Nat → Nat → Nat → K)) (v p : Nat) :
    (WallBC_element S bcRegion cnt nVariables e st).1 v p
      = if id2 S cnt e ≤ p ∧ p < id2 S cnt e + S.bndGetTotPoints bcRegion e then
          wallReflect S st.1 v p
        else st.1 v p := by
  have hrows := forLoop_update_rows 1 S.m_spacedim
    (fun i row => Vmath.Vvtvp (S.bndGetTotPoints bcRegion e)
      (Vmath.Smul (S.bndGetTotPoints bcRegion e) (-2.0)
        (forLoop 0 S.m_spacedim
          (fun i tmp => Vmath.Vvtvp (S.bndGetTotPoints bcRegion e)
            (ptr (st.1 (1 + i)) (id2 S cnt e)) (ptr (S.m_traceNormals i) (id2 S cnt e))
            tmp tmp 0) (fun _ => 0.0))
        (forLoop 0 S.m_spacedim
          (fun i tmp => Vmath.Vvtvp (S.bndGetTotPoints bcRegion e)
            (ptr (st.1 (1 + i)) (id2 S cnt e)) (ptr (S.m_traceNormals i) (id2 S cnt e))
            tmp tmp 0) (fun _ => 0.0)) 0)
      (ptr (S.m_traceNormals i) (id2 S cnt e)) (ptr row (id2 S cnt e)) row (id2 S cnt e))
    st.1 v
  show forLoop 0 S.m_spacedim _ st.1 v p = _
  rw [hrows]
  unfold wallReflect
  by_cases hv : 1 ≤ v ∧ v < 1 + S.m_spacedim
  · rw [if_pos hv, if_pos hv]
    by_cases hp : id2 S cnt e ≤ p ∧ p < id2 S cnt e + S.bndGetTotPoints bcRegion e
    · have hlt : p - id2 S cnt e < S.bndGetTotPoints bcRegion e := by omega
      have hadd : id2 S cnt e + (p - id2 S cnt e) = p := by omega
      rw [if_pos hp]
      show Vmath.store _ _ _ _ p = _
      rw [store_apply_in _ _ _ _ _ hp, wall_tmp_apply S _ _ st.1 _ hlt]
      simp only [ptr, hadd]
      ring
    · rw [if_neg hp]
      show Vmath.store _ _ _ _ p = _
      rw [store_outside _ _ _ _ _ hp]
  · rw [if_neg hv, if_neg hv, ite_self]

/-- `SymmetryBC` runs the same element pass as `WallBC`. -/
lemma SymmetryBC_element_eq (S : CompressibleFlowSystem K) (bcRegion cnt nVariables : Nat) :
    SymmetryBC_element S bcRegion cnt nVariables = WallBC_element S bcRegion cnt nVariables :=
  rfl

/-- The reflected trace at a point depends only on the trace at that point. -/
lemma wallReflect_local (S : CompressibleFlowSystem K) (F G : Nat → Nat → K) (p : Nat)
    (h : ∀ v, F v p = G v p) (v : Nat) : wallReflect S F v p = wallReflect S G v p := by
  unfold wallReflect
  rw [h v, Finset.sum_congr rfl (fun l _ => by rw [h (1 + l)])]

/-- The negated trace at a point depends only on the trace at that point. -/
lemma wallNegate_local (S : CompressibleFlowSystem K) (F G : Nat → Nat → K) (p : Nat)
    (h : ∀ v, F v p = G v p) (v : Nat) : wallNegate S F v p = wallNegate S G v p := by
  unfold wallNegate
  rw [h v]

/-- Every boundary entry of the region written by `WallBC`, in closed form. -/
lemma WallBC_apply (S : CompressibleFlowSystem K) (bcRegion cnt nVariables : Nat)
    (physarray : Nat → Nat → K) (bnd : Nat → Nat → Nat → K) (e i v : Nat)
    (hlay : RegionLayout S bcRegion cnt (S.bndGetTotPoints bcRegion))
    (he : e < S.bndGetExpSize bcRegion) (hi : i < S.bndGetTotPoints bcRegion e)
    (hv : v < nVariables) :
    WallBC S bcRegion cnt nVariables physarray bnd v bcRegion (id1 S bcRegion e + i)
      = wallReflect S (extractFwd S nVariables physarray) v (id2 S cnt e + i) :=
  bc_loop_apply S bcRegion cnt nVariables (S.bndGetTotPoints bcRegion)
    (WallBC_element S bcRegion cnt nVariables) (wallReflect S) (wallReflect_local S)
    (WallBC_element_fst S bcRegion cnt nVariables)
    (fun e st v r x => copyToBnd_apply bcRegion nVariables (S.bndGetTotPoints bcRegion e)
      (id1 S bcRegion e) (id2 S cnt e) (WallBC_element S bcRegion cnt nVariables e st).1
      st.2 v r x)
    hlay _ bnd e i v he hi hv

/-- Every boundary entry of the region written by `SymmetryBC`, in closed
form. -/
lemma SymmetryBC_apply (S : CompressibleFlowSystem K) (bcRegion cnt nVariables : Nat)
    (physarray : Nat → Nat → K) (bnd : Nat → Nat → Nat → K) (e i v : Nat)
    (hlay : RegionLayout S bcRegion cnt (S.bndGetTotPoints bcRegion))
    (he : e < S.bndGetExpSize bcRegion) (hi : i < S.bndGetTotPoints bcRegion e)
    (hv : v < nVariables) :
    SymmetryBC S bcRegion cnt nVariables physarray bnd v bcRegion (id1 S bcRegion e + i)
      = wallReflect S (extractFwd S nVariables physarray) v (id2 S cnt e + i) :=
  WallBC_apply S bcRegion cnt nVariables physarray bnd e i v hlay he hi hv

/-- The negation step of `WallViscousBC_element` in closed form. -/
lemma WallViscousBC_element_fst (S : CompressibleFlowSystem K)
    (bcRegion cnt nVariables e : Nat)
    (st : (Nat → Nat → K) × (Nat → Nat → Nat → K)) (v p : Nat) :
    (WallViscousBC_element S bcRegion cnt nVariables e st).1 v p
      = if id2 S cnt e ≤ p ∧ p < id2 S cnt e + S.bndGetTotPoints bcRegion e then
          wallNegate S st.1 v p
        else st.1 v p := by
  have hrows := forLoop_update_rows 1 S.m_spacedim
    (fun _ row => Vmath.Neg (S.bndGetTotPoints bcRegion e) row (id2 S cnt e)) st.1 v
  simp only [Nat.add_comm 1] at hrows
  show forLoop 0 S.m_spacedim _ st.1 v p = _
  rw [hrows]
  unfold wallNegate
  by_cases hv : 1 ≤ v ∧ v < 1 + S.m_spacedim
  · have hv2 : 1 ≤ v ∧ v < S.m_spacedim + 1 := by omega
    rw [if_pos hv2, if_pos hv]
    by_cases hp : id2 S cnt e ≤ p ∧ p < id2 S cnt e + S.bndGetTotPoints bcRegion e
    · have hadd : id2 S cnt e + (p - id2 S cnt e) = p := by omega
      rw [if_pos hp]
      show Vmath.store _ _ _ _ p = _
      rw [store_apply_in _ _ _ _ _ hp]
      simp only [ptr, hadd]
    · rw [if_neg hp]
      show Vmath.store _ _ _ _ p = _
      rw [store_outside _ _ _ _ _ hp]
  · have hv2 : ¬ (1 ≤ v ∧ v < S.m_spacedim + 1) := by omega
    rw [if_neg hv2, if_neg hv, ite_self]

/-- Every boundary entry of the region written by `WallViscousBC`, in closed
form. -/
lemma WallViscousBC_apply (S : CompressibleFlowSystem K) (bcRegion cnt nVariables : Nat)
    (physarray : Nat → Nat → K) (bnd : Nat → Nat → Nat → K) (e i v : Nat)
    (hlay : RegionLayout S bcRegion cnt (S.bndGetTotPoints bcRegion))
    (he : e < S.bndGetExpSize bcRegion) (hi : i < S.bndGetTotPoints bcRegion e)
    (hv : v < nVariables) :
    WallViscousBC S bcRegion cnt nVariables physarray bnd v bcRegion (id1 S bcRegion e + i)
      = wallNegate S (extractFwd S nVariables physarray) v (id2 S cnt e + i) :=
  bc_loop_apply S bcRegion cnt nVariables (S.bndGetTotPoints bcRegion)
    (WallViscousBC_element S bcRegion cnt nVariables) (wallNegate S) (wallNegate_local S)
    (WallViscousBC_element_fst S bcRegion cnt nVariables)
    (fun e st v r x => copyToBnd_apply bcRegion nVariables (S.bndGetTotPoints bcRegion e)
      (id1 S bcRegion e) (id2 S cnt e)
      (WallViscousBC_element S bcRegion cnt nVariables e st).1 st.2 v r x)
    hlay _ bnd e i v he hi hv

/-- The reflected momentum `m - 2 (m . n) n` keeps the component along any `t`
orthogonal to `n`. -/
lemma reflect_tangential (sd : Nat) (m n t : Nat → K)
    (horth : ∑ j in Finset.range sd, n j * t j = 0) :
    ∑ j in Finset.range sd,
        (m j - 2 * (∑ l in Finset.range sd, m l * n l) * n j) * t j
      = ∑ j in Finset.range sd, m j * t j := by
  have h : ∀ j ∈ Finset.range sd,
      (m j - 2 * (∑ l in Finset.range sd, m l * n l) * n j) * t j
        = m j * t j - 2 * (∑ l in Finset.range sd, m l * n l) * (n j * t j) :=
    fun j _ => by ring
  rw [Finset.sum_congr rfl h, Finset.sum_sub_distrib, ← Finset.mul_sum, horth]
  ring

/-- The reflected momentum `m - 2 (m . n) n` has the opposite component along
a unit `n`. -/
lemma reflect_normal (sd : Nat) (m n : Nat → K)
    (hunit : ∑ j in Finset.range sd, n j ^ 2 = 1) :
    ∑ j in Finset.range sd,
        (m j - 2 * (∑ l in Finset.range sd, m l * n l) * n j) * n j
      = - ∑ j in Finset.range sd, m j * n j := by
  have h : ∀ j ∈ Finset.range sd,
      (m j - 2 * (∑ l in Finset.range sd, m l * n l) * n j) * n j
        = m j * n j - 2 * (∑ l in Finset.range sd, m l * n l) * (n j ^ 2) :=
    fun j _ => by ring
  rw [Finset.sum_congr rfl h, Finset.sum_sub_distrib, ← Finset.mul_sum, hunit]
  ring

/-- The reflected momentum `m - 2 (m . n) n` has the same squared length for a
unit `n`. -/
lemma reflect_norm_sq (sd : Nat) (m n : Nat → K)
    (hunit : ∑ j in Finset.range sd, n j ^ 2 = 1) :
    ∑ j in Finset.range sd,
        (m j - 2 * (∑ l in Finset.range sd, m l * n l) * n j) ^ 2
      = ∑ j in Finset.range sd, m j ^ 2 := by
  have h : ∀ j ∈ Finset.range sd,
      (m j - 2 * (∑ l in Finset.range sd, m l * n l) * n j) ^ 2
        = m j ^ 2 - 4 * (∑ l in Finset.range sd, m l * n l) * (m j * n j)
          + 4 * (∑ l in Finset.range sd, m l * n l) ^ 2 * (n j ^ 2) :=
    fun j _ => by ring
  rw [Finset.sum_congr rfl h, Finset.sum_add_distrib, Finset.sum_sub_distrib,
    ← Finset.mul_sum, ← Finset.mul_sum, hunit]
  ring

/-- The momentum entries of `wallReflect`. -/
lemma wallReflect_momentum (S : CompressibleFlowSystem K) (F : Nat → Nat → K) (j p : Nat)
    (hj : j < S.m_spacedim) :
    wallReflect S F (1 + j) p
      = F (1 + j) p
        - 2 * (∑ l in Finset.range S.m_spacedim, F (1 + l) p * S.m_traceNormals l p)
          * S.m_traceNormals j p := by
  have h : 1 ≤ 1 + j ∧ 1 + j < 1 + S.m_spacedim := by omega
  unfold wallReflect
  rw [if_pos h, Nat.add_sub_cancel_left]

/-- The entries of `wallReflect` outside the momentum variables. -/
lemma wallReflect_other (S : CompressibleFlowSystem K) (F : Nat → Nat → K) (v p : Nat)
    (hv : ¬ (1 ≤ v ∧ v < 1 + S.m_spacedim)) : wallReflect S F v p = F v p := by
  unfold wallReflect
  rw [if_neg hv]

/-- Tangential and normal components of a momentum vector `out` that equals
the reflected trace momentum. -/
lemma reflected_components (S : CompressibleFlowSystem K) (F : Nat → Nat → K)
    (out : Nat → K) (p : Nat) (t : Nat → K)
    (hout : ∀ j, j < S.m_spacedim → out (1 + j) = wallReflect S F (1 + j) p)
    (hunit : ∑ j in Finset.range S.m_spacedim, S.m_traceNormals j p ^ 2 = 1)
    (horth : ∑ j in Finset.range S.m_spacedim, S.m_traceNormals j p * t j = 0) :
    (∑ j in Finset.range S.m_spacedim, out (1 + j) * t j
      = ∑ j in Finset.range S.m_spacedim, F (1 + j) p * t j) ∧
    (∑ j in Finset.range S.m_spacedim, out (1 + j) * S.m_traceNormals j p
      = - ∑ j in Finset.range S.m_spacedim, F (1 + j) p * S.m_traceNormals j p) := by
  have hrw : ∀ (u : Nat → K), ∑ j in Finset.range S.m_spacedim, out (1 + j) * u j
      = ∑ j in Finset.range S.m_spacedim,
          (F (1 + j) p - 2 * (∑ l in Finset.range S.m_spacedim,
            F (1 + l) p * S.m_traceNormals l p) * S.m_traceNormals j p) * u j := by
    intro u
    refine Finset.sum_congr rfl (fun j hj => ?_)
    rw [hout j (Finset.mem_range.mp hj), wallReflect_momentum S F j p (Finset.mem_range.mp hj)]
  constructor
  · rw [hrw t]
    exact reflect_tangential S.m_spacedim (fun j => F (1 + j) p)
      (fun j => S.m_traceNormals j p) t horth
  · rw [hrw (fun j => S.m_traceNormals j p)]
    exact reflect_normal S.m_spacedim (fun j => F (1 + j) p)
      (fun j => S.m_traceNormals j p) hunit

/-- Squared length of a momentum vector `out` that equals the reflected trace
momentum. -/
lemma reflected_norm_sq (S : CompressibleFlowSystem K) (F : Nat → Nat → K)
    (out : Nat → K) (p : Nat)
    (hout : ∀ j, j < S.m_spacedim → out (1 + j) = wallReflect S F (1 + j) p)
    (hunit : ∑ j in Finset.range S.m_spacedim, S.m_traceNormals j p ^ 2 = 1) :
    ∑ j in Finset.range S.m_spacedim, out (1 + j) ^ 2
      = ∑ j in Finset.range S.m_spacedim, F (1 + j) p ^ 2 := by
  have hrw : ∑ j in Finset.range S.m_spacedim, out (1 + j) ^ 2
      = ∑ j in Finset.range S.m_spacedim,
          (F (1 + j) p - 2 * (∑ l in Finset.range S.m_spacedim,
            F (1 + l) p * S.m_traceNormals l p) * S.m_traceNormals j p) ^ 2 := by
    refine Finset.sum_congr rfl (fun j hj => ?_)
    rw [hout j (Finset.mem_range.mp hj), wallReflect_momentum S F j p (Finset.mem_range.mp hj)]
  rw [hrw]
  exact reflect_norm_sq S.m_spacedim (fun j => F (1 + j) p)
    (fun j => S.m_traceNormals j p) hunit

/-- The sample region of one-point elements is laid out on disjoint ranges. -/
lemma sampleSystem_layout (spacedim : Nat) (gamma : K) (nElmt bcRegion cnt : Nat) :
    RegionLayout (sampleSystem K spacedim gamma nElmt) bcRegion cnt
      ((sampleSystem K spacedim gamma nElmt).bndGetTotPoints bcRegion) := by
  intro e1 e2 _ _ hne
  simp only [id1, id2, sampleSystem]
  omega

end BoundaryLemmas

/-! ## Boundary closures: the claims -/

section BoundaryClaims

variable {K : Type} [LinearOrderedField K]

/-- C6: for every boundary element `e` of the region and every point `i` of it,
`WallBC` leaves in the region's boundary storage at `id1 + i` the trace density,
the trace energy and the momentum `m - 2 (m . n) n`, with `m` the trace momentum
and `n` the trace normal at the trace point `id2 + i`, where `id2` is the trace
offset given by the trace-boundary map at `cnt + e`. The state has
`spacedim + 2` variables and the elements of the region occupy disjoint ranges
of the boundary storage and of the trace. -/
theorem WallBC_writes (S : CompressibleFlowSystem K) (bcRegion cnt nVariables : Nat)
    (physarray : Nat → Nat → K) (bnd : Nat → Nat → Nat → K) (e i : Nat)
    (hn : nVariables = S.m_spacedim + 2)
    (hlay : RegionLayout S bcRegion cnt (S.bndGetTotPoints bcRegion))
    (he : e < S.bndGetExpSize bcRegion) (hi : i < S.bndGetTotPoints bcRegion e) :
    WallBC S bcRegion cnt nVariables physarray bnd 0 bcRegion (id1 S bcRegion e + i)
        = extractFwd S nVariables physarray 0 (id2 S cnt e + i) ∧
    WallBC S bcRegion cnt nVariables physarray bnd (S.m_spacedim + 1) bcRegion
        (id1 S bcRegion e + i)
        = extractFwd S nVariables physarray (S.m_spacedim + 1) (id2 S cnt e + i) ∧
    ∀ j, j < S.m_spacedim →
      WallBC S bcRegion cnt nVariables physarray bnd (1 + j) bcRegion (id1 S bcRegion e + i)
        = extractFwd S nVariables physarray (1 + j) (id2 S cnt e + i)
          - 2 * (∑ l in Finset.range S.m_spacedim,
              extractFwd S nVariables physarray (1 + l) (id2 S cnt e + i)
                * S.m_traceNormals l (id2 S cnt e + i))
            * S.m_traceNormals j (id2 S cnt e + i) := by
  refine ⟨?_, ?_, fun j hj => ?_⟩
  · rw [WallBC_apply S bcRegion cnt nVariables physarray bnd e i 0 hlay he hi (by omega),
      wallReflect_other S _ 0 _ (by omega)]
  · rw [WallBC_apply S bcRegion cnt nVariables physarray bnd e i _ hlay he hi (by omega),
      wallReflect_other S _ _ _ (by omega)]
  · rw [WallBC_apply S bcRegion cnt nVariables physarray bnd e i _ hlay he hi (by omega),
      wallReflect_momentum S _ j _ hj]

/-- Witness for C6: two one-point elements in 2-D, state `(1, 2, 3, 5)`, second
element. -/
theorem WallBC_writes_witness :
    (4 = (sampleSystem ℚ 2 1.4 2).m_spacedim + 2
      ∧ 1 < (sampleSystem ℚ 2 1.4 2).bndGetExpSize 0
      ∧ 0 < (sampleSystem ℚ 2 1.4 2).bndGetTotPoints 0 1) ∧
    WallBC (sampleSystem ℚ 2 1.4 2) 0 0 4 (uniformState [1, 2, 3, 5]) (fun _ _ _ => 0) 0 0
        (id1 (sampleSystem ℚ 2 1.4 2) 0 1 + 0)
      = extractFwd (sampleSystem ℚ 2 1.4 2) 4 (uniformState [1, 2, 3, 5]) 0
          (id2 (sampleSystem ℚ 2 1.4 2) 0 1 + 0) :=
  ⟨⟨by decide, by decide, by decide⟩,
    (WallBC_writes (sampleSystem ℚ 2 1.4 2) 0 0 4 (uniformState [1, 2, 3, 5])
      (fun _ _ _ => 0) 1 0 (by decide) (sampleSystem_layout 2 1.4 2 0 0)
      (by decide) (by decide)).1⟩

/-- C7: Wall/Symmetry reflect only the normal component. For every trace
momentum `m`, every unit trace normal `n` and every vector `t` orthogonal to
`n`, the momentum `m*` written by `WallBC`, and by `SymmetryBC`, satisfies
`m* . t = m . t` and `m* . n = -(m . n)`. -/
theorem Wall_Symmetry_reflect_normal (S : CompressibleFlowSystem K)
    (bcRegion cnt nVariables : Nat) (physarray : Nat → Nat → K)
    (bnd : Nat → Nat → Nat → K) (e i : Nat) (t : Nat → K)
    (hn : nVariables = S.m_spacedim + 2)
    (hlay : RegionLayout S bcRegion cnt (S.bndGetTotPoints bcRegion))
    (he : e < S.bndGetExpSize bcRegion) (hi : i < S.bndGetTotPoints bcRegion e)
    (hunit : ∑ j in Finset.range S.m_spacedim,
      S.m_traceNormals j (id2 S cnt e + i) ^ 2 = 1)
    (horth : ∑ j in Finset.range S.m_spacedim,
      S.m_traceNormals j (id2 S cnt e + i) * t j = 0) :
    ((∑ j in Finset.range S.m_spacedim,
        WallBC S bcRegion cnt nVariables physarray bnd (1 + j) bcRegion
          (id1 S bcRegion e + i) * t j
      = ∑ j in Finset.range S.m_spacedim,
        extractFwd S nVariables physarray (1 + j) (id2 S cnt e + i) * t j) ∧
    (∑ j in Finset.range S.m_spacedim,
        WallBC S bcRegion cnt nVariables physarray bnd (1 + j) bcRegion
          (id1 S bcRegion e + i) * S.m_traceNormals j (id2 S cnt e + i)
      = - ∑ j in Finset.range S.m_spacedim,
        extractFwd S nVariables physarray (1 + j) (id2 S cnt e + i)
          * S.m_traceNormals j (id2 S cnt e + i))) ∧
    ((∑ j in Finset.range S.m_spacedim,
        SymmetryBC S bcRegion cnt nVariables physarray bnd (1 + j) bcRegion
          (id1 S bcRegion e + i) * t j
      = ∑ j in Finset.range S.m_spacedim,
        extractFwd S nVariables physarray (1 + j) (id2 S cnt e + i) * t j) ∧
    (∑ j in Finset.range S.m_spacedim,
        SymmetryBC S bcRegion cnt nVariables physarray bnd (1 + j) bcRegion
          (id1 S bcRegion e + i) * S.m_traceNormals j (id2 S cnt e + i)
      = - ∑ j in Finset.range S.m_spacedim,
        extractFwd S nVariables physarray (1 + j) (id2 S cnt e + i)
          * S.m_traceNormals j (id2 S cnt e + i))) :=
  ⟨reflected_components S (extractFwd S nVariables physarray)
      (fun v => WallBC S bcRegion cnt nVariables physarray bnd v bcRegion
        (id1 S bcRegion e + i)) (id2 S cnt e + i) t
      (fun j hj => WallBC_apply S bcRegion cnt nVariables physarray bnd e i (1 + j) hlay he hi
        (by omega)) hunit horth,
    reflected_components S (extractFwd S nVariables physarray)
      (fun v => SymmetryBC S bcRegion cnt nVariables physarray bnd v bcRegion
        (id1 S bcRegion e + i)) (id2 S cnt e + i) t
      (fun j hj => SymmetryBC_apply S bcRegion cnt nVariables physarray bnd e i (1 + j) hlay
        he hi (by omega)) hunit horth⟩

/-- Witness for C7: 2-D, normal `(1, 0)`, tangent `(0, 1)`, state
`(1, 2, 3, 5)`. -/
theorem Wall_Symmetry_reflect_normal_witness :
    (4 = (sampleSystem ℚ 2 1.4 2).m_spacedim + 2
      ∧ 1 < (sampleSystem ℚ 2 1.4 2).bndGetExpSize 0
      ∧ 0 < (sampleSystem ℚ 2 1.4 2).bndGetTotPoints 0 1
      ∧ ∑ j in Finset.range (sampleSystem ℚ 2 1.4 2).m_spacedim,
          (sampleSystem ℚ 2 1.4 2).m_traceNormals j
            (id2 (sampleSystem ℚ 2 1.4 2) 0 1 + 0) ^ 2 = 1
      ∧ ∑ j in Finset.range (sampleSystem ℚ 2 1.4 2).m_spacedim,
          (sampleSystem ℚ 2 1.4 2).m_traceNormals j
            (id2 (sampleSystem ℚ 2 1.4 2) 0 1 + 0) * (if j = 1 then 1 else 0) = 0) ∧
    ∑ j in Finset.range (sampleSystem ℚ 2 1.4 2).m_spacedim,
        WallBC (sampleSystem ℚ 2 1.4 2) 0 0 4 (uniformState [1, 2, 3, 5]) (fun _ _ _ => 0)
          (1 + j) 0 (id1 (sampleSystem ℚ 2 1.4 2) 0 1 + 0) * (if j = 1 then 1 else 0)
      = ∑ j in Finset.range (sampleSystem ℚ 2 1.4 2).m_spacedim,
        extractFwd (sampleSystem ℚ 2 1.4 2) 4 (uniformState [1, 2, 3, 5]) (1 + j)
          (id2 (sampleSystem ℚ 2 1.4 2) 0 1 + 0) * (if j = 1 then 1 else 0) :=
  ⟨⟨by decide, by decide, by decide,
      by simp [sampleSystem, Finset.sum_range_succ],
      by simp [sampleSystem, Finset.sum_range_succ]⟩,
    (Wall_Symmetry_reflect_normal (sampleSystem ℚ 2 1.4 2) 0 0 4
      (uniformState [1, 2, 3, 5]) (fun _ _ _ => 0) 1 0 (fun j => if j = 1 then 1 else 0)
      (by decide) (sampleSystem_layout 2 1.4 2 0 0) (by decide) (by decide)
      (by simp [sampleSystem, Finset.sum_range_succ])
      (by simp [sampleSystem, Finset.sum_range_succ])).1.1⟩

/-- C8: Wall/Symmetry preserve speed. For every trace state with non-zero
density and every unit trace normal, the boundary state written by `WallBC`,
and by `SymmetryBC`, has the trace density, a momentum of the same squared
length, and a velocity of the same magnitude as the interior velocity,
`|v_after| = |v_before|`. -/
theorem Wall_Symmetry_preserve_speed (S : CompressibleFlowSystem ℝ)
    (bcRegion cnt nVariables : Nat) (physarray : Nat → Nat → ℝ)
    (bnd : Nat → Nat → Nat → ℝ) (e i : Nat)
    (hn : nVariables = S.m_spacedim + 2)
    (hlay : RegionLayout S bcRegion cnt (S.bndGetTotPoints bcRegion))
    (he : e < S.bndGetExpSize bcRegion) (hi : i < S.bndGetTotPoints bcRegion e)
    (hunit : ∑ j in Finset.range S.m_spacedim,
      S.m_traceNormals j (id2 S cnt e + i) ^ 2 = 1)
    (_hrho : extractFwd S nVariables physarray 0 (id2 S cnt e + i) ≠ 0) :
    (WallBC S bcRegion cnt nVariables physarray bnd 0 bcRegion (id1 S bcRegion e + i)
        = extractFwd S nVariables physarray 0 (id2 S cnt e + i) ∧
      ∑ j in Finset.range S.m_spacedim,
          WallBC S bcRegion cnt nVariables physarray bnd (1 + j) bcRegion
            (id1 S bcRegion e + i) ^ 2
        = ∑ j in Finset.range S.m_spacedim,
          extractFwd S nVariables physarray (1 + j) (id2 S cnt e + i) ^ 2 ∧
      Real.sqrt (∑ j in Finset.range S.m_spacedim,
          (WallBC S bcRegion cnt nVariables physarray bnd (1 + j) bcRegion
              (id1 S bcRegion e + i)
            / WallBC S bcRegion cnt nVariables physarray bnd 0 bcRegion
              (id1 S bcRegion e + i)) ^ 2)
        = Real.sqrt (∑ j in Finset.range S.m_spacedim,
          (extractFwd S nVariables physarray (1 + j) (id2 S cnt e + i)
            / extractFwd S nVariables physarray 0 (id2 S cnt e + i)) ^ 2)) ∧
    (SymmetryBC S bcRegion cnt nVariables physarray bnd 0 bcRegion (id1 S bcRegion e + i)
        = extractFwd S nVariables physarray 0 (id2 S cnt e + i) ∧
      ∑ j in Finset.range S.m_spacedim,
          SymmetryBC S bcRegion cnt nVariables physarray bnd (1 + j) bcRegion
            (id1 S bcRegion e + i) ^ 2
        = ∑ j in Finset.range S.m_spacedim,
          extractFwd S nVariables physarray (1 + j) (id2 S cnt e + i) ^ 2 ∧
      Real.sqrt (∑ j in Finset.range S.m_spacedim,
          (SymmetryBC S bcRegion cnt nVariables physarray bnd (1 + j) bcRegion
              (id1 S bcRegion e + i)
            / SymmetryBC S bcRegion cnt nVariables physarray bnd 0 bcRegion
              (id1 S bcRegion e + i)) ^ 2)
        = Real.sqrt (∑ j in Finset.range S.m_spacedim,
          (extractFwd S nVariables physarray (1 + j) (id2 S cnt e + i)
            / extractFwd S nVariables physarray 0 (id2 S cnt e + i)) ^ 2)) := by
  have gen : ∀ out : Nat → ℝ,
      (∀ v, v < nVariables →
        out v = wallReflect S (extractFwd S nVariables physarray) v (id2 S cnt e + i)) →
      out 0 = extractFwd S nVariables physarray 0 (id2 S cnt e + i) ∧
      ∑ j in Finset.range S.m_spacedim, out (1 + j) ^ 2
        = ∑ j in Finset.range S.m_spacedim,
          extractFwd S nVariables physarray (1 + j) (id2 S cnt e + i) ^ 2 ∧
      Real.sqrt (∑ j in Finset.range S.m_spacedim, (out (1 + j) / out 0) ^ 2)
        = Real.sqrt (∑ j in Finset.range S.m_spacedim,
          (extractFwd S nVariables physarray (1 + j) (id2 S cnt e + i)
            / extractFwd S nVariables physarray 0 (id2 S cnt e + i)) ^ 2) := by
    intro out hout
    have h0 : out 0 = extractFwd S nVariables physarray 0 (id2 S cnt e + i) := by
      rw [hout 0 (by omega), wallReflect_other S _ 0 _ (by omega)]
    have hsq := reflected_norm_sq S (extractFwd S nVariables physarray) out
      (id2 S cnt e + i) (fun j hj => hout (1 + j) (by omega)) hunit
    refine ⟨h0, hsq, ?_⟩
    simp only [div_pow, ← Finset.sum_div]
    rw [hsq, h0]
  exact ⟨gen (fun v => WallBC S bcRegion cnt nVariables physarray bnd v bcRegion
        (id1 S bcRegion e + i))
      (fun v hv => WallBC_apply S bcRegion cnt nVariables physarray bnd e i v hlay he hi hv),
    gen (fun v => SymmetryBC S bcRegion cnt nVariables physarray bnd v bcRegion
        (id1 S bcRegion e + i))
      (fun v hv => SymmetryBC_apply S bcRegion cnt nVariables physarray bnd e i v hlay he hi
        hv)⟩

/-- Witness for C8: 2-D, normal `(1, 0)`, state `(1, 2, 3, 5)`. -/
theorem Wall_Symmetry_preserve_speed_witness :
    (4 = (sampleSystem ℝ 2 1.4 2).m_spacedim + 2
      ∧ 1 < (sampleSystem ℝ 2 1.4 2).bndGetExpSize 0
      ∧ 0 < (sampleSystem ℝ 2 1.4 2).bndGetTotPoints 0 1
      ∧ ∑ j in Finset.range (sampleSystem ℝ 2 1.4 2).m_spacedim,
          (sampleSystem ℝ 2 1.4 2).m_traceNormals j
            (id2 (sampleSystem ℝ 2 1.4 2) 0 1 + 0) ^ 2 = 1
      ∧ extractFwd (sampleSystem ℝ 2 1.4 2) 4 (uniformState [1, 2, 3, 5]) 0
          (id2 (sampleSystem ℝ 2 1.4 2) 0 1 + 0) ≠ 0) ∧
    ∑ j in Finset.range (sampleSystem ℝ 2 1.4 2).m_spacedim,
        WallBC (sampleSystem ℝ 2 1.4 2) 0 0 4 (uniformState [1, 2, 3, 5]) (fun _ _ _ => 0)
          (1 + j) 0 (id1 (sampleSystem ℝ 2 1.4 2) 0 1 + 0) ^ 2
      = ∑ j in Finset.range (sampleSystem ℝ 2 1.4 2).m_spacedim,
        extractFwd (sampleSystem ℝ 2 1.4 2) 4 (uniformState [1, 2, 3, 5]) (1 + j)
          (id2 (sampleSystem ℝ 2 1.4 2) 0 1 + 0) ^ 2 :=
  have hrho : extractFwd (sampleSystem ℝ 2 1.4 2) 4 (uniformState [1, 2, 3, 5]) 0
      (id2 (sampleSystem ℝ 2 1.4 2) 0 1 + 0) ≠ 0 := by
    rw [extractFwd_apply _ _ _ _ (by decide)]
    norm_num [sampleSystem, uniformState]
  ⟨⟨by decide, by decide, by decide,
      by simp [sampleSystem, Finset.sum_range_succ], hrho⟩,
    (Wall_Symmetry_preserve_speed (sampleSystem ℝ 2 1.4 2) 0 0 4
      (uniformState [1, 2, 3, 5]) (fun _ _ _ => 0) 1 0
      (by decide) (sampleSystem_layout 2 1.4 2 0 0) (by decide) (by decide)
      (by simp [sampleSystem, Finset.sum_range_succ]) hrho).1.2.1⟩

/-- C9: for every boundary point of the region, `WallViscousBC` writes momentum
components that are the negation of the trace momentum components, all
`spacedim` of them, and writes density and energy equal to the trace density
and energy. The state has `spacedim + 2` variables and the elements of the
region occupy disjoint ranges of the boundary storage and of the trace. -/
theorem WallViscousBC_writes (S : CompressibleFlowSystem K) (bcRegion cnt nVariables : Nat)
    (physarray : Nat → Nat → K) (bnd : Nat → Nat → Nat → K) (e i : Nat)
    (hn : nVariables = S.m_spacedim + 2)
    (hlay : RegionLayout S bcRegion cnt (S.bndGetTotPoints bcRegion))
    (he : e < S.bndGetExpSize bcRegion) (hi : i < S.bndGetTotPoints bcRegion e) :
    (∀ j, j < S.m_spacedim →
      WallViscousBC S bcRegion cnt nVariables physarray bnd (j + 1) bcRegion
          (id1 S bcRegion e + i)
        = - extractFwd S nVariables physarray (j + 1) (id2 S cnt e + i)) ∧
    WallViscousBC S bcRegion cnt nVariables physarray bnd 0 bcRegion (id1 S bcRegion e + i)
        = extractFwd S nVariables physarray 0 (id2 S cnt e + i) ∧
    WallViscousBC S bcRegion cnt nVariables physarray bnd (S.m_spacedim + 1) bcRegion
        (id1 S bcRegion e + i)
        = extractFwd S nVariables physarray (S.m_spacedim + 1) (id2 S cnt e + i) := by
  refine ⟨fun j hj => ?_, ?_, ?_⟩
  · rw [WallViscousBC_apply S bcRegion cnt nVariables physarray bnd e i _ hlay he hi
      (by omega)]
    unfold wallNegate
    rw [if_pos (by omega)]
  · rw [WallViscousBC_apply S bcRegion cnt nVariables physarray bnd e i _ hlay he hi
      (by omega)]
    unfold wallNegate
    rw [if_neg (by omega)]
  · rw [WallViscousBC_apply S bcRegion cnt nVariables physarray bnd e i _ hlay he hi
      (by omega)]
    unfold wallNegate
    rw [if_neg (by omega)]

/-- Witness for C9: two one-point elements in 2-D, state `(1, 2, 3, 5)`, second
element, second momentum component. -/
theorem WallViscousBC_writes_witness :
    (4 = (sampleSystem ℚ 2 1.4 2).m_spacedim + 2
      ∧ 1 < (sampleSystem ℚ 2 1.4 2).bndGetExpSize 0
      ∧ 0 < (sampleSystem ℚ 2 1.4 2).bndGetTotPoints 0 1) ∧
    WallViscousBC (sampleSystem ℚ 2 1.4 2) 0 0 4 (uniformState [1, 2, 3, 5])
        (fun _ _ _ => 0) (1 + 1) 0 (id1 (sampleSystem ℚ 2 1.4 2) 0 1 + 0)
      = - extractFwd (sampleSystem ℚ 2 1.4 2) 4 (uniformState [1, 2, 3, 5]) (1 + 1)
          (id2 (sampleSystem ℚ 2 1.4 2) 0 1 + 0) :=
  ⟨⟨by decide, by decide, by decide⟩,
    (WallViscousBC_writes (sampleSystem ℚ 2 1.4 2) 0 0 4 (uniformState [1, 2, 3, 5])
      (fun _ _ _ => 0) 1 0 (by decide) (sampleSystem_layout 2 1.4 2 0 0)
      (by decide) (by decide)).1 1 (by decide)⟩

/-- C10: `SymmetryBC` has identical algebra to `WallBC`: for every region,
offset, state, trace normals and initial boundary storage, `SymmetryBC` leaves
the boundary storage in exactly the same final state as `WallBC`. -/
theorem SymmetryBC_same_as_WallBC (S : CompressibleFlowSystem K)
    (bcRegion cnt nVariables : Nat) (physarray : Nat → Nat → K)
    (bnd : Nat → Nat → Nat → K) :
    SymmetryBC S bcRegion cnt nVariables physarray bnd
      = WallBC S bcRegion cnt nVariables physarray bnd :=
  rfl

end BoundaryClaims

/-! ## Point-wise boundary closures: loop lemmas -/

section PointLoopLemmas

/-- A loop of single-entry assignments `b[key j][r][x] = val j` whose keys are
`c + j` rewrites exactly the entries `b[c + lo][r][x] … b[c + lo + m - 1][r][x]`. -/
lemma forLoop_set3 {α : Type} (lo m c : Nat) (key : Nat → Nat) (hkey : ∀ j, key j = c + j)
    (val : Nat → α) (r x : Nat) (b0 : Nat → Nat → Nat → α) (v r2 x2 : Nat) :
    forLoop lo m (fun j b => set3 b (key j) r x (val j)) b0 v r2 x2
      = if (c + lo ≤ v ∧ v < c + lo + m) ∧ r2 = r ∧ x2 = x then val (v - c)
        else b0 v r2 x2 := by
  induction m generalizing v r2 x2 with
  | zero =>
    have : ¬ ((c + lo ≤ v ∧ v < c + lo + 0) ∧ r2 = r ∧ x2 = x) := by omega
    rw [forLoop_zero, if_neg this]
  | succ n ih =>
    rw [forLoop_succ]
    show (if v = key (lo + n) ∧ r2 = r ∧ x2 = x then _ else _) = _
    rw [hkey]
    by_cases h : v = c + (lo + n) ∧ r2 = r ∧ x2 = x
    · have h2 : (c + lo ≤ v ∧ v < c + lo + (n + 1)) ∧ r2 = r ∧ x2 = x := by omega
      have h3 : v - c = lo + n := by omega
      rw [if_pos h, if_pos h2, h3]
    · rw [if_neg h, ih]
      by_cases h2 : (c + lo ≤ v ∧ v < c + lo + n) ∧ r2 = r ∧ x2 = x
      · have h3 : (c + lo ≤ v ∧ v < c + lo + (n + 1)) ∧ r2 = r ∧ x2 = x := by omega
        rw [if_pos h2, if_pos h3]
      · have h3 : ¬ ((c + lo ≤ v ∧ v < c + lo + (n + 1)) ∧ r2 = r ∧ x2 = x) := by omega
        rw [if_neg h2, if_neg h3]

/-- A loop over the points `i < n` of an element whose pass for point `i`
assigns `W v (i2 + i)` to the entries `b[v][r][i1 + i]`, `v < nV`, fills the
range `i1 … i1+n-1` of these variables and nothing else. -/
lemma point_loop_apply {α : Type} (r nV n i1 i2 : Nat) (W : Nat → Nat → α)
    (step : Nat → (Nat → Nat → Nat → α) → Nat → Nat → Nat → α)
    (hstep : ∀ i b v r2 x, step i b v r2 x
      = if (v < nV ∧ r2 = r) ∧ x = i1 + i then W v (i2 + i) else b v r2 x)
    (b : Nat → Nat → Nat → α) (v r2 x : Nat) :
    forLoop 0 n step b v r2 x
      = if (v < nV ∧ r2 = r) ∧ (i1 ≤ x ∧ x < i1 + n) then W v (i2 + (x - i1))
        else b v r2 x := by
  induction n generalizing v r2 x with
  | zero =>
    have : ¬ ((v < nV ∧ r2 = r) ∧ (i1 ≤ x ∧ x < i1 + 0)) := by omega
    rw [forLoop_zero, if_neg this]
  | succ m ih =>
    rw [forLoop_from_zero_succ, hstep]
    by_cases h : (v < nV ∧ r2 = r) ∧ x = i1 + m
    · have h2 : (v < nV ∧ r2 = r) ∧ (i1 ≤ x ∧ x < i1 + (m + 1)) := by omega
      have h3 : x - i1 = m := by omega
      rw [if_pos h, if_pos h2, h3]
    · rw [if_neg h, ih]
      by_cases h2 : (v < nV ∧ r2 = r) ∧ (i1 ≤ x ∧ x < i1 + m)
      · have h3 : (v < nV ∧ r2 = r) ∧ (i1 ≤ x ∧ x < i1 + (m + 1)) := by omega
        rw [if_pos h2, if_pos h3]
      · have h3 : ¬ ((v < nV ∧ r2 = r) ∧ (i1 ≤ x ∧ x < i1 + (m + 1))) := by omega
        rw [if_neg h2, if_neg h3]

/-- A loop over the boundary elements of a region whose pass for element `e`
fills the boundary range of `e` with `W` of the matching trace points: with
disjoint ranges every boundary entry of the region ends as `W` of its trace
point. -/
lemma element_loop_apply {K : Type} (S : CompressibleFlowSystem K)
    (bcRegion cnt nV : Nat) (npts : Nat → Nat) (W : Nat → Nat → K)
    (step : Nat → (Nat → Nat → Nat → K) → Nat → Nat → Nat → K)
    (hstep : ∀ e b v r x, step e b v r x
      = if (v < nV ∧ r = bcRegion)
            ∧ (id1 S bcRegion e ≤ x ∧ x < id1 S bcRegion e + npts e) then
          W v (id2 S cnt e + (x - id1 S bcRegion e))
        else b v r x)
    (hlay : RegionLayout S bcRegion cnt npts)
    (b0 : Nat → Nat → Nat → K) (e i v : Nat)
    (he : e < S.bndGetExpSize bcRegion) (hi : i < npts e) (hv : v < nV) :
    forLoop 0 (S.bndGetExpSize bcRegion) step b0 v bcRegion (id1 S bcRegion e + i)
      = W v (id2 S cnt e + i) := by
  have key := forLoop_induct
    (fun n (b : Nat → Nat → Nat → K) =>
      ∀ e2 j w, e2 < n → j < npts e2 → w < nV →
        b w bcRegion (id1 S bcRegion e2 + j) = W w (id2 S cnt e2 + j))
    0 (S.bndGetExpSize bcRegion) step b0
    (fun e2 j w h => absurd h (Nat.not_lt_zero _))
    (by
      intro n hn b ih e2 j w he2 hj hw
      simp only [Nat.zero_add]
      rw [hstep]
      rcases Nat.lt_succ_iff_lt_or_eq.mp he2 with hlt | rfl
      · have hl := (hlay e2 n (Nat.lt_trans hlt hn) hn (Nat.ne_of_lt hlt)).1
        have hout : ¬ ((w < nV ∧ bcRegion = bcRegion)
            ∧ (id1 S bcRegion n ≤ id1 S bcRegion e2 + j
              ∧ id1 S bcRegion e2 + j < id1 S bcRegion n + npts n)) := by
          omega
        rw [if_neg hout]
        exact ih e2 j w hlt hj hw
      · have hin : (w < nV ∧ bcRegion = bcRegion)
            ∧ (id1 S bcRegion e2 ≤ id1 S bcRegion e2 + j
              ∧ id1 S bcRegion e2 + j < id1 S bcRegion e2 + npts e2) := by
          omega
        rw [if_pos hin, Nat.add_sub_cancel_left])
  exact key e i v he hi hv

/-- The forward trace built by the preamble is zero at the variables from
`nVariables` on. -/
lemma extractFwd_apply_ge {K : Type} [LinearOrderedField K] (S : CompressibleFlowSystem K)
    (nVariables : Nat) (physarray : Nat → Nat → K) (v : Nat) (hv : nVariables ≤ v) :
    extractFwd S nVariables physarray v = fun _ => 0 := by
  have h := forLoop_update_rows 0 nVariables
    (fun i _ => S.ExtractTracePhys i (physarray i)) (fun _ _ => (0 : K)) v
  simp only [Nat.zero_add] at h
  unfold extractFwd
  rw [h, if_neg (by omega)]

variable {K : Type} [LinearOrderedField K]

/-- The pass of `ExtrapOrder0BC` for one point, in closed form. -/
lemma ExtrapOrder0BC_point_apply {K : Type} (sd nV bcRegion idx pnt : Nat) (hn : nV = sd + 2)
    (Fwd : Nat → Nat → K) (b : Nat → Nat → Nat → K) (v r x : Nat) :
    set3 (forLoop 1 sd (fun j b => set3 b j bcRegion idx (Fwd j pnt))
        (set3 b 0 bcRegion idx (Fwd 0 pnt)))
      (nV - 1) bcRegion idx (Fwd (nV - 1) pnt) v r x
      = if (v < nV ∧ r = bcRegion) ∧ x = idx then Fwd v pnt else b v r x := by
  show (if v = nV - 1 ∧ r = bcRegion ∧ x = idx then _ else _) = _
  rw [forLoop_set3 1 sd 0 (fun j => j) (fun j => (Nat.zero_add j).symm)
    (fun j => Fwd j pnt) bcRegion idx]
  show (if v = nV - 1 ∧ r = bcRegion ∧ x = idx then _ else
    (if (0 + 1 ≤ v ∧ v < 0 + 1 + sd) ∧ r = bcRegion ∧ x = idx then _ else
      (if v = 0 ∧ r = bcRegion ∧ x = idx then _ else _))) = _
  by_cases hrx : r = bcRegion ∧ x = idx
  · by_cases h1 : v = nV - 1
    · have h2 : (v < nV ∧ r = bcRegion) ∧ x = idx := by omega
      rw [if_pos ⟨h1, hrx⟩, if_pos h2, h1]
    · rw [if_neg (fun h => h1 h.1)]
      by_cases h3 : 0 + 1 ≤ v ∧ v < 0 + 1 + sd
      · have h2 : (v < nV ∧ r = bcRegion) ∧ x = idx := by omega
        rw [if_pos ⟨h3, hrx⟩, if_pos h2, Nat.sub_zero]
      · rw [if_neg (fun h => h3 h.1)]
        by_cases h0 : v = 0
        · have h2 : (v < nV ∧ r = bcRegion) ∧ x = idx := by omega
          rw [if_pos ⟨h0, hrx⟩, if_pos h2, h0]
        · have h2 : ¬ ((v < nV ∧ r = bcRegion) ∧ x = idx) := by omega
          rw [if_neg (fun h => h0 h.1), if_neg h2]
  · have h2 : ¬ ((v < nV ∧ r = bcRegion) ∧ x = idx) := fun h => hrx ⟨h.1.2, h.2⟩
    rw [if_neg (fun h => hrx h.2), if_neg (fun h => hrx h.2), if_neg (fun h => hrx h.2),
      if_neg h2]

/-- Every boundary entry of the region written by `ExtrapOrder0BC`. -/
lemma ExtrapOrder0BC_apply (S : CompressibleFlowSystem K) (bcRegion cnt nVariables : Nat)
    (physarray : Nat → Nat → K) (bnd : Nat → Nat → Nat → K) (e i v : Nat)
    (hn : nVariables = S.m_spacedim + 2)
    (hlay : RegionLayout S bcRegion cnt (S.bndGetNumPoints0 bcRegion))
    (he : e < S.bndGetExpSize bcRegion) (hi : i < S.bndGetNumPoints0 bcRegion e)
    (hv : v < nVariables) :
    ExtrapOrder0BC S bcRegion cnt nVariables physarray bnd v bcRegion (id1 S bcRegion e + i)
      = extractFwd S nVariables physarray v (id2 S cnt e + i) :=
  element_loop_apply S bcRegion cnt nVariables (S.bndGetNumPoints0 bcRegion)
    (extractFwd S nVariables physarray)
    (ExtrapOrder0BC_element S bcRegion cnt nVariables (extractFwd S nVariables physarray))
    (fun e b v r x =>
      point_loop_apply bcRegion nVariables (S.bndGetNumPoints0 bcRegion e)
        (id1 S bcRegion e) (id2 S cnt e) (extractFwd S nVariables physarray) _
        (fun i b v r x => ExtrapOrder0BC_point_apply S.m_spacedim nVariables bcRegion
          (id1 S bcRegion e + i) (id2 S cnt e + i) hn _ b v r x) b v r x)
    hlay bnd e i v he hi hv

/-- A single assignment of a fixed value only assigns constants. -/
lemma writesConstants_set3 {α : Type} (v r x : Nat) (c : α) :
    WritesConstants (fun b => set3 b v r x c) := by
  intro b1 b2 v2 r2 x2
  by_cases h : v2 = v ∧ r2 = r ∧ x2 = x
  · left
    simp only [set3, if_pos h]
  · right
    simp only [set3, if_neg h, and_self]

/-- Transformers that only assign constants compose. -/
lemma writesConstants_comp {α : Type}
    (F G : (Nat → Nat → Nat → α) → Nat → Nat → Nat → α)
    (hF : WritesConstants F) (hG : WritesConstants G) :
    WritesConstants (fun b => G (F b)) := by
  intro b1 b2 v r x
  show G (F b1) v r x = G (F b2) v r x ∨ (G (F b1) v r x = b1 v r x ∧ G (F b2) v r x = b2 v r x)
  rcases hG (F b1) (F b2) v r x with h | ⟨h1, h2⟩
  · exact Or.inl h
  · rcases hF b1 b2 v r x with h3 | ⟨h3, h4⟩
    · exact Or.inl (by rw [h1, h2, h3])
    · exact Or.inr ⟨by rw [h1, h3], by rw [h2, h4]⟩

/-- A loop whose passes only assign constants only assigns constants. -/
lemma writesConstants_forLoop {α : Type} (lo m : Nat)
    (body : Nat → (Nat → Nat → Nat → α) → Nat → Nat → Nat → α)
    (h : ∀ i, WritesConstants (body i)) :
    WritesConstants (fun b => forLoop lo m body b) := by
  induction m with
  | zero => exact fun b1 b2 v r x => Or.inr ⟨rfl, rfl⟩
  | succ n ih =>
    exact writesConstants_comp (fun b => forLoop lo n body b) (body (lo + n)) ih (h (lo + n))

/-- Running a transformer that only assigns constants a second time changes
nothing. -/
lemma writesConstants_idem {α : Type}
    (F : (Nat → Nat → Nat → α) → Nat → Nat → Nat → α) (hF : WritesConstants F)
    (b : Nat → Nat → Nat → α) : F (F b) = F b := by
  funext v r x
  rcases hF (F b) b v r x with h | ⟨h, _⟩
  · exact h
  · exact h

/-- For a fixed interior state `ExtrapOrder0BC` only assigns constants. -/
lemma ExtrapOrder0BC_writesConstants (S : CompressibleFlowSystem K)
    (bcRegion cnt nVariables : Nat) (physarray : Nat → Nat → K) :
    WritesConstants (ExtrapOrder0BC S bcRegion cnt nVariables physarray) := by
  refine writesConstants_forLoop 0 _ _ (fun e => ?_)
  refine writesConstants_forLoop 0 _ _ (fun i => ?_)
  exact writesConstants_comp
    (fun b => forLoop 1 S.m_spacedim
      (fun j b => set3 b j bcRegion (id1 S bcRegion e + i)
        (extractFwd S nVariables physarray j (id2 S cnt e + i)))
      (set3 b 0 bcRegion (id1 S bcRegion e + i)
        (extractFwd S nVariables physarray 0 (id2 S cnt e + i))))
    (fun b => set3 b (nVariables - 1) bcRegion (id1 S bcRegion e + i)
      (extractFwd S nVariables physarray (nVariables - 1) (id2 S cnt e + i)))
    (writesConstants_comp
      (fun b => set3 b 0 bcRegion (id1 S bcRegion e + i)
        (extractFwd S nVariables physarray 0 (id2 S cnt e + i)))
      (fun b => forLoop 1 S.m_spacedim
        (fun j b => set3 b j bcRegion (id1 S bcRegion e + i)
          (extractFwd S nVariables physarray j (id2 S cnt e + i))) b)
      (writesConstants_set3 _ _ _ _)
      (writesConstants_forLoop 1 _ _ (fun j => writesConstants_set3 _ _ _ _)))
    (writesConstants_set3 _ _ _ _)

/-- The sample region of one-point elements is laid out on disjoint ranges,
also for the point count `GetNumPoints(0)`. -/
lemma sampleSystem_layout0 (spacedim : Nat) (gamma : K) (nElmt bcRegion cnt : Nat) :
    RegionLayout (sampleSystem K spacedim gamma nElmt) bcRegion cnt
      ((sampleSystem K spacedim gamma nElmt).bndGetNumPoints0 bcRegion) := by
  intro e1 e2 _ _ hne
  simp only [id1, id2, sampleSystem]
  omega

end PointLoopLemmas

/-! ## Zero-order extrapolation: the claims -/

section ExtrapClaims

variable {K : Type} [LinearOrderedField K]

/-- The values written by `ExtrapOrder0BC` at the points that its loop visits:
for every boundary element `e` of the region and every point `i` below
`GetNumPoints(0)` of it, `ExtrapOrder0BC` leaves in the boundary storage at
`id1 + i` the interior trace value at `id2 + i` unchanged, for density, for
each of the `spacedim` momentum components and for energy. The state has `spacedim + 2` variables and
the elements of the region occupy disjoint ranges of the boundary storage and
of the trace. -/
theorem ExtrapOrder0BC_writes (S : CompressibleFlowSystem K) (bcRegion cnt nVariables : Nat)
    (physarray : Nat → Nat → K) (bnd : Nat → Nat → Nat → K) (e i : Nat)
    (hn : nVariables = S.m_spacedim + 2)
    (hlay : RegionLayout S bcRegion cnt (S.bndGetNumPoints0 bcRegion))
    (he : e < S.bndGetExpSize bcRegion) (hi : i < S.bndGetNumPoints0 bcRegion e) :
    ExtrapOrder0BC S bcRegion cnt nVariables physarray bnd 0 bcRegion (id1 S bcRegion e + i)
        = extractFwd S nVariables physarray 0 (id2 S cnt e + i) ∧
    (∀ j, 1 ≤ j → j ≤ S.m_spacedim →
      ExtrapOrder0BC S bcRegion cnt nVariables physarray bnd j bcRegion
          (id1 S bcRegion e + i)
        = extractFwd S nVariables physarray j (id2 S cnt e + i)) ∧
    ExtrapOrder0BC S bcRegion cnt nVariables physarray bnd (S.m_spacedim + 1) bcRegion
        (id1 S bcRegion e + i)
        = extractFwd S nVariables physarray (S.m_spacedim + 1) (id2 S cnt e + i) :=
  ⟨ExtrapOrder0BC_apply S bcRegion cnt nVariables physarray bnd e i 0 hn hlay he hi
      (by omega),
    fun j _ hj => ExtrapOrder0BC_apply S bcRegion cnt nVariables physarray bnd e i j hn hlay
      he hi (by omega),
    ExtrapOrder0BC_apply S bcRegion cnt nVariables physarray bnd e i _ hn hlay he hi
      (by omega)⟩

/-- Example for `ExtrapOrder0BC_writes`: two one-point elements in 2-D, state
`(1, 2, 3, 5)`, second element, energy. -/
theorem ExtrapOrder0BC_writes_witness :
    (4 = (sampleSystem ℚ 2 1.4 2).m_spacedim + 2
      ∧ 1 < (sampleSystem ℚ 2 1.4 2).bndGetExpSize 0
      ∧ 0 < (sampleSystem ℚ 2 1.4 2).bndGetNumPoints0 0 1) ∧
    ExtrapOrder0BC (sampleSystem ℚ 2 1.4 2) 0 0 4 (uniformState [1, 2, 3, 5])
        (fun _ _ _ => 0) ((sampleSystem ℚ 2 1.4 2).m_spacedim + 1) 0
        (id1 (sampleSystem ℚ 2 1.4 2) 0 1 + 0)
      = extractFwd (sampleSystem ℚ 2 1.4 2) 4 (uniformState [1, 2, 3, 5])
          ((sampleSystem ℚ 2 1.4 2).m_spacedim + 1) (id2 (sampleSystem ℚ 2 1.4 2) 0 1 + 0) :=
  ⟨⟨by decide, by decide, by decide⟩,
    (ExtrapOrder0BC_writes (sampleSystem ℚ 2 1.4 2) 0 0 4 (uniformState [1, 2, 3, 5])
      (fun _ _ _ => 0) 1 0 (by decide) (sampleSystem_layout0 2 1.4 2 0 0)
      (by decide) (by decide)).2.2⟩

/-- C16: `ExtrapOrder0BC` is idempotent: for every interior state and every
initial boundary storage, applying it twice with the same interior state leaves
the boundary storage exactly as applying it once does. -/
theorem ExtrapOrder0BC_idempotent (S : CompressibleFlowSystem K)
    (bcRegion cnt nVariables : Nat) (physarray : Nat → Nat → K)
    (bnd : Nat → Nat → Nat → K) :
    ExtrapOrder0BC S bcRegion cnt nVariables physarray
        (ExtrapOrder0BC S bcRegion cnt nVariables physarray bnd)
      = ExtrapOrder0BC S bcRegion cnt nVariables physarray bnd :=
  writesConstants_idem _ (ExtrapOrder0BC_writesConstants S bcRegion cnt nVariables physarray)
    bnd

end ExtrapClaims

/-! ## Far-field closure: lemmas -/

section RiemannLemmas

variable {K : Type} [LinearOrderedField K]

/-- The array `VnInf` at a trace point: every freestream velocity component is
multiplied by the first component of the trace normal. -/
lemma RiemannInvariantBC_VnInf_apply (S : CompressibleFlowSystem K) (pnt : Nat)
    (hp : pnt < S.GetTraceTotPoints) :
    RiemannInvariantBC_VnInf S pnt
      = S.m_uInf * S.m_traceNormals 0 pnt
        + (if S.m_spacedim = 2 ∨ S.m_spacedim = 3 then S.m_vInf * S.m_traceNormals 0 pnt
            else 0)
        + (if S.m_spacedim = 3 then S.m_wInf * S.m_traceNormals 0 pnt else 0) := by
  unfold RiemannInvariantBC_VnInf
  by_cases h3 : S.m_spacedim = 3
  · have h23 : S.m_spacedim = 2 ∨ S.m_spacedim = 3 := Or.inr h3
    simp only [if_pos h3, if_pos h23, Vmath.Vadd, Vmath.Smul]
    rw [store_zero_lt _ _ _ _ hp, store_zero_lt _ _ _ _ hp, store_zero_lt _ _ _ _ hp,
      store_zero_lt _ _ _ _ hp, store_zero_lt _ _ _ _ hp]
  · by_cases h23 : S.m_spacedim = 2 ∨ S.m_spacedim = 3
    · simp only [if_neg h3, if_pos h23, Vmath.Vadd, Vmath.Smul]
      rw [store_zero_lt _ _ _ _ hp, store_zero_lt _ _ _ _ hp, store_zero_lt _ _ _ _ hp,
        add_zero]
    · simp only [if_neg h3, if_neg h23, Vmath.Smul]
      rw [store_zero_lt _ _ _ _ hp, add_zero, add_zero]

/-- The array `velInf` for spatial dimension 1..3: the freestream velocity. -/
lemma RiemannInvariantBC_velInf_apply (S : CompressibleFlowSystem K) (j : Nat)
    (h3 : S.m_spacedim ≤ 3) (hj : j < S.m_spacedim) :
    RiemannInvariantBC_velInf S j
      = if j = 0 then S.m_uInf else if j = 1 then S.m_vInf else S.m_wInf := by
  unfold RiemannInvariantBC_velInf
  have hcases : S.m_spacedim = 1 ∨ S.m_spacedim = 2 ∨ S.m_spacedim = 3 := by omega
  rcases hcases with h | h | h
  · have hj0 : j = 0 := by omega
    subst hj0
    simp [h]
  · have hj01 : j = 0 ∨ j = 1 := by omega
    rcases hj01 with rfl | rfl <;> simp [h]
  · have hj012 : j = 0 ∨ j = 1 ∨ j = 2 := by omega
    rcases hj012 with rfl | rfl | rfl <;> simp [h]

/-- The loop that accumulates `Vn`: the dot product of the trace normal with
the velocity `momentum / density`. -/
lemma Vn_loop_apply (n m : Nat) (nrm Fwd : Nat → Nat → K) (a0 b0 : Nat → K) (k : Nat)
    (hk : k < n) :
    (forLoop 0 m
      (fun i st =>
        let Vel := Vmath.Vdiv n (Fwd (i + 1)) (Fwd 0) st.1 0
        (Vel, Vmath.Vvtvp n (nrm i) Vel st.2 st.2 0))
      (a0, b0)).2 k
      = b0 k + ∑ i in Finset.range m, nrm i k * (Fwd (i + 1) k / Fwd 0 k) := by
  induction m with
  | zero => simp [forLoop_zero]
  | succ j ih =>
    rw [forLoop_from_zero_succ, Finset.sum_range_succ]
    generalize forLoop 0 j
      (fun i st =>
        let Vel := Vmath.Vdiv n (Fwd (i + 1)) (Fwd 0) st.1 0
        (Vel, Vmath.Vvtvp n (nrm i) Vel st.2 st.2 0))
      (a0, b0) = st at ih ⊢
    simp only [Vmath.Vvtvp, Vmath.Vdiv]
    rw [store_zero_lt _ _ _ _ hk, store_zero_lt _ _ _ _ hk, ih]
    ring

/-- The array `Vn` at a trace point. -/
lemma RiemannInvariantBC_Vn_apply (S : CompressibleFlowSystem K) (Fwd : Nat → Nat → K)
    (pnt : Nat) (hp : pnt < S.GetTraceTotPoints) :
    RiemannInvariantBC_Vn S Fwd pnt
      = ∑ i in Finset.range S.m_spacedim,
          S.m_traceNormals i pnt * (Fwd (i + 1) pnt / Fwd 0 pnt) := by
  unfold RiemannInvariantBC_Vn
  have h := Vn_loop_apply S.GetTraceTotPoints S.m_spacedim S.m_traceNormals Fwd
    (fun _ => 0.0) (fun _ => 0.0) pnt hp
  simp only [] at h ⊢
  rw [h]
  norm_num

/-- A loop `for i < n` that assigns `a[i] = f i` and `c[i] = g (a[i]) i` fills
both arrays below `n`. -/
lemma pair_fill_loop_apply (n : Nat) (f : Nat → K) (g : K → Nat → K) (a0 c0 : Nat → K)
    (k : Nat) (hk : k < n) :
    (forLoop 0 n
        (fun i st =>
          let a := Function.update st.1 i (f i)
          (a, Function.update st.2 i (g (a i) i)))
        (a0, c0)).1 k = f k ∧
    (forLoop 0 n
        (fun i st =>
          let a := Function.update st.1 i (f i)
          (a, Function.update st.2 i (g (a i) i)))
        (a0, c0)).2 k = g (f k) k := by
  induction n with
  | zero => omega
  | succ m ih =>
    rw [forLoop_from_zero_succ]
    generalize forLoop 0 m
      (fun i st =>
        let a := Function.update st.1 i (f i)
        (a, Function.update st.2 i (g (a i) i)))
      (a0, c0) = st at ih ⊢
    by_cases hkm : k = m
    · subst hkm
      simp only [Function.update_same, and_self]
    · have hlt : k < m := by omega
      simp only [Function.update_noteq hkm]
      exact ih hlt

/-- The arrays `pressure` and `soundSpeed` at a trace point. -/
lemma RiemannInvariantBC_pressure_apply (sqrt : K → K) (S : CompressibleFlowSystem K)
    (Fwd : Nat → Nat → K) (pnt : Nat) (hp : pnt < S.GetTraceTotPoints) :
    (RiemannInvariantBC_pressure sqrt S Fwd).1 pnt
      = (if S.m_spacedim = 1 then
          (S.m_gamma - 1.0) * (Fwd 2 pnt - 0.5 * (Fwd 1 pnt * Fwd 1 pnt / Fwd 0 pnt))
        else if S.m_spacedim = 2 then
          (S.m_gamma - 1.0) * (Fwd 3 pnt - 0.5 * (Fwd 1 pnt * Fwd 1 pnt / Fwd 0 pnt
            + Fwd 2 pnt * Fwd 2 pnt / Fwd 0 pnt))
        else
          (S.m_gamma - 1.0) * (Fwd 4 pnt - 0.5 * (Fwd 1 pnt * Fwd 1 pnt / Fwd 0 pnt
            + Fwd 2 pnt * Fwd 2 pnt / Fwd 0 pnt + Fwd 3 pnt * Fwd 3 pnt / Fwd 0 pnt))) ∧
    (RiemannInvariantBC_pressure sqrt S Fwd).2 pnt
      = sqrt (S.m_gamma * (RiemannInvariantBC_pressure sqrt S Fwd).1 pnt / Fwd 0 pnt) := by
  have h := pair_fill_loop_apply S.GetTraceTotPoints
    (fun i => if S.m_spacedim = 1 then
          (S.m_gamma - 1.0) * (Fwd 2 i - 0.5 * (Fwd 1 i * Fwd 1 i / Fwd 0 i))
        else if S.m_spacedim = 2 then
          (S.m_gamma - 1.0) * (Fwd 3 i - 0.5 * (Fwd 1 i * Fwd 1 i / Fwd 0 i
            + Fwd 2 i * Fwd 2 i / Fwd 0 i))
        else
          (S.m_gamma - 1.0) * (Fwd 4 i - 0.5 * (Fwd 1 i * Fwd 1 i / Fwd 0 i
            + Fwd 2 i * Fwd 2 i / Fwd 0 i + Fwd 3 i * Fwd 3 i / Fwd 0 i)))
    (fun a i => sqrt (S.m_gamma * a / Fwd 0 i)) (fun _ => 0.0) (fun _ => 0.0) pnt hp
  unfold RiemannInvariantBC_pressure
  simp only [] at h ⊢
  refine ⟨h.1, ?_⟩
  rw [h.2, h.1]

/-- The interior pressure of `RiemannInvariantBC` for spatial dimension 1..3:
`(gamma - 1)(E - 1/2 (sum_j (rho v_j)^2) / rho)`. -/
lemma RiemannInvariantBC_pressure_formula (sqrt : K → K) (S : CompressibleFlowSystem K)
    (Fwd : Nat → Nat → K) (pnt : Nat) (hp : pnt < S.GetTraceTotPoints)
    (h1 : 1 ≤ S.m_spacedim) (h3 : S.m_spacedim ≤ 3) :
    (RiemannInvariantBC_pressure sqrt S Fwd).1 pnt
      = (S.m_gamma - 1) * (Fwd (S.m_spacedim + 1) pnt
          - 1 / 2 * (∑ j in Finset.range S.m_spacedim, (Fwd (j + 1) pnt) ^ 2) / Fwd 0 pnt) := by
  rw [(RiemannInvariantBC_pressure_apply sqrt S Fwd pnt hp).1]
  have hcases : S.m_spacedim = 1 ∨ S.m_spacedim = 2 ∨ S.m_spacedim = 3 := by omega
  have h05 : (0.5 : K) = 1 / 2 := by norm_num
  have h10 : (1.0 : K) = 1 := by norm_num
  rcases hcases with h | h | h
  · rw [if_pos h, h, h05, h10]
    simp only [Finset.sum_range_succ, Finset.sum_range_zero]
    show (S.m_gamma - 1) * (Fwd 2 pnt - 1 / 2 * (Fwd 1 pnt * Fwd 1 pnt / Fwd 0 pnt))
      = (S.m_gamma - 1) * (Fwd 2 pnt - 1 / 2 * (0 + Fwd 1 pnt ^ 2) / Fwd 0 pnt)
    ring
  · rw [if_neg (by omega), if_pos h, h, h05, h10]
    simp only [Finset.sum_range_succ, Finset.sum_range_zero]
    show (S.m_gamma - 1) * (Fwd 3 pnt - 1 / 2 * (Fwd 1 pnt * Fwd 1 pnt / Fwd 0 pnt
        + Fwd 2 pnt * Fwd 2 pnt / Fwd 0 pnt))
      = (S.m_gamma - 1) * (Fwd 3 pnt
          - 1 / 2 * (0 + Fwd 1 pnt ^ 2 + Fwd 2 pnt ^ 2) / Fwd 0 pnt)
    ring
  · rw [if_neg (by omega), if_neg (by omega), h, h05, h10]
    simp only [Finset.sum_range_succ, Finset.sum_range_zero]
    show (S.m_gamma - 1) * (Fwd 4 pnt - 1 / 2 * (Fwd 1 pnt * Fwd 1 pnt / Fwd 0 pnt
        + Fwd 2 pnt * Fwd 2 pnt / Fwd 0 pnt + Fwd 3 pnt * Fwd 3 pnt / Fwd 0 pnt))
      = (S.m_gamma - 1) * (Fwd 4 pnt
          - 1 / 2 * (0 + Fwd 1 pnt ^ 2 + Fwd 2 pnt ^ 2 + Fwd 3 pnt ^ 2) / Fwd 0 pnt)
    ring

/-- The array `Mach` at a trace point: `|Vn / soundSpeed|`. -/
lemma RiemannInvariantBC_Mach_apply (S : CompressibleFlowSystem K) (Vn soundSpeed : Nat → K)
    (pnt : Nat) (hp : pnt < S.GetTraceTotPoints) :
    RiemannInvariantBC_Mach S Vn soundSpeed pnt = |Vn pnt / soundSpeed pnt| := by
  simp only [RiemannInvariantBC_Mach, Vmath.Vabs, Vmath.Vdiv]
  rw [store_zero_lt _ _ _ _ hp, store_zero_lt _ _ _ _ hp]

/-- The loop over `j` that fills `velBC`, `rhoVelBC` and `EkBC`. -/
lemma vel_loop_apply (m : Nat) (velBCf : Nat → K) (rhoBC : K) (a0 b0 : Nat → K) :
    (∀ j, j < m →
      (forLoop 0 m
        (fun j st =>
          let velBC := Function.update st.1 j (velBCf j)
          let rhoVelBC := Function.update st.2.1 j (rhoBC * velBC j)
          (velBC, rhoVelBC, st.2.2 + 0.5 * rhoBC * velBC j * velBC j))
        (a0, b0, (0.0 : K))).2.1 j = rhoBC * velBCf j) ∧
    (forLoop 0 m
        (fun j st =>
          let velBC := Function.update st.1 j (velBCf j)
          let rhoVelBC := Function.update st.2.1 j (rhoBC * velBC j)
          (velBC, rhoVelBC, st.2.2 + 0.5 * rhoBC * velBC j * velBC j))
        (a0, b0, (0.0 : K))).2.2
      = ∑ j in Finset.range m, 0.5 * rhoBC * velBCf j * velBCf j := by
  induction m with
  | zero =>
    refine ⟨fun j hj => absurd hj (Nat.not_lt_zero _), ?_⟩
    rw [forLoop_zero, Finset.sum_range_zero]
    norm_num
  | succ n ih =>
    rw [forLoop_from_zero_succ]
    generalize forLoop 0 n
      (fun j st =>
        let velBC := Function.update st.1 j (velBCf j)
        let rhoVelBC := Function.update st.2.1 j (rhoBC * velBC j)
        (velBC, rhoVelBC, st.2.2 + 0.5 * rhoBC * velBC j * velBC j))
      (a0, b0, (0.0 : K)) = st at ih ⊢
    refine ⟨fun j hj => ?_, ?_⟩
    · by_cases hjn : j = n
      · subst hjn
        simp only [Function.update_same]
      · simp only [Function.update_noteq hjn]
        exact ih.1 j (by omega)
    · simp only [Function.update_same]
      rw [ih.2, Finset.sum_range_succ]

/-- The boundary state computed from a characteristic pair, component by
component. -/
lemma RiemannInvariantBC_state_apply (pow : K → K → K) (S : CompressibleFlowSystem K)
    (r : K × K) (VnRef sBC : K) (velRef : Nat → K) (pnt : Nat) :
    (RiemannInvariantBC_state pow S r VnRef sBC velRef pnt).1
      = pow ((0.25 * (S.m_gamma - 1.0) * (r.1 - r.2)) * (0.25 * (S.m_gamma - 1.0) * (r.1 - r.2))
          / (S.m_gamma * sBC)) (1.0 / (S.m_gamma - 1.0)) ∧
    (∀ j, j < S.m_spacedim →
      (RiemannInvariantBC_state pow S r VnRef sBC velRef pnt).2.1 j
        = (RiemannInvariantBC_state pow S r VnRef sBC velRef pnt).1
          * (velRef j + (0.5 * (r.1 + r.2) - VnRef) * S.m_traceNormals j pnt)) ∧
    (RiemannInvariantBC_state pow S r VnRef sBC velRef pnt).2.2
      = (RiemannInvariantBC_state pow S r VnRef sBC velRef pnt).1
          * (0.25 * (S.m_gamma - 1.0) * (r.1 - r.2)) * (0.25 * (S.m_gamma - 1.0) * (r.1 - r.2))
          * (1.0 / S.m_gamma) * (1.0 / (S.m_gamma - 1.0))
        + ∑ j in Finset.range S.m_spacedim,
            0.5 * (RiemannInvariantBC_state pow S r VnRef sBC velRef pnt).1
              * (velRef j + (0.5 * (r.1 + r.2) - VnRef) * S.m_traceNormals j pnt)
              * (velRef j + (0.5 * (r.1 + r.2) - VnRef) * S.m_traceNormals j pnt) := by
  have h := vel_loop_apply S.m_spacedim
    (fun j => velRef j + (0.5 * (r.1 + r.2) - VnRef) * S.m_traceNormals j pnt)
    (pow ((0.25 * (S.m_gamma - 1.0) * (r.1 - r.2)) * (0.25 * (S.m_gamma - 1.0) * (r.1 - r.2))
          / (S.m_gamma * sBC)) (1.0 / (S.m_gamma - 1.0)))
    (fun _ => 0.0) (fun _ => 0.0)
  refine ⟨rfl, fun j hj => ?_, ?_⟩
  · exact h.1 j hj
  · exact congrArg₂ (fun a b => a + b) rfl h.2

/-- The three assignments that end the pass of `RiemannInvariantBC` for one
point, in closed form. -/
lemma RiemannInvariantBC_write_apply {K : Type} (S : CompressibleFlowSystem K) (bcRegion idx : Nat)
    (bc : K × (Nat → K) × K) (b : Nat → Nat → Nat → K) (v r x : Nat) :
    RiemannInvariantBC_write S bcRegion idx bc b v r x
      = if (v < S.m_spacedim + 2 ∧ r = bcRegion) ∧ x = idx then
          (if v = 0 then bc.1 else if v < S.m_spacedim + 1 then bc.2.1 (v - 1) else bc.2.2)
        else b v r x := by
  show (if v = S.m_spacedim + 1 ∧ r = bcRegion ∧ x = idx then _ else _) = _
  rw [forLoop_set3 0 S.m_spacedim 1 (fun j => j + 1) (fun j => Nat.add_comm j 1)
    (fun j => bc.2.1 j) bcRegion idx]
  show (if v = S.m_spacedim + 1 ∧ r = bcRegion ∧ x = idx then _ else
    (if (1 + 0 ≤ v ∧ v < 1 + 0 + S.m_spacedim) ∧ r = bcRegion ∧ x = idx then _ else
      (if v = 0 ∧ r = bcRegion ∧ x = idx then _ else _))) = _
  by_cases hrx : r = bcRegion ∧ x = idx
  · by_cases h1 : v = S.m_spacedim + 1
    · have h2 : (v < S.m_spacedim + 2 ∧ r = bcRegion) ∧ x = idx := by omega
      have h3 : ¬ v = 0 := by omega
      have h4 : ¬ v < S.m_spacedim + 1 := by omega
      rw [if_pos ⟨h1, hrx⟩, if_pos h2, if_neg h3, if_neg h4]
    · rw [if_neg (fun h => h1 h.1)]
      by_cases h3 : 1 + 0 ≤ v ∧ v < 1 + 0 + S.m_spacedim
      · have h2 : (v < S.m_spacedim + 2 ∧ r = bcRegion) ∧ x = idx := by omega
        have h4 : ¬ v = 0 := by omega
        have h5 : v < S.m_spacedim + 1 := by omega
        rw [if_pos ⟨h3, hrx⟩, if_pos h2, if_neg h4, if_pos h5]
      · rw [if_neg (fun h => h3 h.1)]
        by_cases h0 : v = 0
        · have h2 : (v < S.m_spacedim + 2 ∧ r = bcRegion) ∧ x = idx := by omega
          rw [if_pos ⟨h0, hrx⟩, if_pos h2, if_pos h0]
        · have h2 : ¬ ((v < S.m_spacedim + 2 ∧ r = bcRegion) ∧ x = idx) := by omega
          rw [if_neg (fun h => h0 h.1), if_neg h2]
  · have h2 : ¬ ((v < S.m_spacedim + 2 ∧ r = bcRegion) ∧ x = idx) :=
      fun h => hrx ⟨h.1.2, h.2⟩
    rw [if_neg (fun h => hrx h.2), if_neg (fun h => hrx h.2), if_neg (fun h => hrx h.2),
      if_neg h2]

/-- Every boundary entry of the region written by `RiemannInvariantBC`: the
value computed at the matching trace point. -/
lemma RiemannInvariantBC_apply (sqrt : K → K) (pow : K → K → K)
    (S : CompressibleFlowSystem K) (bcRegion cnt nVariables : Nat)
    (physarray : Nat → Nat → K) (bnd : Nat → Nat → Nat → K) (e i v : Nat)
    (hlay : RegionLayout S bcRegion cnt (S.bndGetNumPoints0 bcRegion))
    (he : e < S.bndGetExpSize bcRegion) (hi : i < S.bndGetNumPoints0 bcRegion e)
    (hv : v < S.m_spacedim + 2) :
    RiemannInvariantBC sqrt pow S bcRegion cnt nVariables physarray bnd v bcRegion
        (id1 S bcRegion e + i)
      = RiemannInvariantBC_value sqrt pow S (extractFwd S nVariables physarray) v
          (id2 S cnt e + i) :=
  element_loop_apply S bcRegion cnt (S.m_spacedim + 2) (S.bndGetNumPoints0 bcRegion)
    (RiemannInvariantBC_value sqrt pow S (extractFwd S nVariables physarray))
    (RiemannInvariantBC_element sqrt pow S bcRegion cnt (extractFwd S nVariables physarray)
      (RiemannInvariantBC_Vn S (extractFwd S nVariables physarray))
      (RiemannInvariantBC_VnInf S)
      (RiemannInvariantBC_pressure sqrt S (extractFwd S nVariables physarray)).1
      (RiemannInvariantBC_Mach S (RiemannInvariantBC_Vn S (extractFwd S nVariables physarray))
        (RiemannInvariantBC_pressure sqrt S (extractFwd S nVariables physarray)).2)
      (RiemannInvariantBC_velInf S))
    (fun e b v r x =>
      point_loop_apply bcRegion (S.m_spacedim + 2) (S.bndGetNumPoints0 bcRegion e)
        (id1 S bcRegion e) (id2 S cnt e)
        (RiemannInvariantBC_value sqrt pow S (extractFwd S nVariables physarray)) _
        (fun i b v r x => RiemannInvariantBC_write_apply S bcRegion (id1 S bcRegion e + i)
          _ b v r x) b v r x)
    hlay bnd e i v he hi hv

/-- The characteristic pair of the inflow branch depends on the arrays only
through their entries at the trace point. -/
lemma RiemannInvariantBC_inflowChars_congr (sqrt : K → K) (S S2 : CompressibleFlowSystem K)
    (Fwd Fwd2 : Nat → Nat → K) (Vn Vn2 VnInf VnInf2 pr pr2 Mach Mach2 : Nat → K) (pnt : Nat)
    (hg : S2.m_gamma = S.m_gamma) (hpI : S2.m_pInf = S.m_pInf)
    (hrI : S2.m_rhoInf = S.m_rhoInf)
    (h0 : Fwd2 0 pnt = Fwd 0 pnt) (hVn : Vn2 pnt = Vn pnt) (hVnInf : VnInf2 pnt = VnInf pnt)
    (hpr : pr2 pnt = pr pnt) (hM : Mach2 pnt = Mach pnt) :
    RiemannInvariantBC_inflowChars sqrt S2 Fwd2 Vn2 VnInf2 pr2 Mach2 pnt
      = RiemannInvariantBC_inflowChars sqrt S Fwd Vn VnInf pr Mach pnt := by
  simp only [RiemannInvariantBC_inflowChars, hg, hpI, hrI, h0, hVn, hVnInf, hpr, hM]

/-- The characteristic pair of the outflow branch depends on the arrays only
through their entries at the trace point. -/
lemma RiemannInvariantBC_outflowChars_congr (sqrt : K → K) (S S2 : CompressibleFlowSystem K)
    (Fwd Fwd2 : Nat → Nat → K) (Vn Vn2 VnInf VnInf2 pr pr2 Mach Mach2 : Nat → K) (pnt : Nat)
    (hg : S2.m_gamma = S.m_gamma) (hpI : S2.m_pInf = S.m_pInf)
    (hrI : S2.m_rhoInf = S.m_rhoInf)
    (h0 : Fwd2 0 pnt = Fwd 0 pnt) (hVn : Vn2 pnt = Vn pnt) (hVnInf : VnInf2 pnt = VnInf pnt)
    (hpr : pr2 pnt = pr pnt) (hM : Mach2 pnt = Mach pnt) :
    RiemannInvariantBC_outflowChars sqrt S2 Fwd2 Vn2 VnInf2 pr2 Mach2 pnt
      = RiemannInvariantBC_outflowChars sqrt S Fwd Vn VnInf pr Mach pnt := by
  simp only [RiemannInvariantBC_outflowChars, hg, hpI, hrI, h0, hVn, hVnInf, hpr, hM]

/-- The entries of the boundary state that are written depend on the solver
object only through `gamma`, the dimension and the trace normal at the point. -/
lemma RiemannInvariantBC_state_congr (pow : K → K → K) (S S2 : CompressibleFlowSystem K)
    (r : K × K) (VnRef sBC : K) (velRef velRef2 : Nat → K) (pnt : Nat)
    (hsd : S2.m_spacedim = S.m_spacedim) (hg : S2.m_gamma = S.m_gamma)
    (hn : ∀ j, S2.m_traceNormals j pnt = S.m_traceNormals j pnt)
    (hvel : ∀ j, j < S.m_spacedim → velRef2 j = velRef j) :
    (RiemannInvariantBC_state pow S2 r VnRef sBC velRef2 pnt).1
      = (RiemannInvariantBC_state pow S r VnRef sBC velRef pnt).1 ∧
    (∀ j, j < S.m_spacedim →
      (RiemannInvariantBC_state pow S2 r VnRef sBC velRef2 pnt).2.1 j
        = (RiemannInvariantBC_state pow S r VnRef sBC velRef pnt).2.1 j) ∧
    (RiemannInvariantBC_state pow S2 r VnRef sBC velRef2 pnt).2.2
      = (RiemannInvariantBC_state pow S r VnRef sBC velRef pnt).2.2 := by
  have h1 := RiemannInvariantBC_state_apply pow S r VnRef sBC velRef pnt
  have h2 := RiemannInvariantBC_state_apply pow S2 r VnRef sBC velRef2 pnt
  have e1 : (RiemannInvariantBC_state pow S2 r VnRef sBC velRef2 pnt).1
      = (RiemannInvariantBC_state pow S r VnRef sBC velRef pnt).1 := by
    rw [h1.1, h2.1, hg]
  refine ⟨e1, fun j hj => ?_, ?_⟩
  · rw [h1.2.1 j hj, h2.2.1 j (by omega), e1, hn j, hvel j hj]
  · rw [h1.2.2, h2.2.2, e1, hg, hsd]
    congr 1
    refine Finset.sum_congr rfl (fun j hj => ?_)
    rw [hn j, hvel j (Finset.mem_range.mp hj)]

/-- The value assigned by `RiemannInvariantBC` at a boundary point depends on
the run only through the freestream constants, the interior trace state at the
matching trace point and the trace normal at that point. -/
lemma RiemannInvariantBC_value_local (sqrt : K → K) (pow : K → K → K)
    (S S2 : CompressibleFlowSystem K) (Fwd Fwd2 : Nat → Nat → K) (v pnt : Nat)
    (hsd : S2.m_spacedim = S.m_spacedim) (hg : S2.m_gamma = S.m_gamma)
    (hpI : S2.m_pInf = S.m_pInf) (hrI : S2.m_rhoInf = S.m_rhoInf)
    (hu : S2.m_uInf = S.m_uInf) (hvI : S2.m_vInf = S.m_vInf) (hw : S2.m_wInf = S.m_wInf)
    (hnT : S2.GetTraceTotPoints = S.GetTraceTotPoints)
    (hp : pnt < S.GetTraceTotPoints)
    (hF : ∀ w, Fwd2 w pnt = Fwd w pnt)
    (hn : ∀ j, S2.m_traceNormals j pnt = S.m_traceNormals j pnt) :
    RiemannInvariantBC_value sqrt pow S2 Fwd2 v pnt
      = RiemannInvariantBC_value sqrt pow S Fwd v pnt := by
  have hp2 : pnt < S2.GetTraceTotPoints := by rw [hnT]; exact hp
  have hVn : RiemannInvariantBC_Vn S2 Fwd2 pnt = RiemannInvariantBC_Vn S Fwd pnt := by
    rw [RiemannInvariantBC_Vn_apply S Fwd pnt hp, RiemannInvariantBC_Vn_apply S2 Fwd2 pnt hp2,
      hsd]
    exact Finset.sum_congr rfl (fun j _ => by rw [hn j, hF (j + 1), hF 0])
  have hVnInf : RiemannInvariantBC_VnInf S2 pnt = RiemannInvariantBC_VnInf S pnt := by
    rw [RiemannInvariantBC_VnInf_apply S pnt hp, RiemannInvariantBC_VnInf_apply S2 pnt hp2,
      hsd, hu, hvI, hw, hn 0]
  have hpr : (RiemannInvariantBC_pressure sqrt S2 Fwd2).1 pnt
      = (RiemannInvariantBC_pressure sqrt S Fwd).1 pnt := by
    rw [(RiemannInvariantBC_pressure_apply sqrt S Fwd pnt hp).1,
      (RiemannInvariantBC_pressure_apply sqrt S2 Fwd2 pnt hp2).1,
      hsd, hg, hF 0, hF 1, hF 2, hF 3, hF 4]
  have hcs : (RiemannInvariantBC_pressure sqrt S2 Fwd2).2 pnt
      = (RiemannInvariantBC_pressure sqrt S Fwd).2 pnt := by
    rw [(RiemannInvariantBC_pressure_apply sqrt S Fwd pnt hp).2,
      (RiemannInvariantBC_pressure_apply sqrt S2 Fwd2 pnt hp2).2, hpr, hg, hF 0]
  have hM : RiemannInvariantBC_Mach S2 (RiemannInvariantBC_Vn S2 Fwd2)
        (RiemannInvariantBC_pressure sqrt S2 Fwd2).2 pnt
      = RiemannInvariantBC_Mach S (RiemannInvariantBC_Vn S Fwd)
        (RiemannInvariantBC_pressure sqrt S Fwd).2 pnt := by
    rw [RiemannInvariantBC_Mach_apply S _ _ pnt hp, RiemannInvariantBC_Mach_apply S2 _ _ pnt hp2,
      hVn, hcs]
  have hvel : RiemannInvariantBC_velInf S2 = RiemannInvariantBC_velInf S := by
    simp only [RiemannInvariantBC_velInf, hsd, hu, hvI, hw]
  have hin := RiemannInvariantBC_inflowChars_congr sqrt S S2 Fwd Fwd2 _ _ _ _ _ _ _ _ pnt
    hg hpI hrI (hF 0) hVn hVnInf hpr hM
  have hout := RiemannInvariantBC_outflowChars_congr sqrt S S2 Fwd Fwd2 _ _ _ _ _ _ _ _ pnt
    hg hpI hrI (hF 0) hVn hVnInf hpr hM
  have hpoint1 : ∀ (bc2 bc : K × (Nat → K) × K), bc2.1 = bc.1 →
      (∀ j, j < S.m_spacedim → bc2.2.1 j = bc.2.1 j) → bc2.2.2 = bc.2.2 →
      (if v = 0 then bc2.1 else if v < S2.m_spacedim + 1 then bc2.2.1 (v - 1) else bc2.2.2)
        = (if v = 0 then bc.1 else if v < S.m_spacedim + 1 then bc.2.1 (v - 1) else bc.2.2) := by
    intro bc2 bc e1 e2 e3
    rw [hsd]
    by_cases h0 : v = 0
    · rw [if_pos h0, if_pos h0, e1]
    · rw [if_neg h0, if_neg h0]
      by_cases h1 : v < S.m_spacedim + 1
      · rw [if_pos h1, if_pos h1, e2 (v - 1) (by omega)]
      · rw [if_neg h1, if_neg h1, e3]
  unfold RiemannInvariantBC_value RiemannInvariantBC_point
  simp only []
  rw [hVn, hvel, hin, hout, hVnInf, hpr, hpI, hrI, hg, hF 0]
  by_cases hinflow : RiemannInvariantBC_Vn S Fwd pnt ≤ 0.0
  · rw [if_pos hinflow, if_pos hinflow]
    obtain ⟨e1, e2, e3⟩ := RiemannInvariantBC_state_congr pow S S2
      (RiemannInvariantBC_inflowChars sqrt S Fwd (RiemannInvariantBC_Vn S Fwd)
        (RiemannInvariantBC_VnInf S) (RiemannInvariantBC_pressure sqrt S Fwd).1
        (RiemannInvariantBC_Mach S (RiemannInvariantBC_Vn S Fwd)
          (RiemannInvariantBC_pressure sqrt S Fwd).2) pnt)
      (RiemannInvariantBC_VnInf S pnt) (S.m_pInf / pow S.m_rhoInf S.m_gamma)
      (RiemannInvariantBC_velInf S) (RiemannInvariantBC_velInf S) pnt hsd hg hn
      (fun j _ => rfl)
    exact hpoint1 _ _ e1 e2 e3
  · rw [if_neg hinflow, if_neg hinflow]
    obtain ⟨e1, e2, e3⟩ := RiemannInvariantBC_state_congr pow S S2
      (RiemannInvariantBC_outflowChars sqrt S Fwd (RiemannInvariantBC_Vn S Fwd)
        (RiemannInvariantBC_VnInf S) (RiemannInvariantBC_pressure sqrt S Fwd).1
        (RiemannInvariantBC_Mach S (RiemannInvariantBC_Vn S Fwd)
          (RiemannInvariantBC_pressure sqrt S Fwd).2) pnt)
      (RiemannInvariantBC_Vn S Fwd pnt)
      ((RiemannInvariantBC_pressure sqrt S Fwd).1 pnt / pow (Fwd 0 pnt) S.m_gamma)
      (fun j => Fwd (j + 1) pnt / Fwd 0 pnt) (fun j => Fwd2 (j + 1) pnt / Fwd 0 pnt) pnt
      hsd hg hn
      (fun j _ => show Fwd2 (j + 1) pnt / Fwd 0 pnt = Fwd (j + 1) pnt / Fwd 0 pnt from by
        rw [hF (j + 1)])
    exact hpoint1 _ _ e1 e2 e3

/-- The value assigned for the density. -/
lemma RiemannInvariantBC_value_zero (sqrt : K → K) (pow : K → K → K)
    (S : CompressibleFlowSystem K) (Fwd : Nat → Nat → K) (pnt : Nat) :
    RiemannInvariantBC_value sqrt pow S Fwd 0 pnt
      = (RiemannInvariantBC_point sqrt pow S Fwd (RiemannInvariantBC_Vn S Fwd)
          (RiemannInvariantBC_VnInf S) (RiemannInvariantBC_pressure sqrt S Fwd).1
          (RiemannInvariantBC_Mach S (RiemannInvariantBC_Vn S Fwd)
            (RiemannInvariantBC_pressure sqrt S Fwd).2)
          (RiemannInvariantBC_velInf S) pnt).1 := by
  unfold RiemannInvariantBC_value
  simp only [if_true]

/-- The value assigned for momentum component `j`. -/
lemma RiemannInvariantBC_value_momentum (sqrt : K → K) (pow : K → K → K)
    (S : CompressibleFlowSystem K) (Fwd : Nat → Nat → K) (j pnt : Nat)
    (hj : j < S.m_spacedim) :
    RiemannInvariantBC_value sqrt pow S Fwd (j + 1) pnt
      = (RiemannInvariantBC_point sqrt pow S Fwd (RiemannInvariantBC_Vn S Fwd)
          (RiemannInvariantBC_VnInf S) (RiemannInvariantBC_pressure sqrt S Fwd).1
          (RiemannInvariantBC_Mach S (RiemannInvariantBC_Vn S Fwd)
            (RiemannInvariantBC_pressure sqrt S Fwd).2)
          (RiemannInvariantBC_velInf S) pnt).2.1 j := by
  unfold RiemannInvariantBC_value
  have h1 : ¬ j + 1 = 0 := by omega
  have h2 : j + 1 < S.m_spacedim + 1 := by omega
  simp only [if_neg h1, if_pos h2, Nat.add_sub_cancel]

/-- The value assigned for the energy. -/
lemma RiemannInvariantBC_value_energy (sqrt : K → K) (pow : K → K → K)
    (S : CompressibleFlowSystem K) (Fwd : Nat → Nat → K) (pnt : Nat) :
    RiemannInvariantBC_value sqrt pow S Fwd (S.m_spacedim + 1) pnt
      = (RiemannInvariantBC_point sqrt pow S Fwd (RiemannInvariantBC_Vn S Fwd)
          (RiemannInvariantBC_VnInf S) (RiemannInvariantBC_pressure sqrt S Fwd).1
          (RiemannInvariantBC_Mach S (RiemannInvariantBC_Vn S Fwd)
            (RiemannInvariantBC_pressure sqrt S Fwd).2)
          (RiemannInvariantBC_velInf S) pnt).2.2 := by
  unfold RiemannInvariantBC_value
  have h1 : ¬ S.m_spacedim + 1 = 0 := by omega
  have h2 : ¬ S.m_spacedim + 1 < S.m_spacedim + 1 := by omega
  simp only [if_neg h1, if_neg h2]

/-- The boundary state computed from a characteristic pair, in the form
`VNBC = (r+ + r-)/2`, `cBC = (gamma-1)(r+ - r-)/4`,
`rhoBC = (cBC^2/(gamma sBC))^(1/(gamma-1))`, `pBC = rhoBC cBC^2 / gamma`, for
any three entries `out` that hold it. -/
lemma RiemannInvariantBC_state_formula (pow : K → K → K) (S : CompressibleFlowSystem K)
    (out : Nat → K) (r : K × K) (VnRef sBC : K) (velRef velC : Nat → K) (pnt : Nat)
    (hvel : ∀ j, j < S.m_spacedim → velRef j = velC j)
    (h0 : out 0 = (RiemannInvariantBC_state pow S r VnRef sBC velRef pnt).1)
    (hm : ∀ j, j < S.m_spacedim →
      out (j + 1) = (RiemannInvariantBC_state pow S r VnRef sBC velRef pnt).2.1 j)
    (hE : out (S.m_spacedim + 1)
      = (RiemannInvariantBC_state pow S r VnRef sBC velRef pnt).2.2) :
    let VNBC := (r.1 + r.2) / 2
    let cBC := (S.m_gamma - 1) * (r.1 - r.2) / 4
    let VDBC := VNBC - VnRef
    let rhoBC := pow (cBC ^ 2 / (S.m_gamma * sBC)) (1 / (S.m_gamma - 1))
    let pBC := rhoBC * cBC ^ 2 / S.m_gamma
    let velBC := fun j => velC j + VDBC * S.m_traceNormals j pnt
    out 0 = rhoBC ∧
    (∀ j, j < S.m_spacedim → out (j + 1) = rhoBC * velBC j) ∧
    out (S.m_spacedim + 1)
      = pBC / (S.m_gamma - 1)
        + 1 / 2 * rhoBC * ∑ j in Finset.range S.m_spacedim, velBC j ^ 2 := by
  intro VNBC cBC VDBC rhoBC pBC velBC
  have h05 : (0.5 : K) = 1 / 2 := by norm_num
  have h025 : (0.25 : K) = 1 / 4 := by norm_num
  have h10 : (1.0 : K) = 1 := by norm_num
  obtain ⟨s1, s2, s3⟩ := RiemannInvariantBC_state_apply pow S r VnRef sBC velRef pnt
  have hc : 0.25 * (S.m_gamma - 1.0) * (r.1 - r.2) = cBC := by
    show _ = (S.m_gamma - 1) * (r.1 - r.2) / 4
    rw [h025, h10]
    ring
  have hV : 0.5 * (r.1 + r.2) - VnRef = VDBC := by
    show _ = (r.1 + r.2) / 2 - VnRef
    rw [h05]
    ring
  have hrho : (RiemannInvariantBC_state pow S r VnRef sBC velRef pnt).1 = rhoBC := by
    rw [s1, hc, h10]
    show pow (cBC * cBC / (S.m_gamma * sBC)) _ = pow (cBC ^ 2 / (S.m_gamma * sBC)) _
    rw [sq]
  refine ⟨by rw [h0, hrho], fun j hj => ?_, ?_⟩
  · rw [hm j hj, s2 j hj, hrho, hV, hvel j hj]
  · rw [hE, s3, hrho, hc, hV, h10, h05, Finset.mul_sum]
    have hsum : ∀ j ∈ Finset.range S.m_spacedim,
        1 / 2 * rhoBC * (velRef j + VDBC * S.m_traceNormals j pnt)
            * (velRef j + VDBC * S.m_traceNormals j pnt)
          = 1 / 2 * rhoBC * velBC j ^ 2 := by
      intro j hj
      show _ = 1 / 2 * rhoBC * (velC j + VDBC * S.m_traceNormals j pnt) ^ 2
      rw [hvel j (Finset.mem_range.mp hj)]
      ring
    rw [Finset.sum_congr rfl hsum]
    show rhoBC * cBC * cBC * (1 / S.m_gamma) * (1 / (S.m_gamma - 1)) + _
      = rhoBC * cBC ^ 2 / S.m_gamma / (S.m_gamma - 1) + _
    ring

end RiemannLemmas

/-! ## Far-field closure: the claims -/

section RiemannClaims

variable {K : Type} [LinearOrderedField K]

/-- The state written by `RiemannInvariantBC` at the points that its loop
visits, the first `GetNumPoints(0)` points of each boundary element: from the
chosen pair `(r+, r-)` the function writes there the state
`(rhoBC, rhoBC * velBC, pBC/(gamma-1) + 1/2 rhoBC |velBC|^2)` with `VNBC = (r+ + r-)/2`, `cBC = (gamma-1)(r+ - r-)/4`,
`rhoBC = (cBC^2/(gamma sBC))^(1/(gamma-1))`, `pBC = rhoBC cBC^2 / gamma`; on
inflow points (`Vn ≤ 0`) `sBC = pInf/rhoInf^gamma`, `VDBC = VNBC - VnInf` and
`velBC = vInf + VDBC n`; on outflow points `sBC = p/rho^gamma` of the interior,
`VDBC = VNBC - Vn` and `velBC = v_interior + VDBC n`. The elements of the region
occupy disjoint ranges of the boundary storage and of the trace. -/
theorem RiemannInvariantBC_writes (sqrt : K → K) (pow : K → K → K)
    (S : CompressibleFlowSystem K) (bcRegion cnt nVariables : Nat)
    (physarray : Nat → Nat → K) (bnd : Nat → Nat → Nat → K) (e i : Nat)
    (h3 : S.m_spacedim ≤ 3)
    (hlay : RegionLayout S bcRegion cnt (S.bndGetNumPoints0 bcRegion))
    (he : e < S.bndGetExpSize bcRegion) (hi : i < S.bndGetNumPoints0 bcRegion e) :
    let Fwd := extractFwd S nVariables physarray
    let pnt := id2 S cnt e + i
    let Vn := RiemannInvariantBC_Vn S Fwd
    let VnInf := RiemannInvariantBC_VnInf S
    let p := (RiemannInvariantBC_pressure sqrt S Fwd).1
    let Mach := RiemannInvariantBC_Mach S Vn (RiemannInvariantBC_pressure sqrt S Fwd).2
    let out := fun v => RiemannInvariantBC sqrt pow S bcRegion cnt nVariables physarray bnd v
      bcRegion (id1 S bcRegion e + i)
    (Vn pnt ≤ 0 →
      let r := RiemannInvariantBC_inflowChars sqrt S Fwd Vn VnInf p Mach pnt
      let VNBC := (r.1 + r.2) / 2
      let cBC := (S.m_gamma - 1) * (r.1 - r.2) / 4
      let VDBC := VNBC - VnInf pnt
      let rhoBC := pow (cBC ^ 2 / (S.m_gamma * (S.m_pInf / pow S.m_rhoInf S.m_gamma)))
        (1 / (S.m_gamma - 1))
      let pBC := rhoBC * cBC ^ 2 / S.m_gamma
      let velBC := fun j => (if j = 0 then S.m_uInf else if j = 1 then S.m_vInf else S.m_wInf)
        + VDBC * S.m_traceNormals j pnt
      out 0 = rhoBC ∧
      (∀ j, j < S.m_spacedim → out (j + 1) = rhoBC * velBC j) ∧
      out (S.m_spacedim + 1)
        = pBC / (S.m_gamma - 1)
          + 1 / 2 * rhoBC * ∑ j in Finset.range S.m_spacedim, velBC j ^ 2) ∧
    (0 < Vn pnt →
      let r := RiemannInvariantBC_outflowChars sqrt S Fwd Vn VnInf p Mach pnt
      let VNBC := (r.1 + r.2) / 2
      let cBC := (S.m_gamma - 1) * (r.1 - r.2) / 4
      let VDBC := VNBC - Vn pnt
      let rhoBC := pow (cBC ^ 2 / (S.m_gamma * (p pnt / pow (Fwd 0 pnt) S.m_gamma)))
        (1 / (S.m_gamma - 1))
      let pBC := rhoBC * cBC ^ 2 / S.m_gamma
      let velBC := fun j => Fwd (j + 1) pnt / Fwd 0 pnt + VDBC * S.m_traceNormals j pnt
      out 0 = rhoBC ∧
      (∀ j, j < S.m_spacedim → out (j + 1) = rhoBC * velBC j) ∧
      out (S.m_spacedim + 1)
        = pBC / (S.m_gamma - 1)
          + 1 / 2 * rhoBC * ∑ j in Finset.range S.m_spacedim, velBC j ^ 2) := by
  intro Fwd pnt Vn VnInf p Mach out
  have h00 : (0.0 : K) = 0 := by norm_num
  have hval : ∀ v, v < S.m_spacedim + 2 →
      out v = RiemannInvariantBC_value sqrt pow S Fwd v pnt :=
    fun v hv => RiemannInvariantBC_apply sqrt pow S bcRegion cnt nVariables physarray bnd e i v
      hlay he hi hv
  have hsel : ∀ (bc : K × (Nat → K) × K),
      RiemannInvariantBC_point sqrt pow S Fwd Vn VnInf p Mach (RiemannInvariantBC_velInf S) pnt
        = bc →
      out 0 = bc.1 ∧ (∀ j, j < S.m_spacedim → out (j + 1) = bc.2.1 j) ∧
        out (S.m_spacedim + 1) = bc.2.2 := by
    intro bc hbc
    refine ⟨?_, fun j hj => ?_, ?_⟩
    · rw [hval 0 (by omega), RiemannInvariantBC_value_zero]
      exact congrArg (fun t => t.1) hbc
    · rw [hval (j + 1) (by omega), RiemannInvariantBC_value_momentum sqrt pow S Fwd j pnt hj]
      exact congrArg (fun t => t.2.1 j) hbc
    · rw [hval (S.m_spacedim + 1) (by omega), RiemannInvariantBC_value_energy]
      exact congrArg (fun t => t.2.2) hbc
  constructor
  · intro hin
    have hin2 : Vn pnt ≤ 0.0 := by rw [h00]; exact hin
    obtain ⟨e0, em, eE⟩ := hsel _ (by unfold RiemannInvariantBC_point; rw [if_pos hin2])
    exact RiemannInvariantBC_state_formula pow S out _ _ _ _
      (fun j => if j = 0 then S.m_uInf else if j = 1 then S.m_vInf else S.m_wInf) pnt
      (fun j hj => RiemannInvariantBC_velInf_apply S j h3 hj) e0 em eE
  · intro hout
    have hout2 : ¬ Vn pnt ≤ 0.0 := by rw [h00]; exact not_le.mpr hout
    obtain ⟨e0, em, eE⟩ := hsel _ (by unfold RiemannInvariantBC_point; rw [if_neg hout2])
    exact RiemannInvariantBC_state_formula pow S out _ _ _ _
      (fun j => Fwd (j + 1) pnt / Fwd 0 pnt) pnt (fun j _ => rfl) e0 em eE

/-- Example for `RiemannInvariantBC_writes`: the 2-D sample with two one-point
elements, state `(1, 2, 3, 5)`, second element: an outflow point (`Vn = 2`); `sqrt` and `pow`
are taken as projections, the statement holds for every `sqrt` and `pow`. -/
theorem RiemannInvariantBC_writes_witness :
    ((sampleSystem ℚ 2 1.4 2).m_spacedim ≤ 3
      ∧ 1 < (sampleSystem ℚ 2 1.4 2).bndGetExpSize 0
      ∧ 0 < (sampleSystem ℚ 2 1.4 2).bndGetNumPoints0 0 1
      ∧ 0 < RiemannInvariantBC_Vn (sampleSystem ℚ 2 1.4 2)
          (extractFwd (sampleSystem ℚ 2 1.4 2) 4 (uniformState [1, 2, 3, 5]))
          (id2 (sampleSystem ℚ 2 1.4 2) 0 1 + 0)) ∧
    (∃ rhoBC velBC0 : ℚ,
      RiemannInvariantBC (fun x => x) (fun x _ => x) (sampleSystem ℚ 2 1.4 2) 0 0 4
          (uniformState [1, 2, 3, 5]) (fun _ _ _ => 0) 0 0
          (id1 (sampleSystem ℚ 2 1.4 2) 0 1 + 0) = rhoBC ∧
      RiemannInvariantBC (fun x => x) (fun x _ => x) (sampleSystem ℚ 2 1.4 2) 0 0 4
          (uniformState [1, 2, 3, 5]) (fun _ _ _ => 0) (0 + 1) 0
          (id1 (sampleSystem ℚ 2 1.4 2) 0 1 + 0) = rhoBC * velBC0) :=
  have hout : 0 < RiemannInvariantBC_Vn (sampleSystem ℚ 2 1.4 2)
      (extractFwd (sampleSystem ℚ 2 1.4 2) 4 (uniformState [1, 2, 3, 5]))
      (id2 (sampleSystem ℚ 2 1.4 2) 0 1 + 0) := by
    rw [RiemannInvariantBC_Vn_apply _ _ _ (by decide)]
    simp only [Finset.sum_range_succ, Finset.sum_range_zero, sampleSystem]
    rw [extractFwd_apply _ _ _ _ (by decide), extractFwd_apply _ _ _ _ (by decide),
      extractFwd_apply _ _ _ _ (by decide)]
    norm_num [uniformState]
  ⟨⟨by decide, by decide, by decide, hout⟩,
    ⟨_, _,
      ((RiemannInvariantBC_writes (fun x => x) (fun x _ => x) (sampleSystem ℚ 2 1.4 2) 0 0 4
        (uniformState [1, 2, 3, 5]) (fun _ _ _ => 0) 1 0 (by decide)
        (sampleSystem_layout0 2 1.4 2 0 0) (by decide) (by decide)).2 hout).1,
      ((RiemannInvariantBC_writes (fun x => x) (fun x _ => x) (sampleSystem ℚ 2 1.4 2) 0 0 4
        (uniformState [1, 2, 3, 5]) (fun _ _ _ => 0) 1 0 (by decide)
        (sampleSystem_layout0 2 1.4 2 0 0) (by decide) (by decide)).2 hout).2.1 0
        (by decide)⟩⟩

/-- C14: no cross-point coupling in `RiemannInvariantBC`. Two runs on the same
region with the same freestream constants, whose interior trace states and
trace normals agree at the trace point of a boundary point (the runs may differ
in the state at every other point, in the normals at every other point and in
the initial boundary storage), write equal values for that boundary point:
density, all momentum components and energy. -/
theorem RiemannInvariantBC_no_cross_point_coupling (sqrt : K → K) (pow : K → K → K)
    (S : CompressibleFlowSystem K) (normals2 : Nat → Nat → K)
    (extract2 : Nat → (Nat → K) → Nat → K) (bcRegion cnt nVariables : Nat)
    (physarray1 physarray2 : Nat → Nat → K) (bnd1 bnd2 : Nat → Nat → Nat → K) (e i v : Nat)
    (hlay : RegionLayout S bcRegion cnt (S.bndGetNumPoints0 bcRegion))
    (he : e < S.bndGetExpSize bcRegion) (hi : i < S.bndGetNumPoints0 bcRegion e)
    (hpnt : id2 S cnt e + i < S.GetTraceTotPoints) (hv : v < S.m_spacedim + 2)
    (hstate : ∀ w, w < nVariables →
      S.ExtractTracePhys w (physarray1 w) (id2 S cnt e + i)
        = extract2 w (physarray2 w) (id2 S cnt e + i))
    (hnormal : ∀ j, S.m_traceNormals j (id2 S cnt e + i) = normals2 j (id2 S cnt e + i)) :
    RiemannInvariantBC sqrt pow S bcRegion cnt nVariables physarray1 bnd1 v bcRegion
        (id1 S bcRegion e + i)
      = RiemannInvariantBC sqrt pow
          { S with m_traceNormals := normals2, ExtractTracePhys := extract2 }
          bcRegion cnt nVariables physarray2 bnd2 v bcRegion (id1 S bcRegion e + i) := by
  have hF : ∀ w,
      extractFwd { S with m_traceNormals := normals2, ExtractTracePhys := extract2 }
          nVariables physarray2 w (id2 S cnt e + i)
        = extractFwd S nVariables physarray1 w (id2 S cnt e + i) := by
    intro w
    by_cases hw : w < nVariables
    · rw [extractFwd_apply _ _ _ _ hw, extractFwd_apply _ _ _ _ hw]
      exact (hstate w hw).symm
    · rw [extractFwd_apply_ge _ _ _ _ (by omega), extractFwd_apply_ge _ _ _ _ (by omega)]
  have h1 := RiemannInvariantBC_apply sqrt pow S bcRegion cnt nVariables physarray1 bnd1 e i v
    hlay he hi hv
  have h2 := RiemannInvariantBC_apply sqrt pow
    { S with m_traceNormals := normals2, ExtractTracePhys := extract2 }
    bcRegion cnt nVariables physarray2 bnd2 e i v hlay he hi hv
  have h3 := RiemannInvariantBC_value_local sqrt pow S
    { S with m_traceNormals := normals2, ExtractTracePhys := extract2 }
    (extractFwd S nVariables physarray1)
    (extractFwd { S with m_traceNormals := normals2, ExtractTracePhys := extract2 }
      nVariables physarray2)
    v (id2 S cnt e + i) rfl rfl rfl rfl rfl rfl rfl rfl hpnt hF (fun j => (hnormal j).symm)
  exact h1.trans (h3.symm.trans h2.symm)

/-- Witness for C14: the 2-D sample with two one-point elements, second element,
density; the second run has another state at the first trace point, the same
normals and another initial boundary storage. -/
theorem RiemannInvariantBC_no_cross_point_coupling_witness :
    (1 < (sampleSystem ℚ 2 1.4 2).bndGetExpSize 0
      ∧ 0 < (sampleSystem ℚ 2 1.4 2).bndGetNumPoints0 0 1
      ∧ id2 (sampleSystem ℚ 2 1.4 2) 0 1 + 0 < (sampleSystem ℚ 2 1.4 2).GetTraceTotPoints
      ∧ 0 < (sampleSystem ℚ 2 1.4 2).m_spacedim + 2) ∧
    RiemannInvariantBC (fun x => x) (fun x _ => x) (sampleSystem ℚ 2 1.4 2) 0 0 4
        (uniformState [1, 2, 3, 5]) (fun _ _ _ => 0) 0 0
        (id1 (sampleSystem ℚ 2 1.4 2) 0 1 + 0)
      = RiemannInvariantBC (fun x => x) (fun x _ => x)
          { sampleSystem ℚ 2 1.4 2 with
            m_traceNormals := (sampleSystem ℚ 2 1.4 2).m_traceNormals,
            ExtractTracePhys := fun _ a => a }
          0 0 4
          (fun w k => if k = 0 then 7 else uniformState [(1 : ℚ), 2, 3, 5] w k)
          (fun _ _ _ => 1) 0 0 (id1 (sampleSystem ℚ 2 1.4 2) 0 1 + 0) :=
  ⟨⟨by decide, by decide, by decide, by decide⟩,
    RiemannInvariantBC_no_cross_point_coupling (fun x => x) (fun x _ => x)
      (sampleSystem ℚ 2 1.4 2) (sampleSystem ℚ 2 1.4 2).m_traceNormals (fun _ a => a) 0 0 4
      (uniformState [1, 2, 3, 5])
      (fun w k => if k = 0 then 7 else uniformState [(1 : ℚ), 2, 3, 5] w k)
      (fun _ _ _ => 0) (fun _ _ _ => 1) 1 0 0 (sampleSystem_layout0 2 1.4 2 0 0)
      (by decide) (by decide) (by decide) (by decide)
      (fun w _ => by simp [sampleSystem, id2, uniformState])
      (fun j => rfl)⟩

/-- C11 (the code at a failing input): 2-D, `gamma = 1.4`, freestream `rho = 1`,
`p = 5/7`, velocity `(0, 1/2)`, unit trace normal `(0, 1)`, and the interior
state equal to the freestream, `(rho, rho u, rho v, E) = (1, 0, 1/2, 107/56)`
with `E = pInf/(gamma-1) + 1/2 rhoInf |vInf|^2`. The point is a subsonic outflow
point (`Vn = 1/2`, `c = 1`), the freestream normal velocity computed by the
function is `VnInf = 0`, and the state written has velocity `1/4` instead of
`1/2` in the second direction and density `1.05^5` instead of `rhoInf = 1`:
the freestream is not reproduced. -/
theorem RiemannInvariantBC_freestream_not_reproduced :
    (107 / 56 : ℝ) = (farFieldSystem ℝ).m_pInf / ((farFieldSystem ℝ).m_gamma - 1)
        + 1 / 2 * (farFieldSystem ℝ).m_rhoInf
          * ((farFieldSystem ℝ).m_uInf ^ 2 + (farFieldSystem ℝ).m_vInf ^ 2) ∧
    RiemannInvariantBC_Vn (farFieldSystem ℝ)
        (extractFwd (farFieldSystem ℝ) 4 (uniformState [1, 0, 1 / 2, 107 / 56])) 0 = 1 / 2 ∧
    RiemannInvariantBC_VnInf (farFieldSystem ℝ) 0 = 0 ∧
    RiemannInvariantBC Real.sqrt Real.rpow (farFieldSystem ℝ) 0 0 4
        (uniformState [1, 0, 1 / 2, 107 / 56]) (fun _ _ _ => 0) 2 0 0
      = RiemannInvariantBC Real.sqrt Real.rpow (farFieldSystem ℝ) 0 0 4
        (uniformState [1, 0, 1 / 2, 107 / 56]) (fun _ _ _ => 0) 0 0 0 * (1 / 4) ∧
    RiemannInvariantBC Real.sqrt Real.rpow (farFieldSystem ℝ) 0 0 4
        (uniformState [1, 0, 1 / 2, 107 / 56]) (fun _ _ _ => 0) 0 0 0 = 1.05 ^ 5 ∧
    RiemannInvariantBC Real.sqrt Real.rpow (farFieldSystem ℝ) 0 0 4
        (uniformState [1, 0, 1 / 2, 107 / 56]) (fun _ _ _ => 0) 0 0 0
      ≠ (farFieldSystem ℝ).m_rhoInf := by
  have hlay : RegionLayout (farFieldSystem ℝ) 0 0 ((farFieldSystem ℝ).bndGetNumPoints0 0) := by
    intro e1 e2 h1 h2 hne
    simp only [farFieldSystem] at h1 h2
    omega
  have hF : ∀ w, w < 4 →
      extractFwd (farFieldSystem ℝ) 4 (uniformState [1, 0, 1 / 2, 107 / 56]) w 0
        = uniformState [(1 : ℝ), 0, 1 / 2, 107 / 56] w 0 := by
    intro w hw
    rw [extractFwd_apply _ _ _ _ hw]
    rfl
  have hF0 := hF 0 (by decide)
  have hF1 := hF 1 (by decide)
  have hF2 := hF 2 (by decide)
  have hF3 := hF 3 (by decide)
  simp only [uniformState, List.getD_cons_zero, List.getD_cons_succ] at hF0 hF1 hF2 hF3
  have hsd : (farFieldSystem ℝ).m_spacedim = 2 := rfl
  have hg : (farFieldSystem ℝ).m_gamma = 1.4 := rfl
  have hpI : (farFieldSystem ℝ).m_pInf = 5 / 7 := rfl
  have hrI : (farFieldSystem ℝ).m_rhoInf = 1 := rfl
  have hu : (farFieldSystem ℝ).m_uInf = 0 := rfl
  have hvI : (farFieldSystem ℝ).m_vInf = 0.5 := rfl
  have hn0 : (farFieldSystem ℝ).m_traceNormals 0 0 = 0 := by simp [farFieldSystem]
  have hn1 : (farFieldSystem ℝ).m_traceNormals 1 0 = 1 := by simp [farFieldSystem]
  have hVn : RiemannInvariantBC_Vn (farFieldSystem ℝ)
      (extractFwd (farFieldSystem ℝ) 4 (uniformState [1, 0, 1 / 2, 107 / 56])) 0 = 1 / 2 := by
    rw [RiemannInvariantBC_Vn_apply _ _ _ (by decide), hsd]
    simp only [Finset.sum_range_succ, Finset.sum_range_zero]
    rw [hF0, hF1, hF2, hn0, hn1]
    norm_num
  have hVnInf : RiemannInvariantBC_VnInf (farFieldSystem ℝ) 0 = 0 := by
    rw [RiemannInvariantBC_VnInf_apply _ _ (by decide), hn0]
    simp
  have hp : (RiemannInvariantBC_pressure Real.sqrt (farFieldSystem ℝ)
      (extractFwd (farFieldSystem ℝ) 4 (uniformState [1, 0, 1 / 2, 107 / 56]))).1 0 = 5 / 7 := by
    rw [RiemannInvariantBC_pressure_formula _ _ _ _ (by decide) (by decide) (by decide), hsd, hg]
    simp only [Finset.sum_range_succ, Finset.sum_range_zero]
    rw [hF0, hF1, hF2, hF3]
    norm_num
  have hc : (RiemannInvariantBC_pressure Real.sqrt (farFieldSystem ℝ)
      (extractFwd (farFieldSystem ℝ) 4 (uniformState [1, 0, 1 / 2, 107 / 56]))).2 0 = 1 := by
    rw [(RiemannInvariantBC_pressure_apply _ _ _ _ (by decide)).2, hp, hF0, hg]
    have : (1.4 : ℝ) * (5 / 7) / 1 = 1 := by norm_num
    rw [this, Real.sqrt_one]
  have hM : RiemannInvariantBC_Mach (farFieldSystem ℝ)
      (RiemannInvariantBC_Vn (farFieldSystem ℝ)
        (extractFwd (farFieldSystem ℝ) 4 (uniformState [1, 0, 1 / 2, 107 / 56])))
      (RiemannInvariantBC_pressure Real.sqrt (farFieldSystem ℝ)
        (extractFwd (farFieldSystem ℝ) 4 (uniformState [1, 0, 1 / 2, 107 / 56]))).2 0
      = 1 / 2 := by
    rw [RiemannInvariantBC_Mach_apply _ _ _ _ (by decide), hVn, hc]
    norm_num [abs_of_pos]
  have hr : RiemannInvariantBC_outflowChars Real.sqrt (farFieldSystem ℝ)
      (extractFwd (farFieldSystem ℝ) 4 (uniformState [1, 0, 1 / 2, 107 / 56]))
      (RiemannInvariantBC_Vn (farFieldSystem ℝ)
        (extractFwd (farFieldSystem ℝ) 4 (uniformState [1, 0, 1 / 2, 107 / 56])))
      (RiemannInvariantBC_VnInf (farFieldSystem ℝ))
      (RiemannInvariantBC_pressure Real.sqrt (farFieldSystem ℝ)
        (extractFwd (farFieldSystem ℝ) 4 (uniformState [1, 0, 1 / 2, 107 / 56]))).1
      (RiemannInvariantBC_Mach (farFieldSystem ℝ)
        (RiemannInvariantBC_Vn (farFieldSystem ℝ)
          (extractFwd (farFieldSystem ℝ) 4 (uniformState [1, 0, 1 / 2, 107 / 56])))
        (RiemannInvariantBC_pressure Real.sqrt (farFieldSystem ℝ)
          (extractFwd (farFieldSystem ℝ) 4 (uniformState [1, 0, 1 / 2, 107 / 56]))).2) 0
      = (11 / 2, -5) := by
    unfold RiemannInvariantBC_outflowChars
    have hlt : (1 / 2 : ℝ) < 1.00 := by norm_num
    have hcI : (1.4 : ℝ) * (5 / 7) / 1 = 1 := by norm_num
    simp only [hM, if_pos hlt, hVn, hVnInf, hp, hF0, hg, hpI, hrI, hcI, Real.sqrt_one]
    norm_num
  have hpoint : RiemannInvariantBC_point Real.sqrt Real.rpow (farFieldSystem ℝ)
      (extractFwd (farFieldSystem ℝ) 4 (uniformState [1, 0, 1 / 2, 107 / 56]))
      (RiemannInvariantBC_Vn (farFieldSystem ℝ)
        (extractFwd (farFieldSystem ℝ) 4 (uniformState [1, 0, 1 / 2, 107 / 56])))
      (RiemannInvariantBC_VnInf (farFieldSystem ℝ))
      (RiemannInvariantBC_pressure Real.sqrt (farFieldSystem ℝ)
        (extractFwd (farFieldSystem ℝ) 4 (uniformState [1, 0, 1 / 2, 107 / 56]))).1
      (RiemannInvariantBC_Mach (farFieldSystem ℝ)
        (RiemannInvariantBC_Vn (farFieldSystem ℝ)
          (extractFwd (farFieldSystem ℝ) 4 (uniformState [1, 0, 1 / 2, 107 / 56])))
        (RiemannInvariantBC_pressure Real.sqrt (farFieldSystem ℝ)
          (extractFwd (farFieldSystem ℝ) 4 (uniformState [1, 0, 1 / 2, 107 / 56]))).2)
      (RiemannInvariantBC_velInf (farFieldSystem ℝ)) 0
      = RiemannInvariantBC_state Real.rpow (farFieldSystem ℝ) (11 / 2, -5) (1 / 2)
          (5 / 7 / Real.rpow 1 1.4)
          (fun j => extractFwd (farFieldSystem ℝ) 4 (uniformState [1, 0, 1 / 2, 107 / 56])
            (j + 1) 0 / 1) 0 := by
    unfold RiemannInvariantBC_point
    have hpos : ¬ ((1 / 2 : ℝ) ≤ 0.0) := by norm_num
    rw [hVn, if_neg hpos, hr, hp, hF0, hg]
  obtain ⟨s1, s2, -⟩ := RiemannInvariantBC_state_apply Real.rpow (farFieldSystem ℝ)
    (11 / 2, -5) (1 / 2) (5 / 7 / Real.rpow 1 1.4)
    (fun j => extractFwd (farFieldSystem ℝ) 4 (uniformState [1, 0, 1 / 2, 107 / 56])
      (j + 1) 0 / 1) 0
  have hout0 := RiemannInvariantBC_apply Real.sqrt Real.rpow (farFieldSystem ℝ) 0 0 4
    (uniformState [1, 0, 1 / 2, 107 / 56]) (fun _ _ _ => 0) 0 0 0 hlay (by decide) (by decide)
    (by decide)
  have hout2 := RiemannInvariantBC_apply Real.sqrt Real.rpow (farFieldSystem ℝ) 0 0 4
    (uniformState [1, 0, 1 / 2, 107 / 56]) (fun _ _ _ => 0) 0 0 2 hlay (by decide) (by decide)
    (by decide)
  have hid1 : id1 (farFieldSystem ℝ) 0 0 + 0 = 0 := rfl
  have hid2 : id2 (farFieldSystem ℝ) 0 0 + 0 = 0 := rfl
  rw [hid1, hid2] at hout0 hout2
  rw [RiemannInvariantBC_value_zero, hpoint] at hout0
  rw [show (2 : Nat) = 1 + 1 from rfl,
    RiemannInvariantBC_value_momentum _ _ _ _ 1 0 (by decide), hpoint, s2 1 (by decide)]
    at hout2
  have hrho : RiemannInvariantBC Real.sqrt Real.rpow (farFieldSystem ℝ) 0 0 4
      (uniformState [1, 0, 1 / 2, 107 / 56]) (fun _ _ _ => 0) 0 0 0 = 1.05 ^ 5 := by
    rw [hout0, s1, hg]
    simp only [Real.rpow_eq_pow, Real.one_rpow]
    have hb : (0.25 * ((1.4 : ℝ) - 1.0) * (11 / 2 - -5)) * (0.25 * ((1.4 : ℝ) - 1.0) * (11 / 2 - -5))
        / (1.4 * (5 / 7 / 1)) = (1.05 : ℝ) ^ (2 : ℝ) := by
      rw [Real.rpow_two]
      norm_num
    have he : (1.0 / (1.4 - 1.0) : ℝ) = 5 / 2 := by norm_num
    have h5 : (2 : ℝ) * (5 / 2) = ((5 : ℕ) : ℝ) := by norm_num
    rw [hb, he, ← Real.rpow_mul (by norm_num), h5, Real.rpow_natCast]
  refine ⟨?_, hVn, hVnInf, ?_, hrho, ?_⟩
  · rw [hg, hpI, hrI, hu, hvI]
    norm_num
  · rw [hout2, hout0, hF2, hn1]
    norm_num
  · rw [hrho, hrI]
    norm_num

end RiemannClaims

section ViscousLemmas

variable {K : Type} [LinearOrderedField K]

/-- Sutherland's law, entry by entry. -/
lemma GetDynamicViscosity_apply (pow : K → K → K) (S : CompressibleFlowSystem K) (nPts : Nat)
    (temperature mu : Nat → K) (k : Nat) (hk : k < nPts) :
    GetDynamicViscosity pow S nPts temperature mu k
      = S.m_mu * pow (temperature k / (S.m_pInf / (S.m_rhoInf * S.m_gasConstant))) 1.50
          * (S.m_pInf / (S.m_rhoInf * S.m_gasConstant) + 110.0) / (temperature k + 110.0) := by
  unfold GetDynamicViscosity
  simp only
  induction nPts with
  | zero => omega
  | succ n ih =>
    rw [forLoop_from_zero_succ]
    by_cases hkn : k = n
    · subst hkn
      rw [Function.update_same]
    · rw [Function.update_noteq hkn]
      exact ih (by omega)

/-- The array `mu` for the constant viscosity model. -/
lemma GetViscousFluxVector_mu_constant (pow : K → K → K) (S : CompressibleFlowSystem K)
    (nPts : Nat) (physfield : Nat → Nat → K) (k : Nat) (hk : k < nPts)
    (hc : S.m_ViscosityType ≠ "Variable") :
    GetViscousFluxVector_mu pow S nPts physfield k = S.m_mu := by
  unfold GetViscousFluxVector_mu
  simp only [if_neg hc]
  exact store_zero_lt _ _ _ _ hk

/-- The array `mu` for the "Variable" viscosity model. -/
lemma GetViscousFluxVector_mu_variable (pow : K → K → K) (S : CompressibleFlowSystem K)
    (nPts : Nat) (physfield : Nat → Nat → K) (k : Nat)
    (hc : S.m_ViscosityType = "Variable") :
    GetViscousFluxVector_mu pow S nPts physfield k
      = GetDynamicViscosity pow S nPts (physfield (S.m_fields_num_elements - 2))
          (fun _ => 0.0) k := by
  unfold GetViscousFluxVector_mu
  simp only [if_pos hc]

/-- The divergence loop sums the diagonal derivatives. -/
lemma divVel_loop_apply (nPts m : Nat) (D : Nat → Nat → Nat → K) (k : Nat) (hk : k < nPts) :
    forLoop 0 m (fun j dv => Vmath.Vadd nPts dv (D j j) dv 0) (fun _ => (0.0 : K)) k
      = ∑ j in Finset.range m, D j j k := by
  induction m with
  | zero =>
    rw [forLoop_zero, Finset.sum_range_zero]
    norm_num
  | succ n ih =>
    rw [forLoop_from_zero_succ, Finset.sum_range_succ]
    show Vmath.store nPts _ _ 0 k = _
    rw [store_zero_lt _ _ _ _ hk, ih]

/-- The scaled divergence: `mu * (lambda * theta)`. -/
lemma GetViscousFluxVector_divVel_apply (S : CompressibleFlowSystem K) (nPts : Nat)
    (mu : Nat → K) (D : Nat → Nat → Nat → K) (k : Nat) (hk : k < nPts) :
    GetViscousFluxVector_divVel S nPts mu D k
      = mu k * (-2.0 / 3.0 * ∑ j in Finset.range S.m_spacedim, D j j k) := by
  unfold GetViscousFluxVector_divVel
  simp only [Vmath.Vmul, Vmath.Smul]
  rw [store_zero_lt _ _ _ _ hk, store_zero_lt _ _ _ _ hk, divVel_loop_apply _ _ _ _ hk]

/-- The loop building `tmp` and `Sgg` fills row `j < m` of `Sgg` with `G j`. -/
lemma Sgg_loop_apply {α : Type} (m : Nat) (T G : Nat → α) (t0 s0 : Nat → α) (j : Nat) :
    (forLoop 0 m (fun j st => (Function.update st.1 j (T j), Function.update st.2 j (G j)))
        (t0, s0)).2 j = if j < m then G j else s0 j := by
  induction m with
  | zero =>
    rw [forLoop_zero]
    simp
  | succ n ih =>
    rw [forLoop_from_zero_succ]
    generalize forLoop 0 n
      (fun j st => (Function.update st.1 j (T j), Function.update st.2 j (G j))) (t0, s0)
      = st at ih ⊢
    show Function.update st.2 n (G n) j = _
    by_cases hjn : j = n
    · subst hjn
      rw [Function.update_same, if_pos (Nat.lt_succ_self _)]
    · rw [Function.update_noteq hjn, ih]
      have : j < n ↔ j < n + 1 := by omega
      simp only [this]

/-- The diagonal stress: `2 mu dv_j/dx_j + mu lambda theta`. -/
lemma GetViscousFluxVector_Sgg_apply (S : CompressibleFlowSystem K) (nPts : Nat)
    (mu : Nat → K) (D : Nat → Nat → Nat → K) (j k : Nat) (hj : j < S.m_spacedim)
    (hk : k < nPts) :
    GetViscousFluxVector_Sgg S nPts mu D j k
      = 2.0 * mu k * D j j k
        + mu k * (-2.0 / 3.0 * ∑ i in Finset.range S.m_spacedim, D i i k) := by
  unfold GetViscousFluxVector_Sgg
  simp only
  rw [Sgg_loop_apply, if_pos hj]
  simp only [Vmath.Vadd, Vmath.Vmul, Vmath.Smul]
  rw [store_zero_lt _ _ _ _ hk, store_zero_lt _ _ _ _ hk, store_zero_lt _ _ _ _ hk,
    GetViscousFluxVector_divVel_apply _ _ _ _ _ hk]

end ViscousLemmas
section ViscousAssembly

variable {K : Type} [LinearOrderedField K]

/-- Off-diagonal stress in 2-D. -/
lemma GetViscousFluxVector_offDiagonal_dim2 (S : CompressibleFlowSystem K) (nPts : Nat)
    (mu : Nat → K) (D : Nat → Nat → Nat → K) (k : Nat) (hk : k < nPts)
    (h : S.m_spacedim = 2) :
    (GetViscousFluxVector_offDiagonal S nPts mu D).1 k = mu k * (D 0 1 k + D 1 0 k) := by
  unfold GetViscousFluxVector_offDiagonal
  simp only [h, if_true, Vmath.Vmul, Vmath.Vadd]
  rw [store_zero_lt _ _ _ _ hk, store_zero_lt _ _ _ _ hk]

/-- Off-diagonal stress in 3-D. -/
lemma GetViscousFluxVector_offDiagonal_dim3 (S : CompressibleFlowSystem K) (nPts : Nat)
    (mu : Nat → K) (D : Nat → Nat → Nat → K) (k : Nat) (hk : k < nPts)
    (h : S.m_spacedim = 3) :
    (GetViscousFluxVector_offDiagonal S nPts mu D).1 k = mu k * (D 0 1 k + D 1 0 k) ∧
    (GetViscousFluxVector_offDiagonal S nPts mu D).2.1 k = mu k * (D 0 2 k + D 2 0 k) ∧
    (GetViscousFluxVector_offDiagonal S nPts mu D).2.2 k = mu k * (D 1 2 k + D 2 1 k) := by
  unfold GetViscousFluxVector_offDiagonal
  have h32 : ¬ ((3 : Nat) = 2) := by decide
  simp only [h, if_neg h32, if_true, Vmath.Vmul, Vmath.Vadd]
  refine ⟨?_, ?_, ?_⟩ <;> rw [store_zero_lt _ _ _ _ hk, store_zero_lt _ _ _ _ hk]

/-- Energy term in 1-D. -/
lemma GetViscousFluxVector_energy_dim1 (S : CompressibleFlowSystem K) (nPts : Nat)
    (physfield : Nat → Nat → K) (D : Nat → Nat → Nat → K) (Sgg : Nat → Nat → K)
    (Sxy Sxz Syz : Nat → K) (k : Nat) (hk : k < nPts) (h : S.m_spacedim = 1) :
    (GetViscousFluxVector_energy S nPts physfield D Sgg Sxy Sxz Syz).1 k
      = physfield 0 k * Sgg 0 k + S.m_thermalConductivity * D 0 1 k := by
  unfold GetViscousFluxVector_energy
  simp only [h, if_true, Vmath.Vmul, Vmath.Vadd, Vmath.Smul]
  rw [store_zero_lt _ _ _ _ hk, store_zero_lt _ _ _ _ hk, store_zero_lt _ _ _ _ hk]

/-- Energy terms in 2-D. -/
lemma GetViscousFluxVector_energy_dim2 (S : CompressibleFlowSystem K) (nPts : Nat)
    (physfield : Nat → Nat → K) (D : Nat → Nat → Nat → K) (Sgg : Nat → Nat → K)
    (Sxy Sxz Syz : Nat → K) (k : Nat) (hk : k < nPts) (h : S.m_spacedim = 2) :
    (GetViscousFluxVector_energy S nPts physfield D Sgg Sxy Sxz Syz).1 k
      = physfield 0 k * Sgg 0 k + physfield 1 k * Sxy k
        + S.m_thermalConductivity * D 0 2 k ∧
    (GetViscousFluxVector_energy S nPts physfield D Sgg Sxy Sxz Syz).2.1 k
      = physfield 1 k * Sgg 1 k + physfield 0 k * Sxy k
        + S.m_thermalConductivity * D 1 2 k := by
  unfold GetViscousFluxVector_energy
  have h21 : ¬ ((2 : Nat) = 1) := by decide
  simp only [h, if_neg h21, if_true, Vmath.Vmul, Vmath.Vadd, Vmath.Smul, Vmath.Zero]
  refine ⟨?_, ?_⟩ <;> simp only [store_zero_lt _ _ _ _ hk]

/-- Energy terms in 3-D. -/
lemma GetViscousFluxVector_energy_dim3 (S : CompressibleFlowSystem K) (nPts : Nat)
    (physfield : Nat → Nat → K) (D : Nat → Nat → Nat → K) (Sgg : Nat → Nat → K)
    (Sxy Sxz Syz : Nat → K) (k : Nat) (hk : k < nPts) (h : S.m_spacedim = 3) :
    (GetViscousFluxVector_energy S nPts physfield D Sgg Sxy Sxz Syz).1 k
      = physfield 0 k * Sgg 0 k + physfield 1 k * Sxy k + physfield 2 k * Sxz k
        + S.m_thermalConductivity * D 0 3 k ∧
    (GetViscousFluxVector_energy S nPts physfield D Sgg Sxy Sxz Syz).2.1 k
      = physfield 1 k * Sgg 1 k + physfield 0 k * Sxy k + physfield 2 k * Syz k
        + S.m_thermalConductivity * D 1 3 k ∧
    (GetViscousFluxVector_energy S nPts physfield D Sgg Sxy Sxz Syz).2.2 k
      = physfield 2 k * Sgg 2 k + physfield 0 k * Sxz k + physfield 1 k * Syz k
        + S.m_thermalConductivity * D 2 3 k := by
  unfold GetViscousFluxVector_energy
  have h31 : ¬ ((3 : Nat) = 1) := by decide
  have h32 : ¬ ((3 : Nat) = 2) := by decide
  simp only [h, if_neg h31, if_neg h32, if_true, Vmath.Vmul, Vmath.Vadd, Vmath.Smul,
    Vmath.Zero]
  refine ⟨?_, ?_, ?_⟩ <;> simp only [store_zero_lt _ _ _ _ hk]

/-- Entry of the tensor after a zeroing. -/
lemma tensorZero_apply (nPts : Nat) (vT : Nat → Nat → Nat → K) (d v d2 v2 k : Nat)
    (hk : k < nPts) :
    tensorZero nPts vT d v d2 v2 k = if d2 = d ∧ v2 = v then 0 else vT d2 v2 k := by
  unfold tensorZero set2 Vmath.Zero
  by_cases hc : d2 = d ∧ v2 = v
  · rw [if_pos hc, if_pos hc, store_zero_lt _ _ _ _ hk]
  · rw [if_neg hc, if_neg hc]

/-- Entry of the tensor after a copy. -/
lemma tensorCopy_apply {K : Type} (nPts : Nat) (src : Nat → K) (vT : Nat → Nat → Nat → K)
    (d v d2 v2 k : Nat) (hk : k < nPts) :
    tensorCopy nPts src vT d v d2 v2 k = if d2 = d ∧ v2 = v then src k else vT d2 v2 k := by
  unfold tensorCopy set2 Vmath.Vcopy
  by_cases hc : d2 = d ∧ v2 = v
  · rw [if_pos hc, if_pos hc, store_zero_lt _ _ _ _ hk]
  · rw [if_neg hc, if_neg hc]

/-- The assembled tensor in 1-D, entry by entry. -/
lemma GetViscousFluxVector_dim1 (pow : K → K → K) (S : CompressibleFlowSystem K) (nPts : Nat)
    (physfield : Nat → Nat → K) (D vT0 : Nat → Nat → Nat → K) (mu : Nat → K)
    (hmu : mu = GetViscousFluxVector_mu pow S nPts physfield) (h : S.m_spacedim = 1) :
    ∃ vT, GetViscousFluxVector pow S nPts physfield D vT0 = Except.ok vT ∧
      ∀ k, k < nPts →
        vT 0 0 k = 0 ∧
        vT 0 1 k = 2.0 * mu k * D 0 0 k + mu k * (-2.0 / 3.0 * D 0 0 k) ∧
        vT 0 2 k = physfield 0 k * vT 0 1 k + S.m_thermalConductivity * D 0 1 k := by
  subst hmu
  have hS : ∀ k, k < nPts →
      GetViscousFluxVector_Sgg S nPts (GetViscousFluxVector_mu pow S nPts physfield) D 0 k
        = 2.0 * GetViscousFluxVector_mu pow S nPts physfield k * D 0 0 k
          + GetViscousFluxVector_mu pow S nPts physfield k * (-2.0 / 3.0 * D 0 0 k) := by
    intro k hk
    rw [GetViscousFluxVector_Sgg_apply _ _ _ _ _ _ (by omega) hk, h]
    simp only [Finset.sum_range_succ, Finset.sum_range_zero, zero_add]
  unfold GetViscousFluxVector
  simp only [h]
  refine ⟨_, rfl, fun k hk => ?_⟩
  simp only [tensorCopy_apply _ _ _ _ _ _ _ _ hk, tensorZero_apply _ _ _ _ _ _ _ hk,
    (GetViscousFluxVector_energy_dim1 S nPts physfield D _ _ _ _ k hk h), hS k hk]
  simp

end ViscousAssembly

section ViscousAssembly2

variable {K : Type} [LinearOrderedField K]

/-- The assembled tensor in 2-D, entry by entry. -/
lemma GetViscousFluxVector_dim2 (pow : K → K → K) (S : CompressibleFlowSystem K) (nPts : Nat)
    (physfield : Nat → Nat → K) (D vT0 : Nat → Nat → Nat → K) (mu : Nat → K)
    (hmu : mu = GetViscousFluxVector_mu pow S nPts physfield) (h : S.m_spacedim = 2) :
    ∃ vT, GetViscousFluxVector pow S nPts physfield D vT0 = Except.ok vT ∧
      ∀ k, k < nPts →
        vT 0 0 k = 0 ∧ vT 1 0 k = 0 ∧
        vT 0 1 k = 2.0 * mu k * D 0 0 k + mu k * (-2.0 / 3.0 * (D 0 0 k + D 1 1 k)) ∧
        vT 1 1 k = mu k * (D 0 1 k + D 1 0 k) ∧
        vT 0 2 k = mu k * (D 0 1 k + D 1 0 k) ∧
        vT 1 2 k = 2.0 * mu k * D 1 1 k + mu k * (-2.0 / 3.0 * (D 0 0 k + D 1 1 k)) ∧
        vT 0 3 k = physfield 0 k * vT 0 1 k + physfield 1 k * vT 0 2 k
          + S.m_thermalConductivity * D 0 2 k ∧
        vT 1 3 k = physfield 1 k * vT 1 2 k + physfield 0 k * vT 1 1 k
          + S.m_thermalConductivity * D 1 2 k := by
  subst hmu
  have hS : ∀ j, j < 2 → ∀ k, k < nPts →
      GetViscousFluxVector_Sgg S nPts (GetViscousFluxVector_mu pow S nPts physfield) D j k
        = 2.0 * GetViscousFluxVector_mu pow S nPts physfield k * D j j k
          + GetViscousFluxVector_mu pow S nPts physfield k
            * (-2.0 / 3.0 * (D 0 0 k + D 1 1 k)) := by
    intro j hj k hk
    rw [GetViscousFluxVector_Sgg_apply _ _ _ _ _ _ (by omega) hk, h]
    simp only [Finset.sum_range_succ, Finset.sum_range_zero, zero_add]
  unfold GetViscousFluxVector
  simp only [h]
  refine ⟨_, rfl, fun k hk => ?_⟩
  have hE := GetViscousFluxVector_energy_dim2 S nPts physfield D
    (GetViscousFluxVector_Sgg S nPts (GetViscousFluxVector_mu pow S nPts physfield) D)
    (GetViscousFluxVector_offDiagonal S nPts (GetViscousFluxVector_mu pow S nPts physfield) D).1
    (GetViscousFluxVector_offDiagonal S nPts
      (GetViscousFluxVector_mu pow S nPts physfield) D).2.1
    (GetViscousFluxVector_offDiagonal S nPts
      (GetViscousFluxVector_mu pow S nPts physfield) D).2.2 k hk h
  simp only [tensorCopy_apply _ _ _ _ _ _ _ _ hk, tensorZero_apply _ _ _ _ _ _ _ hk,
    hE.1, hE.2, hS 0 (by decide) k hk, hS 1 (by decide) k hk,
    GetViscousFluxVector_offDiagonal_dim2 S nPts _ D k hk h]
  simp

/-- The assembled tensor in 3-D, entry by entry. -/
lemma GetViscousFluxVector_dim3 (pow : K → K → K) (S : CompressibleFlowSystem K) (nPts : Nat)
    (physfield : Nat → Nat → K) (D vT0 : Nat → Nat → Nat → K) (mu : Nat → K)
    (hmu : mu = GetViscousFluxVector_mu pow S nPts physfield) (h : S.m_spacedim = 3) :
    ∃ vT, GetViscousFluxVector pow S nPts physfield D vT0 = Except.ok vT ∧
      ∀ k, k < nPts →
        (vT 0 0 k = 0 ∧ vT 1 0 k = 0 ∧ vT 2 0 k = 0) ∧
        (vT 0 1 k
            = 2.0 * mu k * D 0 0 k + mu k * (-2.0 / 3.0 * (D 0 0 k + D 1 1 k + D 2 2 k)) ∧
          vT 1 1 k = mu k * (D 0 1 k + D 1 0 k) ∧
          vT 2 1 k = mu k * (D 0 2 k + D 2 0 k)) ∧
        (vT 0 2 k = mu k * (D 0 1 k + D 1 0 k) ∧
          vT 1 2 k
            = 2.0 * mu k * D 1 1 k + mu k * (-2.0 / 3.0 * (D 0 0 k + D 1 1 k + D 2 2 k)) ∧
          vT 2 2 k = mu k * (D 1 2 k + D 2 1 k)) ∧
        (vT 0 3 k = mu k * (D 0 2 k + D 2 0 k) ∧
          vT 1 3 k = mu k * (D 1 2 k + D 2 1 k) ∧
          vT 2 3 k
            = 2.0 * mu k * D 2 2 k + mu k * (-2.0 / 3.0 * (D 0 0 k + D 1 1 k + D 2 2 k))) ∧
        (vT 0 4 k = physfield 0 k * vT 0 1 k + physfield 1 k * vT 0 2 k
            + physfield 2 k * vT 0 3 k + S.m_thermalConductivity * D 0 3 k ∧
          vT 1 4 k = physfield 1 k * vT 1 2 k + physfield 0 k * vT 1 1 k
            + physfield 2 k * vT 1 3 k + S.m_thermalConductivity * D 1 3 k ∧
          vT 2 4 k = physfield 2 k * vT 2 3 k + physfield 0 k * vT 2 1 k
            + physfield 1 k * vT 2 2 k + S.m_thermalConductivity * D 2 3 k) := by
  subst hmu
  have hS : ∀ j, j < 3 → ∀ k, k < nPts →
      GetViscousFluxVector_Sgg S nPts (GetViscousFluxVector_mu pow S nPts physfield) D j k
        = 2.0 * GetViscousFluxVector_mu pow S nPts physfield k * D j j k
          + GetViscousFluxVector_mu pow S nPts physfield k
            * (-2.0 / 3.0 * (D 0 0 k + D 1 1 k + D 2 2 k)) := by
    intro j hj k hk
    rw [GetViscousFluxVector_Sgg_apply _ _ _ _ _ _ (by omega) hk, h]
    simp only [Finset.sum_range_succ, Finset.sum_range_zero, zero_add]
  unfold GetViscousFluxVector
  simp only [h]
  refine ⟨_, rfl, fun k hk => ?_⟩
  have hE := GetViscousFluxVector_energy_dim3 S nPts physfield D
    (GetViscousFluxVector_Sgg S nPts (GetViscousFluxVector_mu pow S nPts physfield) D)
    (GetViscousFluxVector_offDiagonal S nPts (GetViscousFluxVector_mu pow S nPts physfield) D).1
    (GetViscousFluxVector_offDiagonal S nPts
      (GetViscousFluxVector_mu pow S nPts physfield) D).2.1
    (GetViscousFluxVector_offDiagonal S nPts
      (GetViscousFluxVector_mu pow S nPts physfield) D).2.2 k hk h
  have hO := GetViscousFluxVector_offDiagonal_dim3 S nPts
    (GetViscousFluxVector_mu pow S nPts physfield) D k hk h
  simp only [tensorCopy_apply _ _ _ _ _ _ _ _ hk, tensorZero_apply _ _ _ _ _ _ _ hk,
    hE.1, hE.2.1, hE.2.2, hS 0 (by decide) k hk, hS 1 (by decide) k hk, hS 2 (by decide) k hk,
    hO.1, hO.2.1, hO.2.2]
  simp

end ViscousAssembly2

section ViscousClaims

variable {K : Type} [LinearOrderedField K]

/-- The array `mu`, entry by entry, when the state has `spacedim + 2`
variables. -/
lemma GetViscousFluxVector_mu_apply (pow : K → K → K) (S : CompressibleFlowSystem K)
    (nPts : Nat) (physfield : Nat → Nat → K) (k : Nat) (hk : k < nPts)
    (hn : S.m_fields_num_elements = S.m_spacedim + 2) :
    GetViscousFluxVector_mu pow S nPts physfield k
      = if S.m_ViscosityType = "Variable" then
          S.m_mu
            * pow (physfield S.m_spacedim k / (S.m_pInf / (S.m_rhoInf * S.m_gasConstant)))
                (3 / 2)
            * (S.m_pInf / (S.m_rhoInf * S.m_gasConstant) + 110) / (physfield S.m_spacedim k + 110)
        else S.m_mu := by
  have h15 : (1.50 : K) = 3 / 2 := by norm_num
  have h110 : (110.0 : K) = 110 := by norm_num
  by_cases hc : S.m_ViscosityType = "Variable"
  · rw [if_pos hc, GetViscousFluxVector_mu_variable _ _ _ _ _ hc,
      GetDynamicViscosity_apply _ _ _ _ _ _ hk, hn, Nat.add_sub_cancel, h15, h110]
  · rw [if_neg hc, GetViscousFluxVector_mu_constant _ _ _ _ _ hk hc]

/-- C17: for spatial dimension 1, 2 or 3 and a state of `spacedim + 2` variables,
`GetViscousFluxVector` completes, and at every point `k` and for every direction
`d` the entry `viscousTensor[d][d+1][k]` is
`2 mu dv_d/dx_d + lambda mu theta` with `lambda = -2/3` and
`theta = sum_j derivativesO1[j][j][k]`, where `mu` is the function's viscosity
array: at every point it is the constant `m_mu`, unless the viscosity type is
"Variable", and then it is Sutherland's law
`m_mu (T/T*)^(3/2) (T* + 110) / (T + 110)`, `T* = pInf / (rhoInf R)`, at the
temperature `T = physfield[spacedim][k]`. -/
theorem GetViscousFluxVector_diagonal_stress (pow : K → K → K)
    (S : CompressibleFlowSystem K) (nPts : Nat) (physfield : Nat → Nat → K)
    (derivativesO1 viscousTensor : Nat → Nat → Nat → K)
    (h1 : 1 ≤ S.m_spacedim) (h3 : S.m_spacedim ≤ 3)
    (hn : S.m_fields_num_elements = S.m_spacedim + 2) :
    ∃ vT, GetViscousFluxVector pow S nPts physfield derivativesO1 viscousTensor
        = Except.ok vT ∧
      ∀ k, k < nPts →
        (∀ d, d < S.m_spacedim →
          vT d (d + 1) k
            = 2 * GetViscousFluxVector_mu pow S nPts physfield k * derivativesO1 d d k
              + -2 / 3 * GetViscousFluxVector_mu pow S nPts physfield k
                * ∑ j in Finset.range S.m_spacedim, derivativesO1 j j k) ∧
        GetViscousFluxVector_mu pow S nPts physfield k
          = if S.m_ViscosityType = "Variable" then
              S.m_mu
                * pow (physfield S.m_spacedim k / (S.m_pInf / (S.m_rhoInf * S.m_gasConstant)))
                    (3 / 2)
                * (S.m_pInf / (S.m_rhoInf * S.m_gasConstant) + 110)
                / (physfield S.m_spacedim k + 110)
            else S.m_mu := by
  have h20 : (2.0 : K) = 2 := by norm_num
  have h30 : (3.0 : K) = 3 := by norm_num
  have hsd : S.m_spacedim = 1 ∨ S.m_spacedim = 2 ∨ S.m_spacedim = 3 := by omega
  rcases hsd with h | h | h
  · obtain ⟨vT, hok, hv⟩ :=
      GetViscousFluxVector_dim1 pow S nPts physfield derivativesO1 viscousTensor _ rfl h
    refine ⟨vT, hok, fun k hk =>
      ⟨fun d hd => ?_, GetViscousFluxVector_mu_apply pow S nPts physfield k hk hn⟩⟩
    obtain ⟨-, e01, -⟩ := hv k hk
    rw [h] at hd ⊢
    simp only [Finset.sum_range_succ, Finset.sum_range_zero, zero_add]
    interval_cases d
    rw [e01, h20, h30]
    ring
  · obtain ⟨vT, hok, hv⟩ :=
      GetViscousFluxVector_dim2 pow S nPts physfield derivativesO1 viscousTensor _ rfl h
    refine ⟨vT, hok, fun k hk =>
      ⟨fun d hd => ?_, GetViscousFluxVector_mu_apply pow S nPts physfield k hk hn⟩⟩
    obtain ⟨-, -, e01, -, -, e12, -, -⟩ := hv k hk
    rw [h] at hd ⊢
    simp only [Finset.sum_range_succ, Finset.sum_range_zero, zero_add]
    interval_cases d
    · rw [e01, h20, h30]
      ring
    · rw [e12, h20, h30]
      ring
  · obtain ⟨vT, hok, hv⟩ :=
      GetViscousFluxVector_dim3 pow S nPts physfield derivativesO1 viscousTensor _ rfl h
    refine ⟨vT, hok, fun k hk =>
      ⟨fun d hd => ?_, GetViscousFluxVector_mu_apply pow S nPts physfield k hk hn⟩⟩
    obtain ⟨-, ⟨e01, -, -⟩, ⟨-, e12, -⟩, ⟨-, -, e23⟩, -⟩ := hv k hk
    rw [h] at hd ⊢
    simp only [Finset.sum_range_succ, Finset.sum_range_zero, zero_add]
    interval_cases d
    · rw [e01, h20, h30]
      ring
    · rw [e12, h20, h30]
      ring
    · rw [e23, h20, h30]
      ring

end ViscousClaims

section ViscousClaims2

variable {K : Type} [LinearOrderedField K]

/-- Witness for C17: the 2-D sample with constant viscosity `m_mu = 1.78e-05`,
one point, `du/dx = 3` and every other derivative `0`: the entry
`viscousTensor[0][1][0]` is `2 mu 3 - 2/3 mu 3 = 4 mu`. -/
theorem GetViscousFluxVector_diagonal_stress_witness :
    (1 ≤ (sampleSystem ℚ 2 1.4 1).m_spacedim ∧ (sampleSystem ℚ 2 1.4 1).m_spacedim ≤ 3
      ∧ (sampleSystem ℚ 2 1.4 1).m_fields_num_elements
          = (sampleSystem ℚ 2 1.4 1).m_spacedim + 2) ∧
    ∃ vT, GetViscousFluxVector (fun x _ => x) (sampleSystem ℚ 2 1.4 1) 1
          (uniformState [1, 2, 300]) (fun d v _ => if d = 0 ∧ v = 0 then 3 else 0)
          (fun _ _ _ => 7) = Except.ok vT ∧
      vT 0 (0 + 1) 0 = 4 * 1.78e-05 := by
  refine ⟨⟨by decide, by decide, by decide⟩, ?_⟩
  obtain ⟨vT, hok, hv⟩ := GetViscousFluxVector_diagonal_stress (fun x _ => x)
    (sampleSystem ℚ 2 1.4 1) 1 (uniformState [1, 2, 300])
    (fun d v _ => if d = 0 ∧ v = 0 then 3 else 0) (fun _ _ _ => 7)
    (by decide) (by decide) (by decide)
  refine ⟨vT, hok, ?_⟩
  obtain ⟨hd, hmu⟩ := hv 0 (by decide)
  have hc : ¬ ((sampleSystem ℚ 2 1.4 1).m_ViscosityType = "Variable") := by decide
  rw [if_neg hc] at hmu
  rw [hd 0 (by decide), hmu]
  have hs : (sampleSystem ℚ 2 1.4 1).m_spacedim = 2 := rfl
  have hm : (sampleSystem ℚ 2 1.4 1).m_mu = 1.78e-05 := rfl
  rw [hs, hm]
  simp only [Finset.sum_range_succ, Finset.sum_range_zero]
  norm_num

end ViscousClaims2

section ViscousClaims3

variable {K : Type} [LinearOrderedField K]

/-- C18: for spatial dimension 1, 2 or 3 `GetViscousFluxVector` completes, and at
every point `k` and for all directions `d`, `i` the assembled tensor has a zero
density row, `viscousTensor[d][0][k] = 0`, and symmetric momentum rows,
`viscousTensor[d][1+i][k] = viscousTensor[i][1+d][k]`, whose off-diagonal
entries (`d ≠ i`, which needs two directions, so 2-D or 3-D) are
`mu (derivativesO1[d][i][k] + derivativesO1[i][d][k])` with `mu` the function's
viscosity array. -/
theorem GetViscousFluxVector_density_and_momentum_rows (pow : K → K → K)
    (S : CompressibleFlowSystem K) (nPts : Nat) (physfield : Nat → Nat → K)
    (derivativesO1 viscousTensor : Nat → Nat → Nat → K)
    (h1 : 1 ≤ S.m_spacedim) (h3 : S.m_spacedim ≤ 3) :
    ∃ vT, GetViscousFluxVector pow S nPts physfield derivativesO1 viscousTensor
        = Except.ok vT ∧
      ∀ k, k < nPts → ∀ d, d < S.m_spacedim →
        vT d 0 k = 0 ∧
        ∀ i, i < S.m_spacedim →
          vT d (1 + i) k = vT i (1 + d) k ∧
          (d ≠ i → vT d (1 + i) k
            = GetViscousFluxVector_mu pow S nPts physfield k
              * (derivativesO1 d i k + derivativesO1 i d k)) := by
  have hsd : S.m_spacedim = 1 ∨ S.m_spacedim = 2 ∨ S.m_spacedim = 3 := by omega
  rcases hsd with h | h | h
  · obtain ⟨vT, hok, hv⟩ :=
      GetViscousFluxVector_dim1 pow S nPts physfield derivativesO1 viscousTensor _ rfl h
    refine ⟨vT, hok, fun k hk d hd => ?_⟩
    obtain ⟨z0, -, -⟩ := hv k hk
    rw [h] at hd ⊢
    interval_cases d
    refine ⟨z0, fun i hi => ?_⟩
    interval_cases i
    exact ⟨rfl, fun hne => absurd rfl hne⟩
  · obtain ⟨vT, hok, hv⟩ :=
      GetViscousFluxVector_dim2 pow S nPts physfield derivativesO1 viscousTensor _ rfl h
    refine ⟨vT, hok, fun k hk d hd => ?_⟩
    obtain ⟨z0, z1, -, e11, e02, -, -, -⟩ := hv k hk
    rw [h] at hd ⊢
    interval_cases d
    · refine ⟨z0, fun i hi => ?_⟩
      interval_cases i
      · exact ⟨rfl, fun hne => absurd rfl hne⟩
      · exact ⟨e02.trans e11.symm, fun _ => e02⟩
    · refine ⟨z1, fun i hi => ?_⟩
      interval_cases i
      · exact ⟨e11.trans e02.symm, fun _ => by rw [e11]; ring⟩
      · exact ⟨rfl, fun hne => absurd rfl hne⟩
  · obtain ⟨vT, hok, hv⟩ :=
      GetViscousFluxVector_dim3 pow S nPts physfield derivativesO1 viscousTensor _ rfl h
    refine ⟨vT, hok, fun k hk d hd => ?_⟩
    obtain ⟨⟨z0, z1, z2⟩, ⟨-, e11, e21⟩, ⟨e02, -, e22⟩, ⟨e03, e13, -⟩, -⟩ := hv k hk
    rw [h] at hd ⊢
    interval_cases d
    · refine ⟨z0, fun i hi => ?_⟩
      interval_cases i
      · exact ⟨rfl, fun hne => absurd rfl hne⟩
      · exact ⟨e02.trans e11.symm, fun _ => e02⟩
      · exact ⟨e03.trans e21.symm, fun _ => e03⟩
    · refine ⟨z1, fun i hi => ?_⟩
      interval_cases i
      · exact ⟨e11.trans e02.symm, fun _ => by rw [e11]; ring⟩
      · exact ⟨rfl, fun hne => absurd rfl hne⟩
      · exact ⟨e13.trans e22.symm, fun _ => e13⟩
    · refine ⟨z2, fun i hi => ?_⟩
      interval_cases i
      · exact ⟨e21.trans e03.symm, fun _ => by rw [e21]; ring⟩
      · exact ⟨e22.trans e13.symm, fun _ => by rw [e22]; ring⟩
      · exact ⟨rfl, fun hne => absurd rfl hne⟩

/-- C19: for spatial dimension 1, 2 or 3 `GetViscousFluxVector` completes, and at
every point `k` and for every direction `d` the energy row is
`viscousTensor[d][spacedim+1][k] = sum_i v_i S_di + kappa dT/dx_d` with
`v_i = physfield[i][k]`, `kappa = m_thermalConductivity`,
`dT/dx_d = derivativesO1[d][spacedim][k]` and `S_di` the stress tensor: it is the
entry stored in the momentum row `viscousTensor[d][1+i][k]`, that is
`2 mu dv_d/dx_d - 2/3 mu theta` for `i = d` and
`mu (derivativesO1[d][i][k] + derivativesO1[i][d][k])` otherwise. -/
theorem GetViscousFluxVector_energy_row (pow : K → K → K)
    (S : CompressibleFlowSystem K) (nPts : Nat) (physfield : Nat → Nat → K)
    (derivativesO1 viscousTensor : Nat → Nat → Nat → K)
    (h1 : 1 ≤ S.m_spacedim) (h3 : S.m_spacedim ≤ 3) :
    ∃ vT, GetViscousFluxVector pow S nPts physfield derivativesO1 viscousTensor
        = Except.ok vT ∧
      ∀ k, k < nPts → ∀ d, d < S.m_spacedim →
        vT d (S.m_spacedim + 1) k
          = ∑ i in Finset.range S.m_spacedim, physfield i k * vT d (1 + i) k
            + S.m_thermalConductivity * derivativesO1 d S.m_spacedim k ∧
        vT d (S.m_spacedim + 1) k
          = ∑ i in Finset.range S.m_spacedim, physfield i k *
              (if i = d then
                2 * GetViscousFluxVector_mu pow S nPts physfield k * derivativesO1 d d k
                  + -2 / 3 * GetViscousFluxVector_mu pow S nPts physfield k
                    * ∑ j in Finset.range S.m_spacedim, derivativesO1 j j k
              else GetViscousFluxVector_mu pow S nPts physfield k
                * (derivativesO1 d i k + derivativesO1 i d k))
            + S.m_thermalConductivity * derivativesO1 d S.m_spacedim k := by
  have h20 : (2.0 : K) = 2 := by norm_num
  have h30 : (3.0 : K) = 3 := by norm_num
  have hsd : S.m_spacedim = 1 ∨ S.m_spacedim = 2 ∨ S.m_spacedim = 3 := by omega
  rcases hsd with h | h | h
  · obtain ⟨vT, hok, hv⟩ :=
      GetViscousFluxVector_dim1 pow S nPts physfield derivativesO1 viscousTensor _ rfl h
    refine ⟨vT, hok, fun k hk d hd => ?_⟩
    obtain ⟨-, e01, e02⟩ := hv k hk
    rw [h] at hd ⊢
    simp only [Finset.sum_range_succ, Finset.sum_range_zero, zero_add]
    interval_cases d
    refine ⟨e02, ?_⟩
    rw [e02, e01, if_pos rfl, h20, h30]
    ring
  · obtain ⟨vT, hok, hv⟩ :=
      GetViscousFluxVector_dim2 pow S nPts physfield derivativesO1 viscousTensor _ rfl h
    refine ⟨vT, hok, fun k hk d hd => ?_⟩
    obtain ⟨-, -, e01, e11, e02, e12, e03, e13⟩ := hv k hk
    rw [h] at hd ⊢
    simp only [Finset.sum_range_succ, Finset.sum_range_zero, zero_add]
    interval_cases d
    · refine ⟨e03, ?_⟩
      rw [e03, e01, e02, if_pos rfl, if_neg (by decide), h20, h30]
      ring
    · refine ⟨by rw [e13]; ring, ?_⟩
      rw [e13, e12, e11, if_pos rfl, if_neg (by decide), h20, h30]
      ring
  · obtain ⟨vT, hok, hv⟩ :=
      GetViscousFluxVector_dim3 pow S nPts physfield derivativesO1 viscousTensor _ rfl h
    refine ⟨vT, hok, fun k hk d hd => ?_⟩
    obtain ⟨-, ⟨e01, e11, e21⟩, ⟨e02, e12, e22⟩, ⟨e03, e13, e23⟩, e04, e14, e24⟩ := hv k hk
    rw [h] at hd ⊢
    simp only [Finset.sum_range_succ, Finset.sum_range_zero, zero_add]
    interval_cases d
    · refine ⟨e04, ?_⟩
      rw [e04, e01, e02, e03, if_pos rfl, if_neg (by decide), if_neg (by decide), h20, h30]
      ring
    · refine ⟨by rw [e14]; ring, ?_⟩
      rw [e14, e12, e11, e13, if_pos rfl, if_neg (by decide), if_neg (by decide), h20, h30]
      ring
    · refine ⟨by rw [e24]; ring, ?_⟩
      rw [e24, e23, e21, e22, if_pos rfl, if_neg (by decide), if_neg (by decide), h20, h30]
      ring

/-- C20: `GetViscousFluxVector` ends in the fatal error "Illegal expansion
dimension" exactly if the spatial dimension is not 1, 2 or 3, and it completes
with an assembled tensor exactly if the dimension is 1, 2 or 3. -/
theorem GetViscousFluxVector_fatal_iff_illegal_dimension (pow : K → K → K)
    (S : CompressibleFlowSystem K) (nPts : Nat) (physfield : Nat → Nat → K)
    (derivativesO1 viscousTensor : Nat → Nat → Nat → K) :
    (GetViscousFluxVector pow S nPts physfield derivativesO1 viscousTensor
        = Except.error "Illegal expansion dimension"
      ↔ ¬ (S.m_spacedim = 1 ∨ S.m_spacedim = 2 ∨ S.m_spacedim = 3)) ∧
    ((∃ msg, GetViscousFluxVector pow S nPts physfield derivativesO1 viscousTensor
        = Except.error msg)
      ↔ ¬ (S.m_spacedim = 1 ∨ S.m_spacedim = 2 ∨ S.m_spacedim = 3)) ∧
    ((∃ vT, GetViscousFluxVector pow S nPts physfield derivativesO1 viscousTensor
        = Except.ok vT)
      ↔ (S.m_spacedim = 1 ∨ S.m_spacedim = 2 ∨ S.m_spacedim = 3)) := by
  have hok : (S.m_spacedim = 1 ∨ S.m_spacedim = 2 ∨ S.m_spacedim = 3) →
      ∃ vT, GetViscousFluxVector pow S nPts physfield derivativesO1 viscousTensor
        = Except.ok vT := by
    rintro (h | h | h)
    · obtain ⟨vT, hvT, -⟩ :=
        GetViscousFluxVector_dim1 pow S nPts physfield derivativesO1 viscousTensor _ rfl h
      exact ⟨vT, hvT⟩
    · obtain ⟨vT, hvT, -⟩ :=
        GetViscousFluxVector_dim2 pow S nPts physfield derivativesO1 viscousTensor _ rfl h
      exact ⟨vT, hvT⟩
    · obtain ⟨vT, hvT, -⟩ :=
        GetViscousFluxVector_dim3 pow S nPts physfield derivativesO1 viscousTensor _ rfl h
      exact ⟨vT, hvT⟩
  have herr : ¬ (S.m_spacedim = 1 ∨ S.m_spacedim = 2 ∨ S.m_spacedim = 3) →
      GetViscousFluxVector pow S nPts physfield derivativesO1 viscousTensor
        = Except.error "Illegal expansion dimension" := by
    intro hne
    unfold GetViscousFluxVector
    simp only
    split
    · rename_i h; exact absurd (Or.inl h) hne
    · rename_i h; exact absurd (Or.inr (Or.inl h)) hne
    · rename_i h; exact absurd (Or.inr (Or.inr h)) hne
    · rfl
  refine ⟨⟨fun he hd => ?_, herr⟩, ⟨fun he hd => ?_, fun hne => ⟨_, herr hne⟩⟩,
    ⟨fun hex => ?_, hok⟩⟩
  · obtain ⟨vT, hvT⟩ := hok hd
    rw [hvT] at he
    exact Except.noConfusion he
  · obtain ⟨vT, hvT⟩ := hok hd
    obtain ⟨msg, hmsg⟩ := he
    rw [hvT] at hmsg
    exact Except.noConfusion hmsg
  · by_contra hne
    obtain ⟨vT, hvT⟩ := hex
    rw [herr hne] at hvT
    exact Except.noConfusion hvT

end ViscousClaims3

section ViscousWitnesses

/-- Witness for C18: the 2-D sample with constant viscosity `m_mu = 1.78e-05`,
one point, `derivativesO1[d][v] = d + 2 v + 1`: the entries
`viscousTensor[0][2][0]` and `viscousTensor[1][1][0]` are both
`mu (3 + 2) = 5 mu`, and `viscousTensor[0][0][0] = 0`. -/
theorem GetViscousFluxVector_density_and_momentum_rows_witness :
    (1 ≤ (sampleSystem ℚ 2 1.4 1).m_spacedim ∧ (sampleSystem ℚ 2 1.4 1).m_spacedim ≤ 3) ∧
    ∃ vT, GetViscousFluxVector (fun x _ => x) (sampleSystem ℚ 2 1.4 1) 1
          (uniformState [1, 2, 300]) (fun d v _ => (d : ℚ) + 2 * v + 1)
          (fun _ _ _ => 7) = Except.ok vT ∧
      vT 0 0 0 = 0 ∧ vT 0 (1 + 1) 0 = vT 1 (1 + 0) 0 ∧ vT 0 (1 + 1) 0 = 1.78e-05 * 5 := by
  refine ⟨⟨by decide, by decide⟩, ?_⟩
  obtain ⟨vT, hok, hv⟩ := GetViscousFluxVector_density_and_momentum_rows (fun x _ => x)
    (sampleSystem ℚ 2 1.4 1) 1 (uniformState [1, 2, 300])
    (fun d v _ => (d : ℚ) + 2 * v + 1) (fun _ _ _ => 7) (by decide) (by decide)
  obtain ⟨hz, hm⟩ := hv 0 (by decide) 0 (by decide)
  obtain ⟨hsym, hoff⟩ := hm 1 (by decide)
  refine ⟨vT, hok, hz, hsym, ?_⟩
  rw [hoff (by decide), GetViscousFluxVector_mu_constant _ _ _ _ _ (by decide) (by decide)]
  have hm : (sampleSystem ℚ 2 1.4 1).m_mu = 1.78e-05 := rfl
  rw [hm]
  norm_num

/-- Witness for C19: the 2-D sample with constant viscosity `m_mu = 1.78e-05` and
thermal conductivity `0.0257`, one point, velocity `(1, 2)`, `du/dx = 3`,
`dT/dx = 10` and every other derivative `0`: the entry `viscousTensor[0][3][0]`
is `1 (4 mu) + 2 (0) + 10 kappa`. -/
theorem GetViscousFluxVector_energy_row_witness :
    (1 ≤ (sampleSystem ℚ 2 1.4 1).m_spacedim ∧ (sampleSystem ℚ 2 1.4 1).m_spacedim ≤ 3) ∧
    ∃ vT, GetViscousFluxVector (fun x _ => x) (sampleSystem ℚ 2 1.4 1) 1
          (uniformState [1, 2, 300])
          (fun d v _ => if d = 0 ∧ v = 0 then 3 else if d = 0 ∧ v = 2 then 10 else 0)
          (fun _ _ _ => 7) = Except.ok vT ∧
      vT 0 (2 + 1) 0 = 1 * vT 0 (1 + 0) 0 + 2 * vT 0 (1 + 1) 0 + 0.0257 * 10 ∧
      vT 0 (2 + 1) 0 = 4 * 1.78e-05 + 0.0257 * 10 := by
  refine ⟨⟨by decide, by decide⟩, ?_⟩
  obtain ⟨vT, hok, hv⟩ := GetViscousFluxVector_energy_row (fun x _ => x)
    (sampleSystem ℚ 2 1.4 1) 1 (uniformState [1, 2, 300])
    (fun d v _ => if d = 0 ∧ v = 0 then 3 else if d = 0 ∧ v = 2 then 10 else 0)
    (fun _ _ _ => 7) (by decide) (by decide)
  obtain ⟨hsum, hval⟩ := hv 0 (by decide) 0 (by decide)
  have hs : (sampleSystem ℚ 2 1.4 1).m_spacedim = 2 := rfl
  have hm : (sampleSystem ℚ 2 1.4 1).m_mu = 1.78e-05 := rfl
  have hk : (sampleSystem ℚ 2 1.4 1).m_thermalConductivity = 0.0257 := rfl
  rw [hs] at hsum hval
  refine ⟨vT, hok, ?_, ?_⟩
  · rw [hsum, hk]
    simp only [Finset.sum_range_succ, Finset.sum_range_zero]
    norm_num [uniformState]
  · rw [hval, hk, GetViscousFluxVector_mu_constant _ _ _ _ _ (by decide) (by decide), hm]
    simp only [Finset.sum_range_succ, Finset.sum_range_zero]
    norm_num [uniformState]

end ViscousWitnesses

/-! ## Temperature, viscosity law and de-aliased fluxes: the claims -/

section DeAliasClaims

variable {K : Type} [LinearOrderedField K]

/-- Value computed by `GetTemperature`. -/
lemma GetTemperature_apply (S : CompressibleFlowSystem K) (nq : Nat)
    (physfield : Nat → Nat → K) (pressure temperature : Nat → K) (k : Nat) (hk : k < nq) :
    GetTemperature S nq physfield pressure temperature k
      = 1.0 / S.m_gasConstant * (pressure k / physfield 0 k) := by
  simp only [GetTemperature, Vmath.Smul, Vmath.Vdiv]
  rw [store_zero_lt _ _ _ _ hk, store_zero_lt _ _ _ _ hk]

/-- C29: at every point `k` of the temperature array with `T* ≠ 0` and
`T + 110 ≠ 0`, `GetDynamicViscosity` stores
`mu* (T/T*)^1.5 (T* + 110) / (T + 110)` with `T* = pInf / (rhoInf R)` and
`mu* = m_mu`; the power is the C library's `pow`. -/
theorem GetDynamicViscosity_formula (pow : K → K → K) (S : CompressibleFlowSystem K)
    (nPts : Nat) (temperature mu : Nat → K) (k : Nat) (hk : k < nPts)
    (_hTstar : S.m_pInf / (S.m_rhoInf * S.m_gasConstant) ≠ 0)
    (_hT : temperature k + 110 ≠ 0) :
    GetDynamicViscosity pow S nPts temperature mu k
      = S.m_mu * pow (temperature k / (S.m_pInf / (S.m_rhoInf * S.m_gasConstant))) (3 / 2)
          * (S.m_pInf / (S.m_rhoInf * S.m_gasConstant) + 110) / (temperature k + 110) := by
  have h15 : (1.50 : K) = 3 / 2 := by norm_num
  have h110 : (110.0 : K) = 110 := by norm_num
  rw [GetDynamicViscosity_apply pow S nPts temperature mu k hk, h15, h110]

/-- Witness for C29: the sample constants (`pInf = 101325`, `rhoInf = 1.225`,
`R = 287.058`), two points, the second at `T = 300`; `pow` is taken as the
projection on the base, the statement holds for every `pow`. -/
theorem GetDynamicViscosity_formula_witness :
    (1 < 2
      ∧ (sampleSystem ℚ 2 1.4 1).m_pInf
          / ((sampleSystem ℚ 2 1.4 1).m_rhoInf * (sampleSystem ℚ 2 1.4 1).m_gasConstant) ≠ 0
      ∧ (fun _ => (300 : ℚ)) 1 + 110 ≠ 0) ∧
    GetDynamicViscosity (fun x _ => x) (sampleSystem ℚ 2 1.4 1) 2 (fun _ => 300)
        (fun _ => 0) 1
      = (sampleSystem ℚ 2 1.4 1).m_mu
          * (300 / ((sampleSystem ℚ 2 1.4 1).m_pInf
              / ((sampleSystem ℚ 2 1.4 1).m_rhoInf * (sampleSystem ℚ 2 1.4 1).m_gasConstant)))
          * ((sampleSystem ℚ 2 1.4 1).m_pInf
              / ((sampleSystem ℚ 2 1.4 1).m_rhoInf * (sampleSystem ℚ 2 1.4 1).m_gasConstant)
              + 110) / (300 + 110) :=
  have h1 : (sampleSystem ℚ 2 1.4 1).m_pInf
      / ((sampleSystem ℚ 2 1.4 1).m_rhoInf * (sampleSystem ℚ 2 1.4 1).m_gasConstant) ≠ 0 := by
    norm_num [sampleSystem]
  have h2 : (fun _ => (300 : ℚ)) 1 + 110 ≠ 0 := by norm_num
  ⟨⟨by decide, h1, h2⟩,
    GetDynamicViscosity_formula (fun x _ => x) (sampleSystem ℚ 2 1.4 1) 2 (fun _ => 300)
      (fun _ => 0) 1 (by decide) h1 h2⟩

/-- C30: at every point `k` with non-zero density and for a non-zero gas
constant, `GetTemperature` stores `T = p / (rho R)`. -/
theorem GetTemperature_formula (S : CompressibleFlowSystem K) (nq : Nat)
    (physfield : Nat → Nat → K) (pressure temperature : Nat → K) (k : Nat) (hk : k < nq)
    (_hrho : physfield 0 k ≠ 0) (_hR : S.m_gasConstant ≠ 0) :
    GetTemperature S nq physfield pressure temperature k
      = pressure k / (physfield 0 k * S.m_gasConstant) := by
  have h10 : (1.0 : K) = 1 := by norm_num
  rw [GetTemperature_apply S nq physfield pressure temperature k hk, h10,
    div_mul_div_comm, one_mul, mul_comm S.m_gasConstant]

/-- Witness for C30: `R = 287.058`, density `1.225`, pressure `101325`. -/
theorem GetTemperature_formula_witness :
    (0 < 1 ∧ uniformState [(1.225 : ℚ), 0, 0, 253312.5] 0 0 ≠ 0
      ∧ (sampleSystem ℚ 2 1.4 1).m_gasConstant ≠ 0) ∧
    GetTemperature (sampleSystem ℚ 2 1.4 1) 1 (uniformState [1.225, 0, 0, 253312.5])
        (fun _ => 101325) (fun _ => 0) 0
      = 101325 / (uniformState [(1.225 : ℚ), 0, 0, 253312.5] 0 0
          * (sampleSystem ℚ 2 1.4 1).m_gasConstant) :=
  have h1 : uniformState [(1.225 : ℚ), 0, 0, 253312.5] 0 0 ≠ 0 := by
    norm_num [uniformState]
  have h2 : (sampleSystem ℚ 2 1.4 1).m_gasConstant ≠ 0 := by norm_num [sampleSystem]
  ⟨⟨by decide, h1, h2⟩,
    GetTemperature_formula (sampleSystem ℚ 2 1.4 1) 1 (uniformState [1.225, 0, 0, 253312.5])
      (fun _ => 101325) (fun _ => 0) 0 (by decide) h1 h2⟩

/-- C21 (the claim fails on the code): with de-aliasing switched on, the flux
call of the diffusion operator on the 2-D sample with the tensor filled with
`7` raises no error: it returns, and the tensor is still filled with `7`. -/
theorem GetViscousFluxVectorDeAlias_raises_no_error :
    v_InitObject_FluxVectorNS true (fun x _ => x) (sampleSystem ℚ 2 1.4 1) 1
        (uniformState [1, 2, 300]) (fun _ _ _ => 1) (fun _ _ _ => 7)
      = Except.ok (fun _ _ _ => 7) ∧
    GetViscousFluxVectorDeAlias (sampleSystem ℚ 2 1.4 1)
        (uniformState [1, 2, 300]) (fun _ _ _ => 1) (fun _ _ _ => 7)
      = Except.ok (fun _ _ _ => 7) ∧
    ¬ ∃ msg, GetViscousFluxVectorDeAlias (sampleSystem ℚ 2 1.4 1)
        (uniformState [1, 2, 300]) (fun _ _ _ => 1) (fun _ _ _ => 7)
      = Except.error msg := by
  refine ⟨rfl, rfl, ?_⟩
  rintro ⟨msg, h⟩
  exact Except.noConfusion h

/-- C21 (amended): for every input `GetViscousFluxVectorDeAlias` returns to its
caller without an error and with the viscous tensor untouched, and this is the
function the diffusion operator calls when de-aliasing is switched on. -/
theorem GetViscousFluxVectorDeAlias_returns_untouched (pow : K → K → K)
    (S : CompressibleFlowSystem K) (nPts : Nat) (physfield : Nat → Nat → K)
    (derivativesO1 viscousTensor : Nat → Nat → Nat → K) :
    GetViscousFluxVectorDeAlias S physfield derivativesO1 viscousTensor
      = Except.ok viscousTensor ∧
    (∀ msg, GetViscousFluxVectorDeAlias S physfield derivativesO1 viscousTensor
      ≠ Except.error msg) ∧
    v_InitObject_FluxVectorNS true pow S nPts physfield derivativesO1 viscousTensor
      = GetViscousFluxVectorDeAlias S physfield derivativesO1 viscousTensor :=
  ⟨rfl, fun _ h => Except.noConfusion h, rfl⟩

end DeAliasClaims

section IndexingClaims

/-- C23 (the claim fails on the code): for the 1-D state `(1, 2, 5)` with
`gamma = 1.4`, the entry `flux[0][1][0]` of the container filled by
`GetFluxVector` is not written at all, whatever the container held before, so
it is not `5.2` for a container that was zero; the container is indexed
`[variable][direction][point]` and in 1-D there is no direction `1`. -/
theorem GetFluxVector_spec_indexing_fails :
    (∀ flux : Nat → Nat → Nat → ℚ,
      GetFluxVector (sampleSystem ℚ 1 1.4 1) 1 (uniformState [1, 2, 5]) flux 0 1 0
        = flux 0 1 0) ∧
    GetFluxVector (sampleSystem ℚ 1 1.4 1) 1 (uniformState [1, 2, 5]) (fun _ _ _ => 0) 0 1 0
      ≠ 5.2 := by
  have h : ∀ flux : Nat → Nat → Nat → ℚ,
      GetFluxVector (sampleSystem ℚ 1 1.4 1) 1 (uniformState [1, 2, 5]) flux 0 1 0
        = flux 0 1 0 := by
    intro flux
    simp [GetFluxVector, sampleSystem, forLoop, set2]
  refine ⟨h, ?_⟩
  rw [h]
  norm_num

end IndexingClaims

section IndexingClaims2

variable {K : Type} [LinearOrderedField K]

/-- C23 (amended): in 1-D with `gamma = 1.4`, at a point with state
`(rho, rho u, E) = (1, 2, 5)`, the container filled by `GetFluxVector`, read
with the code's `[variable][direction][point]` indexing, has `flux[0][0] = 2`
(density flux = momentum) and `flux[1][0] = u * rho u + p = 4 + 1.2 = 5.2`. -/
theorem GetFluxVector_scenario_code_indexing (S : CompressibleFlowSystem K) (nq : Nat)
    (physfield : Nat → Nat → K) (flux : Nat → Nat → Nat → K) (k : Nat)
    (hsd : S.m_spacedim = 1) (hg : S.m_gamma = 1.4) (hk : k < nq)
    (h0 : physfield 0 k = 1) (h1 : physfield 1 k = 2) (h2 : physfield 2 k = 5) :
    GetFluxVector S nq physfield flux 0 0 k = 2 ∧
    GetFluxVector S nq physfield flux 1 0 k = 5.2 := by
  have hd : 0 < S.m_spacedim := by omega
  have hvel : GetVelocityVector S nq physfield (fun _ _ => 0) 0 k = 2 := by
    rw [GetVelocityVector_apply S nq physfield _ 0 k hd hk, h0, h1]
    norm_num
  have hp : GetPressureVel S nq physfield
      (GetVelocityVector S nq physfield (fun _ _ => 0)) (fun _ => 0) k = 1.2 := by
    rw [GetPressureVel_apply S nq physfield _ _ k (by omega) hk, hsd]
    simp only [Finset.sum_range_succ, Finset.sum_range_zero, zero_add]
    rw [hvel, h1, h2, hg]
    norm_num
  constructor
  · rw [GetFluxVector_apply S nq physfield flux 0 0 k hd hk, hsd]
    simp only [Nat.zero_add]
    rw [if_neg (by decide), if_neg (by decide), if_pos trivial, h1]
  · rw [GetFluxVector_apply S nq physfield flux 1 0 k hd hk, hsd]
    rw [if_neg (by decide), if_pos (by decide), if_pos (by decide), hvel, hp, h1]
    norm_num

/-- Witness for C23 (amended): the 1-D sample with `gamma = 1.4`, one point,
state `(1, 2, 5)`. -/
theorem GetFluxVector_scenario_code_indexing_witness :
    ((sampleSystem ℚ 1 1.4 1).m_spacedim = 1 ∧ (sampleSystem ℚ 1 1.4 1).m_gamma = 1.4
      ∧ 0 < 1 ∧ uniformState [(1 : ℚ), 2, 5] 0 0 = 1 ∧ uniformState [(1 : ℚ), 2, 5] 1 0 = 2
      ∧ uniformState [(1 : ℚ), 2, 5] 2 0 = 5) ∧
    GetFluxVector (sampleSystem ℚ 1 1.4 1) 1 (uniformState [1, 2, 5]) (fun _ _ _ => 0) 0 0 0
      = 2 ∧
    GetFluxVector (sampleSystem ℚ 1 1.4 1) 1 (uniformState [1, 2, 5]) (fun _ _ _ => 0) 1 0 0
      = 5.2 :=
  ⟨⟨rfl, rfl, by decide, rfl, rfl, rfl⟩,
    GetFluxVector_scenario_code_indexing (sampleSystem ℚ 1 1.4 1) 1 (uniformState [1, 2, 5])
      (fun _ _ _ => 0) 0 rfl rfl (by decide) rfl rfl rfl⟩

end IndexingClaims2

/-! ## De-aliased inviscid flux: lemmas -/

section DeAliasLemmas

/-- A loop `a[i] = G i` over `i < m` rewrites exactly the rows `0 … m-1`. -/
lemma forLoop_update_const {α : Type} (m : Nat) (G : Nat → α) (a0 : Nat → α) (v : Nat) :
    forLoop 0 m (fun i a => Function.update a i (G i)) a0 v
      = if v < m then G v else a0 v := by
  induction m with
  | zero =>
    rw [forLoop_zero, if_neg (Nat.not_lt_zero v)]
  | succ n ih =>
    rw [forLoop_from_zero_succ]
    by_cases hv : v = n
    · subst hv
      rw [Function.update_same, if_pos (Nat.lt_succ_self _)]
    · rw [Function.update_noteq hv, ih]
      have : v < n ↔ v < n + 1 := by omega
      simp only [this]

/-- A loop over `j < m` on a pair of containers that rewrites `f[a][j]` with
`G j` of its old content and stores `P` of the new `f[a][j]` in `g[a][j]`. -/
lemma forLoop_pair_set2 {α : Type} (a m : Nat) (G : Nat → α → α) (P : α → α)
    (f0 g0 : Nat → Nat → α) (v d : Nat) :
    (forLoop 0 m
        (fun j st => (set2 st.1 a j (G j (st.1 a j)),
          set2 st.2 a j (P (set2 st.1 a j (G j (st.1 a j)) a j))))
        (f0, g0)).1 v d
      = (if v = a ∧ d < m then G d (f0 a d) else f0 v d) ∧
    (forLoop 0 m
        (fun j st => (set2 st.1 a j (G j (st.1 a j)),
          set2 st.2 a j (P (set2 st.1 a j (G j (st.1 a j)) a j))))
        (f0, g0)).2 v d
      = (if v = a ∧ d < m then P (G d (f0 a d)) else g0 v d) := by
  induction m generalizing v d with
  | zero =>
    have : ¬ (v = a ∧ d < 0) := by omega
    rw [forLoop_zero, if_neg this, if_neg this]
    exact ⟨rfl, rfl⟩
  | succ n ih =>
    rw [forLoop_from_zero_succ]
    have ihn := (ih a n).1
    have hnn : ¬ (a = a ∧ n < n) := by omega
    rw [if_neg hnn] at ihn
    generalize forLoop 0 n
      (fun j st => (set2 st.1 a j (G j (st.1 a j)),
        set2 st.2 a j (P (set2 st.1 a j (G j (st.1 a j)) a j)))) (f0, g0) = st at ih ihn ⊢
    have hnew : set2 st.1 a n (G n (st.1 a n)) a n = G n (f0 a n) := by
      unfold set2
      rw [if_pos ⟨rfl, rfl⟩, ihn]
    have hiff : (v = a ∧ d < n) ↔ ((v = a ∧ d < n + 1) ∧ ¬ (v = a ∧ d = n)) := by omega
    refine ⟨?_, ?_⟩
    · show set2 st.1 a n (G n (st.1 a n)) v d = _
      unfold set2
      by_cases h : v = a ∧ d = n
      · have hp : v = a ∧ d < n + 1 := by omega
        rw [if_pos h, if_pos hp, ihn, h.2]
      · rw [if_neg h, (ih v d).1]
        by_cases h2 : v = a ∧ d < n + 1
        · rw [if_pos (hiff.mpr ⟨h2, h⟩), if_pos h2]
        · rw [if_neg (fun hc => h2 (hiff.mp hc).1), if_neg h2]
    · show set2 st.2 a n (P (set2 st.1 a n (G n (st.1 a n)) a n)) v d = _
      rw [hnew]
      unfold set2
      by_cases h : v = a ∧ d = n
      · have hp : v = a ∧ d < n + 1 := by omega
        rw [if_pos h, if_pos hp, h.2]
      · rw [if_neg h, (ih v d).2]
        by_cases h2 : v = a ∧ d < n + 1
        · rw [if_pos (hiff.mpr ⟨h2, h⟩), if_pos h2]
        · rw [if_neg (fun hc => h2 (hiff.mp hc).1), if_neg h2]

variable {K : Type} [LinearOrderedField K]

/-- The momentum-flux loops of `GetFluxVector` on any container: rows
`1 … sd` are rewritten, every other row is left alone. -/
lemma flux_momentum_loops (sd nq : Nat) (physfield vel : Nat → Nat → K) (pr : Nat → K)
    (fl : Nat → Nat → Nat → K) (v d : Nat) :
    forLoop 0 sd
        (fun i fl =>
          set2 (forLoop 0 sd
              (fun j g => set2 g (i + 1) j
                (Vmath.Vmul nq (vel j) (physfield (i + 1)) (g (i + 1) j) 0)) fl)
            (i + 1) i
            (Vmath.Vadd nq
              (forLoop 0 sd
                (fun j g => set2 g (i + 1) j
                  (Vmath.Vmul nq (vel j) (physfield (i + 1)) (g (i + 1) j) 0)) fl (i + 1) i)
              pr
              (forLoop 0 sd
                (fun j g => set2 g (i + 1) j
                  (Vmath.Vmul nq (vel j) (physfield (i + 1)) (g (i + 1) j) 0)) fl (i + 1) i)
              0)) fl v d
      = if (1 ≤ v ∧ v < 1 + sd) ∧ d < sd then
          Vmath.store nq
            (fun k => vel d k * physfield (v - 1 + 1) k + if d = v - 1 then pr k else 0)
            (fl v d) 0
        else fl v d := by
  have hmom : forLoop 0 sd
        (fun i fl =>
          set2 (forLoop 0 sd
              (fun j g => set2 g (i + 1) j
                (Vmath.Vmul nq (vel j) (physfield (i + 1)) (g (i + 1) j) 0)) fl)
            (i + 1) i
            (Vmath.Vadd nq
              (forLoop 0 sd
                (fun j g => set2 g (i + 1) j
                  (Vmath.Vmul nq (vel j) (physfield (i + 1)) (g (i + 1) j) 0)) fl (i + 1) i)
              pr
              (forLoop 0 sd
                (fun j g => set2 g (i + 1) j
                  (Vmath.Vmul nq (vel j) (physfield (i + 1)) (g (i + 1) j) 0)) fl (i + 1) i)
              0)) fl
      = forLoop 0 sd
        (fun i fl => fun v2 d2 => if v2 = i + 1 ∧ d2 < sd then
            Vmath.store nq
              (fun k => vel d2 k * physfield (i + 1) k + if d2 = i then pr k else 0)
              (fl v2 d2) 0
          else fl v2 d2) fl := by
    refine forLoop_congr 0 sd _ _ fl (fun i hi st => ?_)
    simp only [Nat.zero_add]
    exact flux_momentum_pass sd nq i hi _ _ _ st
  rw [hmom, forLoop_rows_block sd sd (fun i d2 row => Vmath.store nq
    (fun k => vel d2 k * physfield (i + 1) k + if d2 = i then pr k else 0) row 0)]

/-- The projection loops of `GetFluxVectorDeAlias` over the momentum rows. -/
lemma projection_loops_apply {α : Type} (sd : Nat) (P : α → α) (F fl : Nat → Nat → α)
    (v d : Nat) :
    forLoop 0 sd
        (fun i fl => forLoop 0 sd (fun j g => set2 g (i + 1) j (P (F (i + 1) j))) fl) fl v d
      = if (1 ≤ v ∧ v < 1 + sd) ∧ d < sd then P (F v d) else fl v d := by
  have h : forLoop 0 sd
        (fun i fl => forLoop 0 sd (fun j g => set2 g (i + 1) j (P (F (i + 1) j))) fl) fl
      = forLoop 0 sd
        (fun i fl => fun v2 d2 =>
          if v2 = i + 1 ∧ d2 < sd then P (F (i + 1) d2) else fl v2 d2) fl := by
    refine forLoop_congr 0 sd _ _ fl (fun i _ st => ?_)
    simp only [Nat.zero_add]
    funext v2 d2
    exact forLoop_set2_snd (i + 1) sd (fun j _ => P (F (i + 1) j)) st v2 d2
  rw [h, forLoop_rows_block sd sd (fun i d2 _ => P (F (i + 1) d2))]
  by_cases hc : (1 ≤ v ∧ v < 1 + sd) ∧ d < sd
  · have hv : v - 1 + 1 = v := by omega
    rw [if_pos hc, if_pos hc, hv]
  · rw [if_neg hc, if_neg hc]

end DeAliasLemmas

section DeAliasAssembly

variable {K : Type} [LinearOrderedField K]

/-- The projection steps of `GetFluxVectorDeAlias` for any momentum-flux
container `FI` computed on the scaled space. -/
lemma dealias_project_loops (sd nq : Nat) (P : (Nat → K) → (Nat → K))
    (pinterp vel : Nat → Nat → K) (pr1 : Nat → K) (FI flux : Nat → Nat → Nat → K)
    (v d : Nat) (hd : d < sd) :
    (forLoop 0 sd
        (fun j st =>
          (set2 st.1 (sd + 1) j (Vmath.Vmul nq (vel j) pr1 (st.1 (sd + 1) j) 0),
            set2 st.2 (sd + 1) j
              (P (set2 st.1 (sd + 1) j (Vmath.Vmul nq (vel j) pr1 (st.1 (sd + 1) j) 0)
                (sd + 1) j))))
        (FI,
          forLoop 0 sd
            (fun i fl => forLoop 0 sd (fun j g => set2 g (i + 1) j (P (FI (i + 1) j))) fl)
            (forLoop 0 sd (fun i fl => set2 fl 0 i (P (pinterp (i + 1)))) flux))).2 v d
      = if v = sd + 1 then P (Vmath.Vmul nq (vel d) pr1 (FI (sd + 1) d) 0)
        else if 1 ≤ v ∧ v < 1 + sd then P (FI v d)
        else if v = 0 then P (pinterp (d + 1))
        else flux v d := by
  rw [(forLoop_pair_set2 (sd + 1) sd (fun j row => Vmath.Vmul nq (vel j) pr1 row 0) P
    FI _ v d).2]
  by_cases hv : v = sd + 1
  · rw [if_pos ⟨hv, hd⟩, if_pos hv]
  · have hv2 : ¬ (v = sd + 1 ∧ d < sd) := fun h => hv h.1
    rw [if_neg hv2, if_neg hv, projection_loops_apply sd P]
    by_cases hr : 1 ≤ v ∧ v < 1 + sd
    · rw [if_pos ⟨hr, hd⟩, if_pos hr]
    · have hr2 : ¬ ((1 ≤ v ∧ v < 1 + sd) ∧ d < sd) := fun h => hr h.1
      rw [if_neg hr2, if_neg hr, forLoop_set2_snd 0 sd (fun i _ => P (pinterp (i + 1)))]
      by_cases h0 : v = 0
      · rw [if_pos ⟨h0, hd⟩, if_pos h0]
      · have h02 : ¬ (v = 0 ∧ d < sd) := fun h => h0 h.1
        rw [if_neg h02, if_neg h0]

/-- Every entry written by `GetFluxVectorDeAlias` is the projection of an
array that agrees, on the points of the scaled space, with the entry
`GetFluxVector` computes from the interpolated fields. -/
lemma GetFluxVectorDeAlias_apply (S : CompressibleFlowSystem K) (N : K → Nat)
    (I P : K → (Nat → K) → (Nat → K)) (physfield : Nat → Nat → K)
    (flux fluxA : Nat → Nat → Nat → K) (v d : Nat)
    (hv : v < S.m_spacedim + 2) (hd : d < S.m_spacedim) :
    ∃ a : Nat → K,
      GetFluxVectorDeAlias S N I P physfield flux v d = P 2 a ∧
      ∀ k, k < N 2 →
        a k = GetFluxVector S (N 2)
          (forLoop 0 S.m_fields_num_elements
            (fun i pi => Function.update pi i (I 2 (physfield i))) (fun _ _ => 0))
          fluxA v d k := by
  unfold GetFluxVectorDeAlias
  simp only []
  rw [dealias_project_loops _ _ _ _ _ _ _ _ v d hd]
  by_cases h1 : v = S.m_spacedim + 1
  · rw [if_pos h1]
    refine ⟨_, rfl, fun k hk => ?_⟩
    rw [GetFluxVector_apply S (N 2) _ fluxA v d k hd hk, if_pos h1]
    simp only [Vmath.Vmul, Vmath.Vadd]
    rw [store_zero_lt _ _ _ _ hk, store_zero_lt _ _ _ _ hk]
  · rw [if_neg h1]
    by_cases h2 : 1 ≤ v ∧ v < 1 + S.m_spacedim
    · rw [if_pos h2]
      refine ⟨_, rfl, fun k hk => ?_⟩
      rw [GetFluxVector_apply S (N 2) _ fluxA v d k hd hk, if_neg h1, if_pos h2,
        flux_momentum_loops, if_pos ⟨h2, hd⟩, store_zero_lt _ _ _ _ hk]
    · have h0 : v = 0 := by omega
      rw [if_neg h2, if_pos h0]
      refine ⟨_, rfl, fun k hk => ?_⟩
      rw [GetFluxVector_apply S (N 2) _ fluxA v d k hd hk, if_neg h1, if_neg h2, if_pos h0]

end DeAliasAssembly

section DeAliasRefinement

variable {K : Type} [LinearOrderedField K]

/-- The entries written by `GetFluxVector` at a point depend only on the
`spacedim + 2` state variables at that point. -/
lemma GetFluxVector_congr (S : CompressibleFlowSystem K) (nq : Nat)
    (pf1 pf2 : Nat → Nat → K) (flux1 flux2 : Nat → Nat → Nat → K) (v d k : Nat)
    (hv : v < S.m_spacedim + 2) (hd : d < S.m_spacedim) (hk : k < nq)
    (h : ∀ i, i < S.m_spacedim + 2 → pf1 i k = pf2 i k) :
    GetFluxVector S nq pf1 flux1 v d k = GetFluxVector S nq pf2 flux2 v d k := by
  have h1 : 1 ≤ S.m_spacedim := by omega
  have hvel : ∀ j, j < S.m_spacedim →
      GetVelocityVector S nq pf1 (fun _ _ => 0) j k
        = GetVelocityVector S nq pf2 (fun _ _ => 0) j k := by
    intro j hj
    rw [GetVelocityVector_apply S nq pf1 _ j k hj hk,
      GetVelocityVector_apply S nq pf2 _ j k hj hk, h (1 + j) (by omega), h 0 (by omega)]
  have hp : GetPressureVel S nq pf1 (GetVelocityVector S nq pf1 (fun _ _ => 0)) (fun _ => 0) k
      = GetPressureVel S nq pf2 (GetVelocityVector S nq pf2 (fun _ _ => 0)) (fun _ => 0) k := by
    rw [GetPressureVel_apply S nq pf1 _ _ k h1 hk, GetPressureVel_apply S nq pf2 _ _ k h1 hk,
      h (S.m_spacedim + 1) (by omega)]
    have hsum : ∑ j in Finset.range S.m_spacedim,
          GetVelocityVector S nq pf1 (fun _ _ => 0) j k * pf1 (1 + j) k
        = ∑ j in Finset.range S.m_spacedim,
          GetVelocityVector S nq pf2 (fun _ _ => 0) j k * pf2 (1 + j) k := by
      refine Finset.sum_congr rfl (fun j hj => ?_)
      have hj2 := Finset.mem_range.mp hj
      rw [hvel j hj2, h (1 + j) (by omega)]
    rw [hsum]
  rw [GetFluxVector_apply S nq pf1 flux1 v d k hd hk,
    GetFluxVector_apply S nq pf2 flux2 v d k hd hk, hvel d hd, hp,
    h (S.m_spacedim + 1) (by omega)]
  by_cases hv1 : v = S.m_spacedim + 1
  · rw [if_pos hv1, if_pos hv1]
  · rw [if_neg hv1, if_neg hv1]
    by_cases hv2 : 1 ≤ v ∧ v < 1 + S.m_spacedim
    · rw [if_pos hv2, if_pos hv2, h (v - 1 + 1) (by omega)]
    · have h0 : v = 0 := by omega
      rw [if_neg hv2, if_neg hv2, if_pos h0, if_pos h0, h (d + 1) (by omega)]

/-- The interpolated fields of `GetFluxVectorDeAlias`, row by row. -/
lemma physfield_interp_apply (nVariables : Nat) (I : (Nat → K) → (Nat → K))
    (physfield : Nat → Nat → K) (i : Nat) (hi : i < nVariables) :
    forLoop 0 nVariables (fun i pi => Function.update pi i (I (physfield i))) (fun _ _ => 0) i
      = I (physfield i) := by
  rw [forLoop_update_const nVariables (fun i => I (physfield i)) _ i, if_pos hi]

/-- The density flux of `GetFluxVectorDeAlias`: the projection of the
interpolated momentum. -/
lemma GetFluxVectorDeAlias_density (S : CompressibleFlowSystem K) (N : K → Nat)
    (I P : K → (Nat → K) → (Nat → K)) (physfield : Nat → Nat → K)
    (flux : Nat → Nat → Nat → K) (d : Nat) (hd : d < S.m_spacedim)
    (hn : S.m_fields_num_elements = S.m_spacedim + 2) :
    GetFluxVectorDeAlias S N I P physfield flux 0 d = P 2 (I 2 (physfield (d + 1))) := by
  unfold GetFluxVectorDeAlias
  simp only []
  rw [dealias_project_loops _ _ _ _ _ _ _ _ 0 d hd, if_neg (by omega), if_neg (by omega),
    if_pos rfl, physfield_interp_apply _ (I 2) physfield (d + 1) (by omega)]

end DeAliasRefinement

section DeAliasRefinementClaim

variable {K : Type} [LinearOrderedField K]

/-- C22: `GetFluxVectorDeAlias` performs the algebra of `GetFluxVector`. For a
state of `spacedim + 2` variables, with `N 2` the point count of the scaled
space, `I` the interpolation and `P` the Galerkin projection of `m_fields[0]`:
the density flux in direction `d` is `P (I (momentum_d))`; if the projection
reads its input on the `N 2` points of the scaled space only, every entry
`flux[v][d]` is `P` of the entry `GetFluxVector` computes from the interpolated
fields on those points; and if `I` and `P` are the identity, every entry agrees
at every point with the one `GetFluxVector` computes from the fields
themselves. -/
theorem GetFluxVectorDeAlias_same_algebra (S : CompressibleFlowSystem K) (N : K → Nat)
    (I P : K → (Nat → K) → (Nat → K)) (physfield : Nat → Nat → K)
    (flux fluxA : Nat → Nat → Nat → K)
    (hn : S.m_fields_num_elements = S.m_spacedim + 2) :
    (∀ d, d < S.m_spacedim →
      GetFluxVectorDeAlias S N I P physfield flux 0 d = P 2 (I 2 (physfield (d + 1)))) ∧
    ((∀ a b : Nat → K, (∀ k, k < N 2 → a k = b k) → P 2 a = P 2 b) →
      ∀ v d, v < S.m_spacedim + 2 → d < S.m_spacedim →
        GetFluxVectorDeAlias S N I P physfield flux v d
          = P 2 (GetFluxVector S (N 2) (fun i => I 2 (physfield i)) fluxA v d)) ∧
    (∀ v d k, v < S.m_spacedim + 2 → d < S.m_spacedim → k < N 2 →
      GetFluxVectorDeAlias S N (fun _ a => a) (fun _ a => a) physfield flux v d k
        = GetFluxVector S (N 2) physfield fluxA v d k) := by
  refine ⟨fun d hd => GetFluxVectorDeAlias_density S N I P physfield flux d hd hn,
    fun hP v d hv hd => ?_, fun v d k hv hd hk => ?_⟩
  · obtain ⟨a, ha, hak⟩ := GetFluxVectorDeAlias_apply S N I P physfield flux fluxA v d hv hd
    rw [ha]
    refine hP _ _ (fun k hk => ?_)
    rw [hak k hk]
    refine GetFluxVector_congr S (N 2) _ _ fluxA fluxA v d k hv hd hk (fun i hi => ?_)
    rw [physfield_interp_apply _ (I 2) physfield i (by omega)]
  · obtain ⟨a, ha, hak⟩ := GetFluxVectorDeAlias_apply S N (fun _ a => a) (fun _ a => a)
      physfield flux fluxA v d hv hd
    rw [ha]
    show a k = _
    rw [hak k hk]
    refine GetFluxVector_congr S (N 2) _ _ fluxA fluxA v d k hv hd hk (fun i hi => ?_)
    rw [physfield_interp_apply _ (fun a => a) physfield i (by omega)]

/-- Witness for C22: the 1-D sample with three variables, one point in the
scaled space, the interpolation doubling every value and the projection
keeping the first point and halving it; momentum flux of the state
`(1, 2, 5)`. -/
theorem GetFluxVectorDeAlias_same_algebra_witness :
    ((sampleSystem ℚ 1 1.4 1).m_fields_num_elements = (sampleSystem ℚ 1 1.4 1).m_spacedim + 2
      ∧ (∀ a b : Nat → ℚ, (∀ k, k < 1 → a k = b k) →
          (fun k => if k < 1 then a k / 2 else 0) = (fun k => if k < 1 then b k / 2 else 0))) ∧
    GetFluxVectorDeAlias (sampleSystem ℚ 1 1.4 1) (fun _ => 1) (fun _ a k => 2 * a k)
        (fun _ a k => if k < 1 then a k / 2 else 0) (uniformState [1, 2, 5])
        (fun _ _ _ => 0) 1 0
      = (fun k => if k < 1 then
          GetFluxVector (sampleSystem ℚ 1 1.4 1) 1
            (fun i k => 2 * uniformState [(1 : ℚ), 2, 5] i k) (fun _ _ _ => 0) 1 0 k / 2
        else 0) :=
  have hP : ∀ a b : Nat → ℚ, (∀ k, k < 1 → a k = b k) →
      (fun k => if k < 1 then a k / 2 else 0) = (fun k => if k < 1 then b k / 2 else 0) := by
    intro a b h
    funext k
    by_cases hk : k < 1
    · rw [if_pos hk, if_pos hk, h k hk]
    · rw [if_neg hk, if_neg hk]
  ⟨⟨rfl, hP⟩,
    (GetFluxVectorDeAlias_same_algebra (sampleSystem ℚ 1 1.4 1) (fun _ => 1)
      (fun _ a k => 2 * a k) (fun _ a k => if k < 1 then a k / 2 else 0)
      (uniformState [1, 2, 5]) (fun _ _ _ => 0) (fun _ _ _ => 0) rfl).2.1 hP 1 0
      (by decide) (by decide)⟩

end DeAliasRefinementClaim

/-! ## Time step: lemmas -/

section TimeStepLemmas

/-- In a loop over `i < m` on a pair whose body touches the entry `i` of the
second component only, entry `n < m` is the one the body stored at pass
`n`. -/
lemma forLoop_pair_entry {σ α : Type} (body : Nat → σ × (Nat → α) → σ × (Nat → α))
    (hbody : ∀ i st v, v ≠ i → (body i st).2 v = st.2 v) (s : σ × (Nat → α))
    (m n : Nat) (hn : n < m) :
    (forLoop 0 m body s).2 n = (body n (forLoop 0 n body s)).2 n := by
  induction m with
  | zero => omega
  | succ k ih =>
    rw [forLoop_from_zero_succ]
    by_cases hnk : n = k
    · rw [hnk]
    · rw [hbody k _ n hnk, ih (by omega)]

variable {K : Type} [LinearOrderedField K]

/-- The time step stored for element `n`: the formula with the value `ML` of
`minLength` after the shape tests of pass `n`, which does not depend on the
bound velocities. -/
lemma v_GetTimeStep_tstep_apply (sqrt : K → K) (E : ExpansionData K) (minLength0 : K)
    (n : Nat) (hn : n < E.GetExpSize) :
    ∃ ML : K,
      (E.isTriExp n = true →
        ML = 2 * sqrt (E.Integral n (Vmath.Fill (E.expGetTotPoints n) 1 (fun _ => 0) 0))) ∧
      (E.isTriExp n = false → E.isQuadExp n = true ∨ E.isHexExp n = true →
        ML = sqrt (E.Integral n (Vmath.Fill (E.expGetTotPoints n) 1 (fun _ => 0) 0))) ∧
      ∀ stdVelocity : Nat → K,
        v_GetTimeStep_tstep sqrt E stdVelocity minLength0 n
          = E.m_cflSafetyFactor * E.MaxTimeStepEstimator * ML
            / (stdVelocity n * (1 / 5) * ((E.ExpOrder n : K) - 1) ^ 2) := by
  have h20 : (2.0 : K) = 2 := by norm_num
  have h10 : (1.0 : K) = 1 := by norm_num
  have h02 : (0.2 : K) = 1 / 5 := by norm_num
  have hfst : ∀ (sv1 sv2 : Nat → K) (m : Nat),
      (forLoop 0 m (v_GetTimeStep_element sqrt E sv1) (minLength0, fun _ => 0.0)).1
        = (forLoop 0 m (v_GetTimeStep_element sqrt E sv2) (minLength0, fun _ => 0.0)).1 := by
    intro sv1 sv2 m
    induction m with
    | zero => rfl
    | succ k ih =>
      rw [forLoop_from_zero_succ, forLoop_from_zero_succ]
      simp only [v_GetTimeStep_element]
      rw [ih]
  refine ⟨(v_GetTimeStep_element sqrt E (fun _ => 0) n
      (forLoop 0 n (v_GetTimeStep_element sqrt E (fun _ => 0)) (minLength0, fun _ => 0.0))).1,
    ?_, ?_, ?_⟩
  · intro ht
    simp only [v_GetTimeStep_element, ht, if_true, h20, h10]
  · intro ht hq
    rcases hq with hq | hq
    · simp only [v_GetTimeStep_element, ht, hq, if_true, h10]
      rfl
    · cases hq2 : E.isQuadExp n
      · simp only [v_GetTimeStep_element, ht, hq, hq2, if_true, h10]
        rfl
      · simp only [v_GetTimeStep_element, ht, hq2, if_true, h10]
        rfl
  · intro stdVelocity
    unfold v_GetTimeStep_tstep
    rw [forLoop_pair_entry (v_GetTimeStep_element sqrt E stdVelocity)
      (fun i st v hv => Function.update_noteq hv _ _) _ _ n hn]
    simp only [v_GetTimeStep_element, Function.update_same]
    rw [hfst stdVelocity (fun _ => 0) n, h02]
    push_cast
    ring

end TimeStepLemmas

section TimeStepClaims

variable {K : Type} [LinearOrderedField K]

/-- The scan of `Vmath::Vmin` returns a lower bound of the first `n` entries,
and one of them if there is any. -/
lemma Vmin_spec (n : Nat) (x : Nat → K) (hn : 1 ≤ n) :
    (∀ i, i < n → Vmath.Vmin n x ≤ x i) ∧ ∃ i, i < n ∧ Vmath.Vmin n x = x i := by
  have hinv : ∀ m, (∀ i, i < m →
        forLoop 0 m (fun i xmin => if x i < xmin then x i else xmin) (x 0) ≤ x i) ∧
      (forLoop 0 m (fun i xmin => if x i < xmin then x i else xmin) (x 0) = x 0 ∨
        ∃ i, i < m ∧
          forLoop 0 m (fun i xmin => if x i < xmin then x i else xmin) (x 0) = x i) := by
    intro m
    induction m with
    | zero => exact ⟨fun i hi => absurd hi (Nat.not_lt_zero i), Or.inl rfl⟩
    | succ k ih =>
      rw [forLoop_from_zero_succ]
      generalize forLoop 0 k (fun i xmin => if x i < xmin then x i else xmin) (x 0)
        = acc at ih ⊢
      obtain ⟨hle, hmem⟩ := ih
      by_cases hlt : x k < acc
      · simp only [if_pos hlt]
        refine ⟨fun i hi => ?_, Or.inr ⟨k, Nat.lt_succ_self k, rfl⟩⟩
        rcases Nat.lt_succ_iff_lt_or_eq.mp hi with h | h
        · exact le_trans (le_of_lt hlt) (hle i h)
        · rw [h]
      · simp only [if_neg hlt]
        refine ⟨fun i hi => ?_, ?_⟩
        · rcases Nat.lt_succ_iff_lt_or_eq.mp hi with h | h
          · exact hle i h
          · rw [h]
            exact not_lt.mp hlt
        · rcases hmem with h | ⟨i, hi, h⟩
          · exact Or.inl h
          · exact Or.inr ⟨i, Nat.lt_succ_of_lt hi, h⟩
  obtain ⟨hle, hmem⟩ := hinv n
  refine ⟨hle, ?_⟩
  rcases hmem with h | h
  · exact ⟨0, by omega, h⟩
  · exact h

/-- C24: for every element `n`, whatever the bound velocities `stdVelocity`
(those of `GetStdVelocity` in `v_GetTimeStep`), the time step stored in
`tstep[n]` is
`m_cflSafetyFactor * alpha * minLength / (stdVelocity[n] * 0.2 * (ExpOrder[n] - 1)^2)`
with `alpha = MaxTimeStepEstimator()`, `minLength = 2 sqrt(Area)` for a triangle
and `minLength = sqrt(Area)` for a quadrilateral or a hexahedron, `Area` being
the element's integral of the array of ones. -/
theorem v_GetTimeStep_element_time_step (sqrt : K → K) (E : ExpansionData K)
    (stdVelocity : Nat → K) (minLength0 : K) (n : Nat) (hn : n < E.GetExpSize) :
    (E.isTriExp n = true →
      v_GetTimeStep_tstep sqrt E stdVelocity minLength0 n
        = E.m_cflSafetyFactor * E.MaxTimeStepEstimator
            * (2 * sqrt (E.Integral n (Vmath.Fill (E.expGetTotPoints n) 1 (fun _ => 0) 0)))
          / (stdVelocity n * 0.2 * ((E.ExpOrder n : K) - 1) ^ 2)) ∧
    (E.isTriExp n = false → E.isQuadExp n = true ∨ E.isHexExp n = true →
      v_GetTimeStep_tstep sqrt E stdVelocity minLength0 n
        = E.m_cflSafetyFactor * E.MaxTimeStepEstimator
            * sqrt (E.Integral n (Vmath.Fill (E.expGetTotPoints n) 1 (fun _ => 0) 0))
          / (stdVelocity n * 0.2 * ((E.ExpOrder n : K) - 1) ^ 2)) := by
  have h02 : (0.2 : K) = 1 / 5 := by norm_num
  obtain ⟨ML, hT, hQ, hML⟩ := v_GetTimeStep_tstep_apply sqrt E minLength0 n hn
  refine ⟨fun ht => ?_, fun ht hq => ?_⟩
  · rw [hML stdVelocity, hT ht, h02]
  · rw [hML stdVelocity, hQ ht hq, h02]

/-- Witness for C24: the quadrilateral of `planeExpansion` (area `4`, three
modes) with bound velocity `5`; `sqrt` is taken as the identity, the statement
holds for every `sqrt`. -/
theorem v_GetTimeStep_element_time_step_witness :
    (1 < (planeExpansion ℚ).GetExpSize ∧ (planeExpansion ℚ).isTriExp 1 = false
      ∧ ((planeExpansion ℚ).isQuadExp 1 = true ∨ (planeExpansion ℚ).isHexExp 1 = true)) ∧
    v_GetTimeStep_tstep (fun x => x) (planeExpansion ℚ) (fun _ => 5) 0 1
      = (planeExpansion ℚ).m_cflSafetyFactor * (planeExpansion ℚ).MaxTimeStepEstimator
          * (planeExpansion ℚ).Integral 1
              (Vmath.Fill ((planeExpansion ℚ).expGetTotPoints 1) 1 (fun _ => 0) 0)
        / (5 * 0.2 * ((((planeExpansion ℚ).ExpOrder 1 : Int) : ℚ) - 1) ^ 2) :=
  ⟨⟨by decide, by decide, Or.inl (by decide)⟩,
    (v_GetTimeStep_element_time_step (fun x => x) (planeExpansion ℚ) (fun _ => 5) 0 1
      (by decide)).2 (by decide) (Or.inl (by decide))⟩

/-- C25: on a single partition (no other partition takes part in the
reduction) with at least one element, the value returned by `v_GetTimeStep` is
the minimum of the per-element time steps `tstep[n]`: it is at most the time
step of every element and it is the time step of some element. -/
theorem v_GetTimeStep_is_minimum (sqrt : K → K) (S : CompressibleFlowSystem K)
    (E : ExpansionData K) (minLength0 : K) (inarray : Nat → Nat → K)
    (h1 : 1 ≤ E.GetExpSize) :
    (∀ n, n < E.GetExpSize →
      v_GetTimeStep sqrt S E [] minLength0 inarray
        ≤ v_GetTimeStep_tstep sqrt E
            (GetStdVelocity sqrt S E E.GetExpSize inarray (fun _ => 0)) minLength0 n) ∧
    ∃ n, n < E.GetExpSize ∧
      v_GetTimeStep sqrt S E [] minLength0 inarray
        = v_GetTimeStep_tstep sqrt E
            (GetStdVelocity sqrt S E E.GetExpSize inarray (fun _ => 0)) minLength0 n :=
  Vmin_spec E.GetExpSize
    (v_GetTimeStep_tstep sqrt E (GetStdVelocity sqrt S E E.GetExpSize inarray (fun _ => 0))
      minLength0) h1

/-- Witness for C25: the two elements of `planeExpansion` on `planeSystem` with
a uniform state; `sqrt` is taken as the identity. -/
theorem v_GetTimeStep_is_minimum_witness :
    1 ≤ (planeExpansion ℚ).GetExpSize ∧
    ∃ n, n < (planeExpansion ℚ).GetExpSize ∧
      v_GetTimeStep (fun x => x) (planeSystem ℚ) (planeExpansion ℚ) [] 0
          (uniformState [1, 2, 0, 5])
        = v_GetTimeStep_tstep (fun x => x) (planeExpansion ℚ)
            (GetStdVelocity (fun x => x) (planeSystem ℚ) (planeExpansion ℚ)
              (planeExpansion ℚ).GetExpSize (uniformState [1, 2, 0, 5]) (fun _ => 0)) 0 n :=
  ⟨by decide,
    (v_GetTimeStep_is_minimum (fun x => x) (planeSystem ℚ) (planeExpansion ℚ) 0
      (uniformState [1, 2, 0, 5]) (by decide)).2⟩

end TimeStepClaims

/-! ## Standard velocity: lemmas -/

section StdVelocityLemmas

/-- Two stores of functions that agree below `n` are the same array. -/
lemma store_congr {K : Type} (n : Nat) (f g z : Nat → K) (zo : Nat)
    (h : ∀ k, k < n → f k = g k) : Vmath.store n f z zo = Vmath.store n g z zo := by
  funext k
  unfold Vmath.store
  by_cases hk : zo ≤ k ∧ k < zo + n
  · rw [if_pos hk, if_pos hk, h (k - zo) (by omega)]
  · rw [if_neg hk, if_neg hk]

/-- A loop that keeps rewriting row `i` of a container is a loop on that
row. -/
lemma forLoop_update_row {α : Type} (lo m i : Nat) (H : Nat → α → α) (sv0 : Nat → α) :
    forLoop lo m (fun j sv => Function.update sv i (H j (sv i))) sv0
      = Function.update sv0 i (forLoop lo m H (sv0 i)) := by
  induction m with
  | zero =>
    rw [forLoop_zero, forLoop_zero, Function.update_eq_self]
  | succ n ih =>
    rw [forLoop_succ, forLoop_succ, ih, Function.update_same, Function.update_idem]

variable {K : Type} [LinearOrderedField K]

/-- An accumulation loop `acc = a_j * x_j + acc` with scalar factors sums the
products. -/
lemma forLoop_Svtvp_sum (nq lo m : Nat) (a : Nat → K) (x : Nat → Nat → K) (p0 : Nat → K)
    (k : Nat) (hk : k < nq) :
    forLoop lo m (fun j p => Vmath.Svtvp nq (a j) (x j) p p 0) p0 k
      = p0 k + ∑ j in Finset.range m, a (lo + j) * x (lo + j) k := by
  induction m with
  | zero => simp [forLoop_zero]
  | succ n ih =>
    rw [forLoop_succ, Finset.sum_range_succ]
    show Vmath.store nq _ _ 0 k = _
    rw [store_zero_lt _ _ _ _ hk, ih]
    ring

/-- A scalar accumulation loop `pv += f j` sums the terms. -/
lemma forLoop_add_sum (m : Nat) (f : Nat → K) (a : K) :
    forLoop 0 m (fun j pv => pv + f j) a = a + ∑ j in Finset.range m, f j := by
  induction m with
  | zero => simp [forLoop_zero]
  | succ n ih =>
    rw [forLoop_from_zero_succ, Finset.sum_range_succ, ih]
    ring

/-- A loop `a[i] = G i (a[i])` over `i < m` rewrites exactly the rows
`0 … m-1`, each from its own old content. -/
lemma forLoop_update_rows0 {α : Type} (m : Nat) (G : Nat → α → α) (a0 : Nat → α) (v : Nat) :
    forLoop 0 m (fun i a => Function.update a i (G i (a i))) a0 v
      = if v < m then G v (a0 v) else a0 v := by
  have h := forLoop_update_rows 0 m G a0 v
  simp only [Nat.zero_add, Nat.zero_le, true_and, Nat.sub_zero] at h
  exact h

/-- The standard velocity that `GetStdVelocity` computes for one element:
component `j` at the local point `i` is the sum over `j2` of
`gmat[spacedim * j2 + j] * velocity[j2][i]`, with the factor taken at point `i`
if the element is deformed and at point `0` otherwise. -/
lemma GetStdVelocity_stdVelocity_apply (S : CompressibleFlowSystem K) (nq : Nat)
    (deformed : Bool) (gmat : Nat → Nat → K) (velocity stdVelocity : Nat → Nat → K)
    (j i : Nat) (hj : j < S.m_spacedim) (hi : i < nq) :
    GetStdVelocity_stdVelocity S nq deformed gmat velocity stdVelocity j i
      = ∑ j2 in Finset.range S.m_spacedim,
          gmat (S.m_spacedim * j2 + j) (if deformed = true then i else 0) * velocity j2 i := by
  have h1 : 1 ≤ S.m_spacedim := by omega
  unfold GetStdVelocity_stdVelocity
  cases deformed
  · simp only [Bool.false_eq_true, if_false]
    have hloop : forLoop 0 S.m_spacedim
          (fun r sv => forLoop 1 (S.m_spacedim - 1)
            (fun j2 sv2 => Function.update sv2 r
              (Vmath.Svtvp nq (gmat (S.m_spacedim * j2 + r) 0) (velocity j2) (sv2 r) (sv2 r)
                0))
            (Function.update sv r (Vmath.Smul nq (gmat r 0) (velocity 0) (sv r) 0)))
          stdVelocity
        = forLoop 0 S.m_spacedim
          (fun r sv => Function.update sv r
            ((fun r row => forLoop 1 (S.m_spacedim - 1)
              (fun j2 p => Vmath.Svtvp nq (gmat (S.m_spacedim * j2 + r) 0) (velocity j2) p p 0)
              (Vmath.Smul nq (gmat r 0) (velocity 0) row 0)) r (sv r)))
          stdVelocity := by
      refine forLoop_congr 0 S.m_spacedim _ _ stdVelocity (fun r _ st => ?_)
      simp only [Nat.zero_add]
      rw [forLoop_update_row 1 (S.m_spacedim - 1) r
        (fun j2 p => Vmath.Svtvp nq (gmat (S.m_spacedim * j2 + r) 0) (velocity j2) p p 0),
        Function.update_same, Function.update_idem]
    rw [hloop, forLoop_update_rows0 S.m_spacedim
        (fun r row => forLoop 1 (S.m_spacedim - 1)
          (fun j2 p => Vmath.Svtvp nq (gmat (S.m_spacedim * j2 + r) 0) (velocity j2) p p 0)
          (Vmath.Smul nq (gmat r 0) (velocity 0) row 0)) stdVelocity j,
      if_pos hj,
      forLoop_Svtvp_sum nq 1 (S.m_spacedim - 1)
        (fun j2 => gmat (S.m_spacedim * j2 + j) 0) velocity _ i hi]
    simp only [Vmath.Smul]
    rw [store_zero_lt _ _ _ _ hi,
      ← head_add_sum_tail S.m_spacedim h1 (fun j2 => gmat (S.m_spacedim * j2 + j) 0
        * velocity j2 i), Nat.mul_zero, Nat.zero_add]
  · simp only [if_true]
    have hloop : forLoop 0 S.m_spacedim
          (fun r sv => forLoop 1 (S.m_spacedim - 1)
            (fun j2 sv2 => Function.update sv2 r
              (Vmath.Vvtvp nq (gmat (S.m_spacedim * j2 + r)) (velocity j2) (sv2 r) (sv2 r) 0))
            (Function.update sv r (Vmath.Vmul nq (gmat r) (velocity 0) (sv r) 0)))
          stdVelocity
        = forLoop 0 S.m_spacedim
          (fun r sv => Function.update sv r
            ((fun r row => forLoop 1 (S.m_spacedim - 1)
              (fun j2 p => Vmath.Vvtvp nq (gmat (S.m_spacedim * j2 + r)) (velocity j2) p p 0)
              (Vmath.Vmul nq (gmat r) (velocity 0) row 0)) r (sv r)))
          stdVelocity := by
      refine forLoop_congr 0 S.m_spacedim _ _ stdVelocity (fun r _ st => ?_)
      simp only [Nat.zero_add]
      rw [forLoop_update_row 1 (S.m_spacedim - 1) r
        (fun j2 p => Vmath.Vvtvp nq (gmat (S.m_spacedim * j2 + r)) (velocity j2) p p 0),
        Function.update_same, Function.update_idem]
    rw [hloop, forLoop_update_rows0 S.m_spacedim
        (fun r row => forLoop 1 (S.m_spacedim - 1)
          (fun j2 p => Vmath.Vvtvp nq (gmat (S.m_spacedim * j2 + r)) (velocity j2) p p 0)
          (Vmath.Vmul nq (gmat r) (velocity 0) row 0)) stdVelocity j,
      if_pos hj,
      forLoop_Vvtvp_sum nq 1 (S.m_spacedim - 1)
        (fun j2 => gmat (S.m_spacedim * j2 + j)) velocity _ i hi]
    simp only [Vmath.Vmul]
    rw [store_zero_lt _ _ _ _ hi,
      ← head_add_sum_tail S.m_spacedim h1 (fun j2 => gmat (S.m_spacedim * j2 + j) i
        * velocity j2 i), Nat.mul_zero, Nat.zero_add]

end StdVelocityLemmas

section StdVelocityLoops

variable {K : Type} [LinearOrderedField K]

/-- The loop over the points of one element keeps in `stdV[el]` the running
maximum of the point values and advances the global point counter. -/
lemma GetStdVelocity_points_apply (sqrt : K → K) (S : CompressibleFlowSystem K) (nq el : Nat)
    (stdVelocity : Nat → Nat → K) (soundspeed : Nat → K) (st : (Nat → K) × Nat) :
    GetStdVelocity_points sqrt S nq el stdVelocity soundspeed st
      = (Function.update st.1 el
          (forLoop 0 nq
            (fun i m =>
              if sqrt (forLoop 0 S.m_spacedim
                    (fun j pv => pv + stdVelocity j i * stdVelocity j i) (0.0 : K))
                  + soundspeed (st.2 + i) > m
              then sqrt (forLoop 0 S.m_spacedim
                    (fun j pv => pv + stdVelocity j i * stdVelocity j i) (0.0 : K))
                  + soundspeed (st.2 + i)
              else m)
            (st.1 el)),
        st.2 + nq) := by
  unfold GetStdVelocity_points
  induction nq with
  | zero =>
    rw [forLoop_zero, forLoop_zero, Function.update_eq_self]
    rfl
  | succ n ih =>
    rw [forLoop_from_zero_succ, forLoop_from_zero_succ, ih]
    simp only [Function.update_same]
    by_cases h : sqrt (forLoop 0 S.m_spacedim
          (fun j pv => pv + stdVelocity j n * stdVelocity j n) (0.0 : K))
        + soundspeed (st.2 + n)
        > forLoop 0 n
          (fun i m =>
            if sqrt (forLoop 0 S.m_spacedim
                  (fun j pv => pv + stdVelocity j i * stdVelocity j i) (0.0 : K))
                + soundspeed (st.2 + i) > m
            then sqrt (forLoop 0 S.m_spacedim
                  (fun j pv => pv + stdVelocity j i * stdVelocity j i) (0.0 : K))
                + soundspeed (st.2 + i)
            else m)
          (st.1 el)
    · rw [if_pos h, if_pos h, Function.update_idem]
      rfl
    · rw [if_neg h, if_neg h]
      rfl

/-- The loop over the elements in `GetStdVelocity`, element by element: the
point counter is the number of points of the elements done, and `stdV[e]` of an
element done is the running maximum, from the old `stdV[e]`, of
`sqrt(sum_j stdVel_j(i)^2) + soundspeed[offset_e + i]` over its local points
`i`, where `stdVel_j(i) = sum_j2 gmat[spacedim * j2 + j] * velocity[j2][i]`
reads the velocity at the local index `i`. -/
lemma GetStdVelocity_loop_apply (sqrt : K → K) (S : CompressibleFlowSystem K)
    (E : ExpansionData K) (velocity : Nat → Nat → K) (soundspeed : Nat → K)
    (sv0 : Nat → Nat → K) (stdV0 : Nat → K) (m : Nat) :
    (forLoop 0 m (GetStdVelocity_element sqrt S E velocity soundspeed)
        (sv0, stdV0, 0)).2.2 = ∑ e in Finset.range m, E.expGetTotPoints e ∧
    ∀ e,
      (forLoop 0 m (GetStdVelocity_element sqrt S E velocity soundspeed)
          (sv0, stdV0, 0)).2.1 e
        = if e < m then
            forLoop 0 (E.expGetTotPoints e)
              (fun i mx =>
                if sqrt (0.0 + ∑ j in Finset.range S.m_spacedim,
                      (∑ j2 in Finset.range S.m_spacedim,
                        E.GetDerivFactors e (S.m_spacedim * j2 + j)
                          (if E.isDeformed e = true then i else 0) * velocity j2 i)
                      * (∑ j2 in Finset.range S.m_spacedim,
                        E.GetDerivFactors e (S.m_spacedim * j2 + j)
                          (if E.isDeformed e = true then i else 0) * velocity j2 i))
                    + soundspeed (∑ e2 in Finset.range e, E.expGetTotPoints e2 + i) > mx
                then sqrt (0.0 + ∑ j in Finset.range S.m_spacedim,
                      (∑ j2 in Finset.range S.m_spacedim,
                        E.GetDerivFactors e (S.m_spacedim * j2 + j)
                          (if E.isDeformed e = true then i else 0) * velocity j2 i)
                      * (∑ j2 in Finset.range S.m_spacedim,
                        E.GetDerivFactors e (S.m_spacedim * j2 + j)
                          (if E.isDeformed e = true then i else 0) * velocity j2 i))
                    + soundspeed (∑ e2 in Finset.range e, E.expGetTotPoints e2 + i)
                else mx)
              (stdV0 e)
          else stdV0 e := by
  induction m with
  | zero =>
    rw [forLoop_zero]
    exact ⟨by simp, fun e => by rw [if_neg (Nat.not_lt_zero e)]⟩
  | succ n ih =>
    rw [forLoop_from_zero_succ]
    generalize forLoop 0 n (GetStdVelocity_element sqrt S E velocity soundspeed)
      (sv0, stdV0, 0) = st at ih ⊢
    obtain ⟨hcnt, hstd⟩ := ih
    have hn : st.2.1 n = stdV0 n := by rw [hstd n, if_neg (Nat.lt_irrefl n)]
    simp only [GetStdVelocity_element]
    rw [GetStdVelocity_points_apply]
    simp only []
    refine ⟨by rw [hcnt, Finset.sum_range_succ], fun e => ?_⟩
    by_cases he : e = n
    · subst he
      rw [Function.update_same, if_pos (Nat.lt_succ_self e), hn, hcnt]
      refine forLoop_congr 0 (E.expGetTotPoints e) _ _ (stdV0 e) (fun i hi mx => ?_)
      simp only [Nat.zero_add]
      have hpv : forLoop 0 S.m_spacedim
            (fun j pv =>
              pv + GetStdVelocity_stdVelocity S (E.expGetTotPoints e) (E.isDeformed e)
                  (E.GetDerivFactors e) velocity st.1 j i
                * GetStdVelocity_stdVelocity S (E.expGetTotPoints e) (E.isDeformed e)
                  (E.GetDerivFactors e) velocity st.1 j i) (0.0 : K)
          = 0.0 + ∑ j in Finset.range S.m_spacedim,
              (∑ j2 in Finset.range S.m_spacedim,
                E.GetDerivFactors e (S.m_spacedim * j2 + j)
                  (if E.isDeformed e = true then i else 0) * velocity j2 i)
              * (∑ j2 in Finset.range S.m_spacedim,
                E.GetDerivFactors e (S.m_spacedim * j2 + j)
                  (if E.isDeformed e = true then i else 0) * velocity j2 i) := by
        rw [forLoop_add_sum]
        congr 1
        refine Finset.sum_congr rfl (fun j hj => ?_)
        rw [GetStdVelocity_stdVelocity_apply S _ _ _ _ _ j i (Finset.mem_range.mp hj) hi]
      rw [hpv]
    · rw [Function.update_noteq he, hstd e]
      have : e < n ↔ e < n + 1 := by omega
      simp only [this]

end StdVelocityLoops

section StdVelocityClosed

variable {K : Type} [LinearOrderedField K]

/-- Value computed by `GetSoundSpeed` for any square-root function. -/
lemma GetSoundSpeed_apply (sqrt : K → K) (S : CompressibleFlowSystem K)
    (physfield : Nat → Nat → K) (pressure soundspeed : Nat → K) (k : Nat)
    (hk : k < S.GetTotPoints) :
    GetSoundSpeed sqrt S physfield pressure soundspeed k
      = sqrt (S.m_gamma * (pressure k / physfield 0 k)) := by
  simp only [GetSoundSpeed, Vmath.Vsqrt, Vmath.Smul, Vmath.Vdiv]
  rw [store_zero_lt _ _ _ _ hk, store_zero_lt _ _ _ _ hk, store_zero_lt _ _ _ _ hk]

/-- The update `if v > m then v else m` of a running maximum. -/
lemma running_max_eq (v m : K) : (if v > m then v else m) = max m v := by
  by_cases h : v > m
  · rw [if_pos h, max_eq_right (le_of_lt h)]
  · rw [if_neg h, max_eq_left (not_lt.mp h)]

/-- The value `GetStdVelocity` stores for element `el`: the maximum, from `0`,
over the local points `i` of the element of
`sqrt(sum_j stdVel_j(i)^2) + soundspeed[offset + i]`, where
`stdVel_j(i) = sum_j2 gmat[spacedim * j2 + j] * velocity[j2][i]` takes the
velocity at the local index `i` and `offset` is the number of points of the
elements before `el`. -/
lemma GetStdVelocity_apply (sqrt : K → K) (S : CompressibleFlowSystem K)
    (E : ExpansionData K) (numel : Nat) (inarray : Nat → Nat → K) (stdV : Nat → K)
    (velocity : Nat → Nat → K) (soundspeed : Nat → K)
    (hvel : velocity = GetVelocityVector S S.GetTotPoints inarray (fun _ _ => 0))
    (hc : soundspeed = GetSoundSpeed sqrt S inarray
      (GetPressureVel S S.GetTotPoints inarray velocity (fun _ => 0)) (fun _ => 0))
    (el : Nat) (hel : el < E.GetExpSize) (hnum : el < numel) :
    GetStdVelocity sqrt S E numel inarray stdV el
      = forLoop 0 (E.expGetTotPoints el)
          (fun i mx => max mx
            (sqrt (∑ j in Finset.range S.m_spacedim,
                (∑ j2 in Finset.range S.m_spacedim,
                  E.GetDerivFactors el (S.m_spacedim * j2 + j)
                    (if E.isDeformed el = true then i else 0) * velocity j2 i) ^ 2)
              + soundspeed (∑ e2 in Finset.range el, E.expGetTotPoints e2 + i)))
          0 := by
  subst hvel
  subst hc
  have h00 : (0.0 : K) = 0 := by norm_num
  unfold GetStdVelocity
  rw [(GetStdVelocity_loop_apply sqrt S E _ _ _ _ E.GetExpSize).2 el, if_pos hel]
  have hz : Vmath.Zero numel stdV 0 el = 0 := store_zero_lt _ _ _ _ hnum
  rw [hz]
  refine forLoop_congr 0 (E.expGetTotPoints el) _ _ 0 (fun i _ mx => ?_)
  simp only [Nat.zero_add, running_max_eq, h00, zero_add, pow_two]

end StdVelocityClosed

/-! ## Standard velocity: the claims -/

section StdVelocityClaims

variable {K : Type} [LinearOrderedField K]

/-- With derivative factors that are constant over the `nq` points, the
deformed and the regular branch fill `stdVelocity` alike. -/
lemma GetStdVelocity_stdVelocity_uniform (S : CompressibleFlowSystem K) (nq : Nat)
    (gmat : Nat → Nat → K) (velocity stdVelocity : Nat → Nat → K)
    (hconst : ∀ r i, i < nq → gmat r i = gmat r 0) :
    GetStdVelocity_stdVelocity S nq true gmat velocity stdVelocity
      = GetStdVelocity_stdVelocity S nq false gmat velocity stdVelocity := by
  unfold GetStdVelocity_stdVelocity
  simp only [if_true, Bool.false_eq_true, if_false]
  refine forLoop_congr 0 S.m_spacedim _ _ stdVelocity (fun r _ sv => ?_)
  have hfirst : Vmath.Vmul nq (gmat (0 + r)) (velocity 0) (sv (0 + r)) 0
      = Vmath.Smul nq (gmat (0 + r) 0) (velocity 0) (sv (0 + r)) 0 :=
    store_congr nq _ _ _ 0 (fun k hk => by rw [hconst (0 + r) k hk])
  show forLoop 1 (S.m_spacedim - 1) _
      (Function.update sv (0 + r) (Vmath.Vmul nq (gmat (0 + r)) (velocity 0) (sv (0 + r)) 0))
    = forLoop 1 (S.m_spacedim - 1) _
      (Function.update sv (0 + r) (Vmath.Smul nq (gmat (0 + r) 0) (velocity 0) (sv (0 + r)) 0))
  rw [hfirst]
  refine forLoop_congr 1 (S.m_spacedim - 1) _ _ _ (fun j _ sv2 => ?_)
  show Function.update sv2 (0 + r) (Vmath.store nq _ _ 0)
    = Function.update sv2 (0 + r) (Vmath.store nq _ _ 0)
  rw [store_congr nq _ _ _ 0 (fun k hk => by rw [hconst _ k hk])]

/-- C27: for an element `el` whose derivative factors are constant over its
points, the deformed branch of `GetStdVelocity` (point-wise factors) fills the
standard velocity exactly as the regular branch (factors at point `0`) does,
for every velocity field, and `GetStdVelocity` returns the same `stdV` whether
the element is treated as deformed or as regular. -/
theorem GetStdVelocity_branches_agree (sqrt : K → K) (S : CompressibleFlowSystem K)
    (E : ExpansionData K) (numel : Nat) (inarray : Nat → Nat → K) (stdV : Nat → K)
    (el : Nat)
    (hconst : ∀ r i, i < E.expGetTotPoints el →
      E.GetDerivFactors el r i = E.GetDerivFactors el r 0) :
    (∀ velocity stdVelocity : Nat → Nat → K,
      GetStdVelocity_stdVelocity S (E.expGetTotPoints el) true (E.GetDerivFactors el)
          velocity stdVelocity
        = GetStdVelocity_stdVelocity S (E.expGetTotPoints el) false (E.GetDerivFactors el)
          velocity stdVelocity) ∧
    GetStdVelocity sqrt S { E with isDeformed := Function.update E.isDeformed el true }
        numel inarray stdV
      = GetStdVelocity sqrt S { E with isDeformed := Function.update E.isDeformed el false }
        numel inarray stdV := by
  refine ⟨fun velocity stdVelocity =>
    GetStdVelocity_stdVelocity_uniform S _ _ velocity stdVelocity hconst, ?_⟩
  unfold GetStdVelocity
  have hloop : ∀ (velocity : Nat → Nat → K) (soundspeed : Nat → K)
      (st0 : (Nat → Nat → K) × (Nat → K) × Nat),
      forLoop 0 E.GetExpSize
        (GetStdVelocity_element sqrt S
          { E with isDeformed := Function.update E.isDeformed el true } velocity soundspeed)
        st0
      = forLoop 0 E.GetExpSize
        (GetStdVelocity_element sqrt S
          { E with isDeformed := Function.update E.isDeformed el false } velocity soundspeed)
        st0 := by
    intro velocity soundspeed st0
    refine forLoop_congr 0 E.GetExpSize _ _ st0 (fun e _ st => ?_)
    simp only [GetStdVelocity_element]
    by_cases he : 0 + e = el
    · rw [he, Function.update_same, Function.update_same,
        GetStdVelocity_stdVelocity_uniform S _ _ velocity st.1 hconst]
    · rw [Function.update_noteq he, Function.update_noteq he]
  exact congrArg (fun st => st.2.1) (hloop _ _ _)

/-- Witness for C27: the second segment of `lineExpansion`, whose derivative
factor is `1` at both points. -/
theorem GetStdVelocity_branches_agree_witness :
    (∀ r i, i < (lineExpansion ℚ).expGetTotPoints 1 →
      (lineExpansion ℚ).GetDerivFactors 1 r i = (lineExpansion ℚ).GetDerivFactors 1 r 0) ∧
    GetStdVelocity (fun x => x) (lineSystem ℚ)
        { lineExpansion ℚ with
          isDeformed := Function.update (lineExpansion ℚ).isDeformed 1 true }
        2 (uniformState [1, 3, 5]) (fun _ => 0)
      = GetStdVelocity (fun x => x) (lineSystem ℚ)
        { lineExpansion ℚ with
          isDeformed := Function.update (lineExpansion ℚ).isDeformed 1 false }
        2 (uniformState [1, 3, 5]) (fun _ => 0) :=
  ⟨fun _ _ _ => rfl,
    (GetStdVelocity_branches_agree (fun x => x) (lineSystem ℚ) (lineExpansion ℚ) 2
      (uniformState [1, 3, 5]) (fun _ => 0) 1 (fun _ _ _ => rfl)).2⟩

end StdVelocityClaims

section StdVelocityBug

/-- A running maximum from `0` over values that are all `w ≥ 0`. -/
lemma maxfold_const {K : Type} [LinearOrderedField K] (nq : Nat) (f : Nat → K) (w : K)
    (hf : ∀ i, i < nq → f i = w) (hnq : 0 < nq) (hw : 0 ≤ w) :
    forLoop 0 nq (fun i mx => max mx (f i)) 0 = w := by
  have h : ∀ m, m ≤ nq →
      forLoop 0 m (fun i mx => max mx (f i)) 0 = if m = 0 then 0 else w := by
    intro m
    induction m with
    | zero => intro _; rfl
    | succ k ih =>
      intro hk
      rw [forLoop_from_zero_succ, ih (by omega), hf k (by omega), if_neg (Nat.succ_ne_zero k)]
      by_cases hk0 : k = 0
      · rw [if_pos hk0, max_eq_right hw]
      · rw [if_neg hk0, max_self]
  rw [h nq (le_refl nq), if_neg (by omega)]

/-- C26 (the code at a failing input): two segments with two points each,
derivative factor `1`, `gamma = 1.4`; the first segment is at rest and the
second moves with velocity `3`, the sound speed is `1` at every point. For the
second segment the maximum over its own points of `|G v| + c` is `3 + 1 = 4`,
but `GetStdVelocity` stores `1`: it reads the velocity at the local indices
`0, 1`, which are the points of the first segment, and only the sound speed at
the points `2, 3` of the second. With the same state on the second segment and
the first segment moving too, it stores `4`: the value of the second element
depends on the state of the first. -/
theorem GetStdVelocity_reads_first_element_velocity :
    (∀ q, 2 ≤ q → q < 4 →
      |(lineExpansion ℝ).GetDerivFactors 1 0 0
          * GetVelocityVector (lineSystem ℝ) 4 (secondSegmentMoving ℝ) (fun _ _ => 0) 0 q|
        + GetSoundSpeed Real.sqrt (lineSystem ℝ) (secondSegmentMoving ℝ)
            (GetPressureVel (lineSystem ℝ) 4 (secondSegmentMoving ℝ)
              (GetVelocityVector (lineSystem ℝ) 4 (secondSegmentMoving ℝ) (fun _ _ => 0))
              (fun _ => 0)) (fun _ => 0) q = 4) ∧
    GetStdVelocity Real.sqrt (lineSystem ℝ) (lineExpansion ℝ) 2 (secondSegmentMoving ℝ)
        (fun _ => 0) 1 = 1 ∧
    (∀ v q, 2 ≤ q → q < 4 →
      uniformState [(1 : ℝ), 3, 44 / 7] v q = secondSegmentMoving ℝ v q) ∧
    GetStdVelocity Real.sqrt (lineSystem ℝ) (lineExpansion ℝ) 2
        (uniformState [1, 3, 44 / 7]) (fun _ => 0) 1 = 4 := by
  have hsd : (lineSystem ℝ).m_spacedim = 1 := rfl
  have hg : (lineSystem ℝ).m_gamma = 1.4 := rfl
  have hT : (lineSystem ℝ).GetTotPoints = 4 := rfl
  -- the moving second segment
  have hvel : ∀ q, q < 4 →
      GetVelocityVector (lineSystem ℝ) 4 (secondSegmentMoving ℝ) (fun _ _ => 0) 0 q
        = if q < 2 then 0 else 3 := by
    intro q hq
    rw [GetVelocityVector_apply _ _ _ _ 0 q (by decide) hq]
    by_cases h2 : q < 2
    · simp [secondSegmentMoving, splitState, h2]
    · simp [secondSegmentMoving, splitState, h2]
  have hp : ∀ q, q < 4 →
      GetPressureVel (lineSystem ℝ) 4 (secondSegmentMoving ℝ)
        (GetVelocityVector (lineSystem ℝ) 4 (secondSegmentMoving ℝ) (fun _ _ => 0))
        (fun _ => 0) q = 5 / 7 := by
    intro q hq
    rw [GetPressureVel_apply _ _ _ _ _ q (by decide) hq, hsd, hg]
    simp only [Finset.sum_range_succ, Finset.sum_range_zero, zero_add]
    rw [hvel q hq]
    by_cases h2 : q < 2
    · simp only [secondSegmentMoving, splitState, h2, if_true]
      norm_num
    · simp only [secondSegmentMoving, splitState, h2, if_false]
      norm_num
  have hc : ∀ q, q < 4 →
      GetSoundSpeed Real.sqrt (lineSystem ℝ) (secondSegmentMoving ℝ)
        (GetPressureVel (lineSystem ℝ) 4 (secondSegmentMoving ℝ)
          (GetVelocityVector (lineSystem ℝ) 4 (secondSegmentMoving ℝ) (fun _ _ => 0))
          (fun _ => 0)) (fun _ => 0) q = 1 := by
    intro q hq
    rw [GetSoundSpeed_apply _ _ _ _ _ q hq, hp q hq, hg]
    have hrho : secondSegmentMoving ℝ 0 q = 1 := by
      by_cases h2 : q < 2
      · simp [secondSegmentMoving, splitState, h2]
      · simp [secondSegmentMoving, splitState, h2]
    rw [hrho]
    have : (1.4 : ℝ) * (5 / 7 / 1) = 1 := by norm_num
    rw [this, Real.sqrt_one]
  -- the uniformly moving state
  have hvelU : ∀ q, q < 4 →
      GetVelocityVector (lineSystem ℝ) 4 (uniformState [1, 3, 44 / 7]) (fun _ _ => 0) 0 q
        = 3 := by
    intro q hq
    rw [GetVelocityVector_apply _ _ _ _ 0 q (by decide) hq]
    simp [uniformState]
  have hpU : ∀ q, q < 4 →
      GetPressureVel (lineSystem ℝ) 4 (uniformState [1, 3, 44 / 7])
        (GetVelocityVector (lineSystem ℝ) 4 (uniformState [1, 3, 44 / 7]) (fun _ _ => 0))
        (fun _ => 0) q = 5 / 7 := by
    intro q hq
    rw [GetPressureVel_apply _ _ _ _ _ q (by decide) hq, hsd, hg]
    simp only [Finset.sum_range_succ, Finset.sum_range_zero, zero_add]
    rw [hvelU q hq]
    simp only [uniformState]
    norm_num
  have hcU : ∀ q, q < 4 →
      GetSoundSpeed Real.sqrt (lineSystem ℝ) (uniformState [1, 3, 44 / 7])
        (GetPressureVel (lineSystem ℝ) 4 (uniformState [1, 3, 44 / 7])
          (GetVelocityVector (lineSystem ℝ) 4 (uniformState [1, 3, 44 / 7]) (fun _ _ => 0))
          (fun _ => 0)) (fun _ => 0) q = 1 := by
    intro q hq
    rw [GetSoundSpeed_apply _ _ _ _ _ q hq, hpU q hq, hg]
    have hrho : uniformState [(1 : ℝ), 3, 44 / 7] 0 q = 1 := by simp [uniformState]
    rw [hrho]
    have : (1.4 : ℝ) * (5 / 7 / 1) = 1 := by norm_num
    rw [this, Real.sqrt_one]
  have hnq : (lineExpansion ℝ).expGetTotPoints 1 = 2 := rfl
  have hoff : ∀ i, ∑ e2 in Finset.range 1, (lineExpansion ℝ).expGetTotPoints e2 + i = 2 + i := by
    intro i
    rw [Finset.sum_range_one]
    rfl
  have hgm : ∀ r i, (lineExpansion ℝ).GetDerivFactors 1 r i = 1 := fun _ _ => rfl
  refine ⟨fun q h2 hq => ?_, ?_, fun v q h2 _ => ?_, ?_⟩
  · rw [hvel q hq, hc q hq, hgm, if_neg (by omega)]
    norm_num
  · rw [GetStdVelocity_apply Real.sqrt (lineSystem ℝ) (lineExpansion ℝ) 2
      (secondSegmentMoving ℝ) (fun _ => 0) _ _ rfl rfl 1 (by decide) (by decide), hnq]
    refine maxfold_const 2 _ 1 (fun i hi => ?_) (by decide) (by norm_num)
    rw [hsd, hoff i, hT]
    simp only [Finset.sum_range_succ, Finset.sum_range_zero, zero_add]
    rw [hvel i (by omega), hc (2 + i) (by omega), hgm, if_pos hi]
    norm_num
  · have hq2 : ¬ q < 2 := by omega
    simp [secondSegmentMoving, splitState, uniformState, hq2]
  · rw [GetStdVelocity_apply Real.sqrt (lineSystem ℝ) (lineExpansion ℝ) 2
      (uniformState [1, 3, 44 / 7]) (fun _ => 0) _ _ rfl rfl 1 (by decide) (by decide), hnq]
    refine maxfold_const 2 _ 4 (fun i hi => ?_) (by decide) (by norm_num)
    rw [hsd, hoff i, hT]
    simp only [Finset.sum_range_succ, Finset.sum_range_zero, zero_add]
    rw [hvelU i (by omega), hcU (2 + i) (by omega), hgm]
    have h9 : ((1 : ℝ) * 3) ^ 2 = 3 ^ 2 := by norm_num
    rw [h9, Real.sqrt_sq (by norm_num)]
    norm_num

end StdVelocityBug

section TimeStepScaling

variable {K : Type} [LinearOrderedField K]

/-- Doubling every value doubles the running maximum from `0`. -/
lemma maxfold_double (nq : Nat) (f g : Nat → K) (h : ∀ i, i < nq → g i = 2 * f i) :
    forLoop 0 nq (fun i mx => max mx (g i)) 0
      = 2 * forLoop 0 nq (fun i mx => max mx (f i)) 0 := by
  have hm : ∀ m, m ≤ nq →
      forLoop 0 m (fun i mx => max mx (g i)) 0
        = 2 * forLoop 0 m (fun i mx => max mx (f i)) 0 := by
    intro m
    induction m with
    | zero =>
      intro _
      rw [forLoop_zero, forLoop_zero, mul_zero]
    | succ k ih =>
      intro hk
      rw [forLoop_from_zero_succ, forLoop_from_zero_succ, ih (by omega), h k (by omega),
        mul_max_of_nonneg _ _ (by norm_num : (0 : K) ≤ 2)]
  exact hm nq (le_refl nq)

end TimeStepScaling

section TraceClaims

variable {K : Type} [LinearOrderedField K]

/-- C38: for spatial dimension 1, 2 or 3 `GetViscousFluxVector` completes, and
at every point `k`, for every gradient array and whatever the viscosity `mu` of
the function is there, the diagonal entries of the assembled stress add up as
follows: in 3-D `viscousTensor[0][1] + viscousTensor[1][2] + viscousTensor[2][3]
= 0` (the stress is traceless), in 2-D `viscousTensor[0][1] + viscousTensor[1][2]
= (2/3) mu theta`, and in 1-D `viscousTensor[0][1] = (4/3) mu theta`, with
`theta = sum_j derivativesO1[j][j][k]` the divergence of the velocity. -/
theorem GetViscousFluxVector_stress_trace (pow : K → K → K)
    (S : CompressibleFlowSystem K) (nPts : Nat) (physfield : Nat → Nat → K)
    (derivativesO1 viscousTensor : Nat → Nat → Nat → K)
    (h1 : 1 ≤ S.m_spacedim) (h3 : S.m_spacedim ≤ 3) :
    ∃ vT, GetViscousFluxVector pow S nPts physfield derivativesO1 viscousTensor
        = Except.ok vT ∧
      ∀ k, k < nPts →
        (S.m_spacedim = 3 → vT 0 1 k + vT 1 2 k + vT 2 3 k = 0) ∧
        (S.m_spacedim = 2 →
          vT 0 1 k + vT 1 2 k
            = 2 / 3 * GetViscousFluxVector_mu pow S nPts physfield k
              * ∑ j in Finset.range S.m_spacedim, derivativesO1 j j k) ∧
        (S.m_spacedim = 1 →
          vT 0 1 k
            = 4 / 3 * GetViscousFluxVector_mu pow S nPts physfield k
              * ∑ j in Finset.range S.m_spacedim, derivativesO1 j j k) := by
  have h20 : (2.0 : K) = 2 := by norm_num
  have h30 : (3.0 : K) = 3 := by norm_num
  have hsd : S.m_spacedim = 1 ∨ S.m_spacedim = 2 ∨ S.m_spacedim = 3 := by omega
  rcases hsd with h | h | h
  · obtain ⟨vT, hok, hv⟩ :=
      GetViscousFluxVector_dim1 pow S nPts physfield derivativesO1 viscousTensor _ rfl h
    refine ⟨vT, hok, fun k hk => ⟨fun h' => ?_, fun h' => ?_, fun _ => ?_⟩⟩
    · omega
    · omega
    obtain ⟨-, e01, -⟩ := hv k hk
    rw [h]
    simp only [Finset.sum_range_succ, Finset.sum_range_zero, zero_add]
    rw [e01, h20, h30]
    ring
  · obtain ⟨vT, hok, hv⟩ :=
      GetViscousFluxVector_dim2 pow S nPts physfield derivativesO1 viscousTensor _ rfl h
    refine ⟨vT, hok, fun k hk => ⟨fun h' => ?_, fun _ => ?_, fun h' => ?_⟩⟩
    · omega
    · obtain ⟨-, -, e01, -, -, e12, -, -⟩ := hv k hk
      rw [h]
      simp only [Finset.sum_range_succ, Finset.sum_range_zero, zero_add]
      rw [e01, e12, h20, h30]
      ring
    · omega
  · obtain ⟨vT, hok, hv⟩ :=
      GetViscousFluxVector_dim3 pow S nPts physfield derivativesO1 viscousTensor _ rfl h
    refine ⟨vT, hok, fun k hk => ⟨fun _ => ?_, fun h' => ?_, fun h' => ?_⟩⟩
    · obtain ⟨-, ⟨e01, -, -⟩, ⟨-, e12, -⟩, ⟨-, -, e23⟩, -⟩ := hv k hk
      rw [e01, e12, e23, h20, h30]
      ring
    · omega
    · omega

/-- Witness for C38: the 3-D sample with one point and the velocity gradient
`du/dx = 3`, `dv/dy = 5`, `dw/dz = -1` (divergence `7`): the three diagonal
stresses add up to zero. -/
theorem GetViscousFluxVector_stress_trace_witness :
    (1 ≤ (sampleSystem ℚ 3 1.4 1).m_spacedim ∧ (sampleSystem ℚ 3 1.4 1).m_spacedim ≤ 3) ∧
    ∃ vT, GetViscousFluxVector (fun x _ => x) (sampleSystem ℚ 3 1.4 1) 1
          (uniformState [1, 2, 3, 300])
          (fun d v _ => if d = v then (if d = 0 then 3 else if d = 1 then 5 else -1) else 0)
          (fun _ _ _ => 7) = Except.ok vT ∧
      vT 0 1 0 + vT 1 2 0 + vT 2 3 0 = 0 := by
  refine ⟨⟨by decide, by decide⟩, ?_⟩
  obtain ⟨vT, hok, hv⟩ := GetViscousFluxVector_stress_trace (fun x _ => x)
    (sampleSystem ℚ 3 1.4 1) 1 (uniformState [1, 2, 3, 300])
    (fun d v _ => if d = v then (if d = 0 then 3 else if d = 1 then 5 else -1) else 0)
    (fun _ _ _ => 7) (by decide) (by decide)
  exact ⟨vT, hok, (hv 0 (by decide)).1 rfl⟩

end TraceClaims

section StabilityLimitLemmas

variable {K : Type} [LinearOrderedField K]

/-- The loop of `GetStabilityLimitVector` over elements whose calls of
`GetStabilityLimit` all return: entry `i` of the result is the value returned
for element `i`. -/
lemma GetStabilityLimitVector_loop (pt : ProjectionType) (ExpOrder : Nat → Int)
    (c : Nat → K) (N : Nat)
    (h : ∀ i, i < N → GetStabilityLimit K pt (ExpOrder i) = Except.ok (c i)) :
    GetStabilityLimitVector K pt N ExpOrder
      = Except.ok (fun i => if i < N then c i else 0.0) := by
  unfold GetStabilityLimitVector
  induction N with
  | zero => simp [forLoop_zero]
  | succ n ih =>
    rw [forLoop_succ, ih (fun i hi => h i (by omega)), zero_add]
    simp only [h n (by omega)]
    congr 1
    funext i
    by_cases hi : i = n
    · subst hi
      simp
    · rw [Function.update_noteq hi]
      have h1 : (i < n + 1) ↔ (i < n) := by omega
      simp only [h1]

/-- The read of an entry inside the array. -/
lemma readArray_inside (table : List K) (n : Int) (h0 : 0 ≤ n) (h1 : n < table.length) :
    readArray table n = Except.ok (table.getD n.toNat 0) := by
  unfold readArray
  rw [if_pos ⟨h0, h1⟩]

end StabilityLimitLemmas

section StabilityLimitClaims

variable {K : Type} [LinearOrderedField K]

/-- C31: the table of `GetStabilityLimit` has 21 entries, `2.0, 6.0, 11.8424,
…, 321.83`. For a discontinuous discretization and every order `n` with
`0 ≤ n ≤ 20` the function returns entry `n` of the table. It ends in a failing
assertion for every `n > 20` (whatever the discretization) and for every
discretization that is not discontinuous (whatever `n`). For a discontinuous
discretization and orders that all lie in `0..20`, `GetStabilityLimitVector`
returns an array whose entry `i` is the table entry of the order of element
`i`. -/
theorem GetStabilityLimit_table_lookup :
    ((CFLDG K).length = 21 ∧ (CFLDG K).getD 0 0 = 2.0 ∧ (CFLDG K).getD 1 0 = 6.0
      ∧ (CFLDG K).getD 2 0 = 11.8424 ∧ (CFLDG K).getD 20 0 = 321.83) ∧
    (∀ n : Int, 0 ≤ n → n ≤ 20 →
      GetStabilityLimit K ProjectionType.eDiscontinuous n
        = Except.ok ((CFLDG K).getD n.toNat 0)) ∧
    (∀ (pt : ProjectionType) (n : Int), 20 < n →
      ∃ msg, GetStabilityLimit K pt n = Except.error (Fault.assertion msg)) ∧
    (∀ (pt : ProjectionType) (n : Int), pt ≠ ProjectionType.eDiscontinuous →
      ∃ msg, GetStabilityLimit K pt n = Except.error (Fault.assertion msg)) ∧
    (∀ (GetExpSize : Nat) (ExpOrder : Nat → Int),
      (∀ i, i < GetExpSize → 0 ≤ ExpOrder i ∧ ExpOrder i ≤ 20) →
      ∃ returnval,
        GetStabilityLimitVector K ProjectionType.eDiscontinuous GetExpSize ExpOrder
          = Except.ok returnval ∧
        ∀ i, i < GetExpSize → returnval i = (CFLDG K).getD (ExpOrder i).toNat 0) := by
  have hlen : (CFLDG K).length = 21 := rfl
  have hin : ∀ n : Int, 0 ≤ n → n ≤ 20 →
      GetStabilityLimit K ProjectionType.eDiscontinuous n
        = Except.ok ((CFLDG K).getD n.toNat 0) := by
    intro n h0 h20
    unfold GetStabilityLimit
    rw [if_neg (not_not.mpr h20), if_pos rfl]
    exact readArray_inside _ n h0 (by rw [hlen]; omega)
  refine ⟨⟨hlen, ?_, ?_, ?_, ?_⟩, hin, ?_, ?_, ?_⟩
  · simp only [CFLDG, List.getD_cons_zero]
    norm_num
  · simp only [CFLDG, List.getD_cons_succ, List.getD_cons_zero]
    norm_num
  · simp only [CFLDG, List.getD_cons_succ, List.getD_cons_zero]
  · simp only [CFLDG, List.getD_cons_succ, List.getD_cons_zero]
    norm_num
  · intro pt n hn
    unfold GetStabilityLimit
    rw [if_pos (by omega)]
    exact ⟨_, rfl⟩
  · intro pt n hpt
    unfold GetStabilityLimit
    by_cases hn : n ≤ 20
    · rw [if_neg (not_not.mpr hn), if_neg hpt]
      exact ⟨_, rfl⟩
    · rw [if_pos hn]
      exact ⟨_, rfl⟩
  · intro N ExpOrder h
    refine ⟨_, GetStabilityLimitVector_loop ProjectionType.eDiscontinuous ExpOrder
      (fun i => (CFLDG K).getD (ExpOrder i).toNat 0) N
      (fun i hi => hin _ (h i hi).1 (h i hi).2), ?_⟩
    intro i hi
    simp only [if_pos hi]

/-- Witness for C31: order `3` gives `19.1569`, and two elements of orders `2`
and `20` give the array `11.8424, 321.83`. -/
theorem GetStabilityLimit_table_lookup_witness :
    GetStabilityLimit ℚ ProjectionType.eDiscontinuous 3 = Except.ok 19.1569 ∧
    ∃ returnval,
      GetStabilityLimitVector ℚ ProjectionType.eDiscontinuous 2
          (fun i => if i = 0 then 2 else 20) = Except.ok returnval ∧
      returnval 0 = 11.8424 ∧ returnval 1 = 321.83 := by
  obtain ⟨-, hin, -, -, hvec⟩ := GetStabilityLimit_table_lookup (K := ℚ)
  refine ⟨?_, ?_⟩
  · rw [hin 3 (by decide) (by decide)]
    simp [CFLDG]
  · obtain ⟨rv, hok, hrv⟩ := hvec 2 (fun i => if i = 0 then 2 else 20)
      (fun i _ => by by_cases h : i = 0 <;> simp [h])
    refine ⟨rv, hok, ?_, ?_⟩
    · rw [hrv 0 (by decide)]
      simp [CFLDG]
    · rw [hrv 1 (by decide)]
      simp [CFLDG]
      norm_num

/-- C40: the order `n = -1` passes the check `n <= 20` of `GetStabilityLimit`,
and under a discontinuous discretization the function then reads `CFLDG[-1]`,
outside the 21 entries of the table. -/
theorem GetStabilityLimit_negative_order_reads_outside :
    ((-1 : Int) ≤ 20) ∧
    GetStabilityLimit ℚ ProjectionType.eDiscontinuous (-1)
      = Except.error (Fault.outOfBounds (-1)) := by
  refine ⟨by decide, ?_⟩
  unfold GetStabilityLimit readArray
  rw [if_neg (by decide), if_pos rfl, if_neg (by decide)]

end StabilityLimitClaims

section InitClaims

/-- C32, as stated, fails: `v_InitObject` aborts for a 1-D session with a
discontinuous discretization that defines `Gamma`, `pInf`, `rhoInf`, `uInf`
(and `vInf`, `wInf`) but not the solver info `UPWINDTYPE`, so it aborts although
none of the conditions listed in the claim holds. -/
theorem v_InitObject_aborts_without_upwind_type :
    v_InitObject sessionWithoutUpwindType 1 ProjectionType.eDiscontinuous
      = Except.error "No UPWINDTYPE defined in session." ∧
    ¬ (sessionWithoutUpwindType.DefinesParameter "Gamma" = false
        ∨ sessionWithoutUpwindType.DefinesParameter "pInf" = false
        ∨ sessionWithoutUpwindType.DefinesParameter "rhoInf" = false
        ∨ sessionWithoutUpwindType.DefinesParameter "uInf" = false
        ∨ (((1 : Nat) = 2 ∨ (1 : Nat) = 3)
            ∧ sessionWithoutUpwindType.DefinesParameter "vInf" = false)
        ∨ ((1 : Nat) = 3 ∧ sessionWithoutUpwindType.DefinesParameter "wInf" = false)
        ∨ ProjectionType.eDiscontinuous ≠ ProjectionType.eDiscontinuous) := by
  refine ⟨rfl, ?_⟩
  decide

/-- C32, amended: `v_InitObject` aborts exactly when the session lacks the solver
info `UPWINDTYPE`, lacks one of the parameters `Gamma`, `pInf`, `rhoInf`, `uInf`,
lacks `vInf` in a 2-D or 3-D problem, lacks `wInf` in a 3-D problem, or the
discretization type is not the discontinuous one (continuous or unknown); in
every other case, so for a 1-D session without `vInf`/`wInf` and a 2-D session
without `wInf` that has the rest, it returns normally. -/
theorem v_InitObject_aborts_iff (m_session : SessionReader) (m_spacedim : Nat)
    (m_projectionType : ProjectionType) :
    ((∃ msg, v_InitObject m_session m_spacedim m_projectionType = Except.error msg) ↔
      (m_session.DefinesSolverInfo "UPWINDTYPE" = false
        ∨ m_session.DefinesParameter "Gamma" = false
        ∨ m_session.DefinesParameter "pInf" = false
        ∨ m_session.DefinesParameter "rhoInf" = false
        ∨ m_session.DefinesParameter "uInf" = false
        ∨ ((m_spacedim = 2 ∨ m_spacedim = 3) ∧ m_session.DefinesParameter "vInf" = false)
        ∨ (m_spacedim = 3 ∧ m_session.DefinesParameter "wInf" = false)
        ∨ m_projectionType ≠ ProjectionType.eDiscontinuous)) ∧
    (v_InitObject m_session m_spacedim m_projectionType = Except.ok () ↔
      (m_session.DefinesSolverInfo "UPWINDTYPE" = true
        ∧ m_session.DefinesParameter "Gamma" = true
        ∧ m_session.DefinesParameter "pInf" = true
        ∧ m_session.DefinesParameter "rhoInf" = true
        ∧ m_session.DefinesParameter "uInf" = true
        ∧ ((m_spacedim = 2 ∨ m_spacedim = 3) → m_session.DefinesParameter "vInf" = true)
        ∧ (m_spacedim = 3 → m_session.DefinesParameter "wInf" = true)
        ∧ m_projectionType = ProjectionType.eDiscontinuous)) := by
  unfold v_InitObject
  cases hU : m_session.DefinesSolverInfo "UPWINDTYPE" <;>
  cases hG : m_session.DefinesParameter "Gamma" <;>
  cases hp : m_session.DefinesParameter "pInf" <;>
  cases hr : m_session.DefinesParameter "rhoInf" <;>
  cases hu : m_session.DefinesParameter "uInf" <;>
  simp
  by_cases h23 : (m_spacedim = 2 ∨ m_spacedim = 3) ∧ m_session.DefinesParameter "vInf" = false
  · rw [if_pos h23]
    simp [h23]
  · rw [if_neg h23]
    by_cases h3 : m_spacedim = 3 ∧ m_session.DefinesParameter "wInf" = false
    · rw [if_pos h3]
      simp [h3]
    · rw [if_neg h3]
      cases m_projectionType <;> simp_all

/-- Witness for C32: a 1-D session with `UPWINDTYPE`, `Gamma`, `pInf`, `rhoInf`
and `uInf` but neither `vInf` nor `wInf`, discontinuous, is accepted; the same
session as a 2-D problem aborts. -/
theorem v_InitObject_aborts_iff_witness :
    v_InitObject sessionWithoutVInfWInf 1 ProjectionType.eDiscontinuous = Except.ok () ∧
    ∃ msg, v_InitObject sessionWithoutVInfWInf 2 ProjectionType.eDiscontinuous
      = Except.error msg := by
  refine ⟨?_, ?_⟩
  · exact (v_InitObject_aborts_iff sessionWithoutVInfWInf 1
      ProjectionType.eDiscontinuous).2.mpr (by decide)
  · exact (v_InitObject_aborts_iff sessionWithoutVInfWInf 2
      ProjectionType.eDiscontinuous).1.mpr (by decide)

end InitClaims

section SupersonicLemmas

/-- The real power used by the closures: `(x ^ (g - 1)) ^ (1 / (g - 1)) = x`. -/
lemma rpow_gamma_root (x g : ℝ) (hx : 0 < x) (hg : 1 < g) :
    Real.rpow (Real.rpow x (g - 1)) (1 / (g - 1)) = x := by
  have hne : g - 1 ≠ 0 := by linarith
  simp only [Real.rpow_eq_pow]
  rw [← Real.rpow_mul hx.le, mul_one_div_cancel hne, Real.rpow_one]

/-- The other order: `(x ^ (1 / (g - 1))) ^ (g - 1) = x`. -/
lemma rpow_root_gamma (x g : ℝ) (hx : 0 < x) (hg : 1 < g) :
    Real.rpow (Real.rpow x (1 / (g - 1))) (g - 1) = x := by
  have hne : g - 1 ≠ 0 := by linarith
  simp only [Real.rpow_eq_pow]
  rw [← Real.rpow_mul hx.le, one_div_mul_cancel hne, Real.rpow_one]

/-- The boundary state of `RiemannInvariantBC` when both characteristics come
from one state with normal velocity `V`, density `rho` and pressure `p` (the
supersonic branches): the density is `rho`, the momentum is `rho velRef`, the
energy is `p / (gamma - 1)` plus the kinetic energy of `velRef`. -/
lemma RiemannInvariantBC_state_supersonic (S : CompressibleFlowSystem ℝ) (V rho p : ℝ)
    (velRef : Nat → ℝ) (pnt : Nat) (hg : 1 < S.m_gamma) (hrho : 0 < rho) (hp : 0 < p) :
    (RiemannInvariantBC_state Real.rpow S
        (V + 2.0 * Real.sqrt (S.m_gamma * p / rho) * (1.0 / (S.m_gamma - 1.0)),
          V - 2.0 * Real.sqrt (S.m_gamma * p / rho) * (1.0 / (S.m_gamma - 1.0)))
        V (p / Real.rpow rho S.m_gamma) velRef pnt).1 = rho ∧
    (∀ j, j < S.m_spacedim →
      (RiemannInvariantBC_state Real.rpow S
        (V + 2.0 * Real.sqrt (S.m_gamma * p / rho) * (1.0 / (S.m_gamma - 1.0)),
          V - 2.0 * Real.sqrt (S.m_gamma * p / rho) * (1.0 / (S.m_gamma - 1.0)))
        V (p / Real.rpow rho S.m_gamma) velRef pnt).2.1 j = rho * velRef j) ∧
    (RiemannInvariantBC_state Real.rpow S
        (V + 2.0 * Real.sqrt (S.m_gamma * p / rho) * (1.0 / (S.m_gamma - 1.0)),
          V - 2.0 * Real.sqrt (S.m_gamma * p / rho) * (1.0 / (S.m_gamma - 1.0)))
        V (p / Real.rpow rho S.m_gamma) velRef pnt).2.2
      = p / (S.m_gamma - 1)
        + ∑ j in Finset.range S.m_spacedim, 1 / 2 * rho * velRef j ^ 2 := by
  obtain ⟨s1, s2, s3⟩ := RiemannInvariantBC_state_apply Real.rpow S
    (V + 2.0 * Real.sqrt (S.m_gamma * p / rho) * (1.0 / (S.m_gamma - 1.0)),
      V - 2.0 * Real.sqrt (S.m_gamma * p / rho) * (1.0 / (S.m_gamma - 1.0)))
    V (p / Real.rpow rho S.m_gamma) velRef pnt
  dsimp only at s1 s2 s3
  have hg1 : S.m_gamma - 1 ≠ 0 := by linarith
  have hg0 : S.m_gamma ≠ 0 := by linarith
  have h10 : (1.0 : ℝ) = 1 := by norm_num
  have h20 : (2.0 : ℝ) = 2 := by norm_num
  have h05 : (0.5 : ℝ) = 1 / 2 := by norm_num
  have h025 : (0.25 : ℝ) = 1 / 4 := by norm_num
  have hcc : Real.sqrt (S.m_gamma * p / rho) * Real.sqrt (S.m_gamma * p / rho)
      = S.m_gamma * p / rho :=
    Real.mul_self_sqrt (by positivity)
  have hcBC : 0.25 * (S.m_gamma - 1.0)
      * ((V + 2.0 * Real.sqrt (S.m_gamma * p / rho) * (1.0 / (S.m_gamma - 1.0)))
        - (V - 2.0 * Real.sqrt (S.m_gamma * p / rho) * (1.0 / (S.m_gamma - 1.0))))
      = Real.sqrt (S.m_gamma * p / rho) := by
    rw [h10, h20, h025]
    field_simp
    ring
  have hVD : 0.5 * ((V + 2.0 * Real.sqrt (S.m_gamma * p / rho) * (1.0 / (S.m_gamma - 1.0)))
        + (V - 2.0 * Real.sqrt (S.m_gamma * p / rho) * (1.0 / (S.m_gamma - 1.0)))) - V
      = 0 := by
    rw [h05]
    ring
  have hpow : 0 < Real.rpow rho S.m_gamma := Real.rpow_pos_of_pos hrho _
  have hbase : S.m_gamma * p / rho / (S.m_gamma * (p / Real.rpow rho S.m_gamma))
      = Real.rpow rho (S.m_gamma - 1) := by
    have : Real.rpow rho (S.m_gamma - 1) = Real.rpow rho S.m_gamma / rho := by
      simp only [Real.rpow_eq_pow]
      exact Real.rpow_sub_one hrho.ne' _
    rw [this]
    field_simp
    ring
  have hrhoBC : (RiemannInvariantBC_state Real.rpow S
        (V + 2.0 * Real.sqrt (S.m_gamma * p / rho) * (1.0 / (S.m_gamma - 1.0)),
          V - 2.0 * Real.sqrt (S.m_gamma * p / rho) * (1.0 / (S.m_gamma - 1.0)))
        V (p / Real.rpow rho S.m_gamma) velRef pnt).1 = rho := by
    rw [s1]
    simp only [hcBC, hcc, hbase]
    rw [h10]
    exact rpow_gamma_root rho S.m_gamma hrho hg
  refine ⟨hrhoBC, ?_, ?_⟩
  · intro j hj
    rw [s2 j hj, hrhoBC]
    simp only [hVD, zero_mul, add_zero]
  · rw [s3, hrhoBC]
    simp only [hVD, zero_mul, add_zero, hcBC]
    rw [mul_assoc rho, hcc, h10, h05]
    congr 1
    · field_simp
    · refine Finset.sum_congr rfl (fun j _ => ?_)
      ring

/-- The boundary state of `RiemannInvariantBC` has the entropy `sBC` of its
reference state: its pressure, by the formula of `GetPressure`, over its
density to the power `gamma` is `sBC`. -/
lemma RiemannInvariantBC_state_entropy (S : CompressibleFlowSystem ℝ) (r : ℝ × ℝ)
    (VnRef sBC : ℝ) (velRef : Nat → ℝ) (pnt : Nat) (hg : 1 < S.m_gamma) (hs : 0 < sBC)
    (hc : 0 < (S.m_gamma - 1) * (r.1 - r.2) / 4) :
    (S.m_gamma - 1) * (-0.5 *
        ((∑ j in Finset.range S.m_spacedim,
            (RiemannInvariantBC_state Real.rpow S r VnRef sBC velRef pnt).2.1 j
              * (RiemannInvariantBC_state Real.rpow S r VnRef sBC velRef pnt).2.1 j)
          / (RiemannInvariantBC_state Real.rpow S r VnRef sBC velRef pnt).1)
        + (RiemannInvariantBC_state Real.rpow S r VnRef sBC velRef pnt).2.2)
      / Real.rpow (RiemannInvariantBC_state Real.rpow S r VnRef sBC velRef pnt).1 S.m_gamma
      = sBC := by
  obtain ⟨s1, s2, s3⟩ := RiemannInvariantBC_state_apply Real.rpow S r VnRef sBC velRef pnt
  have hg1 : S.m_gamma - 1 ≠ 0 := by linarith
  have hg0 : S.m_gamma ≠ 0 := by linarith
  have hgpos : 0 < S.m_gamma := by linarith
  have h10 : (1.0 : ℝ) = 1 := by norm_num
  have h05 : (0.5 : ℝ) = 1 / 2 := by norm_num
  have h025 : (0.25 : ℝ) = 1 / 4 := by norm_num
  generalize hrho : (RiemannInvariantBC_state Real.rpow S r VnRef sBC velRef pnt).1 = rhoBC
    at s1 s2 s3 ⊢
  generalize hcB : 0.25 * (S.m_gamma - 1.0) * (r.1 - r.2) = cBC at s1 s3
  have hcpos : 0 < cBC := by
    rw [← hcB, h025, h10]
    linarith
  have hbase : 0 < cBC * cBC / (S.m_gamma * sBC) := by positivity
  have hrpos : 0 < rhoBC := by
    rw [s1]
    exact Real.rpow_pos_of_pos hbase _
  have hroot : Real.rpow rhoBC (S.m_gamma - 1) = cBC * cBC / (S.m_gamma * sBC) := by
    rw [s1, h10]
    exact rpow_root_gamma _ _ hbase hg
  have hpowg : Real.rpow rhoBC S.m_gamma = rhoBC * (cBC * cBC / (S.m_gamma * sBC)) := by
    rw [← hroot]
    simp only [Real.rpow_eq_pow]
    rw [Real.rpow_sub_one hrpos.ne']
    field_simp
  have hsum : (∑ j in Finset.range S.m_spacedim,
      (RiemannInvariantBC_state Real.rpow S r VnRef sBC velRef pnt).2.1 j
        * (RiemannInvariantBC_state Real.rpow S r VnRef sBC velRef pnt).2.1 j) / rhoBC
      = ∑ j in Finset.range S.m_spacedim,
          rhoBC * ((velRef j + (0.5 * (r.1 + r.2) - VnRef) * S.m_traceNormals j pnt)
            * (velRef j + (0.5 * (r.1 + r.2) - VnRef) * S.m_traceNormals j pnt)) := by
    rw [Finset.sum_div]
    refine Finset.sum_congr rfl (fun j hj => ?_)
    rw [s2 j (Finset.mem_range.mp hj)]
    field_simp
    ring
  have hsum3 : (∑ j in Finset.range S.m_spacedim,
      0.5 * rhoBC * (velRef j + (0.5 * (r.1 + r.2) - VnRef) * S.m_traceNormals j pnt)
        * (velRef j + (0.5 * (r.1 + r.2) - VnRef) * S.m_traceNormals j pnt))
      = 0.5 * ∑ j in Finset.range S.m_spacedim,
          rhoBC * ((velRef j + (0.5 * (r.1 + r.2) - VnRef) * S.m_traceNormals j pnt)
            * (velRef j + (0.5 * (r.1 + r.2) - VnRef) * S.m_traceNormals j pnt)) := by
    rw [Finset.mul_sum]
    refine Finset.sum_congr rfl (fun j _ => ?_)
    ring
  rw [hsum, s3, hsum3, hpowg, h10]
  have hcne : cBC ≠ 0 := hcpos.ne'
  have hsne : sBC ≠ 0 := hs.ne'
  have hrne : rhoBC ≠ 0 := hrpos.ne'
  field_simp
  ring

end SupersonicLemmas
section FarFieldLemmas

variable {K : Type} [LinearOrderedField K]

/-- The loop of `RiemannInvariantBC` that accumulates the squared velocity
components in `absVel`. -/
lemma absVel_loop_apply (n m : Nat) (Fwd : Nat → Nat → K) (a0 b0 : Nat → K) (k : Nat)
    (hk : k < n) :
    (forLoop 0 m
      (fun i st =>
        let t1 := Vmath.Vdiv n (Fwd (i + 1)) (Fwd 0) st.1 0
        let t2 := Vmath.Vmul n t1 t1 t1 0
        (t2, Vmath.Vadd n t2 st.2 st.2 0))
      (a0, b0)).2 k
      = b0 k + ∑ i in Finset.range m, (Fwd (i + 1) k / Fwd 0 k) * (Fwd (i + 1) k / Fwd 0 k) := by
  induction m with
  | zero => simp [forLoop_zero]
  | succ j ih =>
    rw [forLoop_from_zero_succ, Finset.sum_range_succ]
    generalize forLoop 0 j
      (fun i st =>
        let t1 := Vmath.Vdiv n (Fwd (i + 1)) (Fwd 0) st.1 0
        let t2 := Vmath.Vmul n t1 t1 t1 0
        (t2, Vmath.Vadd n t2 st.2 st.2 0))
      (a0, b0) = st at ih ⊢
    simp only [Vmath.Vadd, Vmath.Vmul, Vmath.Vdiv]
    rw [store_zero_lt _ _ _ _ hk, store_zero_lt _ _ _ _ hk, store_zero_lt _ _ _ _ hk, ih]
    ring

/-- The array `absVel` of `RiemannInvariantBC`, entry by entry: the Euclidean
norm of the interior velocity. -/
lemma RiemannInvariantBC_absVel_apply (sqrt : K → K) (S : CompressibleFlowSystem K)
    (Fwd : Nat → Nat → K) (tmp1 : Nat → K) (pnt : Nat) (hp : pnt < S.GetTraceTotPoints) :
    RiemannInvariantBC_absVel sqrt S Fwd tmp1 pnt
      = sqrt (∑ i in Finset.range S.m_spacedim,
          (Fwd (i + 1) pnt / Fwd 0 pnt) * (Fwd (i + 1) pnt / Fwd 0 pnt)) := by
  unfold RiemannInvariantBC_absVel
  have h := absVel_loop_apply S.GetTraceTotPoints S.m_spacedim Fwd tmp1 (fun _ => 0.0) pnt hp
  simp only [Vmath.Vsqrt] at h ⊢
  rw [store_zero_lt _ _ _ _ hp, h]
  norm_num

/-- The far-field sample has one boundary element: the layout condition holds. -/
lemma farFieldSystem_layout0 :
    RegionLayout (farFieldSystem K) 0 0 ((farFieldSystem K).bndGetNumPoints0 0) := by
  intro e1 e2 h1 h2 hne
  simp only [farFieldSystem] at h1 h2
  omega

/-- The forward trace of a uniform state in the far-field sample. -/
lemma farField_Fwd (vals : List K) (w : Nat) (hw : w < 4) :
    extractFwd (farFieldSystem K) 4 (uniformState vals) w 0 = vals.getD w 0 := by
  rw [extractFwd_apply _ _ _ _ hw]
  rfl

/-- The interior normal velocity in the far-field sample, whose normal is
`(0, 1)`, for a state of density `1`. -/
lemma farField_Vn (a b E : K) :
    RiemannInvariantBC_Vn (farFieldSystem K)
      (extractFwd (farFieldSystem K) 4 (uniformState [1, a, b, E])) 0 = b := by
  have hsd : (farFieldSystem K).m_spacedim = 2 := rfl
  have hn0 : (farFieldSystem K).m_traceNormals 0 0 = 0 := by simp [farFieldSystem]
  have hn1 : (farFieldSystem K).m_traceNormals 1 0 = 1 := by simp [farFieldSystem]
  rw [RiemannInvariantBC_Vn_apply _ _ _ (by show 0 < 1; decide), hsd]
  simp only [Finset.sum_range_succ, Finset.sum_range_zero]
  rw [farField_Fwd _ 0 (by decide), farField_Fwd _ 1 (by decide),
    farField_Fwd _ 2 (by decide), hn0, hn1]
  simp

/-- The freestream normal velocity computed in the far-field sample. -/
lemma farField_VnInf : RiemannInvariantBC_VnInf (farFieldSystem K) 0 = 0 := by
  have hn0 : (farFieldSystem K).m_traceNormals 0 0 = 0 := by simp [farFieldSystem]
  rw [RiemannInvariantBC_VnInf_apply _ _ (by show 0 < 1; decide), hn0]
  simp

/-- The interior pressure in the far-field sample for a state of density `1`. -/
lemma farField_pressure (sqrt : K → K) (a b E : K) :
    (RiemannInvariantBC_pressure sqrt (farFieldSystem K)
      (extractFwd (farFieldSystem K) 4 (uniformState [1, a, b, E]))).1 0
      = 2 / 5 * (E - (a ^ 2 + b ^ 2) / 2) := by
  have hsd : (farFieldSystem K).m_spacedim = 2 := rfl
  have hg : (farFieldSystem K).m_gamma = 1.4 := rfl
  rw [RiemannInvariantBC_pressure_formula _ _ _ _ (by show 0 < 1; decide)
    (by show 1 ≤ 2; decide) (by show 2 ≤ 3; decide), hsd, hg]
  simp only [Finset.sum_range_succ, Finset.sum_range_zero]
  rw [farField_Fwd _ 0 (by decide), farField_Fwd _ 1 (by decide),
    farField_Fwd _ 2 (by decide), farField_Fwd _ 3 (by decide)]
  simp only [List.getD_cons_zero, List.getD_cons_succ]
  norm_num
  ring

end FarFieldLemmas

section FarFieldReal

/-- The interior sound speed in the far-field sample for a state of density `1`
and pressure `5/7`. -/
lemma farField_soundSpeed (a b E : ℝ) (h : 2 / 5 * (E - (a ^ 2 + b ^ 2) / 2) = 5 / 7) :
    (RiemannInvariantBC_pressure Real.sqrt (farFieldSystem ℝ)
      (extractFwd (farFieldSystem ℝ) 4 (uniformState [1, a, b, E]))).2 0 = 1 := by
  have hg : (farFieldSystem ℝ).m_gamma = 1.4 := rfl
  rw [(RiemannInvariantBC_pressure_apply _ _ _ _ (by decide)).2, farField_pressure, h,
    farField_Fwd _ 0 (by decide), hg]
  have : (1.4 : ℝ) * (5 / 7) / [1, a, b, E].getD 0 0 = 1 := by
    simp only [List.getD_cons_zero]
    norm_num
  rw [this, Real.sqrt_one]

/-- The Mach number that `RiemannInvariantBC` computes in the far-field sample
for a state of density `1` and pressure `5/7`. -/
lemma farField_Mach (a b E : ℝ) (h : 2 / 5 * (E - (a ^ 2 + b ^ 2) / 2) = 5 / 7) :
    RiemannInvariantBC_Mach (farFieldSystem ℝ)
      (RiemannInvariantBC_Vn (farFieldSystem ℝ)
        (extractFwd (farFieldSystem ℝ) 4 (uniformState [1, a, b, E])))
      (RiemannInvariantBC_pressure Real.sqrt (farFieldSystem ℝ)
        (extractFwd (farFieldSystem ℝ) 4 (uniformState [1, a, b, E]))).2 0 = |b| := by
  rw [RiemannInvariantBC_Mach_apply _ _ _ _ (by decide), farField_Vn,
    farField_soundSpeed a b E h, div_one]

/-- The pair of characteristics of the outflow branch in the far-field sample
for a state of density `1` and pressure `5/7`. -/
lemma farField_outflowChars (a b E : ℝ) (h : 2 / 5 * (E - (a ^ 2 + b ^ 2) / 2) = 5 / 7) :
    RiemannInvariantBC_outflowChars Real.sqrt (farFieldSystem ℝ)
      (extractFwd (farFieldSystem ℝ) 4 (uniformState [1, a, b, E]))
      (RiemannInvariantBC_Vn (farFieldSystem ℝ)
        (extractFwd (farFieldSystem ℝ) 4 (uniformState [1, a, b, E])))
      (RiemannInvariantBC_VnInf (farFieldSystem ℝ))
      (RiemannInvariantBC_pressure Real.sqrt (farFieldSystem ℝ)
        (extractFwd (farFieldSystem ℝ) 4 (uniformState [1, a, b, E]))).1
      (RiemannInvariantBC_Mach (farFieldSystem ℝ)
        (RiemannInvariantBC_Vn (farFieldSystem ℝ)
          (extractFwd (farFieldSystem ℝ) 4 (uniformState [1, a, b, E])))
        (RiemannInvariantBC_pressure Real.sqrt (farFieldSystem ℝ)
          (extractFwd (farFieldSystem ℝ) 4 (uniformState [1, a, b, E]))).2) 0
      = if |b| < 1 then (b + 5, -5) else (b + 5, b - 5) := by
  have hg : (farFieldSystem ℝ).m_gamma = 1.4 := rfl
  have hpI : (farFieldSystem ℝ).m_pInf = 5 / 7 := rfl
  have hrI : (farFieldSystem ℝ).m_rhoInf = 1 := rfl
  have hcI : (1.4 : ℝ) * (5 / 7) / 1 = 1 := by norm_num
  have h100 : (1.00 : ℝ) = 1 := by norm_num
  have hF0 : extractFwd (farFieldSystem ℝ) 4 (uniformState [1, a, b, E]) 0 0 = 1 :=
    farField_Fwd _ 0 (by decide)
  unfold RiemannInvariantBC_outflowChars
  simp only [farField_Mach a b E h, farField_Vn, farField_VnInf, farField_pressure, h, hF0,
    hg, hpI, hrI, hcI, Real.sqrt_one, h100]
  by_cases hb : |b| < 1
  · rw [if_pos hb, if_pos hb]
    norm_num
  · rw [if_neg hb, if_neg hb]
    norm_num

end FarFieldReal
section SupersonicPoints

/-- Supersonic outflow at a trace point: the value that `RiemannInvariantBC`
assigns is the interior trace value. -/
lemma RiemannInvariantBC_value_supersonic_outflow (S : CompressibleFlowSystem ℝ)
    (Fwd : Nat → Nat → ℝ) (v pnt : Nat) (hpnt : pnt < S.GetTraceTotPoints)
    (h1 : 1 ≤ S.m_spacedim) (h3 : S.m_spacedim ≤ 3) (hv : v < S.m_spacedim + 2)
    (hg : 1 < S.m_gamma) (hrho : 0 < Fwd 0 pnt)
    (hp : 0 < (RiemannInvariantBC_pressure Real.sqrt S Fwd).1 pnt)
    (hVn : 0 < RiemannInvariantBC_Vn S Fwd pnt)
    (hM : 1 ≤ RiemannInvariantBC_Mach S (RiemannInvariantBC_Vn S Fwd)
      (RiemannInvariantBC_pressure Real.sqrt S Fwd).2 pnt) :
    RiemannInvariantBC_value Real.sqrt Real.rpow S Fwd v pnt = Fwd v pnt := by
  have hV : ¬ (RiemannInvariantBC_Vn S Fwd pnt ≤ 0.0) := by
    rw [show (0.0 : ℝ) = 0 by norm_num]
    exact not_le.mpr hVn
  have hMn : ¬ (RiemannInvariantBC_Mach S (RiemannInvariantBC_Vn S Fwd)
      (RiemannInvariantBC_pressure Real.sqrt S Fwd).2 pnt < 1.00) := by
    rw [show (1.00 : ℝ) = 1 by norm_num]
    exact not_lt.mpr hM
  obtain ⟨t1, t2, t3⟩ := RiemannInvariantBC_state_supersonic S
    (RiemannInvariantBC_Vn S Fwd pnt) (Fwd 0 pnt)
    ((RiemannInvariantBC_pressure Real.sqrt S Fwd).1 pnt)
    (fun j => Fwd (j + 1) pnt / Fwd 0 pnt) pnt hg hrho hp
  have hg1 : S.m_gamma - 1 ≠ 0 := by linarith
  have hr0 : Fwd 0 pnt ≠ 0 := hrho.ne'
  by_cases hv0 : v = 0
  · subst hv0
    rw [RiemannInvariantBC_value_zero]
    unfold RiemannInvariantBC_point RiemannInvariantBC_outflowChars
    simp only [if_neg hV, if_neg hMn]
    exact t1
  by_cases hvE : v = S.m_spacedim + 1
  · subst hvE
    rw [RiemannInvariantBC_value_energy]
    unfold RiemannInvariantBC_point RiemannInvariantBC_outflowChars
    simp only [if_neg hV, if_neg hMn]
    rw [t3, RiemannInvariantBC_pressure_formula _ _ _ _ hpnt h1 h3]
    have hs : (∑ j in Finset.range S.m_spacedim,
        1 / 2 * Fwd 0 pnt * (Fwd (j + 1) pnt / Fwd 0 pnt) ^ 2)
        = 1 / 2 * (∑ j in Finset.range S.m_spacedim, (Fwd (j + 1) pnt) ^ 2) / Fwd 0 pnt := by
      rw [Finset.mul_sum, Finset.sum_div]
      refine Finset.sum_congr rfl (fun j _ => ?_)
      field_simp
      ring
    rw [hs]
    field_simp
    ring
  · obtain ⟨j, rfl⟩ : ∃ j, v = j + 1 := ⟨v - 1, by omega⟩
    have hj : j < S.m_spacedim := by omega
    rw [RiemannInvariantBC_value_momentum _ _ _ _ j pnt hj]
    unfold RiemannInvariantBC_point RiemannInvariantBC_outflowChars
    simp only [if_neg hV, if_neg hMn]
    rw [t2 j hj]
    field_simp

end SupersonicPoints

section FarFieldExpand

variable {K : Type} [LinearOrderedField K]

/-- The four trace values of a uniform state of density `1` in the far-field
sample. -/
lemma farFieldSystem_Fwd_expand (a b E : K) :
    extractFwd (farFieldSystem K) 4 (uniformState [1, a, b, E]) 0 0 = 1 ∧
    extractFwd (farFieldSystem K) 4 (uniformState [1, a, b, E]) 1 0 = a ∧
    extractFwd (farFieldSystem K) 4 (uniformState [1, a, b, E]) 2 0 = b ∧
    extractFwd (farFieldSystem K) 4 (uniformState [1, a, b, E]) 3 0 = E :=
  ⟨farField_Fwd _ 0 (by decide), farField_Fwd _ 1 (by decide), farField_Fwd _ 2 (by decide),
    farField_Fwd _ 3 (by decide)⟩

end FarFieldExpand
section WallPressureClaims

variable {K : Type} [LinearOrderedField K]

/-- The pressure of `GetPressure` at a point depends on the state only through
the density, the sum of the squared momentum components and the energy at that
point. -/
lemma GetPressure_eq_of_same_energies (S : CompressibleFlowSystem K) (nq1 nq2 : Nat)
    (phys1 phys2 : Nat → Nat → K) (p1 p2 : Nat → K) (k1 k2 : Nat)
    (h1 : 1 ≤ S.m_spacedim) (hk1 : k1 < nq1) (hk2 : k2 < nq2)
    (h0 : phys1 0 k1 = phys2 0 k2)
    (hE : phys1 (S.m_spacedim + 1) k1 = phys2 (S.m_spacedim + 1) k2)
    (hm : ∑ j in Finset.range S.m_spacedim, phys1 (1 + j) k1 ^ 2
      = ∑ j in Finset.range S.m_spacedim, phys2 (1 + j) k2 ^ 2) :
    GetPressure S nq1 phys1 p1 k1 = GetPressure S nq2 phys2 p2 k2 := by
  rw [GetPressure_apply S nq1 phys1 p1 k1 h1 hk1, GetPressure_apply S nq2 phys2 p2 k2 h1 hk2,
    h0, hE]
  simp only [← pow_two]
  rw [hm]

/-- C39: wall-type closures preserve pressure. For a state of `spacedim + 2`
variables (`spacedim ≥ 1`) and every boundary point of the region whose trace
density is not zero, `GetPressure` of the boundary state written by
`WallViscousBC` equals `GetPressure` of the interior trace state at that point;
when the trace normal at the point is a unit vector the same holds for the
boundary state written by `WallBC` and for the one written by `SymmetryBC`. -/
theorem Wall_closures_preserve_pressure (S : CompressibleFlowSystem K)
    (bcRegion cnt nVariables : Nat) (physarray : Nat → Nat → K)
    (bnd : Nat → Nat → Nat → K) (pressure0 pressure1 : Nat → K) (e i nBnd nTrace : Nat)
    (hn : nVariables = S.m_spacedim + 2) (h1 : 1 ≤ S.m_spacedim)
    (hlay : RegionLayout S bcRegion cnt (S.bndGetTotPoints bcRegion))
    (he : e < S.bndGetExpSize bcRegion) (hi : i < S.bndGetTotPoints bcRegion e)
    (hb : id1 S bcRegion e + i < nBnd) (ht : id2 S cnt e + i < nTrace)
    (_hrho : extractFwd S nVariables physarray 0 (id2 S cnt e + i) ≠ 0) :
    GetPressure S nBnd
        (fun v k => WallViscousBC S bcRegion cnt nVariables physarray bnd v bcRegion k)
        pressure0 (id1 S bcRegion e + i)
      = GetPressure S nTrace (extractFwd S nVariables physarray) pressure1
          (id2 S cnt e + i) ∧
    (∑ j in Finset.range S.m_spacedim, S.m_traceNormals j (id2 S cnt e + i) ^ 2 = 1 →
      GetPressure S nBnd
          (fun v k => WallBC S bcRegion cnt nVariables physarray bnd v bcRegion k)
          pressure0 (id1 S bcRegion e + i)
        = GetPressure S nTrace (extractFwd S nVariables physarray) pressure1
            (id2 S cnt e + i) ∧
      GetPressure S nBnd
          (fun v k => SymmetryBC S bcRegion cnt nVariables physarray bnd v bcRegion k)
          pressure0 (id1 S bcRegion e + i)
        = GetPressure S nTrace (extractFwd S nVariables physarray) pressure1
            (id2 S cnt e + i)) := by
  have hnot0 : ¬ (1 ≤ 0 ∧ 0 < 1 + S.m_spacedim) := by omega
  have hnotE : ¬ (1 ≤ S.m_spacedim + 1 ∧ S.m_spacedim + 1 < 1 + S.m_spacedim) := by omega
  have refl : ∀ out : Nat → Nat → K,
      (∀ v, v < nVariables → out v (id1 S bcRegion e + i)
        = wallReflect S (extractFwd S nVariables physarray) v (id2 S cnt e + i)) →
      ∑ j in Finset.range S.m_spacedim, S.m_traceNormals j (id2 S cnt e + i) ^ 2 = 1 →
      GetPressure S nBnd out pressure0 (id1 S bcRegion e + i)
        = GetPressure S nTrace (extractFwd S nVariables physarray) pressure1
            (id2 S cnt e + i) := by
    intro out hout hunit
    refine GetPressure_eq_of_same_energies S nBnd nTrace out _ pressure0 pressure1 _ _ h1 hb ht
      ?_ ?_ ?_
    · rw [hout 0 (by omega), wallReflect_other S _ 0 _ hnot0]
    · rw [hout _ (by omega), wallReflect_other S _ _ _ hnotE]
    · exact reflected_norm_sq S (extractFwd S nVariables physarray)
        (fun v => out v (id1 S bcRegion e + i)) (id2 S cnt e + i)
        (fun j hj => hout (1 + j) (by omega)) hunit
  refine ⟨?_, fun hunit => ⟨?_, ?_⟩⟩
  · refine GetPressure_eq_of_same_energies S nBnd nTrace _ _ pressure0 pressure1 _ _ h1 hb ht
      ?_ ?_ ?_
    · rw [WallViscousBC_apply S bcRegion cnt nVariables physarray bnd e i 0 hlay he hi
        (by omega)]
      unfold wallNegate
      rw [if_neg hnot0]
    · rw [WallViscousBC_apply S bcRegion cnt nVariables physarray bnd e i _ hlay he hi
        (by omega)]
      unfold wallNegate
      rw [if_neg hnotE]
    · refine Finset.sum_congr rfl (fun j hj => ?_)
      have hj2 := Finset.mem_range.mp hj
      rw [WallViscousBC_apply S bcRegion cnt nVariables physarray bnd e i _ hlay he hi
        (by omega)]
      unfold wallNegate
      rw [if_pos (by omega), neg_sq]
  · exact refl _ (fun v hv =>
      WallBC_apply S bcRegion cnt nVariables physarray bnd e i v hlay he hi hv) hunit
  · exact refl _ (fun v hv =>
      SymmetryBC_apply S bcRegion cnt nVariables physarray bnd e i v hlay he hi hv) hunit

/-- Witness for C39: 2-D, unit normal `(1, 0)`, two one-point elements, state
`(1, 2, 3, 5)`, second element: the pressure of the state written by
`WallViscousBC`, and of the one written by `WallBC`, is that of the trace
state. -/
theorem Wall_closures_preserve_pressure_witness :
    (4 = (sampleSystem ℚ 2 1.4 2).m_spacedim + 2
      ∧ 1 ≤ (sampleSystem ℚ 2 1.4 2).m_spacedim
      ∧ 1 < (sampleSystem ℚ 2 1.4 2).bndGetExpSize 0
      ∧ 0 < (sampleSystem ℚ 2 1.4 2).bndGetTotPoints 0 1
      ∧ extractFwd (sampleSystem ℚ 2 1.4 2) 4 (uniformState [1, 2, 3, 5]) 0
          (id2 (sampleSystem ℚ 2 1.4 2) 0 1 + 0) ≠ 0
      ∧ ∑ j in Finset.range (sampleSystem ℚ 2 1.4 2).m_spacedim,
          (sampleSystem ℚ 2 1.4 2).m_traceNormals j
            (id2 (sampleSystem ℚ 2 1.4 2) 0 1 + 0) ^ 2 = 1) ∧
    GetPressure (sampleSystem ℚ 2 1.4 2) 2
        (fun v k => WallViscousBC (sampleSystem ℚ 2 1.4 2) 0 0 4 (uniformState [1, 2, 3, 5])
          (fun _ _ _ => 0) v 0 k)
        (fun _ => 0) (id1 (sampleSystem ℚ 2 1.4 2) 0 1 + 0)
      = GetPressure (sampleSystem ℚ 2 1.4 2) 2
          (extractFwd (sampleSystem ℚ 2 1.4 2) 4 (uniformState [1, 2, 3, 5])) (fun _ => 0)
          (id2 (sampleSystem ℚ 2 1.4 2) 0 1 + 0) ∧
    GetPressure (sampleSystem ℚ 2 1.4 2) 2
        (fun v k => WallBC (sampleSystem ℚ 2 1.4 2) 0 0 4 (uniformState [1, 2, 3, 5])
          (fun _ _ _ => 0) v 0 k)
        (fun _ => 0) (id1 (sampleSystem ℚ 2 1.4 2) 0 1 + 0)
      = GetPressure (sampleSystem ℚ 2 1.4 2) 2
          (extractFwd (sampleSystem ℚ 2 1.4 2) 4 (uniformState [1, 2, 3, 5])) (fun _ => 0)
          (id2 (sampleSystem ℚ 2 1.4 2) 0 1 + 0) :=
  have hrho : extractFwd (sampleSystem ℚ 2 1.4 2) 4 (uniformState [1, 2, 3, 5]) 0
      (id2 (sampleSystem ℚ 2 1.4 2) 0 1 + 0) ≠ 0 := by
    rw [extractFwd_apply _ _ _ _ (by decide)]
    norm_num [sampleSystem, uniformState]
  have hunit : ∑ j in Finset.range (sampleSystem ℚ 2 1.4 2).m_spacedim,
      (sampleSystem ℚ 2 1.4 2).m_traceNormals j (id2 (sampleSystem ℚ 2 1.4 2) 0 1 + 0) ^ 2
        = 1 := by
    simp [sampleSystem, Finset.sum_range_succ]
  ⟨⟨by decide, by decide, by decide, by decide, hrho, hunit⟩,
    (Wall_closures_preserve_pressure (sampleSystem ℚ 2 1.4 2) 0 0 4
      (uniformState [1, 2, 3, 5]) (fun _ _ _ => 0) (fun _ => 0) (fun _ => 0) 1 0 2 2
      (by decide) (by decide) (sampleSystem_layout 2 1.4 2 0 0) (by decide) (by decide)
      (by decide) (by decide) hrho).1,
    ((Wall_closures_preserve_pressure (sampleSystem ℚ 2 1.4 2) 0 0 4
      (uniformState [1, 2, 3, 5]) (fun _ _ _ => 0) (fun _ => 0) (fun _ => 0) 1 0 2 2
      (by decide) (by decide) (sampleSystem_layout 2 1.4 2 0 0) (by decide) (by decide)
      (by decide) (by decide) hrho).2 hunit).1⟩

end WallPressureClaims
section SupersonicClaims

end SupersonicClaims
section EntropyClaims

/-- C37: the state written by `RiemannInvariantBC` is isentropic with its
reference state. For `gamma > 1`, spatial dimension at least 1 and every
boundary point of the region, let `(rPlus, rMinus)` be the pair of
characteristics of the point's branch and `sBC` its reference entropy,
`pInf / rhoInf^gamma` on an inflow point (`Vn <= 0`) and `p / rho^gamma` of the
interior trace state on an outflow point. If `sBC > 0` and
`cBC = (gamma - 1) (rPlus - rMinus) / 4 > 0`, then `GetPressure` of the boundary
state written (with the real square root and power), divided by the written
density to the power `gamma`, is `sBC`. -/
theorem RiemannInvariantBC_writes_isentropic_state (S : CompressibleFlowSystem ℝ)
    (bcRegion cnt nVariables : Nat) (physarray : Nat → Nat → ℝ)
    (bnd : Nat → Nat → Nat → ℝ) (pressure0 : Nat → ℝ) (e i nBnd : Nat)
    (Fwd : Nat → Nat → ℝ) (Vn Mach : Nat → ℝ) (ps : (Nat → ℝ) × (Nat → ℝ))
    (r : ℝ × ℝ) (sBC : ℝ)
    (hFwd : Fwd = extractFwd S nVariables physarray)
    (hVn : Vn = RiemannInvariantBC_Vn S Fwd)
    (hps : ps = RiemannInvariantBC_pressure Real.sqrt S Fwd)
    (hMach : Mach = RiemannInvariantBC_Mach S Vn ps.2)
    (hr : r = if Vn (id2 S cnt e + i) ≤ 0 then
        RiemannInvariantBC_inflowChars Real.sqrt S Fwd Vn (RiemannInvariantBC_VnInf S) ps.1
          Mach (id2 S cnt e + i)
      else
        RiemannInvariantBC_outflowChars Real.sqrt S Fwd Vn (RiemannInvariantBC_VnInf S) ps.1
          Mach (id2 S cnt e + i))
    (hsBC : sBC = if Vn (id2 S cnt e + i) ≤ 0 then S.m_pInf / Real.rpow S.m_rhoInf S.m_gamma
      else ps.1 (id2 S cnt e + i) / Real.rpow (Fwd 0 (id2 S cnt e + i)) S.m_gamma)
    (h1 : 1 ≤ S.m_spacedim)
    (hlay : RegionLayout S bcRegion cnt (S.bndGetNumPoints0 bcRegion))
    (he : e < S.bndGetExpSize bcRegion) (hi : i < S.bndGetNumPoints0 bcRegion e)
    (hb : id1 S bcRegion e + i < nBnd)
    (hg : 1 < S.m_gamma) (hs : 0 < sBC)
    (hc : 0 < (S.m_gamma - 1) * (r.1 - r.2) / 4) :
    GetPressure S nBnd
        (fun v k => RiemannInvariantBC Real.sqrt Real.rpow S bcRegion cnt nVariables physarray
          bnd v bcRegion k)
        pressure0 (id1 S bcRegion e + i)
      / Real.rpow
          (RiemannInvariantBC Real.sqrt Real.rpow S bcRegion cnt nVariables physarray bnd 0
            bcRegion (id1 S bcRegion e + i))
          S.m_gamma
      = sBC := by
  have h00 : (0.0 : ℝ) = 0 := by norm_num
  rw [GetPressure_apply S nBnd _ pressure0 _ h1 hb]
  rw [RiemannInvariantBC_apply Real.sqrt Real.rpow S bcRegion cnt nVariables physarray bnd
      e i 0 hlay he hi (by omega),
    RiemannInvariantBC_apply Real.sqrt Real.rpow S bcRegion cnt nVariables physarray bnd
      e i (S.m_spacedim + 1) hlay he hi (by omega)]
  have hsum : (∑ j in Finset.range S.m_spacedim,
      RiemannInvariantBC Real.sqrt Real.rpow S bcRegion cnt nVariables physarray bnd (1 + j)
          bcRegion (id1 S bcRegion e + i)
        * RiemannInvariantBC Real.sqrt Real.rpow S bcRegion cnt nVariables physarray bnd (1 + j)
          bcRegion (id1 S bcRegion e + i))
      = ∑ j in Finset.range S.m_spacedim,
        RiemannInvariantBC_value Real.sqrt Real.rpow S (extractFwd S nVariables physarray)
            (j + 1) (id2 S cnt e + i)
          * RiemannInvariantBC_value Real.sqrt Real.rpow S (extractFwd S nVariables physarray)
            (j + 1) (id2 S cnt e + i) := by
    refine Finset.sum_congr rfl (fun j hj => ?_)
    have hj2 := Finset.mem_range.mp hj
    rw [add_comm 1 j, RiemannInvariantBC_apply Real.sqrt Real.rpow S bcRegion cnt nVariables
      physarray bnd e i (j + 1) hlay he hi (by omega)]
  rw [hsum, RiemannInvariantBC_value_zero, RiemannInvariantBC_value_energy]
  have hmom : (∑ j in Finset.range S.m_spacedim,
      RiemannInvariantBC_value Real.sqrt Real.rpow S (extractFwd S nVariables physarray)
          (j + 1) (id2 S cnt e + i)
        * RiemannInvariantBC_value Real.sqrt Real.rpow S (extractFwd S nVariables physarray)
          (j + 1) (id2 S cnt e + i))
      = ∑ j in Finset.range S.m_spacedim,
        (RiemannInvariantBC_point Real.sqrt Real.rpow S (extractFwd S nVariables physarray)
            (RiemannInvariantBC_Vn S (extractFwd S nVariables physarray))
            (RiemannInvariantBC_VnInf S)
            (RiemannInvariantBC_pressure Real.sqrt S (extractFwd S nVariables physarray)).1
            (RiemannInvariantBC_Mach S
              (RiemannInvariantBC_Vn S (extractFwd S nVariables physarray))
              (RiemannInvariantBC_pressure Real.sqrt S (extractFwd S nVariables physarray)).2)
            (RiemannInvariantBC_velInf S) (id2 S cnt e + i)).2.1 j
          * (RiemannInvariantBC_point Real.sqrt Real.rpow S (extractFwd S nVariables physarray)
            (RiemannInvariantBC_Vn S (extractFwd S nVariables physarray))
            (RiemannInvariantBC_VnInf S)
            (RiemannInvariantBC_pressure Real.sqrt S (extractFwd S nVariables physarray)).1
            (RiemannInvariantBC_Mach S
              (RiemannInvariantBC_Vn S (extractFwd S nVariables physarray))
              (RiemannInvariantBC_pressure Real.sqrt S (extractFwd S nVariables physarray)).2)
            (RiemannInvariantBC_velInf S) (id2 S cnt e + i)).2.1 j := by
    refine Finset.sum_congr rfl (fun j hj => ?_)
    rw [RiemannInvariantBC_value_momentum _ _ _ _ j _ (Finset.mem_range.mp hj)]
  rw [hmom]
  subst hFwd hVn hps hMach
  unfold RiemannInvariantBC_point
  rw [h00]
  by_cases hV : RiemannInvariantBC_Vn S (extractFwd S nVariables physarray) (id2 S cnt e + i) ≤ 0
  · rw [if_pos hV] at hr hsBC
    simp only [if_pos hV]
    rw [← hr, ← hsBC]
    exact RiemannInvariantBC_state_entropy S r _ sBC _ _ hg hs hc
  · rw [if_neg hV] at hr hsBC
    simp only [if_neg hV]
    rw [← hr, ← hsBC]
    exact RiemannInvariantBC_state_entropy S r _ sBC _ _ hg hs hc

/-- Witness for C37: the 2-D far-field sample with the interior state
`(rho, rho u, rho v, E) = (1, 0, 2, 53/14)`, an outflow point with
`(rPlus, rMinus) = (7, -3)`, `cBC = 1` and `sBC = (5/7) / 1^1.4`. -/
theorem RiemannInvariantBC_writes_isentropic_state_witness :
    (1 < (farFieldSystem ℝ).m_gamma ∧ (0 : ℝ) < 5 / 7 / Real.rpow 1 1.4
      ∧ (0 : ℝ) < ((farFieldSystem ℝ).m_gamma - 1) * (((7, -3) : ℝ × ℝ).1
          - ((7, -3) : ℝ × ℝ).2) / 4) ∧
    GetPressure (farFieldSystem ℝ) 1
        (fun v k => RiemannInvariantBC Real.sqrt Real.rpow (farFieldSystem ℝ) 0 0 4
          (uniformState [1, 0, 2, 53 / 14]) (fun _ _ _ => 0) v 0 k)
        (fun _ => 0) (id1 (farFieldSystem ℝ) 0 0 + 0)
      / Real.rpow
          (RiemannInvariantBC Real.sqrt Real.rpow (farFieldSystem ℝ) 0 0 4
            (uniformState [1, 0, 2, 53 / 14]) (fun _ _ _ => 0) 0 0
            (id1 (farFieldSystem ℝ) 0 0 + 0))
          (farFieldSystem ℝ).m_gamma
      = 5 / 7 / Real.rpow 1 1.4 := by
  have hE : (2 / 5 : ℝ) * (53 / 14 - (0 ^ 2 + 2 ^ 2) / 2) = 5 / 7 := by norm_num
  have hgv : (farFieldSystem ℝ).m_gamma = 1.4 := rfl
  have hg : 1 < (farFieldSystem ℝ).m_gamma := by
    rw [hgv]
    norm_num
  have hs : (0 : ℝ) < 5 / 7 / Real.rpow 1 1.4 := by
    simp only [Real.rpow_eq_pow, Real.one_rpow]
    norm_num
  have hVn : ¬ (RiemannInvariantBC_Vn (farFieldSystem ℝ)
      (extractFwd (farFieldSystem ℝ) 4 (uniformState [1, 0, 2, 53 / 14]))
      (id2 (farFieldSystem ℝ) 0 0 + 0) ≤ 0) := by
    have h := farField_Vn (0 : ℝ) 2 (53 / 14)
    have hid : id2 (farFieldSystem ℝ) 0 0 + 0 = 0 := rfl
    rw [hid, h]
    norm_num
  have hr : ((7, -3) : ℝ × ℝ)
      = if RiemannInvariantBC_Vn (farFieldSystem ℝ)
            (extractFwd (farFieldSystem ℝ) 4 (uniformState [1, 0, 2, 53 / 14]))
            (id2 (farFieldSystem ℝ) 0 0 + 0) ≤ 0 then
          RiemannInvariantBC_inflowChars Real.sqrt (farFieldSystem ℝ)
            (extractFwd (farFieldSystem ℝ) 4 (uniformState [1, 0, 2, 53 / 14]))
            (RiemannInvariantBC_Vn (farFieldSystem ℝ)
              (extractFwd (farFieldSystem ℝ) 4 (uniformState [1, 0, 2, 53 / 14])))
            (RiemannInvariantBC_VnInf (farFieldSystem ℝ))
            (RiemannInvariantBC_pressure Real.sqrt (farFieldSystem ℝ)
              (extractFwd (farFieldSystem ℝ) 4 (uniformState [1, 0, 2, 53 / 14]))).1
            (RiemannInvariantBC_Mach (farFieldSystem ℝ)
              (RiemannInvariantBC_Vn (farFieldSystem ℝ)
                (extractFwd (farFieldSystem ℝ) 4 (uniformState [1, 0, 2, 53 / 14])))
              (RiemannInvariantBC_pressure Real.sqrt (farFieldSystem ℝ)
                (extractFwd (farFieldSystem ℝ) 4 (uniformState [1, 0, 2, 53 / 14]))).2)
            (id2 (farFieldSystem ℝ) 0 0 + 0)
        else
          RiemannInvariantBC_outflowChars Real.sqrt (farFieldSystem ℝ)
            (extractFwd (farFieldSystem ℝ) 4 (uniformState [1, 0, 2, 53 / 14]))
            (RiemannInvariantBC_Vn (farFieldSystem ℝ)
              (extractFwd (farFieldSystem ℝ) 4 (uniformState [1, 0, 2, 53 / 14])))
            (RiemannInvariantBC_VnInf (farFieldSystem ℝ))
            (RiemannInvariantBC_pressure Real.sqrt (farFieldSystem ℝ)
              (extractFwd (farFieldSystem ℝ) 4 (uniformState [1, 0, 2, 53 / 14]))).1
            (RiemannInvariantBC_Mach (farFieldSystem ℝ)
              (RiemannInvariantBC_Vn (farFieldSystem ℝ)
                (extractFwd (farFieldSystem ℝ) 4 (uniformState [1, 0, 2, 53 / 14])))
              (RiemannInvariantBC_pressure Real.sqrt (farFieldSystem ℝ)
                (extractFwd (farFieldSystem ℝ) 4 (uniformState [1, 0, 2, 53 / 14]))).2)
            (id2 (farFieldSystem ℝ) 0 0 + 0) := by
    rw [if_neg hVn]
    have hid : id2 (farFieldSystem ℝ) 0 0 + 0 = 0 := rfl
    rw [hid, farField_outflowChars 0 2 (53 / 14) hE, if_neg (by norm_num)]
    norm_num
  have hsBC : (5 / 7 / Real.rpow 1 1.4 : ℝ)
      = if RiemannInvariantBC_Vn (farFieldSystem ℝ)
            (extractFwd (farFieldSystem ℝ) 4 (uniformState [1, 0, 2, 53 / 14]))
            (id2 (farFieldSystem ℝ) 0 0 + 0) ≤ 0 then
          (farFieldSystem ℝ).m_pInf
            / Real.rpow (farFieldSystem ℝ).m_rhoInf (farFieldSystem ℝ).m_gamma
        else
          (RiemannInvariantBC_pressure Real.sqrt (farFieldSystem ℝ)
              (extractFwd (farFieldSystem ℝ) 4 (uniformState [1, 0, 2, 53 / 14]))).1
              (id2 (farFieldSystem ℝ) 0 0 + 0)
            / Real.rpow
              (extractFwd (farFieldSystem ℝ) 4 (uniformState [1, 0, 2, 53 / 14]) 0
                (id2 (farFieldSystem ℝ) 0 0 + 0))
              (farFieldSystem ℝ).m_gamma := by
    rw [if_neg hVn]
    have hid : id2 (farFieldSystem ℝ) 0 0 + 0 = 0 := rfl
    rw [hid, farField_pressure, hE, (farFieldSystem_Fwd_expand (0 : ℝ) 2 (53 / 14)).1, hgv]
  have hc : (0 : ℝ) < ((farFieldSystem ℝ).m_gamma - 1) * (((7, -3) : ℝ × ℝ).1
      - ((7, -3) : ℝ × ℝ).2) / 4 := by
    rw [hgv]
    norm_num
  refine ⟨⟨hg, hs, hc⟩, ?_⟩
  exact RiemannInvariantBC_writes_isentropic_state (farFieldSystem ℝ) 0 0 4
    (uniformState [1, 0, 2, 53 / 14]) (fun _ _ _ => 0) (fun _ => 0) 0 0 1
    _ _ _ _ (7, -3) (5 / 7 / Real.rpow 1 1.4) rfl rfl rfl rfl hr hsBC
    (by decide) farFieldSystem_layout0 (by decide) (by decide) (by decide) hg hs hc

end EntropyClaims
section MachClaims

/-- C35 (the code at a failing input): 2-D far-field sample, unit trace normal
`(0, 1)`, interior state `(rho, rho u, rho v, E) = (1, 2, 1/2, 219/56)`, so
velocity `(2, 1/2)`, pressure `5/7` and sound speed `1`. The array `absVel`
that the function computes "to decide whether supersonic or subsonic" holds
`|v| = sqrt (17/4)` there, so `|v| / c >= 1`; the array `Mach` that the branch
test reads holds `|Vn| / c = 1/2 < 1`, and the outflow branch takes the
subsonic pair of characteristics `(11/2, -5)`, whose second entry is the
freestream one, not the interior one `Vn - 2 c / (gamma - 1) = -9/2`. -/
theorem RiemannInvariantBC_branch_uses_normal_Mach :
    RiemannInvariantBC_absVel Real.sqrt (farFieldSystem ℝ)
        (extractFwd (farFieldSystem ℝ) 4 (uniformState [1, 2, 1 / 2, 219 / 56]))
        (Vmath.Smul (farFieldSystem ℝ).GetTraceTotPoints (farFieldSystem ℝ).m_vInf
          ((farFieldSystem ℝ).m_traceNormals 0) (fun _ => 0.0) 0) 0
      = Real.sqrt (17 / 4) ∧
    (RiemannInvariantBC_pressure Real.sqrt (farFieldSystem ℝ)
        (extractFwd (farFieldSystem ℝ) 4 (uniformState [1, 2, 1 / 2, 219 / 56]))).2 0 = 1 ∧
    ¬ (RiemannInvariantBC_absVel Real.sqrt (farFieldSystem ℝ)
        (extractFwd (farFieldSystem ℝ) 4 (uniformState [1, 2, 1 / 2, 219 / 56]))
        (Vmath.Smul (farFieldSystem ℝ).GetTraceTotPoints (farFieldSystem ℝ).m_vInf
          ((farFieldSystem ℝ).m_traceNormals 0) (fun _ => 0.0) 0) 0
      / (RiemannInvariantBC_pressure Real.sqrt (farFieldSystem ℝ)
        (extractFwd (farFieldSystem ℝ) 4 (uniformState [1, 2, 1 / 2, 219 / 56]))).2 0 < 1) ∧
    RiemannInvariantBC_Mach (farFieldSystem ℝ)
        (RiemannInvariantBC_Vn (farFieldSystem ℝ)
          (extractFwd (farFieldSystem ℝ) 4 (uniformState [1, 2, 1 / 2, 219 / 56])))
        (RiemannInvariantBC_pressure Real.sqrt (farFieldSystem ℝ)
          (extractFwd (farFieldSystem ℝ) 4 (uniformState [1, 2, 1 / 2, 219 / 56]))).2 0
      = 1 / 2 ∧
    RiemannInvariantBC_outflowChars Real.sqrt (farFieldSystem ℝ)
        (extractFwd (farFieldSystem ℝ) 4 (uniformState [1, 2, 1 / 2, 219 / 56]))
        (RiemannInvariantBC_Vn (farFieldSystem ℝ)
          (extractFwd (farFieldSystem ℝ) 4 (uniformState [1, 2, 1 / 2, 219 / 56])))
        (RiemannInvariantBC_VnInf (farFieldSystem ℝ))
        (RiemannInvariantBC_pressure Real.sqrt (farFieldSystem ℝ)
          (extractFwd (farFieldSystem ℝ) 4 (uniformState [1, 2, 1 / 2, 219 / 56]))).1
        (RiemannInvariantBC_Mach (farFieldSystem ℝ)
          (RiemannInvariantBC_Vn (farFieldSystem ℝ)
            (extractFwd (farFieldSystem ℝ) 4 (uniformState [1, 2, 1 / 2, 219 / 56])))
          (RiemannInvariantBC_pressure Real.sqrt (farFieldSystem ℝ)
            (extractFwd (farFieldSystem ℝ) 4 (uniformState [1, 2, 1 / 2, 219 / 56]))).2) 0
      = (11 / 2, -5) := by
  have hE : (2 / 5 : ℝ) * (219 / 56 - (2 ^ 2 + (1 / 2) ^ 2) / 2) = 5 / 7 := by norm_num
  have hsd : (farFieldSystem ℝ).m_spacedim = 2 := rfl
  obtain ⟨hF0, hF1, hF2, -⟩ := farFieldSystem_Fwd_expand (2 : ℝ) (1 / 2) (219 / 56)
  have habs : RiemannInvariantBC_absVel Real.sqrt (farFieldSystem ℝ)
      (extractFwd (farFieldSystem ℝ) 4 (uniformState [1, 2, 1 / 2, 219 / 56]))
      (Vmath.Smul (farFieldSystem ℝ).GetTraceTotPoints (farFieldSystem ℝ).m_vInf
        ((farFieldSystem ℝ).m_traceNormals 0) (fun _ => 0.0) 0) 0
      = Real.sqrt (17 / 4) := by
    rw [RiemannInvariantBC_absVel_apply _ _ _ _ _ (by decide), hsd]
    simp only [Finset.sum_range_succ, Finset.sum_range_zero]
    rw [hF0, hF1, hF2]
    norm_num
  have hc := farField_soundSpeed 2 (1 / 2) (219 / 56) hE
  have hM := farField_Mach 2 (1 / 2) (219 / 56) hE
  refine ⟨habs, hc, ?_, ?_, ?_⟩
  · rw [habs, hc, div_one, not_lt]
    exact Real.one_le_sqrt.mpr (by norm_num)
  · rw [hM]
    norm_num [abs_of_pos]
  · rw [farField_outflowChars 2 (1 / 2) (219 / 56) hE,
      if_pos (by norm_num [abs_of_pos])]
    norm_num

/-- C36 (the code at a failing input): in the 2-D far-field sample, with
freestream velocity `(uInf, vInf) = (0, 1/2)` and the unit trace normal
`(n_x, n_y) = (0, 1)`, the array `VnInf` of `RiemannInvariantBC` holds `0`,
whereas the dot product `uInf n_x + vInf n_y` is `1/2`. -/
theorem RiemannInvariantBC_VnInf_not_dot_product :
    RiemannInvariantBC_VnInf (farFieldSystem ℚ) 0 = 0 ∧
    (farFieldSystem ℚ).m_uInf * (farFieldSystem ℚ).m_traceNormals 0 0
      + (farFieldSystem ℚ).m_vInf * (farFieldSystem ℚ).m_traceNormals 1 0 = 1 / 2 ∧
    RiemannInvariantBC_VnInf (farFieldSystem ℚ) 0
      ≠ (farFieldSystem ℚ).m_uInf * (farFieldSystem ℚ).m_traceNormals 0 0
        + (farFieldSystem ℚ).m_vInf * (farFieldSystem ℚ).m_traceNormals 1 0 := by
  have hdot : (farFieldSystem ℚ).m_uInf * (farFieldSystem ℚ).m_traceNormals 0 0
      + (farFieldSystem ℚ).m_vInf * (farFieldSystem ℚ).m_traceNormals 1 0 = 1 / 2 := by
    simp [farFieldSystem]
    norm_num
  refine ⟨farField_VnInf, hdot, ?_⟩
  rw [farField_VnInf, hdot]
  norm_num

end MachClaims

section CharacteristicsClaim

variable {K : Type} [LinearOrderedField K]

end CharacteristicsClaim
section CharacteristicsWitness

end CharacteristicsWitness
section FacePointClaims

variable {K : Type} [LinearOrderedField K]

/-- The face sample has one boundary element: the layout condition holds for
every point count. -/
lemma faceSystem_layout (npts : Nat → Nat) : RegionLayout (faceSystem K) 0 0 npts := by
  intro e1 e2 h1 h2 hne
  simp only [faceSystem, sampleSystem] at h1 h2
  omega

/-- The forward trace of a uniform state in the face sample. -/
lemma faceSystem_Fwd (vals : List K) (w pnt : Nat) (hw : w < 5) :
    extractFwd (faceSystem K) 5 (uniformState vals) w pnt = vals.getD w 0 := by
  rw [extractFwd_apply _ _ _ _ hw]
  rfl

/-- C15 (the code at a failing input): a 3-D problem whose boundary region is
one quadrilateral face with `2 x 2` points (`GetTotPoints() = 4`,
`GetNumPoints(0) = 2`), the uniform interior state
`(rho, rho u, rho v, rho w, E) = (1, 2, 3, 4, 5)` and a boundary storage that
holds `0` everywhere before the call. `ExtrapOrder0BC` writes the trace density
`1` at the points `0` and `1` of the face, and leaves the points `2` and `3`
as they were: the storage holds `0` there, not the trace density `1` (the same
for the energy at point `3`), whereas `WallBC`, which loops over
`GetTotPoints()`, does write the point `2`. -/
theorem ExtrapOrder0BC_skips_face_points :
    ((faceSystem ℚ).bndGetTotPoints 0 0 = 4 ∧ (faceSystem ℚ).bndGetNumPoints0 0 0 = 2) ∧
    (ExtrapOrder0BC (faceSystem ℚ) 0 0 5 (uniformState [1, 2, 3, 4, 5]) (fun _ _ _ => 0)
        0 0 (id1 (faceSystem ℚ) 0 0 + 0) = 1 ∧
      ExtrapOrder0BC (faceSystem ℚ) 0 0 5 (uniformState [1, 2, 3, 4, 5]) (fun _ _ _ => 0)
        0 0 (id1 (faceSystem ℚ) 0 0 + 1) = 1) ∧
    (ExtrapOrder0BC (faceSystem ℚ) 0 0 5 (uniformState [1, 2, 3, 4, 5]) (fun _ _ _ => 0)
        0 0 (id1 (faceSystem ℚ) 0 0 + 2) = 0 ∧
      ExtrapOrder0BC (faceSystem ℚ) 0 0 5 (uniformState [1, 2, 3, 4, 5]) (fun _ _ _ => 0)
        0 0 (id1 (faceSystem ℚ) 0 0 + 3) = 0 ∧
      ExtrapOrder0BC (faceSystem ℚ) 0 0 5 (uniformState [1, 2, 3, 4, 5]) (fun _ _ _ => 0)
        4 0 (id1 (faceSystem ℚ) 0 0 + 3) = 0) ∧
    (extractFwd (faceSystem ℚ) 5 (uniformState [1, 2, 3, 4, 5]) 0
        (id2 (faceSystem ℚ) 0 0 + 2) = 1 ∧
      extractFwd (faceSystem ℚ) 5 (uniformState [1, 2, 3, 4, 5]) 0
        (id2 (faceSystem ℚ) 0 0 + 3) = 1 ∧
      extractFwd (faceSystem ℚ) 5 (uniformState [1, 2, 3, 4, 5]) 4
        (id2 (faceSystem ℚ) 0 0 + 3) = 5) ∧
    WallBC (faceSystem ℚ) 0 0 5 (uniformState [1, 2, 3, 4, 5]) (fun _ _ _ => 0)
        0 0 (id1 (faceSystem ℚ) 0 0 + 2) = 1 := by
  have hw : ∀ i, i < 2 →
      ExtrapOrder0BC (faceSystem ℚ) 0 0 5 (uniformState [1, 2, 3, 4, 5]) (fun _ _ _ => 0)
        0 0 (id1 (faceSystem ℚ) 0 0 + i) = 1 := by
    intro i hi
    rw [ExtrapOrder0BC_apply (faceSystem ℚ) 0 0 5 (uniformState [1, 2, 3, 4, 5])
      (fun _ _ _ => 0) 0 i 0 (by decide) (faceSystem_layout _) (by decide) hi (by decide),
      faceSystem_Fwd _ 0 _ (by decide)]
    rfl
  refine ⟨⟨rfl, rfl⟩, ⟨hw 0 (by decide), hw 1 (by decide)⟩, ⟨?_, ?_, ?_⟩,
    ⟨?_, ?_, ?_⟩, ?_⟩
  · rfl
  · rfl
  · rfl
  · rw [faceSystem_Fwd _ 0 _ (by decide)]
    rfl
  · rw [faceSystem_Fwd _ 0 _ (by decide)]
    rfl
  · rw [faceSystem_Fwd _ 4 _ (by decide)]
    rfl
  · rw [WallBC_apply (faceSystem ℚ) 0 0 5 (uniformState [1, 2, 3, 4, 5]) (fun _ _ _ => 0)
      0 2 0 (faceSystem_layout _) (by decide) (by decide) (by decide),
      wallReflect_other _ _ 0 _ (by omega), faceSystem_Fwd _ 0 _ (by decide)]
    rfl

end FacePointClaims
section FacePointRiemann

/-- In the face sample with the uniform interior state
`(rho, rho u, rho v, rho w, E) = (1, 2, 0, 0, 53/14)` every trace point is a
supersonic outflow point (pressure `5/7`, sound speed `1`, `Vn = 2`), and the
state that `RiemannInvariantBC` computes for it from the chosen pair is the
interior state. -/
lemma faceSystem_value (v pnt : Nat) (hv : v < 5) (hpnt : pnt < 4) :
    RiemannInvariantBC_value Real.sqrt Real.rpow (faceSystem ℝ)
        (extractFwd (faceSystem ℝ) 5 (uniformState [1, 2, 0, 0, 53 / 14])) v pnt
      = [(1 : ℝ), 2, 0, 0, 53 / 14].getD v 0 := by
  have hsd : (faceSystem ℝ).m_spacedim = 3 := rfl
  have hgv : (faceSystem ℝ).m_gamma = 1.4 := rfl
  have hnT : (faceSystem ℝ).GetTraceTotPoints = 4 := rfl
  have hn : ∀ j, (faceSystem ℝ).m_traceNormals j pnt = if j = 0 then 1 else 0 := fun _ => rfl
  have hF : ∀ w, w < 5 →
      extractFwd (faceSystem ℝ) 5 (uniformState [1, 2, 0, 0, 53 / 14]) w pnt
        = [(1 : ℝ), 2, 0, 0, 53 / 14].getD w 0 := fun w hw => faceSystem_Fwd _ w pnt hw
  have hF0 := hF 0 (by decide)
  have hF1 := hF 1 (by decide)
  have hF2 := hF 2 (by decide)
  have hF3 := hF 3 (by decide)
  have hF4 := hF 4 (by decide)
  simp only [List.getD_cons_zero, List.getD_cons_succ] at hF0 hF1 hF2 hF3 hF4
  have hp : (RiemannInvariantBC_pressure Real.sqrt (faceSystem ℝ)
      (extractFwd (faceSystem ℝ) 5 (uniformState [1, 2, 0, 0, 53 / 14]))).1 pnt = 5 / 7 := by
    rw [RiemannInvariantBC_pressure_formula _ _ _ _ (by rw [hnT]; exact hpnt) (by decide)
      (by decide), hsd, hgv]
    simp only [Finset.sum_range_succ, Finset.sum_range_zero]
    rw [hF0, hF1, hF2, hF3, hF4]
    norm_num
  have hc : (RiemannInvariantBC_pressure Real.sqrt (faceSystem ℝ)
      (extractFwd (faceSystem ℝ) 5 (uniformState [1, 2, 0, 0, 53 / 14]))).2 pnt = 1 := by
    rw [(RiemannInvariantBC_pressure_apply _ _ _ _ (by rw [hnT]; exact hpnt)).2, hp, hF0, hgv]
    rw [show (1.4 : ℝ) * (5 / 7) / 1 = 1 by norm_num, Real.sqrt_one]
  have hVn : RiemannInvariantBC_Vn (faceSystem ℝ)
      (extractFwd (faceSystem ℝ) 5 (uniformState [1, 2, 0, 0, 53 / 14])) pnt = 2 := by
    rw [RiemannInvariantBC_Vn_apply _ _ _ (by rw [hnT]; exact hpnt), hsd]
    simp only [Finset.sum_range_succ, Finset.sum_range_zero]
    rw [hF0, hF1, hF2, hF3, hn 0, hn 1, hn 2]
    norm_num
  have hM : RiemannInvariantBC_Mach (faceSystem ℝ)
      (RiemannInvariantBC_Vn (faceSystem ℝ)
        (extractFwd (faceSystem ℝ) 5 (uniformState [1, 2, 0, 0, 53 / 14])))
      (RiemannInvariantBC_pressure Real.sqrt (faceSystem ℝ)
        (extractFwd (faceSystem ℝ) 5 (uniformState [1, 2, 0, 0, 53 / 14]))).2 pnt = 2 := by
    rw [RiemannInvariantBC_Mach_apply _ _ _ _ (by rw [hnT]; exact hpnt), hVn, hc]
    norm_num
  rw [RiemannInvariantBC_value_supersonic_outflow (faceSystem ℝ) _ v pnt
    (by rw [hnT]; exact hpnt) (by decide) (by decide) (by rw [hsd]; exact hv)
    (by rw [hgv]; norm_num) (by rw [hF0]; norm_num) (by rw [hp]; norm_num)
    (by rw [hVn]; norm_num) (by rw [hM]; norm_num)]
  exact hF v hv

/-- C13 (the code at a failing input): a 3-D problem whose boundary region is
one quadrilateral face with `2 x 2` points (`GetTotPoints() = 4`,
`GetNumPoints(0) = 2`), unit normal `(1, 0, 0)`, `gamma = 1.4`, the uniform
interior state `(rho, rho u, rho v, rho w, E) = (1, 2, 0, 0, 53/14)` (a
supersonic outflow state) and a boundary storage that holds `0` everywhere
before the call. At every trace point of the face the state computed from the
chosen pair has density `1` and energy `53/14`. `RiemannInvariantBC` writes it
at the points `0` and `1` of the face and leaves the points `2` and `3` as they
were: the storage holds density `0` and energy `0` there, whereas `WallBC`,
which loops over `GetTotPoints()`, does write the point `2`. -/
theorem RiemannInvariantBC_skips_face_points :
    ((faceSystem ℝ).bndGetTotPoints 0 0 = 4 ∧ (faceSystem ℝ).bndGetNumPoints0 0 0 = 2) ∧
    (RiemannInvariantBC Real.sqrt Real.rpow (faceSystem ℝ) 0 0 5
        (uniformState [1, 2, 0, 0, 53 / 14]) (fun _ _ _ => 0) 0 0
        (id1 (faceSystem ℝ) 0 0 + 0) = 1 ∧
      RiemannInvariantBC Real.sqrt Real.rpow (faceSystem ℝ) 0 0 5
        (uniformState [1, 2, 0, 0, 53 / 14]) (fun _ _ _ => 0) 0 0
        (id1 (faceSystem ℝ) 0 0 + 1) = 1 ∧
      RiemannInvariantBC Real.sqrt Real.rpow (faceSystem ℝ) 0 0 5
        (uniformState [1, 2, 0, 0, 53 / 14]) (fun _ _ _ => 0) 4 0
        (id1 (faceSystem ℝ) 0 0 + 1) = 53 / 14) ∧
    (RiemannInvariantBC_value Real.sqrt Real.rpow (faceSystem ℝ)
        (extractFwd (faceSystem ℝ) 5 (uniformState [1, 2, 0, 0, 53 / 14])) 0
        (id2 (faceSystem ℝ) 0 0 + 2) = 1 ∧
      RiemannInvariantBC_value Real.sqrt Real.rpow (faceSystem ℝ)
        (extractFwd (faceSystem ℝ) 5 (uniformState [1, 2, 0, 0, 53 / 14])) 0
        (id2 (faceSystem ℝ) 0 0 + 3) = 1 ∧
      RiemannInvariantBC_value Real.sqrt Real.rpow (faceSystem ℝ)
        (extractFwd (faceSystem ℝ) 5 (uniformState [1, 2, 0, 0, 53 / 14])) 4
        (id2 (faceSystem ℝ) 0 0 + 3) = 53 / 14) ∧
    (RiemannInvariantBC Real.sqrt Real.rpow (faceSystem ℝ) 0 0 5
        (uniformState [1, 2, 0, 0, 53 / 14]) (fun _ _ _ => 0) 0 0
        (id1 (faceSystem ℝ) 0 0 + 2) = 0 ∧
      RiemannInvariantBC Real.sqrt Real.rpow (faceSystem ℝ) 0 0 5
        (uniformState [1, 2, 0, 0, 53 / 14]) (fun _ _ _ => 0) 0 0
        (id1 (faceSystem ℝ) 0 0 + 3) = 0 ∧
      RiemannInvariantBC Real.sqrt Real.rpow (faceSystem ℝ) 0 0 5
        (uniformState [1, 2, 0, 0, 53 / 14]) (fun _ _ _ => 0) 4 0
        (id1 (faceSystem ℝ) 0 0 + 3) = 0) ∧
    WallBC (faceSystem ℝ) 0 0 5 (uniformState [1, 2, 0, 0, 53 / 14]) (fun _ _ _ => 0)
        0 0 (id1 (faceSystem ℝ) 0 0 + 2) = 1 := by
  have hw : ∀ i v, i < 2 → v < 5 →
      RiemannInvariantBC Real.sqrt Real.rpow (faceSystem ℝ) 0 0 5
        (uniformState [1, 2, 0, 0, 53 / 14]) (fun _ _ _ => 0) v 0
        (id1 (faceSystem ℝ) 0 0 + i) = [(1 : ℝ), 2, 0, 0, 53 / 14].getD v 0 := by
    intro i v hi hv
    rw [RiemannInvariantBC_apply Real.sqrt Real.rpow (faceSystem ℝ) 0 0 5
      (uniformState [1, 2, 0, 0, 53 / 14]) (fun _ _ _ => 0) 0 i v (faceSystem_layout _)
      (by decide) hi (by show v < 3 + 2; omega)]
    exact faceSystem_value v _ hv (by show 0 + i < 4; omega)
  refine ⟨⟨rfl, rfl⟩, ⟨hw 0 0 (by decide) (by decide), hw 1 0 (by decide) (by decide),
    hw 1 4 (by decide) (by decide)⟩,
    ⟨faceSystem_value 0 _ (by decide) (by decide), faceSystem_value 0 _ (by decide) (by decide),
      faceSystem_value 4 _ (by decide) (by decide)⟩, ⟨?_, ?_, ?_⟩, ?_⟩
  · rfl
  · rfl
  · rfl
  · rw [WallBC_apply (faceSystem ℝ) 0 0 5 (uniformState [1, 2, 0, 0, 53 / 14])
      (fun _ _ _ => 0) 0 2 0 (faceSystem_layout _) (by decide) (by decide) (by decide),
      wallReflect_other _ _ 0 _ (by omega), faceSystem_Fwd _ 0 _ (by decide)]
    rfl

end FacePointRiemann
section TimeStepScalingClaim

variable {K : Type} [LinearOrderedField K]

/-- The running maximum from `0` bounds every value. -/
lemma maxfold_ge (nq : Nat) (f : Nat → K) (i : Nat) (hi : i < nq) :
    f i ≤ forLoop 0 nq (fun i mx => max mx (f i)) 0 := by
  induction nq with
  | zero => omega
  | succ k ih =>
    rw [forLoop_from_zero_succ]
    by_cases hik : i = k
    · subst hik
      exact le_max_right _ _
    · exact le_trans (ih (by omega)) (le_max_left _ _)

/-- C28: the time step of element `el` is inverse in its bound velocity. With
geometry, orders, safety factor and estimator constant fixed, the time step is
`tstep[el] = (m_cflSafetyFactor alpha minLength / (0.2 (ExpOrder[el] - 1)^2))
/ stdVelocity[el]`, with `minLength = 2 sqrt(Area)` for a triangle and
`sqrt(Area)` for a quadrilateral or hexahedron, whatever the bound velocities
are; so bound velocities with twice the value at `el` give half the time step.
In particular, for two states at rest (zero momentum at every point) such that
the sound speed `GetStdVelocity` computes is twice as large for the second
state at every point of the element: the bound velocity that `GetStdVelocity`
stores for the element is at least the sound speed at each point of the element
(for either state), the second is twice the first, and the time step is halved;
`sqrt` is any function with `sqrt 0 = 0`, and the points of the element are
among the `GetTotPoints()` points. -/
theorem time_step_inverse_in_bound_velocity (sqrt : K → K) (S : CompressibleFlowSystem K)
    (E : ExpansionData K) (minLength0 : K) (el : Nat) (hel : el < E.GetExpSize) :
    (∃ minLength : K,
      (E.isTriExp el = true →
        minLength
          = 2 * sqrt (E.Integral el (Vmath.Fill (E.expGetTotPoints el) 1 (fun _ => 0) 0))) ∧
      (E.isTriExp el = false → E.isQuadExp el = true ∨ E.isHexExp el = true →
        minLength
          = sqrt (E.Integral el (Vmath.Fill (E.expGetTotPoints el) 1 (fun _ => 0) 0))) ∧
      ∀ stdVelocity : Nat → K,
        v_GetTimeStep_tstep sqrt E stdVelocity minLength0 el
          = E.m_cflSafetyFactor * E.MaxTimeStepEstimator * minLength
              / (1 / 5 * ((E.ExpOrder el : K) - 1) ^ 2)
            / stdVelocity el) ∧
    (∀ sv1 sv2 : Nat → K, sv2 el = 2 * sv1 el →
      v_GetTimeStep_tstep sqrt E sv2 minLength0 el
        = v_GetTimeStep_tstep sqrt E sv1 minLength0 el / 2) ∧
    (∀ inarray1 inarray2 : Nat → Nat → K,
      sqrt 0 = 0 →
      E.expGetTotPoints el ≤ S.GetTotPoints →
      (∀ j q, j < S.m_spacedim → q < S.GetTotPoints →
        inarray1 (1 + j) q = 0 ∧ inarray2 (1 + j) q = 0) →
      (∀ i, i < E.expGetTotPoints el →
        GetSoundSpeed sqrt S inarray2
            (GetPressureVel S S.GetTotPoints inarray2
              (GetVelocityVector S S.GetTotPoints inarray2 (fun _ _ => 0)) (fun _ => 0))
            (fun _ => 0) (∑ e2 in Finset.range el, E.expGetTotPoints e2 + i)
          = 2 * GetSoundSpeed sqrt S inarray1
            (GetPressureVel S S.GetTotPoints inarray1
              (GetVelocityVector S S.GetTotPoints inarray1 (fun _ _ => 0)) (fun _ => 0))
            (fun _ => 0) (∑ e2 in Finset.range el, E.expGetTotPoints e2 + i)) →
      (∀ i, i < E.expGetTotPoints el →
        GetSoundSpeed sqrt S inarray1
            (GetPressureVel S S.GetTotPoints inarray1
              (GetVelocityVector S S.GetTotPoints inarray1 (fun _ _ => 0)) (fun _ => 0))
            (fun _ => 0) (∑ e2 in Finset.range el, E.expGetTotPoints e2 + i)
          ≤ GetStdVelocity sqrt S E E.GetExpSize inarray1 (fun _ => 0) el ∧
        GetSoundSpeed sqrt S inarray2
            (GetPressureVel S S.GetTotPoints inarray2
              (GetVelocityVector S S.GetTotPoints inarray2 (fun _ _ => 0)) (fun _ => 0))
            (fun _ => 0) (∑ e2 in Finset.range el, E.expGetTotPoints e2 + i)
          ≤ GetStdVelocity sqrt S E E.GetExpSize inarray2 (fun _ => 0) el) ∧
      GetStdVelocity sqrt S E E.GetExpSize inarray2 (fun _ => 0) el
          = 2 * GetStdVelocity sqrt S E E.GetExpSize inarray1 (fun _ => 0) el ∧
        v_GetTimeStep_tstep sqrt E
            (GetStdVelocity sqrt S E E.GetExpSize inarray2 (fun _ => 0)) minLength0 el
          = v_GetTimeStep_tstep sqrt E
            (GetStdVelocity sqrt S E E.GetExpSize inarray1 (fun _ => 0)) minLength0 el / 2) := by
  have hhalf : ∀ sv1 sv2 : Nat → K, sv2 el = 2 * sv1 el →
      v_GetTimeStep_tstep sqrt E sv2 minLength0 el
        = v_GetTimeStep_tstep sqrt E sv1 minLength0 el / 2 := by
    intro sv1 sv2 h
    obtain ⟨ML, -, -, hML⟩ := v_GetTimeStep_tstep_apply sqrt E minLength0 el hel
    rw [hML sv2, hML sv1, h, div_div]
    congr 1
    ring
  have hform : ∃ minLength : K,
      (E.isTriExp el = true →
        minLength
          = 2 * sqrt (E.Integral el (Vmath.Fill (E.expGetTotPoints el) 1 (fun _ => 0) 0))) ∧
      (E.isTriExp el = false → E.isQuadExp el = true ∨ E.isHexExp el = true →
        minLength
          = sqrt (E.Integral el (Vmath.Fill (E.expGetTotPoints el) 1 (fun _ => 0) 0))) ∧
      ∀ stdVelocity : Nat → K,
        v_GetTimeStep_tstep sqrt E stdVelocity minLength0 el
          = E.m_cflSafetyFactor * E.MaxTimeStepEstimator * minLength
              / (1 / 5 * ((E.ExpOrder el : K) - 1) ^ 2)
            / stdVelocity el := by
    obtain ⟨ML, htri, hquad, hML⟩ := v_GetTimeStep_tstep_apply sqrt E minLength0 el hel
    refine ⟨ML, htri, hquad, fun sv => ?_⟩
    rw [hML sv, div_div]
    congr 1
    ring
  refine ⟨hform, hhalf, fun inarray1 inarray2 hsqrt hfit hrest hdouble => ?_⟩
  have hval : ∀ inarray : Nat → Nat → K,
      (∀ j q, j < S.m_spacedim → q < S.GetTotPoints → inarray (1 + j) q = 0) →
      ∀ i, i < E.expGetTotPoints el →
        sqrt (∑ j in Finset.range S.m_spacedim,
          (∑ j2 in Finset.range S.m_spacedim,
            E.GetDerivFactors el (S.m_spacedim * j2 + j)
              (if E.isDeformed el = true then i else 0)
              * GetVelocityVector S S.GetTotPoints inarray (fun _ _ => 0) j2 i) ^ 2) = 0 := by
    intro inarray h0 i hi
    have hsum : ∀ j, j ∈ Finset.range S.m_spacedim →
        (∑ j2 in Finset.range S.m_spacedim,
          E.GetDerivFactors el (S.m_spacedim * j2 + j)
            (if E.isDeformed el = true then i else 0)
            * GetVelocityVector S S.GetTotPoints inarray (fun _ _ => 0) j2 i) ^ 2 = 0 := by
      intro j _
      have hz : ∑ j2 in Finset.range S.m_spacedim,
          E.GetDerivFactors el (S.m_spacedim * j2 + j)
            (if E.isDeformed el = true then i else 0)
            * GetVelocityVector S S.GetTotPoints inarray (fun _ _ => 0) j2 i = 0 := by
        refine Finset.sum_eq_zero (fun j2 hj2 => ?_)
        rw [GetVelocityVector_apply S _ inarray _ j2 i (Finset.mem_range.mp hj2)
          (by omega), h0 j2 i (Finset.mem_range.mp hj2) (by omega), zero_div, mul_zero]
      rw [hz]
      ring
    rw [Finset.sum_eq_zero hsum, hsqrt]
  have hbound : ∀ inarray : Nat → Nat → K,
      (∀ j q, j < S.m_spacedim → q < S.GetTotPoints → inarray (1 + j) q = 0) →
      ∀ i, i < E.expGetTotPoints el →
        GetSoundSpeed sqrt S inarray
            (GetPressureVel S S.GetTotPoints inarray
              (GetVelocityVector S S.GetTotPoints inarray (fun _ _ => 0)) (fun _ => 0))
            (fun _ => 0) (∑ e2 in Finset.range el, E.expGetTotPoints e2 + i)
          ≤ GetStdVelocity sqrt S E E.GetExpSize inarray (fun _ => 0) el := by
    intro inarray h0 i hi
    rw [GetStdVelocity_apply sqrt S E E.GetExpSize inarray (fun _ => 0) _ _ rfl rfl el hel hel]
    have h := maxfold_ge (E.expGetTotPoints el)
      (fun i => sqrt (∑ j in Finset.range S.m_spacedim,
          (∑ j2 in Finset.range S.m_spacedim,
            E.GetDerivFactors el (S.m_spacedim * j2 + j)
              (if E.isDeformed el = true then i else 0)
              * GetVelocityVector S S.GetTotPoints inarray (fun _ _ => 0) j2 i) ^ 2)
        + GetSoundSpeed sqrt S inarray
            (GetPressureVel S S.GetTotPoints inarray
              (GetVelocityVector S S.GetTotPoints inarray (fun _ _ => 0)) (fun _ => 0))
            (fun _ => 0) (∑ e2 in Finset.range el, E.expGetTotPoints e2 + i)) i hi
    simp only [hval inarray h0 i hi, zero_add] at h
    exact h
  have hstd : GetStdVelocity sqrt S E E.GetExpSize inarray2 (fun _ => 0) el
      = 2 * GetStdVelocity sqrt S E E.GetExpSize inarray1 (fun _ => 0) el := by
    rw [GetStdVelocity_apply sqrt S E E.GetExpSize inarray2 (fun _ => 0) _ _ rfl rfl el hel hel,
      GetStdVelocity_apply sqrt S E E.GetExpSize inarray1 (fun _ => 0) _ _ rfl rfl el hel hel]
    refine maxfold_double (E.expGetTotPoints el) _ _ (fun i hi => ?_)
    rw [hval inarray2 (fun j q hj hq => (hrest j q hj hq).2) i hi,
      hval inarray1 (fun j q hj hq => (hrest j q hj hq).1) i hi, hdouble i hi]
    ring
  exact ⟨fun i hi => ⟨hbound inarray1 (fun j q hj hq => (hrest j q hj hq).1) i hi,
      hbound inarray2 (fun j q hj hq => (hrest j q hj hq).2) i hi⟩,
    hstd, hhalf _ _ hstd⟩

end TimeStepScalingClaim
section TimeStepScalingWitness

/-- Witness for C28: the quadrilateral of `planeExpansion` on `planeSystem`
(area `4`, three modes, safety factor `1/2`, estimator constant `2`) with the
real square root, for the states at rest with density `1` and energies `25/14`
and `50/7`, whose sound speeds are `1` and `2`: the bound velocity of the first
state is at least `1`, that of the second is twice as large, the time step of
the first is `(5/2) / stdVelocity` and that of the second is half of it. -/
theorem time_step_inverse_in_bound_velocity_witness :
    (1 < (planeExpansion ℝ).GetExpSize ∧ Real.sqrt 0 = 0
      ∧ (planeExpansion ℝ).expGetTotPoints 1 ≤ (planeSystem ℝ).GetTotPoints
      ∧ (∀ j q, j < (planeSystem ℝ).m_spacedim → q < (planeSystem ℝ).GetTotPoints →
          uniformState [(1 : ℝ), 0, 0, 25 / 14] (1 + j) q = 0
            ∧ uniformState [(1 : ℝ), 0, 0, 50 / 7] (1 + j) q = 0)) ∧
    1 ≤ GetStdVelocity Real.sqrt (planeSystem ℝ) (planeExpansion ℝ)
        (planeExpansion ℝ).GetExpSize (uniformState [1, 0, 0, 25 / 14]) (fun _ => 0) 1 ∧
    GetStdVelocity Real.sqrt (planeSystem ℝ) (planeExpansion ℝ)
        (planeExpansion ℝ).GetExpSize (uniformState [1, 0, 0, 50 / 7]) (fun _ => 0) 1
      = 2 * GetStdVelocity Real.sqrt (planeSystem ℝ) (planeExpansion ℝ)
        (planeExpansion ℝ).GetExpSize (uniformState [1, 0, 0, 25 / 14]) (fun _ => 0) 1 ∧
    v_GetTimeStep_tstep Real.sqrt (planeExpansion ℝ)
        (GetStdVelocity Real.sqrt (planeSystem ℝ) (planeExpansion ℝ)
          (planeExpansion ℝ).GetExpSize (uniformState [1, 0, 0, 25 / 14]) (fun _ => 0)) 0 1
      = 5 / 2 / GetStdVelocity Real.sqrt (planeSystem ℝ) (planeExpansion ℝ)
          (planeExpansion ℝ).GetExpSize (uniformState [1, 0, 0, 25 / 14]) (fun _ => 0) 1 ∧
    v_GetTimeStep_tstep Real.sqrt (planeExpansion ℝ)
        (GetStdVelocity Real.sqrt (planeSystem ℝ) (planeExpansion ℝ)
          (planeExpansion ℝ).GetExpSize (uniformState [1, 0, 0, 50 / 7]) (fun _ => 0)) 0 1
      = v_GetTimeStep_tstep Real.sqrt (planeExpansion ℝ)
        (GetStdVelocity Real.sqrt (planeSystem ℝ) (planeExpansion ℝ)
          (planeExpansion ℝ).GetExpSize (uniformState [1, 0, 0, 25 / 14]) (fun _ => 0)) 0 1
        / 2 := by
  have hrest : ∀ j q, j < (planeSystem ℝ).m_spacedim → q < (planeSystem ℝ).GetTotPoints →
      uniformState [(1 : ℝ), 0, 0, 25 / 14] (1 + j) q = 0
        ∧ uniformState [(1 : ℝ), 0, 0, 50 / 7] (1 + j) q = 0 := by
    intro j q hj _
    have hj2 : j < 2 := hj
    interval_cases j <;> exact ⟨rfl, rfl⟩
  have hsd : (planeSystem ℝ).m_spacedim = 2 := rfl
  have hg : (planeSystem ℝ).m_gamma = 1.4 := rfl
  have hc : ∀ (en : ℝ) (q : Nat), q < (planeSystem ℝ).GetTotPoints →
      GetSoundSpeed Real.sqrt (planeSystem ℝ) (uniformState [1, 0, 0, en])
          (GetPressureVel (planeSystem ℝ) (planeSystem ℝ).GetTotPoints
            (uniformState [1, 0, 0, en])
            (GetVelocityVector (planeSystem ℝ) (planeSystem ℝ).GetTotPoints
              (uniformState [1, 0, 0, en]) (fun _ _ => 0)) (fun _ => 0))
          (fun _ => 0) q = Real.sqrt (14 / 25 * en) := by
    intro en q hq
    rw [GetSoundSpeed_apply _ _ _ _ _ q hq, GetPressureVel_apply _ _ _ _ _ q (by decide) hq,
      hsd, hg]
    simp only [Finset.sum_range_succ, Finset.sum_range_zero, zero_add]
    simp only [uniformState, List.getD_cons_zero, List.getD_cons_succ]
    congr 1
    norm_num
    ring
  have hs1 : Real.sqrt (14 / 25 * (25 / 14)) = 1 := by
    rw [show (14 / 25 * (25 / 14) : ℝ) = 1 by norm_num, Real.sqrt_one]
  have hs2 : Real.sqrt (14 / 25 * (50 / 7)) = 2 := by
    rw [show (14 / 25 * (50 / 7) : ℝ) = 2 ^ 2 by norm_num]
    exact Real.sqrt_sq (by norm_num)
  have hq : ∀ i, i < (planeExpansion ℝ).expGetTotPoints 1 →
      ∑ e2 in Finset.range 1, (planeExpansion ℝ).expGetTotPoints e2 + i
        < (planeSystem ℝ).GetTotPoints := by
    intro i hi
    have hi4 : i < 4 := hi
    rw [Finset.sum_range_one]
    show 4 + i < 8
    omega
  have hdouble : ∀ i, i < (planeExpansion ℝ).expGetTotPoints 1 →
      GetSoundSpeed Real.sqrt (planeSystem ℝ) (uniformState [1, 0, 0, 50 / 7])
          (GetPressureVel (planeSystem ℝ) (planeSystem ℝ).GetTotPoints
            (uniformState [1, 0, 0, 50 / 7])
            (GetVelocityVector (planeSystem ℝ) (planeSystem ℝ).GetTotPoints
              (uniformState [1, 0, 0, 50 / 7]) (fun _ _ => 0)) (fun _ => 0))
          (fun _ => 0) (∑ e2 in Finset.range 1, (planeExpansion ℝ).expGetTotPoints e2 + i)
        = 2 * GetSoundSpeed Real.sqrt (planeSystem ℝ) (uniformState [1, 0, 0, 25 / 14])
          (GetPressureVel (planeSystem ℝ) (planeSystem ℝ).GetTotPoints
            (uniformState [1, 0, 0, 25 / 14])
            (GetVelocityVector (planeSystem ℝ) (planeSystem ℝ).GetTotPoints
              (uniformState [1, 0, 0, 25 / 14]) (fun _ _ => 0)) (fun _ => 0))
          (fun _ => 0) (∑ e2 in Finset.range 1, (planeExpansion ℝ).expGetTotPoints e2 + i) := by
    intro i hi
    rw [hc (50 / 7) _ (hq i hi), hc (25 / 14) _ (hq i hi), hs1, hs2, mul_one]
  obtain ⟨⟨ML, -, hquad, hform⟩, -, hrestpart⟩ :=
    time_step_inverse_in_bound_velocity Real.sqrt (planeSystem ℝ) (planeExpansion ℝ) 0 1
      (by decide)
  obtain ⟨hbound, hstd, hhalf⟩ := hrestpart (uniformState [1, 0, 0, 25 / 14])
    (uniformState [1, 0, 0, 50 / 7]) Real.sqrt_zero (by decide) hrest hdouble
  have hML : ML = 2 := by
    rw [hquad (by decide) (Or.inl (by decide))]
    have hA : (planeExpansion ℝ).Integral 1
        (Vmath.Fill ((planeExpansion ℝ).expGetTotPoints 1) 1 (fun _ => 0) 0) = 2 ^ 2 := by
      simp [planeExpansion, Vmath.Fill, Vmath.store]
      norm_num
    rw [hA]
    exact Real.sqrt_sq (by norm_num)
  refine ⟨⟨by decide, Real.sqrt_zero, by decide, hrest⟩, ?_, hstd, ?_, hhalf⟩
  · have h := (hbound 0 (by decide)).1
    rw [hc (25 / 14) _ (hq 0 (by decide)), hs1] at h
    exact h
  · rw [hform, hML]
    congr 1
    simp [planeExpansion]
    norm_num

end TimeStepScalingWitness

end Nektar
